import Mathlib

/-!
# SplitUnitMonitor: IR PHY layer

A shallow embedding of the infrared transmit PHY of the firmware
(`src/embx/embx_ir/embx_ir_tx_phy_descriptor.c` and `src/embx/embx_ir/embx_ir_tx_phy.c`)
and of its receive side (`src/embx/embx_ir/embx_ir_rx_buffer.c` and
`src/embx/embx_ir/embx_ir_rx_phy.c`), together with the properties proved about them.

Conventions of the embedding

* C globals become fields of one state record that every function takes and returns.
* `uint8_t` / `uint16_t` values are `Nat`, `int16_t` values are `Int`.  Wherever the C code
  stores into a narrower field the truncation is written out with `%`.  The index
  increments (`fill_index++`, `tx_index++`) and `repeat_cnt++` are guarded in the source by a
  strict comparison with a value of the same type, so they cannot wrap.
* The descriptor array `phy_descriptor[20]` is a list; the functions index it with
  `tx_slot` / `tx_slot_store`.
* The hardware that the code drives (timer top register, timer run bit, carrier modulator
  run bit, debug pin) is recorded as plain fields holding the last value written.
* An interrupt handler runs to completion.  Foreground code can be interrupted between any
  two of its stores: `embx_ir_rx_phy_buf_reset` is given both as one function and store by
  store (`rx_reset_enter`, `rx_reset_step`), and `RxInterleaved` serves interrupts in between.
-/

namespace SplitUnitMonitor

/-! ## Status codes (the values of the ASF `enum status_code` that the firmware uses) -/

/-- `enum status_code` -/
inductive status_code
  | STATUS_OK
  | STATUS_BUSY
  | STATUS_ERR_OVERFLOW
  | STATUS_ERR_BAD_DATA
  | STATUS_ERR_NO_MEMORY
  | STATUS_ERR_TIMEOUT
deriving DecidableEq

/-! ## embx_ir_tx_phy_descriptor.h -/

/-- `EMBX_IR_TX_PHY_REPEAT_FOREVER` -/
@[reducible] def EMBX_IR_TX_PHY_REPEAT_FOREVER : Int := -1

/-- `embx_ir_tx_phy_interval_t`: `unknown = -1`, `space = 0`, `mark = 1`. -/
inductive embx_ir_tx_phy_interval_t
  | unknown
  | space
  | mark
deriving DecidableEq

/-- `embx_ir_tx_phy_descriptor_t` -/
structure embx_ir_tx_phy_descriptor_t where
  /-- mark or space -/
  phy_interval_type : embx_ir_tx_phy_interval_t
  /-- `uint16_t usec` -/
  usec : Nat
  /-- `uint16_t period` -/
  period : Nat
  /-- `uint8_t overflows` -/
  overflows : Nat
  /-- `int16_t repeat_cnt` -/
  repeat_cnt : Int
  /-- `int16_t max_repeat_cnt` -/
  max_repeat_cnt : Int
  /-- `uint8_t decrement` -/
  decrement : Nat
deriving DecidableEq

/-! ## embx_ir_tx_phy.h and embx_ir_tx_phy_descriptor.c constants -/

/-- `EMBX_IR_TX_PHY_USEC_PER_TICK` -/
@[reducible] def EMBX_IR_TX_PHY_USEC_PER_TICK : Nat := 8

/-- `EMBX_IR_TX_PHY_DESCRIPTOR_Q_SZ` -/
@[reducible] def EMBX_IR_TX_PHY_DESCRIPTOR_Q_SZ : Nat := 20

/-- `UINT8_MAX` of `stdint.h` -/
@[reducible] def UINT8_MAX : Nat := 255

/-- A zero-initialised descriptor (C static storage): `space` is the enumerator with value 0. -/
def tx_zero_descriptor : embx_ir_tx_phy_descriptor_t :=
  { phy_interval_type := embx_ir_tx_phy_interval_t.space, usec := 0, period := 0,
    overflows := 0, repeat_cnt := 0, max_repeat_cnt := 0, decrement := 0 }

/-- State of the Tx PHY: the globals of `embx_ir_tx_phy_descriptor.c` and `embx_ir_tx_phy.c`
and the hardware registers they program. -/
structure TxPhy where
  /-- `phy_descriptor[EMBX_IR_TX_PHY_DESCRIPTOR_Q_SZ]` -/
  phy_descriptor : List embx_ir_tx_phy_descriptor_t
  /-- `static uint8_t fill_index` -/
  fill_index : Nat
  /-- `static uint8_t tx_index` -/
  tx_index : Nat
  /-- `static bool volatile embx_ir_tx_in_progress` -/
  embx_ir_tx_in_progress : Bool
  /-- last value passed to `tc_set_top_value(&tc_instance_ir_tx_phy, _)` -/
  tc_top : Nat
  /-- run state of `tc_instance_ir_tx_phy` (`tc_start_counter` / `tc_stop_counter`) -/
  tc_running : Bool
  /-- run state of the carrier modulator (`embx_ir_tx_modulator_start` / `_stop`) -/
  modulator_on : Bool
  /-- level of `DEBUG_IR_TX_PHY_PIN` -/
  debug_pin : Bool
deriving DecidableEq

/-- Read `phy_descriptor[i]`. -/
def tx_slot (s : TxPhy) (i : Nat) : embx_ir_tx_phy_descriptor_t :=
  s.phy_descriptor.getD i tx_zero_descriptor

/-- Write `phy_descriptor[i] = d`. -/
def tx_slot_store (s : TxPhy) (i : Nat) (d : embx_ir_tx_phy_descriptor_t) : TxPhy :=
  { s with phy_descriptor := s.phy_descriptor.set i d }

/-- The state at power-up: zeroed statics, timer and modulator stopped. -/
def tx_power_up : TxPhy :=
  { phy_descriptor := List.replicate EMBX_IR_TX_PHY_DESCRIPTOR_Q_SZ tx_zero_descriptor,
    fill_index := 0, tx_index := 0, embx_ir_tx_in_progress := false,
    tc_top := 0, tc_running := false, modulator_on := false, debug_pin := false }

/-! ## embx_ir_tx_phy_descriptor.c -/

/-- `embx_ir_tx_phy_descriptor_tc_init`: convert `usec` to timer ticks. -/
def embx_ir_tx_phy_descriptor_tc_init (pd : embx_ir_tx_phy_descriptor_t) :
    embx_ir_tx_phy_descriptor_t :=
  let pd1 := { pd with period := (pd.usec / EMBX_IR_TX_PHY_USEC_PER_TICK) % 65536 }
  if pd1.period > UINT8_MAX then
    let pd2 := { pd1 with overflows := (pd1.usec / (UINT8_MAX + 1)) % 256 }
    { pd2 with period := (pd2.usec % (UINT8_MAX + 1)) % 65536 }
  else
    { pd1 with overflows := 0 }

/-- `embx_ir_tx_phy_decrement_tx_index` -/
def embx_ir_tx_phy_decrement_tx_index (s : TxPhy) (decrement : Nat) : TxPhy :=
  if s.tx_index ≥ decrement then
    { s with tx_index := s.tx_index - decrement }
  else
    { s with tx_index := 0 }

/-- `embx_ir_tx_phy_get_state` (the critical section only brackets the read). -/
def embx_ir_tx_phy_get_state (s : TxPhy) : Bool :=
  s.embx_ir_tx_in_progress

/-- `embx_ir_tx_phy_descriptor_fill` -/
def embx_ir_tx_phy_descriptor_fill (s : TxPhy) (reset_descriptor_list : Bool)
    (phy_interval_type : embx_ir_tx_phy_interval_t) (usec : Nat)
    (max_repeat_cnt : Int) (decrement : Nat) : status_code × TxPhy :=
  if embx_ir_tx_phy_get_state s = true then
    (status_code.STATUS_BUSY, s)
  else
    let s1 := if reset_descriptor_list = true then
        { s with fill_index := 0, tx_index := 0 }
      else s
    if s1.fill_index < EMBX_IR_TX_PHY_DESCRIPTOR_Q_SZ then
      let d0 := tx_slot s1 s1.fill_index
      let d1 := { d0 with phy_interval_type := phy_interval_type, usec := usec }
      let d2 := embx_ir_tx_phy_descriptor_tc_init d1
      let d3 := { d2 with max_repeat_cnt :=
        if max_repeat_cnt ≥ 0 then max_repeat_cnt else EMBX_IR_TX_PHY_REPEAT_FOREVER }
      let d4 := { d3 with repeat_cnt := 0 }
      let d5 := { d4 with decrement :=
        if decrement ≤ s1.fill_index + 1 then decrement else 0 }
      let s2 := tx_slot_store s1 s1.fill_index d5
      (status_code.STATUS_OK, { s2 with fill_index := s2.fill_index + 1 })
    else
      (status_code.STATUS_ERR_OVERFLOW, s1)

/-- `embx_ir_tx_phy_descriptor_get`: the out-parameter `*pd` is the index of the slot it is
made to point at, `none` when it is not written. -/
def embx_ir_tx_phy_descriptor_get (s : TxPhy) : status_code × Option Nat × TxPhy :=
  if s.tx_index < s.fill_index then
    (status_code.STATUS_OK, some s.tx_index, { s with tx_index := s.tx_index + 1 })
  else
    (status_code.STATUS_ERR_BAD_DATA, none, s)

/-! ## embx_ir_tx_phy.c -/

/-- `tc_callback_ir_tx_phy`: the timer overflow callback. -/
def tc_callback_ir_tx_phy (s : TxPhy) : TxPhy :=
  match embx_ir_tx_phy_descriptor_get s with
  | (status_code.STATUS_OK, some i, s1) =>
    let s2 := { s1 with tc_running := false }
    let s3 := { s2 with tc_top := (tx_slot s2 i).period }
    let s4 :=
      if (tx_slot s3 i).repeat_cnt < (tx_slot s3 i).max_repeat_cnt then
        let s3a := tx_slot_store s3 i
          { tx_slot s3 i with repeat_cnt := (tx_slot s3 i).repeat_cnt + 1 }
        embx_ir_tx_phy_decrement_tx_index s3a (tx_slot s3a i).decrement
      else if (tx_slot s3 i).max_repeat_cnt = EMBX_IR_TX_PHY_REPEAT_FOREVER then
        embx_ir_tx_phy_decrement_tx_index s3 (tx_slot s3 i).decrement
      else s3
    let s5 :=
      match (tx_slot s4 i).phy_interval_type with
      | embx_ir_tx_phy_interval_t.mark => { s4 with debug_pin := true, modulator_on := true }
      | embx_ir_tx_phy_interval_t.space => { s4 with debug_pin := false, modulator_on := false }
      | embx_ir_tx_phy_interval_t.unknown => s4
    { s5 with tc_running := true }
  | (_, _, s1) =>
    { s1 with debug_pin := false, modulator_on := false, tc_running := false,
              embx_ir_tx_in_progress := false }

/-- `embx_ir_tx_phy_send` -/
def embx_ir_tx_phy_send (s : TxPhy) : status_code × TxPhy :=
  if s.embx_ir_tx_in_progress = true then
    (status_code.STATUS_BUSY, s)
  else
    let s0 := { s with tc_running := false }
    match embx_ir_tx_phy_descriptor_get s0 with
    | (status_code.STATUS_OK, some i, s1) =>
      let s2 := { s1 with embx_ir_tx_in_progress := true }
      let s3 := { s2 with tc_top := (tx_slot s2 i).period }
      let s4 :=
        if (tx_slot s3 i).phy_interval_type = embx_ir_tx_phy_interval_t.mark then
          { s3 with debug_pin := true, modulator_on := true }
        else if (tx_slot s3 i).phy_interval_type = embx_ir_tx_phy_interval_t.space then
          { s3 with debug_pin := false, modulator_on := false }
        else s3
      (status_code.STATUS_OK, { s4 with tc_running := true })
    | (_, _, s1) =>
      (status_code.STATUS_OK,
        { s1 with debug_pin := false, embx_ir_tx_in_progress := false, modulator_on := false })

/-! ## Driving the PHY: fill sequences and callback runs -/

/-- The arguments of one call of `embx_ir_tx_phy_descriptor_fill` after the reset flag. -/
structure TxFillArgs where
  /-- mark or space -/
  phy_interval_type : embx_ir_tx_phy_interval_t
  /-- duration, `uint16_t` -/
  usec : Nat
  /-- `int16_t` repeat count, negative for forever -/
  max_repeat_cnt : Int
  /-- `uint8_t` rewind distance -/
  decrement : Nat
deriving DecidableEq

/-- One call `embx_ir_tx_phy_descriptor_fill(reset, a...)`. -/
def tx_fill_call (s : TxPhy) (reset_descriptor_list : Bool) (a : TxFillArgs) :
    status_code × TxPhy :=
  embx_ir_tx_phy_descriptor_fill s reset_descriptor_list a.phy_interval_type a.usec
    a.max_repeat_cnt a.decrement

/-- Successive calls of fill with `reset = false`; returns the statuses and the last state. -/
def tx_fill_more (s : TxPhy) : List TxFillArgs → List status_code × TxPhy
  | [] => ([], s)
  | a :: rest =>
    let r := tx_fill_call s false a
    let rr := tx_fill_more r.2 rest
    (r.1 :: rr.1, rr.2)

/-- A queue filled from reset: the first call has `reset = true`, the others `reset = false`. -/
def tx_fill_queue (s : TxPhy) : List TxFillArgs → List status_code × TxPhy
  | [] => ([], s)
  | a :: rest =>
    let r := tx_fill_call s true a
    let rr := tx_fill_more r.2 rest
    (r.1 :: rr.1, rr.2)

/-- The slot whose descriptor one timer callback obtains from the queue, if any: this is the
descriptor whose period is programmed and whose kind gates the modulator. -/
def tx_emitted (s : TxPhy) : Option Nat :=
  (embx_ir_tx_phy_descriptor_get s).2.1

/-- Run `n` timer callbacks; returns the slots emitted, in order, and the final state. -/
def tx_callbacks : Nat → TxPhy → List Nat × TxPhy
  | 0, s => ([], s)
  | n + 1, s =>
    let r := tx_callbacks n (tc_callback_ir_tx_phy s)
    ((tx_emitted s).toList ++ r.1, r.2)

/-- Call send and then let `n` timer callbacks run: the status of send, the slots emitted by
send and the callbacks, and the final state. -/
def tx_transmit (n : Nat) (s : TxPhy) : status_code × List Nat × TxPhy :=
  let r := embx_ir_tx_phy_send s
  let e := if s.embx_ir_tx_in_progress = true then [] else (tx_emitted s).toList
  let rr := tx_callbacks n r.2
  (r.1, e ++ rr.1, rr.2)

/-- States reachable from an empty idle queue by the operations of the Tx PHY. -/
inductive TxReachable : TxPhy → Prop
  | start (s : TxPhy) (hlen : s.phy_descriptor.length = EMBX_IR_TX_PHY_DESCRIPTOR_Q_SZ)
      (hf : s.fill_index = 0) (ht : s.tx_index = 0)
      (hp : s.embx_ir_tx_in_progress = false) : TxReachable s
  | fill (s : TxPhy) (reset_descriptor_list : Bool) (a : TxFillArgs) :
      TxReachable s → TxReachable (tx_fill_call s reset_descriptor_list a).2
  | get (s : TxPhy) : TxReachable s → TxReachable (embx_ir_tx_phy_descriptor_get s).2.2
  | decrement_tx_index (s : TxPhy) (decrement : Nat) :
      TxReachable s → TxReachable (embx_ir_tx_phy_decrement_tx_index s decrement)
  | send (s : TxPhy) : TxReachable s → TxReachable (embx_ir_tx_phy_send s).2
  | callback (s : TxPhy) : TxReachable s → TxReachable (tc_callback_ir_tx_phy s)

/-- The descriptor that a successful fill leaves in slot `i`. -/
def tx_filled_descriptor (i : Nat) (a : TxFillArgs) : embx_ir_tx_phy_descriptor_t :=
  { phy_interval_type := a.phy_interval_type,
    usec := a.usec,
    period := if (a.usec / 8) % 65536 > 255 then (a.usec % 256) % 65536
              else (a.usec / 8) % 65536,
    overflows := if (a.usec / 8) % 65536 > 255 then (a.usec / 256) % 256 else 0,
    repeat_cnt := 0,
    max_repeat_cnt := if a.max_repeat_cnt ≥ 0 then a.max_repeat_cnt else -1,
    decrement := if a.decrement ≤ i + 1 then a.decrement else 0 }

/-- A queue in transmission whose only repeating descriptor is the one in slot `p`, with
`max_repeat_cnt = r`, stored decrement `d` and current `repeat_cnt = c`. -/
def TxOneRepeat (f p r d c : Nat) (s : TxPhy) : Prop :=
  s.phy_descriptor.length = 20 ∧ s.fill_index = f ∧ f ≤ 20 ∧ p < f
    ∧ s.embx_ir_tx_in_progress = true
    ∧ (∀ j, j < f → j ≠ p →
        (tx_slot s j).repeat_cnt = 0 ∧ (tx_slot s j).max_repeat_cnt = 0)
    ∧ (tx_slot s p).max_repeat_cnt = (r : Int)
    ∧ (tx_slot s p).decrement = d
    ∧ (tx_slot s p).repeat_cnt = (c : Int)

/-- The queue invariant: the array has its 20 slots, the indices are ordered and bounded, and
no filled descriptor rewinds past slot 0. -/
def TxInvariant (s : TxPhy) : Prop :=
  s.phy_descriptor.length = 20 ∧ s.tx_index ≤ s.fill_index ∧ s.fill_index ≤ 20
    ∧ ∀ p, p < s.fill_index → (tx_slot s p).decrement ≤ p + 1

/-- The state after `fill(true, mark, 560, 0, 0); fill(false, space, 560, 3, 2); send()` and
two timer callbacks. -/
def tx_example_reached : TxPhy :=
  tc_callback_ir_tx_phy (tc_callback_ir_tx_phy (embx_ir_tx_phy_send
    (tx_fill_call
      (tx_fill_call tx_power_up true ⟨embx_ir_tx_phy_interval_t.mark, 560, 0, 0⟩).2
      false ⟨embx_ir_tx_phy_interval_t.space, 560, 3, 2⟩).2).2)

/-- The queue of the repeat-block scenario: mark 560, space 560, mark 560 repeated twice
with a rewind of two slots. -/
def tx_repeat_block_queue : List TxFillArgs :=
  [⟨embx_ir_tx_phy_interval_t.mark, 560, 0, 0⟩, ⟨embx_ir_tx_phy_interval_t.space, 560, 0, 0⟩,
   ⟨embx_ir_tx_phy_interval_t.mark, 560, 2, 2⟩]

/-- A queue whose only descriptor, in slot 0, asks for two repeats of itself. -/
def tx_head_repeat_queue : List TxFillArgs :=
  [⟨embx_ir_tx_phy_interval_t.mark, 560, 2, 1⟩]

/-- A queue with a repeating descriptor (slot 1) inside the block of another (slot 2). -/
def tx_nested_repeat_queue : List TxFillArgs :=
  [⟨embx_ir_tx_phy_interval_t.mark, 560, 0, 0⟩, ⟨embx_ir_tx_phy_interval_t.space, 560, 1, 1⟩,
   ⟨embx_ir_tx_phy_interval_t.mark, 560, 1, 2⟩]

/-- A queue whose middle descriptor repeats the block of slots 0 and 1 twice. -/
def tx_inner_repeat_queue : List TxFillArgs :=
  [⟨embx_ir_tx_phy_interval_t.mark, 560, 0, 0⟩, ⟨embx_ir_tx_phy_interval_t.space, 560, 2, 2⟩,
   ⟨embx_ir_tx_phy_interval_t.mark, 1680, 0, 0⟩]

/-- The queue of the minimal NEC header scaled down: a mark of 900 us and a space of 450 us,
followed by a short mark. -/
def tx_plain_queue : List TxFillArgs :=
  [⟨embx_ir_tx_phy_interval_t.mark, 900, 0, 0⟩, ⟨embx_ir_tx_phy_interval_t.space, 450, 0, 0⟩,
   ⟨embx_ir_tx_phy_interval_t.mark, 560, 0, 3⟩]

/-- A transmission that cannot get past slot `p`: the descriptor there is marked forever
and rewinds by at least one slot. -/
def TxForeverAt (f p : Nat) (s : TxPhy) : Prop :=
  s.phy_descriptor.length = 20 ∧ s.fill_index = f ∧ f ≤ 20 ∧ p < f
    ∧ s.embx_ir_tx_in_progress = true ∧ s.tx_index ≤ p
    ∧ (tx_slot s p).max_repeat_cnt = -1
    ∧ 1 ≤ (tx_slot s p).decrement
    ∧ 0 ≤ (tx_slot s p).repeat_cnt

/-- A PHY in the middle of a transmission: the plain queue has been filled and sent. -/
def tx_busy_example : TxPhy :=
  (embx_ir_tx_phy_send (tx_fill_queue tx_power_up tx_plain_queue).2).2

/-- A full queue on an idle PHY: twenty marks of 560 us filled from reset. -/
def tx_full_example : TxPhy :=
  (tx_fill_queue tx_power_up
    (List.replicate 20 ⟨embx_ir_tx_phy_interval_t.mark, 560, 0, 0⟩)).2

/-- An idle PHY whose queue holds the three descriptors of the plain queue. -/
def tx_filled_example : TxPhy :=
  (tx_fill_queue tx_power_up tx_plain_queue).2

/-- The queue of the minimal NEC header scenario: a mark of `u1` us, then a space of `u2`
us, neither repeated. -/
def tx_header_queue (u1 u2 : Nat) : List TxFillArgs :=
  [⟨embx_ir_tx_phy_interval_t.mark, u1, 0, 0⟩, ⟨embx_ir_tx_phy_interval_t.space, u2, 0, 0⟩]

/-- An idle PHY whose queue (the plain queue) has been transmitted completely. -/
def tx_drained_example : TxPhy :=
  (tx_transmit 3 (tx_fill_queue tx_power_up tx_plain_queue).2).2.2

/-- A queue whose second descriptor has the interval kind `unknown`. -/
def tx_unknown_kind_queue : List TxFillArgs :=
  [⟨embx_ir_tx_phy_interval_t.mark, 560, 0, 0⟩,
   ⟨embx_ir_tx_phy_interval_t.unknown, 560, 0, 0⟩]

/-- A queue whose second descriptor repeats the block of both slots once. -/
def tx_rewind_queue : List TxFillArgs :=
  [⟨embx_ir_tx_phy_interval_t.mark, 384, 0, 0⟩, ⟨embx_ir_tx_phy_interval_t.space, 1192, 1, 2⟩]

/-- A PHY that has sent the first descriptor of the rewind queue: the callback is about to
take the repeating descriptor in slot 1. -/
def tx_rewind_example : TxPhy :=
  (embx_ir_tx_phy_send (tx_fill_queue tx_power_up tx_rewind_queue).2).2

/-- Repeats still owed by the descriptors in the slots below `fill_index`. -/
def tx_repeats_left (s : TxPhy) : Nat :=
  ((List.range s.fill_index).map
    (fun j => ((tx_slot s j).max_repeat_cnt - (tx_slot s j).repeat_cnt).toNat)).sum

/-- A bound on the number of callbacks that can still obtain a descriptor: every rewind
uses up one owed repeat, and between two rewinds `tx_index` only advances. -/
def tx_drain_measure (s : TxPhy) : Nat :=
  tx_repeats_left s * (s.fill_index + 1) + (s.fill_index - s.tx_index)

/-- No descriptor in the queue is marked forever. -/
def TxNoForever (s : TxPhy) : Prop :=
  ∀ j, j < s.fill_index → (tx_slot s j).max_repeat_cnt ≠ EMBX_IR_TX_PHY_REPEAT_FOREVER

/-! # The receive side

`src/embx/embx_ir/embx_ir_rx_buffer.h`, `embx_ir_rx_buffer.c` and `embx_ir_rx_phy.c`.
The four capture buffers and the 256 elements of each are lists, read and written by index
like the C arrays.  `uint16_t` and `uint32_t` stores are truncated with `%`. -/

/-! ## embx_ir_rx_buffer.h -/

/-- `EMBX_IR_RX_NUMBER_OF_BUFFERS` -/
@[reducible] def EMBX_IR_RX_NUMBER_OF_BUFFERS : Nat := 4

/-- `EMBX_IR_RX_BUF_SZ` -/
@[reducible] def EMBX_IR_RX_BUF_SZ : Nat := 256

/-- `embx_ir_rx_gpio_state_t`: `MARK = 0`, `SPACE = 1`, `UNINITIALIZED = 2`. -/
inductive embx_ir_rx_gpio_state_t
  | EMBX_IR_RX_GPIO_STATE_MARK
  | EMBX_IR_RX_GPIO_STATE_SPACE
  | EMBX_IR_RX_GPIO_STATE_UNINITIALIZED
deriving DecidableEq

/-- `embx_ir_rx_buf_elem_t` -/
structure embx_ir_rx_buf_elem_t where
  /-- MARK, SPACE or UNINITIALIZED -/
  gpio_state : embx_ir_rx_gpio_state_t
  /-- `uint32_t ticks` -/
  ticks : Nat
  /-- `uint32_t time_us` -/
  time_us : Nat
deriving DecidableEq

/-- `embx_ir_rx_buf_state_t`: `EMPTY = 0`, `FULL = 1`. -/
inductive embx_ir_rx_buf_state_t
  | EMBX_IR_RX_BUF_EMPTY
  | EMBX_IR_RX_BUF_FULL
deriving DecidableEq

/-- `embx_ir_rx_buf_t` -/
structure embx_ir_rx_buf_t where
  /-- `enum status_code status` -/
  status : status_code
  /-- `uint16_t size` -/
  size : Nat
  /-- EMPTY or FULL -/
  state : embx_ir_rx_buf_state_t
  /-- `embx_ir_rx_buf_elem_t elem[EMBX_IR_RX_BUF_SZ]` -/
  elem : List embx_ir_rx_buf_elem_t
deriving DecidableEq

/-- `embx_ir_rx_buf_err_t` -/
structure embx_ir_rx_buf_err_t where
  /-- `uint32_t overflows`: buffer is out of elements -/
  overflows : Nat
  /-- `uint32_t no_memory`: out of buffers -/
  no_memory : Nat
deriving DecidableEq

/-! ## embx_ir_rx_buffer.c -/

/-- The statics of `embx_ir_rx_buffer.c`. -/
structure RxBank where
  /-- `static embx_ir_rx_buf_t embx_ir_rx_buf[EMBX_IR_RX_NUMBER_OF_BUFFERS]` -/
  embx_ir_rx_buf : List embx_ir_rx_buf_t
  /-- `static embx_ir_rx_buf_err_t embx_ir_rx_buf_err` -/
  embx_ir_rx_buf_err : embx_ir_rx_buf_err_t
  /-- `static uint8_t idx_ir_rx_buf_isr` -/
  idx_ir_rx_buf_isr : Nat
deriving DecidableEq

/-- A zero-initialised element: `MARK` is the enumerator with value 0. -/
def rx_zero_elem : embx_ir_rx_buf_elem_t :=
  { gpio_state := embx_ir_rx_gpio_state_t.EMBX_IR_RX_GPIO_STATE_MARK, ticks := 0,
    time_us := 0 }

/-- A zero-initialised buffer: `STATUS_OK` and `EMPTY` are the enumerators with value 0. -/
def rx_zero_buf : embx_ir_rx_buf_t :=
  { status := status_code.STATUS_OK, size := 0,
    state := embx_ir_rx_buf_state_t.EMBX_IR_RX_BUF_EMPTY,
    elem := List.replicate EMBX_IR_RX_BUF_SZ rx_zero_elem }

/-- The statics of `embx_ir_rx_buffer.c` at power-up. -/
def rx_bank_power_up : RxBank :=
  { embx_ir_rx_buf := List.replicate EMBX_IR_RX_NUMBER_OF_BUFFERS rx_zero_buf,
    embx_ir_rx_buf_err := { overflows := 0, no_memory := 0 },
    idx_ir_rx_buf_isr := 0 }

/-- Read `embx_ir_rx_buf[i]`. -/
def rx_buf (b : RxBank) (i : Nat) : embx_ir_rx_buf_t :=
  b.embx_ir_rx_buf.getD i rx_zero_buf

/-- Write `embx_ir_rx_buf[i] = x`. -/
def rx_buf_store (b : RxBank) (i : Nat) (x : embx_ir_rx_buf_t) : RxBank :=
  { b with embx_ir_rx_buf := b.embx_ir_rx_buf.set i x }

/-- Read `x.elem[k]`. -/
def rx_elem (x : embx_ir_rx_buf_t) (k : Nat) : embx_ir_rx_buf_elem_t :=
  x.elem.getD k rx_zero_elem

/-- The loop `for (i = 0; i < EMBX_IR_RX_BUF_SZ; i++) elem[i].gpio_state = UNINITIALIZED`
of `embx_ir_rx_phy_buf_reset`, on the element array of one buffer. -/
def rx_reset_elems (elem : List embx_ir_rx_buf_elem_t) : List embx_ir_rx_buf_elem_t :=
  (List.range EMBX_IR_RX_BUF_SZ).foldl
    (fun e i => e.set i
      { e.getD i rx_zero_elem with
        gpio_state := embx_ir_rx_gpio_state_t.EMBX_IR_RX_GPIO_STATE_UNINITIALIZED })
    elem

/-- `embx_ir_rx_phy_buf_reset` -/
def embx_ir_rx_phy_buf_reset (b : RxBank) (idx : Nat) : status_code × RxBank :=
  if idx < EMBX_IR_RX_NUMBER_OF_BUFFERS then
    let b1 := rx_buf_store b idx
      { rx_buf b idx with state := embx_ir_rx_buf_state_t.EMBX_IR_RX_BUF_EMPTY }
    let b2 := rx_buf_store b1 idx { rx_buf b1 idx with status := status_code.STATUS_OK }
    let b3 := rx_buf_store b2 idx { rx_buf b2 idx with size := 0 }
    let b4 := rx_buf_store b3 idx
      { rx_buf b3 idx with elem := rx_reset_elems (rx_buf b3 idx).elem }
    (status_code.STATUS_OK, b4)
  else
    (status_code.STATUS_ERR_NO_MEMORY, b)

/-- `embx_ir_rx_phy_buf_reset_stats` -/
def embx_ir_rx_phy_buf_reset_stats (b : RxBank) : RxBank :=
  { b with embx_ir_rx_buf_err := { overflows := 0, no_memory := 0 } }

/-- The loop `while (1) { if (embx_ir_rx_phy_buf_reset(idx++) != STATUS_OK) break; }` of
`embx_ir_rx_phy_buf_init`, run for at most `fuel` iterations from index `idx` (a
`uint8_t`). -/
def embx_ir_rx_phy_buf_init_loop : Nat → Nat → RxBank → RxBank
  | 0, _, b => b
  | fuel + 1, idx, b =>
    let r := embx_ir_rx_phy_buf_reset b idx
    if r.1 ≠ status_code.STATUS_OK then r.2
    else embx_ir_rx_phy_buf_init_loop fuel ((idx + 1) % 256) r.2

/-- `embx_ir_rx_phy_buf_init`.  The loop is given 256 iterations, one for every value of its
`uint8_t` index; it leaves at index 4. -/
def embx_ir_rx_phy_buf_init (b : RxBank) : RxBank :=
  let b1 := embx_ir_rx_phy_buf_init_loop 256 0 b
  let b2 := embx_ir_rx_phy_buf_reset_stats b1
  { b2 with idx_ir_rx_buf_isr := 0 }

/-- `embx_ir_rx_buf_isr_get_elem`: the out-parameter `*buf_elem` is the pair (buffer index,
element index) of the element it is made to point at, `none` when it is not written. -/
def embx_ir_rx_buf_isr_get_elem (b : RxBank) : status_code × Option (Nat × Nat) × RxBank :=
  let r : status_code × Option (Nat × Nat) × RxBank :=
    if (rx_buf b b.idx_ir_rx_buf_isr).state = embx_ir_rx_buf_state_t.EMBX_IR_RX_BUF_EMPTY then
      let sz := (rx_buf b b.idx_ir_rx_buf_isr).size
      if sz < EMBX_IR_RX_BUF_SZ then
        (status_code.STATUS_OK, some (b.idx_ir_rx_buf_isr, sz),
          rx_buf_store b b.idx_ir_rx_buf_isr
            { rx_buf b b.idx_ir_rx_buf_isr with
              size := ((rx_buf b b.idx_ir_rx_buf_isr).size + 1) % 65536 })
      else
        (status_code.STATUS_ERR_OVERFLOW, none,
          { b with embx_ir_rx_buf_err :=
            { b.embx_ir_rx_buf_err with
              overflows := (b.embx_ir_rx_buf_err.overflows + 1) % 4294967296 } })
    else
      (status_code.STATUS_ERR_NO_MEMORY, none,
        { b with embx_ir_rx_buf_err :=
          { b.embx_ir_rx_buf_err with
            no_memory := (b.embx_ir_rx_buf_err.no_memory + 1) % 4294967296 } })
  (r.1, r.2.1,
    rx_buf_store r.2.2 r.2.2.idx_ir_rx_buf_isr
      { rx_buf r.2.2 r.2.2.idx_ir_rx_buf_isr with status := r.1 })

/-- `embx_ir_rx_buf_complete` -/
def embx_ir_rx_buf_complete (b : RxBank) (buffer_status : status_code) :
    status_code × RxBank :=
  let b1 := rx_buf_store b b.idx_ir_rx_buf_isr
    { rx_buf b b.idx_ir_rx_buf_isr with state := embx_ir_rx_buf_state_t.EMBX_IR_RX_BUF_FULL }
  let b2 := rx_buf_store b1 b1.idx_ir_rx_buf_isr
    { rx_buf b1 b1.idx_ir_rx_buf_isr with status := buffer_status }
  let b3 := { b2 with idx_ir_rx_buf_isr := (b2.idx_ir_rx_buf_isr + 1) % 256 }
  let b4 :=
    if b3.idx_ir_rx_buf_isr = EMBX_IR_RX_NUMBER_OF_BUFFERS then
      { b3 with idx_ir_rx_buf_isr := 0 }
    else b3
  (status_code.STATUS_OK, b4)

/-! ## embx_ir_rx_phy.h

This header is not among the sources; its types are taken from their uses in
`embx_ir_rx_phy.c` and its constants are parameters. -/

/-- Modelled from the spec: `embx_ir_rx_phy_state_t` of the absent `embx_ir_rx_phy.h`, the
four states that `embx_rx_ir_phy_state_machine` switches on. -/
inductive embx_ir_rx_phy_state_t
  | EMBX_IR_RX_PHY_STATE_SYNCRONIZE
  | EMBX_IR_RX_PHY_STATE_IDLE
  | EMBX_IR_RX_PHY_STATE_MARKING
  | EMBX_IR_RX_PHY_STATE_SPACING
deriving DecidableEq

/-- Modelled from the spec: `embx_ir_rx_event_t` of the absent `embx_ir_rx_phy.h`, the three
events that the state machine compares with. -/
inductive embx_ir_rx_event_t
  | EMBX_IR_RX_GPIO_EVENT_RISING_EDGE
  | EMBX_IR_RX_GPIO_EVENT_FALLING_EDGE
  | EMBX_IR_RX_TIMER_EVENT_TIMEOUT
deriving DecidableEq

/-- Modelled from the spec: `embx_ir_rx_phy_timer_overflows_t` of the absent
`embx_ir_rx_phy.h`, the per-state timer overflow counters, taken as `uint32_t` like the
other counters of the firmware. -/
structure embx_ir_rx_phy_timer_overflows_t where
  /-- timeouts seen in IDLE -/
  idle : Nat
  /-- wraps of the mark timer during the current mark -/
  mark : Nat
  /-- wraps of the space timer during the current space -/
  space : Nat
deriving DecidableEq

/-- Modelled from the spec: `embx_ir_rx_phy_stats_t` of the absent `embx_ir_rx_phy.h`, the
two statistics that `embx_ir_rx_phy.c` counts, taken as `uint32_t`. -/
structure embx_ir_rx_phy_stats_t where
  /-- returns to SYNCRONIZE -/
  resyncs : Nat
  /-- failures of `embx_ir_rx_buf_complete` in `handle_overflow` -/
  buffer_overflows : Nat
deriving DecidableEq

/-- Modelled from the spec: the timing constants of the absent `embx_ir_rx_phy.h`. -/
structure RxPhyConfig where
  /-- `EMBX_IR_RX_PHY_SYNC_DELAY` -/
  EMBX_IR_RX_PHY_SYNC_DELAY : Nat
  /-- `EMBX_IR_RX_PHY_MARK_DELAY` -/
  EMBX_IR_RX_PHY_MARK_DELAY : Nat
  /-- `EMBX_IR_RX_PHY_SPACE_DELAY` -/
  EMBX_IR_RX_PHY_SPACE_DELAY : Nat
  /-- `EMBX_IR_RX_PHY_TIMER_OVERFLOWS_MARK` -/
  EMBX_IR_RX_PHY_TIMER_OVERFLOWS_MARK : Nat
  /-- `EMBX_IR_RX_PHY_TIMER_OVERFLOWS_SPACE` -/
  EMBX_IR_RX_PHY_TIMER_OVERFLOWS_SPACE : Nat
deriving DecidableEq

/-- Modelled from the spec: `EMBX_IR_RX_PHY_USEC_PER_TICK` of the absent `embx_ir_rx_phy.h`,
8 us per tick (8 MHz divided by 64). -/
@[reducible] def EMBX_IR_RX_PHY_USEC_PER_TICK : Nat := 8

/-! ## embx_ir_rx_phy.c -/

/-- The statics of `embx_ir_rx_phy.c` and `embx_ir_rx_buffer.c` and the hardware that the Rx
PHY drives. -/
structure RxPhy where
  /-- the statics of `embx_ir_rx_buffer.c` -/
  bank : RxBank
  /-- `static embx_ir_rx_phy_state_t embx_ir_rx_phy_state` -/
  embx_ir_rx_phy_state : embx_ir_rx_phy_state_t
  /-- `static embx_ir_rx_phy_timer_overflows_t embx_ir_rx_phy_timer_overflow` -/
  embx_ir_rx_phy_timer_overflow : embx_ir_rx_phy_timer_overflows_t
  /-- `static embx_ir_rx_phy_stats_t embx_ir_rx_phy_stats` -/
  embx_ir_rx_phy_stats : embx_ir_rx_phy_stats_t
  /-- last value passed to `tc_set_compare_value(&tc_instance_ir_rx_phy, channel 0, _)` -/
  tc_compare : Nat
  /-- run state of `tc_instance_ir_rx_phy` -/
  tc_running : Bool
  /-- whether the edge interrupt of the receiver pin is enabled -/
  edge_interrupt_enabled : Bool
deriving DecidableEq

/-- The Rx PHY at power-up: zeroed statics, state SYNCRONIZE, timer stopped. -/
def rx_power_up : RxPhy :=
  { bank := rx_bank_power_up,
    embx_ir_rx_phy_state := embx_ir_rx_phy_state_t.EMBX_IR_RX_PHY_STATE_SYNCRONIZE,
    embx_ir_rx_phy_timer_overflow := { idle := 0, mark := 0, space := 0 },
    embx_ir_rx_phy_stats := { resyncs := 0, buffer_overflows := 0 },
    tc_compare := 0, tc_running := false, edge_interrupt_enabled := false }

/-- `embx_ir_rx_phy_start_timer` -/
def embx_ir_rx_phy_start_timer (s : RxPhy) (timeout : Nat) : RxPhy :=
  let s1 := { s with tc_running := false }
  let s2 := { s1 with tc_compare := timeout }
  { s2 with tc_running := true }

/-- `embx_ir_rx_phy_restart_timer` -/
def embx_ir_rx_phy_restart_timer (s : RxPhy) (timeout : Nat) : RxPhy :=
  let s1 := { s with tc_compare := timeout }
  { s1 with tc_running := true }

/-- `handle_resync` -/
def handle_resync (cfg : RxPhyConfig) (s : RxPhy) : RxPhy :=
  let s1 := { s with
    embx_ir_rx_phy_state := embx_ir_rx_phy_state_t.EMBX_IR_RX_PHY_STATE_SYNCRONIZE }
  let s2 := embx_ir_rx_phy_restart_timer s1 cfg.EMBX_IR_RX_PHY_SYNC_DELAY
  { s2 with embx_ir_rx_phy_stats :=
    { s2.embx_ir_rx_phy_stats with
      resyncs := (s2.embx_ir_rx_phy_stats.resyncs + 1) % 4294967296 } }

/-- `handle_overflow` -/
def handle_overflow (cfg : RxPhyConfig) (s : RxPhy) : RxPhy :=
  let r := embx_ir_rx_buf_complete s.bank status_code.STATUS_ERR_OVERFLOW
  let s1 := { s with bank := r.2 }
  if r.1 = status_code.STATUS_OK then
    { s1 with embx_ir_rx_phy_state := embx_ir_rx_phy_state_t.EMBX_IR_RX_PHY_STATE_IDLE }
  else
    let s2 := { s1 with embx_ir_rx_phy_stats :=
      { s1.embx_ir_rx_phy_stats with
        buffer_overflows := (s1.embx_ir_rx_phy_stats.buffer_overflows + 1) % 4294967296 } }
    handle_resync cfg s2

/-- `handle_state_synchronize` -/
def handle_state_synchronize (cfg : RxPhyConfig) (s : RxPhy) (event : embx_ir_rx_event_t)
    (count : Nat) : RxPhy :=
  if event = embx_ir_rx_event_t.EMBX_IR_RX_TIMER_EVENT_TIMEOUT then
    if count > cfg.EMBX_IR_RX_PHY_SYNC_DELAY then
      { s with embx_ir_rx_phy_state := embx_ir_rx_phy_state_t.EMBX_IR_RX_PHY_STATE_IDLE }
    else
      embx_ir_rx_phy_restart_timer s cfg.EMBX_IR_RX_PHY_SYNC_DELAY
  else
    embx_ir_rx_phy_restart_timer s cfg.EMBX_IR_RX_PHY_SYNC_DELAY

/-- `handle_state_idle` -/
def handle_state_idle (cfg : RxPhyConfig) (s : RxPhy) (event : embx_ir_rx_event_t) : RxPhy :=
  if event = embx_ir_rx_event_t.EMBX_IR_RX_GPIO_EVENT_FALLING_EDGE then
    let s1 := embx_ir_rx_phy_restart_timer s cfg.EMBX_IR_RX_PHY_MARK_DELAY
    { s1 with embx_ir_rx_phy_state := embx_ir_rx_phy_state_t.EMBX_IR_RX_PHY_STATE_MARKING }
  else if event = embx_ir_rx_event_t.EMBX_IR_RX_TIMER_EVENT_TIMEOUT then
    { s with embx_ir_rx_phy_timer_overflow :=
      { s.embx_ir_rx_phy_timer_overflow with
        idle := (s.embx_ir_rx_phy_timer_overflow.idle + 1) % 4294967296 } }
  else s

/-- The three stores through the pointer that `embx_ir_rx_buf_isr_get_elem` returned: the
element `p.2` of buffer `p.1` gets the given line state and tick count, and `time_us` is
computed from the stored ticks. -/
def rx_elem_record (b : RxBank) (p : Nat × Nat) (gpio_state : embx_ir_rx_gpio_state_t)
    (ticks : Nat) : RxBank :=
  let e0 := rx_elem (rx_buf b p.1) p.2
  let e1 := { e0 with gpio_state := gpio_state }
  let e2 := { e1 with ticks := ticks % 4294967296 }
  let e3 := { e2 with time_us := (e2.ticks * EMBX_IR_RX_PHY_USEC_PER_TICK) % 4294967296 }
  rx_buf_store b p.1 { rx_buf b p.1 with elem := (rx_buf b p.1).elem.set p.2 e3 }

/-- `handle_received_mark` -/
def handle_received_mark (cfg : RxPhyConfig) (s : RxPhy) (count : Nat) :
    status_code × RxPhy :=
  match embx_ir_rx_buf_isr_get_elem s.bank with
  | (status_code.STATUS_OK, some p, b1) =>
    let b2 := rx_elem_record b1 p embx_ir_rx_gpio_state_t.EMBX_IR_RX_GPIO_STATE_MARK
      (count + cfg.EMBX_IR_RX_PHY_MARK_DELAY * s.embx_ir_rx_phy_timer_overflow.mark)
    let s1 := { s with bank := b2 }
    let s2 := embx_ir_rx_phy_restart_timer s1 cfg.EMBX_IR_RX_PHY_SPACE_DELAY
    (status_code.STATUS_OK,
      { s2 with
        embx_ir_rx_phy_state := embx_ir_rx_phy_state_t.EMBX_IR_RX_PHY_STATE_SPACING })
  | (status_code.STATUS_ERR_OVERFLOW, _, b1) =>
    (status_code.STATUS_ERR_OVERFLOW, handle_overflow cfg { s with bank := b1 })
  | (status_code.STATUS_ERR_NO_MEMORY, _, b1) =>
    (status_code.STATUS_ERR_NO_MEMORY, handle_resync cfg { s with bank := b1 })
  | (rval, _, b1) => (rval, { s with bank := b1 })

/-- `handle_received_space` -/
def handle_received_space (cfg : RxPhyConfig) (s : RxPhy) (count : Nat) :
    status_code × RxPhy :=
  match embx_ir_rx_buf_isr_get_elem s.bank with
  | (status_code.STATUS_OK, some p, b1) =>
    let b2 := rx_elem_record b1 p embx_ir_rx_gpio_state_t.EMBX_IR_RX_GPIO_STATE_SPACE count
    let s1 := { s with bank := b2 }
    let s2 := embx_ir_rx_phy_restart_timer s1 cfg.EMBX_IR_RX_PHY_MARK_DELAY
    (status_code.STATUS_OK,
      { s2 with
        embx_ir_rx_phy_state := embx_ir_rx_phy_state_t.EMBX_IR_RX_PHY_STATE_MARKING })
  | (status_code.STATUS_ERR_OVERFLOW, _, b1) =>
    (status_code.STATUS_ERR_OVERFLOW, handle_overflow cfg { s with bank := b1 })
  | (status_code.STATUS_ERR_NO_MEMORY, _, b1) =>
    (status_code.STATUS_ERR_NO_MEMORY, handle_resync cfg { s with bank := b1 })
  | (rval, _, b1) => (rval, { s with bank := b1 })

/-- `handle_rx_complete` -/
def handle_rx_complete (cfg : RxPhyConfig) (s : RxPhy) (buffer_status : status_code) :
    RxPhy :=
  let r := embx_ir_rx_buf_complete s.bank buffer_status
  let s1 := { s with bank := r.2 }
  if r.1 = status_code.STATUS_OK then
    { s1 with embx_ir_rx_phy_state := embx_ir_rx_phy_state_t.EMBX_IR_RX_PHY_STATE_IDLE }
  else
    handle_resync cfg s1

/-- The `switch (embx_ir_rx_phy_state)` statement of `embx_rx_ir_phy_state_machine`, run on
the state `s0` in which the timer has been read and stopped.  The `default` arm has no state
to run on. -/
def embx_rx_ir_phy_state_switch (cfg : RxPhyConfig) (s0 : RxPhy)
    (event : embx_ir_rx_event_t) (count : Nat) : RxPhy :=
  match s0.embx_ir_rx_phy_state with
  | embx_ir_rx_phy_state_t.EMBX_IR_RX_PHY_STATE_SYNCRONIZE =>
    handle_state_synchronize cfg s0 event count
  | embx_ir_rx_phy_state_t.EMBX_IR_RX_PHY_STATE_IDLE =>
    handle_state_idle cfg s0 event
  | embx_ir_rx_phy_state_t.EMBX_IR_RX_PHY_STATE_MARKING =>
    if event = embx_ir_rx_event_t.EMBX_IR_RX_GPIO_EVENT_RISING_EDGE then
      let s1 := (handle_received_mark cfg s0 count).2
      { s1 with embx_ir_rx_phy_timer_overflow :=
        { s1.embx_ir_rx_phy_timer_overflow with mark := 0 } }
    else if event = embx_ir_rx_event_t.EMBX_IR_RX_TIMER_EVENT_TIMEOUT then
      if s0.embx_ir_rx_phy_timer_overflow.mark = cfg.EMBX_IR_RX_PHY_TIMER_OVERFLOWS_MARK then
        let s1 := { s0 with embx_ir_rx_phy_timer_overflow :=
          { s0.embx_ir_rx_phy_timer_overflow with mark := 0 } }
        handle_rx_complete cfg s1 status_code.STATUS_ERR_TIMEOUT
      else
        let s1 := { s0 with embx_ir_rx_phy_timer_overflow :=
          { s0.embx_ir_rx_phy_timer_overflow with
            mark := (s0.embx_ir_rx_phy_timer_overflow.mark + 1) % 4294967296 } }
        embx_ir_rx_phy_restart_timer s1 cfg.EMBX_IR_RX_PHY_MARK_DELAY
    else s0
  | embx_ir_rx_phy_state_t.EMBX_IR_RX_PHY_STATE_SPACING =>
    if event = embx_ir_rx_event_t.EMBX_IR_RX_GPIO_EVENT_FALLING_EDGE then
      (handle_received_space cfg s0 count).2
    else if event = embx_ir_rx_event_t.EMBX_IR_RX_TIMER_EVENT_TIMEOUT then
      if s0.embx_ir_rx_phy_timer_overflow.space
          = cfg.EMBX_IR_RX_PHY_TIMER_OVERFLOWS_SPACE then
        let s1 := { s0 with embx_ir_rx_phy_timer_overflow :=
          { s0.embx_ir_rx_phy_timer_overflow with space := 0 } }
        handle_rx_complete cfg s1 status_code.STATUS_OK
      else
        let s1 := { s0 with embx_ir_rx_phy_timer_overflow :=
          { s0.embx_ir_rx_phy_timer_overflow with
            space := (s0.embx_ir_rx_phy_timer_overflow.space + 1) % 4294967296 } }
        embx_ir_rx_phy_restart_timer s1 cfg.EMBX_IR_RX_PHY_SPACE_DELAY
    else s0

/-- `embx_rx_ir_phy_state_machine`.  `count` is the value that `tc_get_count_value` reads
from the timer when the event is handled; the timer is then stopped and the switch on the
state is run. -/
def embx_rx_ir_phy_state_machine (cfg : RxPhyConfig) (s : RxPhy)
    (event : embx_ir_rx_event_t) (count : Nat) : RxPhy :=
  let s0 := { s with tc_running := false }
  embx_rx_ir_phy_state_switch cfg s0 event count

/-- `embx_ir_rx_phy_enable` -/
def embx_ir_rx_phy_enable (cfg : RxPhyConfig) (s : RxPhy) : RxPhy :=
  let s1 := { s with bank := embx_ir_rx_phy_buf_init s.bank }
  let s2 := { s1 with
    embx_ir_rx_phy_state := embx_ir_rx_phy_state_t.EMBX_IR_RX_PHY_STATE_SYNCRONIZE }
  let s3 := embx_ir_rx_phy_start_timer s2 cfg.EMBX_IR_RX_PHY_SYNC_DELAY
  { s3 with edge_interrupt_enabled := true }

/-- A foreground call `embx_ir_rx_phy_buf_reset(idx)` that runs to completion between two
events.  The call taken store by store, with interrupts served in between, is
`rx_reset_enter` and `rx_reset_step`. -/
def rx_foreground_reset (s : RxPhy) (idx : Nat) : RxPhy :=
  { s with bank := (embx_ir_rx_phy_buf_reset s.bank idx).2 }

/-- The array shapes of the buffer bank: four buffers of 256 elements. -/
def RxBankShape (b : RxBank) : Prop :=
  b.embx_ir_rx_buf.length = EMBX_IR_RX_NUMBER_OF_BUFFERS
    ∧ ∀ x ∈ b.embx_ir_rx_buf, x.elem.length = EMBX_IR_RX_BUF_SZ

/-- Bank states reachable from `embx_ir_rx_phy_buf_init` by the operations of
`embx_ir_rx_buffer.c`. -/
inductive RxBankReachable : RxBank → Prop
  | init (b : RxBank) (hshape : RxBankShape b) :
      RxBankReachable (embx_ir_rx_phy_buf_init b)
  | get_elem (b : RxBank) :
      RxBankReachable b → RxBankReachable (embx_ir_rx_buf_isr_get_elem b).2.2
  | complete (b : RxBank) (buffer_status : status_code) :
      RxBankReachable b → RxBankReachable (embx_ir_rx_buf_complete b buffer_status).2
  | reset (b : RxBank) (idx : Nat) :
      RxBankReachable b → RxBankReachable (embx_ir_rx_phy_buf_reset b idx).2

/-- Rx PHY states reachable from `embx_ir_rx_phy_enable` by edge and timeout events, each
handled with some timer count, and by foreground buffer resets that no interrupt separates.
`RxInterleaved` is the relation in which interrupts are served inside a reset as well. -/
inductive RxReachable (cfg : RxPhyConfig) : RxPhy → Prop
  | enable (s : RxPhy) (hshape : RxBankShape s.bank) :
      RxReachable cfg (embx_ir_rx_phy_enable cfg s)
  | event (s : RxPhy) (event : embx_ir_rx_event_t) (count : Nat) :
      RxReachable cfg s → RxReachable cfg (embx_rx_ir_phy_state_machine cfg s event count)
  | reset (s : RxPhy) (idx : Nat) :
      RxReachable cfg s → RxReachable cfg (rx_foreground_reset s idx)

/-- The bank right after `embx_ir_rx_phy_buf_init` at power-up. -/
def rx_bank_fresh : RxBank :=
  embx_ir_rx_phy_buf_init rx_bank_power_up

/-- The fresh bank after one buffer has been completed: buffer 0 is full and buffer 1 is
the current one. -/
def rx_bank_one_full : RxBank :=
  (embx_ir_rx_buf_complete rx_bank_fresh status_code.STATUS_OK).2

/-- Bank states reachable from `embx_ir_rx_phy_buf_init` by the interrupt-side operations
alone: no foreground reset in between. -/
inductive RxBankIsrReachable : RxBank → Prop
  | init (b : RxBank) (hshape : RxBankShape b) :
      RxBankIsrReachable (embx_ir_rx_phy_buf_init b)
  | get_elem (b : RxBank) :
      RxBankIsrReachable b → RxBankIsrReachable (embx_ir_rx_buf_isr_get_elem b).2.2
  | complete (b : RxBank) (buffer_status : status_code) :
      RxBankIsrReachable b → RxBankIsrReachable (embx_ir_rx_buf_complete b buffer_status).2

/-- How the ring fills when nobody drains it: either the buffers before the current one are
full and the others empty, or all four are full. -/
def RxRingFilling (b : RxBank) : Prop :=
  b.embx_ir_rx_buf.length = 4 ∧ b.idx_ir_rx_buf_isr < 4
    ∧ ((∀ j, j < 4 →
          (j < b.idx_ir_rx_buf_isr →
              (rx_buf b j).state = embx_ir_rx_buf_state_t.EMBX_IR_RX_BUF_FULL)
            ∧ (b.idx_ir_rx_buf_isr ≤ j →
              (rx_buf b j).state = embx_ir_rx_buf_state_t.EMBX_IR_RX_BUF_EMPTY))
        ∨ ∀ j, j < 4 → (rx_buf b j).state = embx_ir_rx_buf_state_t.EMBX_IR_RX_BUF_FULL)

/-- The fresh bank after four buffers have been completed without any being drained. -/
def rx_bank_all_full : RxBank :=
  (embx_ir_rx_buf_complete (embx_ir_rx_buf_complete (embx_ir_rx_buf_complete
    (embx_ir_rx_buf_complete rx_bank_fresh status_code.STATUS_OK).2
      status_code.STATUS_OK).2 status_code.STATUS_OK).2 status_code.STATUS_OK).2

/-- The bank with all four buffers full after the foreground has drained and reset
buffer 1 only. -/
def rx_bank_one_drained : RxBank :=
  (embx_ir_rx_phy_buf_reset rx_bank_all_full 1).2

/-- The ways in which one event changes the buffer bank: not at all, by completing the
current buffer, by acquiring an element and recording a mark or a space in it, by an
element overflow followed by the completion of the buffer, or by an acquire rejected with
no_memory. -/
def RxBankStep (b c : RxBank) : Prop :=
  c = b
    ∨ (∃ st, c = (embx_ir_rx_buf_complete b st).2)
    ∨ ((rx_buf b b.idx_ir_rx_buf_isr).state = embx_ir_rx_buf_state_t.EMBX_IR_RX_BUF_EMPTY
        ∧ (rx_buf b b.idx_ir_rx_buf_isr).size < 256
        ∧ ∃ g t, g ≠ embx_ir_rx_gpio_state_t.EMBX_IR_RX_GPIO_STATE_UNINITIALIZED
          ∧ c = rx_elem_record (embx_ir_rx_buf_isr_get_elem b).2.2
                (b.idx_ir_rx_buf_isr, (rx_buf b b.idx_ir_rx_buf_isr).size) g t)
    ∨ ((rx_buf b b.idx_ir_rx_buf_isr).state = embx_ir_rx_buf_state_t.EMBX_IR_RX_BUF_EMPTY
        ∧ ¬ (rx_buf b b.idx_ir_rx_buf_isr).size < 256
        ∧ c = (embx_ir_rx_buf_complete (embx_ir_rx_buf_isr_get_elem b).2.2
                status_code.STATUS_ERR_OVERFLOW).2)
    ∨ ((rx_buf b b.idx_ir_rx_buf_isr).state ≠ embx_ir_rx_buf_state_t.EMBX_IR_RX_BUF_EMPTY
        ∧ c = (embx_ir_rx_buf_isr_get_elem b).2.2)

/-- The invariant of the buffer bank: four buffers of 256 elements, the interrupt index
inside the bank, no buffer holding more than 256 elements, and every element below the size
of its buffer recorded as a mark or a space. -/
def RxBankInv (b : RxBank) : Prop :=
  b.embx_ir_rx_buf.length = 4 ∧ b.idx_ir_rx_buf_isr < 4
    ∧ ∀ i, i < 4 →
        (rx_buf b i).elem.length = 256 ∧ (rx_buf b i).size ≤ 256
          ∧ ∀ k, k < (rx_buf b i).size →
              (rx_elem (rx_buf b i) k).gpio_state
                  = embx_ir_rx_gpio_state_t.EMBX_IR_RX_GPIO_STATE_MARK
                ∨ (rx_elem (rx_buf b i) k).gpio_state
                  = embx_ir_rx_gpio_state_t.EMBX_IR_RX_GPIO_STATE_SPACE

/-- Example values for the timing constants: a synchronisation delay of 2500 ticks (20 ms),
mark and space delays of 1250 ticks, one tolerated wrap for marks and for spaces. -/
def rx_example_config : RxPhyConfig :=
  { EMBX_IR_RX_PHY_SYNC_DELAY := 2500, EMBX_IR_RX_PHY_MARK_DELAY := 1250,
    EMBX_IR_RX_PHY_SPACE_DELAY := 1250, EMBX_IR_RX_PHY_TIMER_OVERFLOWS_MARK := 1,
    EMBX_IR_RX_PHY_TIMER_OVERFLOWS_SPACE := 1 }

/-- The Rx PHY after enable, synchronisation, a falling edge and a rising edge 112 ticks
later: one mark has been captured. -/
def rx_example_reached : RxPhy :=
  embx_rx_ir_phy_state_machine rx_example_config
    (embx_rx_ir_phy_state_machine rx_example_config
      (embx_rx_ir_phy_state_machine rx_example_config
        (embx_ir_rx_phy_enable rx_example_config rx_power_up)
        embx_ir_rx_event_t.EMBX_IR_RX_TIMER_EVENT_TIMEOUT 2501)
      embx_ir_rx_event_t.EMBX_IR_RX_GPIO_EVENT_FALLING_EDGE 0)
    embx_ir_rx_event_t.EMBX_IR_RX_GPIO_EVENT_RISING_EDGE 112

/-- The Rx PHY after a list of events, each with the timer count read when it is handled. -/
def rx_events (cfg : RxPhyConfig) (s : RxPhy) (l : List (embx_ir_rx_event_t × Nat)) : RxPhy :=
  l.foldl (fun s e => embx_rx_ir_phy_state_machine cfg s e.1 e.2) s

/-- A frame that never gets its rising edge: a falling edge, then as many timer wraps as
it takes for the mark to time out. -/
def rx_timeout_frame (cfg : RxPhyConfig) : List (embx_ir_rx_event_t × Nat) :=
  (embx_ir_rx_event_t.EMBX_IR_RX_GPIO_EVENT_FALLING_EDGE, 0)
    :: List.replicate (cfg.EMBX_IR_RX_PHY_TIMER_OVERFLOWS_MARK + 1)
        (embx_ir_rx_event_t.EMBX_IR_RX_TIMER_EVENT_TIMEOUT, 0)

/-- The Rx PHY after enable, synchronisation, and four frames that timed out in their
mark, with no buffer drained by the foreground. -/
def rx_ring_timed_out (cfg : RxPhyConfig) : RxPhy :=
  rx_events cfg (rx_events cfg (rx_events cfg (rx_events cfg
    (embx_rx_ir_phy_state_machine cfg (embx_ir_rx_phy_enable cfg rx_power_up)
      embx_ir_rx_event_t.EMBX_IR_RX_TIMER_EVENT_TIMEOUT (cfg.EMBX_IR_RX_PHY_SYNC_DELAY + 1))
    (rx_timeout_frame cfg)) (rx_timeout_frame cfg)) (rx_timeout_frame cfg))
    (rx_timeout_frame cfg)

/-- The state `rx_ring_timed_out` after one more falling edge: the PHY is in MARKING while
the current buffer, buffer 0, is full. -/
def rx_ring_full_marking (cfg : RxPhyConfig) : RxPhy :=
  embx_rx_ir_phy_state_machine cfg (rx_ring_timed_out cfg)
    embx_ir_rx_event_t.EMBX_IR_RX_GPIO_EVENT_FALLING_EDGE 0

/-- The fresh bank after four buffers have been completed with status timeout. -/
def rx_bank_all_timed_out : RxBank :=
  (embx_ir_rx_buf_complete (embx_ir_rx_buf_complete (embx_ir_rx_buf_complete
    (embx_ir_rx_buf_complete rx_bank_fresh status_code.STATUS_ERR_TIMEOUT).2
      status_code.STATUS_ERR_TIMEOUT).2 status_code.STATUS_ERR_TIMEOUT).2
        status_code.STATUS_ERR_TIMEOUT).2

/-- The Rx PHY after enable, synchronisation and one frame that timed out in its mark:
buffer 0 is full and buffer 1 is the current one. -/
def rx_one_timed_out : RxPhy :=
  rx_events rx_example_config (embx_ir_rx_phy_enable rx_example_config rx_power_up)
    [(embx_ir_rx_event_t.EMBX_IR_RX_TIMER_EVENT_TIMEOUT, 2501),
     (embx_ir_rx_event_t.EMBX_IR_RX_GPIO_EVENT_FALLING_EDGE, 0),
     (embx_ir_rx_event_t.EMBX_IR_RX_TIMER_EVENT_TIMEOUT, 0),
     (embx_ir_rx_event_t.EMBX_IR_RX_TIMER_EVENT_TIMEOUT, 0)]

/-- The Rx PHY after enable, synchronisation and a falling edge: in MARKING, no wrap counted,
nothing captured yet. -/
def rx_marking_example : RxPhy :=
  embx_rx_ir_phy_state_machine rx_example_config
    (embx_rx_ir_phy_state_machine rx_example_config
      (embx_ir_rx_phy_enable rx_example_config rx_power_up)
      embx_ir_rx_event_t.EMBX_IR_RX_TIMER_EVENT_TIMEOUT 2501)
    embx_ir_rx_event_t.EMBX_IR_RX_GPIO_EVENT_FALLING_EDGE 0

/-- The state `rx_marking_example` after one timer wrap in MARKING: the wrap counter of the
mark is 1, the tolerated number. -/
def rx_marking_wrapped_example : RxPhy :=
  embx_rx_ir_phy_state_machine rx_example_config rx_marking_example
    embx_ir_rx_event_t.EMBX_IR_RX_TIMER_EVENT_TIMEOUT 0

/-- One frame of 256 captures: synchronisation, the falling edge that starts the frame, and
128 times a rising edge after 112 ticks and a falling edge after 56 ticks. -/
def rx_long_frame : List (embx_ir_rx_event_t × Nat) :=
  (embx_ir_rx_event_t.EMBX_IR_RX_TIMER_EVENT_TIMEOUT, 2501)
    :: (embx_ir_rx_event_t.EMBX_IR_RX_GPIO_EVENT_FALLING_EDGE, 0)
    :: (List.replicate 128
        [(embx_ir_rx_event_t.EMBX_IR_RX_GPIO_EVENT_RISING_EDGE, 112),
         (embx_ir_rx_event_t.EMBX_IR_RX_GPIO_EVENT_FALLING_EDGE, 56)]).flatten

/-- The Rx PHY after enable and the events of `rx_long_frame`: in MARKING, with the 256
elements of buffer 0 in use. -/
def rx_frame_full : RxPhy :=
  rx_events rx_example_config (embx_ir_rx_phy_enable rx_example_config rx_power_up)
    rx_long_frame

/-- What a capture does to the bank when the acquire succeeds: `embx_ir_rx_buf_isr_get_elem`
followed by the three stores of `handle_received_mark` / `handle_received_space` through
the acquired pointer. -/
def rx_capture (b : RxBank) (g : embx_ir_rx_gpio_state_t) (t : Nat) : RxBank :=
  rx_elem_record (embx_ir_rx_buf_isr_get_elem b).2.2
    (b.idx_ir_rx_buf_isr, (rx_buf b b.idx_ir_rx_buf_isr).size) g t

/-- The events of a frame of one mark and one space: the timeout that ends the
synchronisation, read at count `c`, a falling edge, a rising edge at count `m`, a falling
edge at count `sp`, and `n` timer wraps with no further edge. -/
def rx_single_frame (c m sp n : Nat) : List (embx_ir_rx_event_t × Nat) :=
  [(embx_ir_rx_event_t.EMBX_IR_RX_TIMER_EVENT_TIMEOUT, c),
   (embx_ir_rx_event_t.EMBX_IR_RX_GPIO_EVENT_FALLING_EDGE, 0),
   (embx_ir_rx_event_t.EMBX_IR_RX_GPIO_EVENT_RISING_EDGE, m),
   (embx_ir_rx_event_t.EMBX_IR_RX_GPIO_EVENT_FALLING_EDGE, sp)]
    ++ List.replicate n (embx_ir_rx_event_t.EMBX_IR_RX_TIMER_EVENT_TIMEOUT, 0)

/-- The Rx PHY, with the example constants, after enable, synchronisation, a mark of 112
ticks, a space that lasted one wrap of `SPACE_DELAY` and 56 ticks more, and the falling
edge that ends it: in MARKING for the second mark of the frame. -/
def rx_second_mark : RxPhy :=
  rx_events rx_example_config (embx_ir_rx_phy_enable rx_example_config rx_power_up)
    [(embx_ir_rx_event_t.EMBX_IR_RX_TIMER_EVENT_TIMEOUT, 2501),
     (embx_ir_rx_event_t.EMBX_IR_RX_GPIO_EVENT_FALLING_EDGE, 0),
     (embx_ir_rx_event_t.EMBX_IR_RX_GPIO_EVENT_RISING_EDGE, 112),
     (embx_ir_rx_event_t.EMBX_IR_RX_TIMER_EVENT_TIMEOUT, 0),
     (embx_ir_rx_event_t.EMBX_IR_RX_GPIO_EVENT_FALLING_EDGE, 56)]

/-- The state `rx_second_mark` after the rising edge that ends the second mark: the state
machine has just entered SPACING. -/
def rx_second_spacing : RxPhy :=
  embx_rx_ir_phy_state_machine rx_example_config rx_second_mark
    embx_ir_rx_event_t.EMBX_IR_RX_GPIO_EVENT_RISING_EDGE 112

/-! # The carrier modulator

`src/embx/embx_ir/embx_ir_common.h`, `embx_ir_tx_modulator.h` and `embx_ir_tx_modulator.c`. -/

/-- `embx_ir_tx_mod_freq_t` of `embx_ir_common.h`: the six typical carriers. -/
inductive embx_ir_tx_mod_freq_t
  | KHz_30
  | KHz_33
  | KHz_36
  | KHz_38
  | KHz_40
  | KHz_56
deriving DecidableEq

/-- The value of each enumerator of `embx_ir_tx_mod_freq_t`: the counter period that
`embx_ir_tx_modulator_set_config` and `embx_ir_tx_modulator_set_freq` program. -/
def embx_ir_tx_mod_freq_period : embx_ir_tx_mod_freq_t → Nat
  | embx_ir_tx_mod_freq_t.KHz_30 => 132
  | embx_ir_tx_mod_freq_t.KHz_33 => 120
  | embx_ir_tx_mod_freq_t.KHz_36 => 110
  | embx_ir_tx_mod_freq_t.KHz_38 => 104
  | embx_ir_tx_mod_freq_t.KHz_40 => 99
  | embx_ir_tx_mod_freq_t.KHz_56 => 70

/-- The nominal carrier frequency, in Hz, that the name of each enumerator states. -/
def embx_ir_tx_mod_freq_hz : embx_ir_tx_mod_freq_t → Nat
  | embx_ir_tx_mod_freq_t.KHz_30 => 30000
  | embx_ir_tx_mod_freq_t.KHz_33 => 33000
  | embx_ir_tx_mod_freq_t.KHz_36 => 36000
  | embx_ir_tx_mod_freq_t.KHz_38 => 38000
  | embx_ir_tx_mod_freq_t.KHz_40 => 40000
  | embx_ir_tx_mod_freq_t.KHz_56 => 56000

/-- `EMBX_IR_MODULATOR_GCLK_FREQ` -/
@[reducible] def EMBX_IR_MODULATOR_GCLK_FREQ : Nat := 8000000

/-- `EMBX_IR_TX_MODULATOR_MAX_PERIOD` -/
@[reducible] def EMBX_IR_TX_MODULATOR_MAX_PERIOD : Nat := 255

/-- `EMBX_IR_TX_MODULATOR_MIN_PERIOD` -/
@[reducible] def EMBX_IR_TX_MODULATOR_MIN_PERIOD : Nat := 25

/-- The period that `embx_ir_tx_modulator_compute_and_set_freq` (compiled out with `#if 0`)
computes and programs as the top of the modulator counter: half the clock frequency divided
by the carrier frequency, in `uint32_t`, clamped.  `none` stands for the division by zero. -/
def embx_ir_tx_modulator_compute_and_set_freq (ir_freq : Nat) : Option Nat :=
  if ir_freq = 0 then none
  else
    let period := (EMBX_IR_MODULATOR_GCLK_FREQ / 2) / ir_freq
    if period > EMBX_IR_TX_MODULATOR_MAX_PERIOD then some EMBX_IR_TX_MODULATOR_MAX_PERIOD
    else if period < EMBX_IR_TX_MODULATOR_MIN_PERIOD then some EMBX_IR_TX_MODULATOR_MIN_PERIOD
    else some period

/-- An idle PHY whose queue holds one descriptor, in slot 0, that asks for two repeats of
itself. -/
def tx_head_repeat_example : TxPhy :=
  (tx_fill_queue tx_power_up tx_head_repeat_queue).2

/-! # More of the receive side

`embx_ir_rx_phy_init` and what the invariants over event sequences need. -/

/-- `embx_ir_rx_phy_tc_init`: `tc_init` with the default configuration (compare value 0)
and `tc_enable`, after which `tc_stop_counter` leaves the timer stopped; the registration of
the callback is not part of the state. -/
def embx_ir_rx_phy_tc_init (s : RxPhy) : RxPhy :=
  let s1 := { s with tc_compare := 0 }
  let s2 := { s1 with tc_running := true }
  { s2 with tc_running := false }

/-- Modelled from the spec: `embx_ir_rx_gpio_init` of `embx_ir_rx_gpio.c`, which is not in
the source tree.  The spec has the input channel configured for bi-edge triggering with an
internal pull-up, and the declaration in `embx_ir_rx_gpio.h` adds that the callback is
registered but not enabled: nothing of the PHY state changes. -/
def embx_ir_rx_gpio_init (s : RxPhy) : RxPhy := s

/-- `embx_ir_rx_phy_init` -/
def embx_ir_rx_phy_init (s : RxPhy) : RxPhy :=
  let s1 := { s with
    embx_ir_rx_phy_state := embx_ir_rx_phy_state_t.EMBX_IR_RX_PHY_STATE_SYNCRONIZE }
  let s2 := embx_ir_rx_phy_tc_init s1
  embx_ir_rx_gpio_init s2

/-- Rx PHY states reachable from `embx_ir_rx_phy_enable` by edge and timeout events alone:
the foreground never drains or resets a buffer. -/
inductive RxEventReachable (cfg : RxPhyConfig) : RxPhy → Prop
  | enable (s : RxPhy) (hshape : RxBankShape s.bank) :
      RxEventReachable cfg (embx_ir_rx_phy_enable cfg s)
  | event (s : RxPhy) (event : embx_ir_rx_event_t) (count : Nat) :
      RxEventReachable cfg s →
        RxEventReachable cfg (embx_rx_ir_phy_state_machine cfg s event count)

/-- The part of the alternation invariant that concerns the bank alone: the shape of the
arrays, marks at the even and spaces at the odd positions below each size, no element in an
empty buffer other than the current one, and an odd size in every buffer handed over with
status ok. -/
def RxBankAltern (b : RxBank) : Prop :=
  b.embx_ir_rx_buf.length = 4 ∧ b.idx_ir_rx_buf_isr < 4
    ∧ ∀ i, i < 4 →
        (rx_buf b i).elem.length = 256 ∧ (rx_buf b i).size ≤ 256
          ∧ (∀ k, k < (rx_buf b i).size →
              (rx_elem (rx_buf b i) k).gpio_state
                = if k % 2 = 0 then embx_ir_rx_gpio_state_t.EMBX_IR_RX_GPIO_STATE_MARK
                  else embx_ir_rx_gpio_state_t.EMBX_IR_RX_GPIO_STATE_SPACE)
          ∧ (i ≠ b.idx_ir_rx_buf_isr →
              (rx_buf b i).state = embx_ir_rx_buf_state_t.EMBX_IR_RX_BUF_EMPTY →
              (rx_buf b i).size = 0)
          ∧ ((rx_buf b i).state = embx_ir_rx_buf_state_t.EMBX_IR_RX_BUF_FULL →
              (rx_buf b i).status = status_code.STATUS_OK → (rx_buf b i).size % 2 = 1)

/-- The alternation invariant: the bank part, the parity of the size of the current
buffer while it is being filled (even in MARKING, odd in SPACING, zero in IDLE and
SYNCRONIZE), and the current buffer being empty in SPACING. -/
def RxAlternating (s : RxPhy) : Prop :=
  RxBankAltern s.bank
    ∧ ((rx_buf s.bank s.bank.idx_ir_rx_buf_isr).state
          = embx_ir_rx_buf_state_t.EMBX_IR_RX_BUF_EMPTY →
        (s.embx_ir_rx_phy_state = embx_ir_rx_phy_state_t.EMBX_IR_RX_PHY_STATE_MARKING →
            (rx_buf s.bank s.bank.idx_ir_rx_buf_isr).size % 2 = 0)
          ∧ (s.embx_ir_rx_phy_state = embx_ir_rx_phy_state_t.EMBX_IR_RX_PHY_STATE_SPACING →
            (rx_buf s.bank s.bank.idx_ir_rx_buf_isr).size % 2 = 1)
          ∧ (s.embx_ir_rx_phy_state = embx_ir_rx_phy_state_t.EMBX_IR_RX_PHY_STATE_IDLE
              ∨ s.embx_ir_rx_phy_state
                = embx_ir_rx_phy_state_t.EMBX_IR_RX_PHY_STATE_SYNCRONIZE →
            (rx_buf s.bank s.bank.idx_ir_rx_buf_isr).size = 0))
    ∧ (s.embx_ir_rx_phy_state = embx_ir_rx_phy_state_t.EMBX_IR_RX_PHY_STATE_SPACING →
        (rx_buf s.bank s.bank.idx_ir_rx_buf_isr).state
          = embx_ir_rx_buf_state_t.EMBX_IR_RX_BUF_EMPTY)

/-- A frame of one mark that ends normally with the example constants: a falling edge, a
rising edge after 112 ticks, and the two timer wraps that end the frame. -/
def rx_short_frame : List (embx_ir_rx_event_t × Nat) :=
  [(embx_ir_rx_event_t.EMBX_IR_RX_GPIO_EVENT_FALLING_EDGE, 0),
   (embx_ir_rx_event_t.EMBX_IR_RX_GPIO_EVENT_RISING_EDGE, 112),
   (embx_ir_rx_event_t.EMBX_IR_RX_TIMER_EVENT_TIMEOUT, 0),
   (embx_ir_rx_event_t.EMBX_IR_RX_TIMER_EVENT_TIMEOUT, 0)]

/-- The Rx PHY, with the example constants, after enable, synchronisation, four frames of
one mark each, none of them drained, and the falling edge of a fifth frame: in MARKING
while the current buffer, buffer 0, is full with one element and status ok. -/
def rx_ring_ok_marking : RxPhy :=
  rx_events rx_example_config (embx_ir_rx_phy_enable rx_example_config rx_power_up)
    ((embx_ir_rx_event_t.EMBX_IR_RX_TIMER_EVENT_TIMEOUT, 2501)
      :: (rx_short_frame ++ rx_short_frame ++ rx_short_frame ++ rx_short_frame
        ++ [(embx_ir_rx_event_t.EMBX_IR_RX_GPIO_EVENT_FALLING_EDGE, 0)]))

/-! # Queues with several repeating descriptors -/

/-- A busy queue `s` that holds the descriptors of the queue `s0`: the same `fill_index`
and, in every queued slot, the same `max_repeat_cnt` and `decrement`, with a `repeat_cnt`
that is not negative.  This is what the timer callback keeps of a queue. -/
def TxSameQueue (s0 s : TxPhy) : Prop :=
  s.phy_descriptor.length = 20 ∧ s.fill_index = s0.fill_index ∧ s0.fill_index ≤ 20
    ∧ s.embx_ir_tx_in_progress = true
    ∧ ∀ j, j < s0.fill_index →
        (tx_slot s j).max_repeat_cnt = (tx_slot s0 j).max_repeat_cnt
          ∧ (tx_slot s j).decrement = (tx_slot s0 j).decrement
          ∧ 0 ≤ (tx_slot s j).repeat_cnt

/-- A queue with two repeating descriptors whose blocks do not meet: slot 1 repeats itself
once and slot 3 repeats itself twice. -/
def tx_two_repeat_queue : List TxFillArgs :=
  [⟨embx_ir_tx_phy_interval_t.mark, 560, 0, 0⟩, ⟨embx_ir_tx_phy_interval_t.space, 560, 1, 1⟩,
   ⟨embx_ir_tx_phy_interval_t.mark, 560, 0, 0⟩, ⟨embx_ir_tx_phy_interval_t.space, 560, 2, 1⟩]

/-- A queue that repeats the block of slot 1 once and then never drains: slot 2 is marked
forever and rewinds onto itself. -/
def tx_repeat_then_forever_queue : List TxFillArgs :=
  [⟨embx_ir_tx_phy_interval_t.mark, 560, 0, 0⟩, ⟨embx_ir_tx_phy_interval_t.space, 560, 1, 1⟩,
   ⟨embx_ir_tx_phy_interval_t.mark, 560, -1, 1⟩]

/-! # A reset taken store by store

`embx_ir_rx_phy_buf_reset` runs in the foreground without a critical section. -/

/-- Where the foreground stands inside a call `embx_ir_rx_phy_buf_reset(idx)`.  The function
has no critical section, so an edge or timer interrupt can be served between any two of its
stores: `outside` is any point outside the function, `at_status idx` is after the store of
`state`, `at_size idx` after the store of `status`, and `at_elem idx i` is the head of the
element loop with counter `i`, after the store of `size`. -/
inductive RxResetPc
  | outside
  | at_status (idx : Nat)
  | at_size (idx : Nat)
  | at_elem (idx : Nat) (i : Nat)
deriving DecidableEq

/-- The entry of `embx_ir_rx_phy_buf_reset(idx)`: the bounds check and, for a valid index,
the store `embx_ir_rx_buf[idx].state = EMBX_IR_RX_BUF_EMPTY`; an index outside the bank makes
the function return at once. -/
def rx_reset_enter (b : RxBank) (idx : Nat) : RxBank × RxResetPc :=
  if idx < EMBX_IR_RX_NUMBER_OF_BUFFERS then
    (rx_buf_store b idx
      { rx_buf b idx with state := embx_ir_rx_buf_state_t.EMBX_IR_RX_BUF_EMPTY },
      RxResetPc.at_status idx)
  else
    (b, RxResetPc.outside)

/-- The next store of a reset in progress: `status = STATUS_OK`, then `size = 0`, then one
iteration of `for (i = 0; i < EMBX_IR_RX_BUF_SZ; i++) elem[i].gpio_state = UNINITIALIZED`.
At `i = 256` the loop is left and the function returns. -/
def rx_reset_step (b : RxBank) : RxResetPc → RxBank × RxResetPc
  | RxResetPc.outside => (b, RxResetPc.outside)
  | RxResetPc.at_status idx =>
    (rx_buf_store b idx { rx_buf b idx with status := status_code.STATUS_OK },
      RxResetPc.at_size idx)
  | RxResetPc.at_size idx =>
    (rx_buf_store b idx { rx_buf b idx with size := 0 }, RxResetPc.at_elem idx 0)
  | RxResetPc.at_elem idx i =>
    if i < EMBX_IR_RX_BUF_SZ then
      (rx_buf_store b idx
        { rx_buf b idx with
          elem := (rx_buf b idx).elem.set i
            { (rx_buf b idx).elem.getD i rx_zero_elem with
              gpio_state := embx_ir_rx_gpio_state_t.EMBX_IR_RX_GPIO_STATE_UNINITIALIZED } },
        RxResetPc.at_elem idx (i + 1))
    else
      (b, RxResetPc.outside)

/-- The next `n` stores of a reset in progress, with no interrupt served in between. -/
def rx_reset_run : Nat → RxBank × RxResetPc → RxBank × RxResetPc
  | 0, x => x
  | n + 1, x => rx_reset_run n (rx_reset_step x.1 x.2)

/-- Rx PHY states reachable from `embx_ir_rx_phy_enable` when the foreground calls
`embx_ir_rx_phy_buf_reset` and edge and timeout interrupts are served at any point, also
between two stores of a reset.  Each interrupt handler runs to completion.  The second index
is the position of the foreground inside the reset. -/
inductive RxInterleaved (cfg : RxPhyConfig) : RxPhy → RxResetPc → Prop
  | enable (s : RxPhy) (hshape : RxBankShape s.bank) :
      RxInterleaved cfg (embx_ir_rx_phy_enable cfg s) RxResetPc.outside
  | event (s : RxPhy) (pc : RxResetPc) (event : embx_ir_rx_event_t) (count : Nat) :
      RxInterleaved cfg s pc →
        RxInterleaved cfg (embx_rx_ir_phy_state_machine cfg s event count) pc
  | enter (s : RxPhy) (idx : Nat) :
      RxInterleaved cfg s RxResetPc.outside →
        RxInterleaved cfg { s with bank := (rx_reset_enter s.bank idx).1 }
          (rx_reset_enter s.bank idx).2
  | step (s : RxPhy) (pc : RxResetPc) :
      RxInterleaved cfg s pc →
        RxInterleaved cfg { s with bank := (rx_reset_step s.bank pc).1 }
          (rx_reset_step s.bank pc).2

/-- An event served inside a reset races with it when it records an element in the buffer
under reset (the size of that buffer changes) at an index that the element loop has still to
clear: the loop counter `i` has not passed the size that the buffer had when the event
came.  Before the element loop, and for every other event, there is no race. -/
def rx_event_races (cfg : RxPhyConfig) (s : RxPhy) (pc : RxResetPc)
    (event : embx_ir_rx_event_t) (count : Nat) : Prop :=
  match pc with
  | RxResetPc.at_elem idx i =>
    (rx_buf (embx_rx_ir_phy_state_machine cfg s event count).bank idx).size
        ≠ (rx_buf s.bank idx).size
      ∧ i ≤ (rx_buf s.bank idx).size
  | _ => False

/-- The interleavings of `RxInterleaved` in which no event races with a reset. -/
inductive RxRaceFree (cfg : RxPhyConfig) : RxPhy → RxResetPc → Prop
  | enable (s : RxPhy) (hshape : RxBankShape s.bank) :
      RxRaceFree cfg (embx_ir_rx_phy_enable cfg s) RxResetPc.outside
  | event (s : RxPhy) (pc : RxResetPc) (event : embx_ir_rx_event_t) (count : Nat) :
      RxRaceFree cfg s pc → ¬ rx_event_races cfg s pc event count →
        RxRaceFree cfg (embx_rx_ir_phy_state_machine cfg s event count) pc
  | enter (s : RxPhy) (idx : Nat) :
      RxRaceFree cfg s RxResetPc.outside →
        RxRaceFree cfg { s with bank := (rx_reset_enter s.bank idx).1 }
          (rx_reset_enter s.bank idx).2
  | step (s : RxPhy) (pc : RxResetPc) :
      RxRaceFree cfg s pc →
        RxRaceFree cfg { s with bank := (rx_reset_step s.bank pc).1 }
          (rx_reset_step s.bank pc).2

/-- What holds of the bank in every interleaving: four buffers of 256 elements, the
interrupt index inside the bank, and no buffer holding more than 256 elements. -/
def RxBankCore (b : RxBank) : Prop :=
  b.embx_ir_rx_buf.length = 4 ∧ b.idx_ir_rx_buf_isr < 4
    ∧ ∀ i, i < 4 → (rx_buf b i).elem.length = 256 ∧ (rx_buf b i).size ≤ 256

/-- What holds of the position inside a reset: the index has passed the bounds check and the
loop counter is at most 256. -/
def RxResetPcInv : RxResetPc → Prop
  | RxResetPc.outside => True
  | RxResetPc.at_status idx => idx < 4
  | RxResetPc.at_size idx => idx < 4
  | RxResetPc.at_elem idx i => idx < 4 ∧ i ≤ 256

/-- What a reset without a race keeps inside its element loop: the buffer under reset holds
no element at or above the loop counter. -/
def RxResetCleared (b : RxBank) : RxResetPc → Prop
  | RxResetPc.at_elem idx i => (rx_buf b idx).size ≤ i
  | _ => True

/-- Every element below the size of its buffer is recorded as a mark or a space. -/
def RxBankValid (b : RxBank) : Prop :=
  ∀ i, i < 4 → ∀ k, k < (rx_buf b i).size →
    (rx_elem (rx_buf b i) k).gpio_state = embx_ir_rx_gpio_state_t.EMBX_IR_RX_GPIO_STATE_MARK
      ∨ (rx_elem (rx_buf b i) k).gpio_state
        = embx_ir_rx_gpio_state_t.EMBX_IR_RX_GPIO_STATE_SPACE

/-- The state `rx_ring_ok_marking`, in which buffer 0 is full with one element, after the
foreground has entered `embx_ir_rx_phy_buf_reset(0)` and stored `state`, `status` and
`size`: the element loop is about to start. -/
def rx_reset_interrupted : RxPhy :=
  { rx_ring_ok_marking with
    bank := (rx_reset_run 2 (rx_reset_enter rx_ring_ok_marking.bank 0)).1 }

/-- The state `rx_reset_interrupted` after a rising edge has been served there, 112 ticks
into the mark, and the reset has then run its element loop and returned. -/
def rx_reset_raced : RxPhy :=
  { embx_rx_ir_phy_state_machine rx_example_config rx_reset_interrupted
      embx_ir_rx_event_t.EMBX_IR_RX_GPIO_EVENT_RISING_EDGE 112 with
    bank := (rx_reset_run 257
      ((embx_rx_ir_phy_state_machine rx_example_config rx_reset_interrupted
          embx_ir_rx_event_t.EMBX_IR_RX_GPIO_EVENT_RISING_EDGE 112).bank,
        RxResetPc.at_elem 0 0)).1 }

/-- The state `rx_ring_ok_marking` after the foreground has entered
`embx_ir_rx_phy_buf_reset(0)`, a rising edge has been served right after the store of
`state`, and the reset has then run to its end. -/
def rx_reset_overtaken : RxPhy :=
  { embx_rx_ir_phy_state_machine rx_example_config
      { rx_ring_ok_marking with bank := (rx_reset_enter rx_ring_ok_marking.bank 0).1 }
      embx_ir_rx_event_t.EMBX_IR_RX_GPIO_EVENT_RISING_EDGE 112 with
    bank := (rx_reset_run 259
      ((embx_rx_ir_phy_state_machine rx_example_config
          { rx_ring_ok_marking with bank := (rx_reset_enter rx_ring_ok_marking.bank 0).1 }
          embx_ir_rx_event_t.EMBX_IR_RX_GPIO_EVENT_RISING_EDGE 112).bank,
        RxResetPc.at_status 0)).1 }

/-! # Properties -/

open status_code embx_ir_tx_phy_interval_t

/-! ## The descriptor array -/

/-- Reading the slot that was just written returns the written descriptor. -/
theorem tx_slot_store_same (s : TxPhy) (i : Nat) (d : embx_ir_tx_phy_descriptor_t)
    (h : i < s.phy_descriptor.length) : tx_slot (tx_slot_store s i d) i = d := by
  simp [tx_slot, tx_slot_store, List.getD_eq_getElem?_getD, List.getElem?_set, h]

/-- Writing one slot leaves every other slot as it was. -/
theorem tx_slot_store_other (s : TxPhy) (i j : Nat) (d : embx_ir_tx_phy_descriptor_t)
    (h : j ≠ i) : tx_slot (tx_slot_store s i d) j = tx_slot s j := by
  simp [tx_slot, tx_slot_store, List.getD_eq_getElem?_getD, List.getElem?_set, Ne.symm h]

/-! ## Fill -/

/-- Closed form of the tick conversion: only `period` and `overflows` change. -/
theorem tc_init_fields (pd : embx_ir_tx_phy_descriptor_t) :
    embx_ir_tx_phy_descriptor_tc_init pd =
      { pd with
        period := if (pd.usec / 8) % 65536 > 255 then (pd.usec % 256) % 65536
                  else (pd.usec / 8) % 65536,
        overflows := if (pd.usec / 8) % 65536 > 255 then (pd.usec / 256) % 256 else 0 } := by
  unfold embx_ir_tx_phy_descriptor_tc_init
  simp only [EMBX_IR_TX_PHY_USEC_PER_TICK, UINT8_MAX]
  split <;> rfl

/-- Closed form of fill on an idle PHY. -/
theorem tx_fill_call_idle (s : TxPhy) (reset_descriptor_list : Bool) (a : TxFillArgs)
    (hidle : s.embx_ir_tx_in_progress = false) :
    tx_fill_call s reset_descriptor_list a =
      if (if reset_descriptor_list = true then 0 else s.fill_index) < 20 then
        (STATUS_OK,
          { s with
            phy_descriptor := s.phy_descriptor.set
              (if reset_descriptor_list = true then 0 else s.fill_index)
              (tx_filled_descriptor (if reset_descriptor_list = true then 0 else s.fill_index) a),
            fill_index := (if reset_descriptor_list = true then 0 else s.fill_index) + 1,
            tx_index := if reset_descriptor_list = true then 0 else s.tx_index })
      else (STATUS_ERR_OVERFLOW, s) := by
  unfold tx_fill_call embx_ir_tx_phy_descriptor_fill
  simp only [embx_ir_tx_phy_get_state, hidle, Bool.false_eq_true, if_false, tc_init_fields,
    EMBX_IR_TX_PHY_DESCRIPTOR_Q_SZ, EMBX_IR_TX_PHY_REPEAT_FOREVER, tx_slot_store,
    tx_filled_descriptor]
  cases reset_descriptor_list <;> simp [hidle]

/-- What one successful fill with `reset = false` does, field by field. -/
theorem tx_fill_call_append (s : TxPhy) (a : TxFillArgs)
    (hidle : s.embx_ir_tx_in_progress = false) (hlen : s.phy_descriptor.length = 20)
    (hroom : s.fill_index < 20) :
    (tx_fill_call s false a).1 = STATUS_OK
      ∧ (tx_fill_call s false a).2.fill_index = s.fill_index + 1
      ∧ (tx_fill_call s false a).2.tx_index = s.tx_index
      ∧ (tx_fill_call s false a).2.embx_ir_tx_in_progress = false
      ∧ (tx_fill_call s false a).2.phy_descriptor.length = 20
      ∧ tx_slot (tx_fill_call s false a).2 s.fill_index = tx_filled_descriptor s.fill_index a
      ∧ ∀ j, j ≠ s.fill_index → tx_slot (tx_fill_call s false a).2 j = tx_slot s j := by
  rw [tx_fill_call_idle s false a hidle]
  simp only [Bool.false_eq_true, if_false, hroom, if_true]
  refine ⟨trivial, trivial, trivial, hidle, by simpa using hlen, ?_, ?_⟩
  · simp [tx_slot, List.getD_eq_getElem?_getD, List.getElem?_set, hlen, hroom]
  · intro j hj
    simp [tx_slot, List.getD_eq_getElem?_getD, List.getElem?_set, Ne.symm hj]

/-- What a run of fills with `reset = false` does when the queue has room for all of them. -/
theorem tx_fill_more_spec (rest : List TxFillArgs) :
    ∀ s : TxPhy, s.embx_ir_tx_in_progress = false → s.phy_descriptor.length = 20 →
      s.fill_index + rest.length ≤ 20 →
      (tx_fill_more s rest).1 = List.replicate rest.length STATUS_OK
        ∧ (tx_fill_more s rest).2.fill_index = s.fill_index + rest.length
        ∧ (tx_fill_more s rest).2.tx_index = s.tx_index
        ∧ (tx_fill_more s rest).2.embx_ir_tx_in_progress = false
        ∧ (tx_fill_more s rest).2.phy_descriptor.length = 20
        ∧ (∀ j, j < s.fill_index → tx_slot (tx_fill_more s rest).2 j = tx_slot s j)
        ∧ ∀ j a, rest[j]? = some a →
            tx_slot (tx_fill_more s rest).2 (s.fill_index + j)
              = tx_filled_descriptor (s.fill_index + j) a := by
  induction rest with
  | nil =>
    intro s hidle hlen _
    simp [tx_fill_more, hidle, hlen]
  | cons a rest ih =>
    intro s hidle hlen hroom
    simp only [List.length_cons] at hroom
    obtain ⟨h1, h2, h3, h4, h5, h6, h7⟩ := tx_fill_call_append s a hidle hlen (by omega)
    obtain ⟨i1, i2, i3, i4, i5, i6, i7⟩ := ih (tx_fill_call s false a).2 h4 h5 (by omega)
    simp only [tx_fill_more, List.length_cons, List.replicate_succ]
    refine ⟨by rw [h1, i1], by omega, by omega, i4, i5, ?_, ?_⟩
    · intro j hj
      rw [i6 j (by omega), h7 j (by omega)]
    · intro j b hb
      cases j with
      | zero =>
        simp only [List.getElem?_cons_zero, Option.some.injEq] at hb
        subst hb
        rw [Nat.add_zero, i6 _ (by omega), h6]
      | succ j =>
        simp only [List.getElem?_cons_succ] at hb
        have := i7 j b hb
        rw [h2] at this
        rw [show s.fill_index + (j + 1) = s.fill_index + 1 + j by omega]
        exact this

/-- What filling a queue from reset does when it holds at most 20 descriptors. -/
theorem tx_fill_queue_spec (s : TxPhy) (q : List TxFillArgs)
    (hidle : s.embx_ir_tx_in_progress = false) (hlen : s.phy_descriptor.length = 20)
    (hq : q.length ≤ 20) :
    (tx_fill_queue s q).1 = List.replicate q.length STATUS_OK
      ∧ (q ≠ [] → (tx_fill_queue s q).2.fill_index = q.length
          ∧ (tx_fill_queue s q).2.tx_index = 0)
      ∧ (tx_fill_queue s q).2.embx_ir_tx_in_progress = false
      ∧ (tx_fill_queue s q).2.phy_descriptor.length = 20
      ∧ ∀ j a, q[j]? = some a →
          tx_slot (tx_fill_queue s q).2 j = tx_filled_descriptor j a := by
  cases q with
  | nil => simp [tx_fill_queue, hidle, hlen]
  | cons a rest =>
    simp only [List.length_cons] at hq
    have hc := tx_fill_call_idle s true a hidle
    simp only [if_true, Nat.lt_irrefl, show (0 : Nat) < 20 by decide] at hc
    have e1 : (tx_fill_call s true a).1 = STATUS_OK := by rw [hc]
    have e2 : (tx_fill_call s true a).2.fill_index = 1 := by rw [hc]
    have e3 : (tx_fill_call s true a).2.tx_index = 0 := by rw [hc]
    have e4 : (tx_fill_call s true a).2.embx_ir_tx_in_progress = false := by rw [hc]; exact hidle
    have e5 : (tx_fill_call s true a).2.phy_descriptor.length = 20 := by
      rw [hc]; simpa using hlen
    have e6 : tx_slot (tx_fill_call s true a).2 0 = tx_filled_descriptor 0 a := by
      rw [hc]
      simp [tx_slot, List.getD_eq_getElem?_getD, List.getElem?_set, hlen]
    obtain ⟨i1, i2, i3, i4, i5, i6, i7⟩ :=
      tx_fill_more_spec rest (tx_fill_call s true a).2 e4 e5 (by omega)
    simp only [tx_fill_queue, List.length_cons, List.replicate_succ]
    refine ⟨by rw [e1, i1], fun _ => ⟨by omega, by omega⟩, i4, i5, ?_⟩
    intro j b hb
    cases j with
    | zero =>
      simp only [List.getElem?_cons_zero, Option.some.injEq] at hb
      subst hb
      rw [i6 0 (by omega), e6]
    | succ j =>
      simp only [List.getElem?_cons_succ] at hb
      have := i7 j b hb
      rw [e2] at this
      rw [show j + 1 = 1 + j by omega]
      exact this

/-! ## One timer callback -/

/-- The callback on a descriptor that asks for no rewind: the queue only advances. -/
theorem tc_callback_advance (s : TxPhy) (h : s.tx_index < s.fill_index)
    (h1 : ¬ (tx_slot s s.tx_index).repeat_cnt < (tx_slot s s.tx_index).max_repeat_cnt)
    (h2 : (tx_slot s s.tx_index).max_repeat_cnt ≠ -1) :
    (tc_callback_ir_tx_phy s).phy_descriptor = s.phy_descriptor
      ∧ (tc_callback_ir_tx_phy s).fill_index = s.fill_index
      ∧ (tc_callback_ir_tx_phy s).tx_index = s.tx_index + 1
      ∧ (tc_callback_ir_tx_phy s).embx_ir_tx_in_progress = s.embx_ir_tx_in_progress := by
  simp only [tx_slot] at h1 h2
  simp only [tc_callback_ir_tx_phy, embx_ir_tx_phy_descriptor_get, h, if_true, tx_slot, h1,
    if_false, h2, EMBX_IR_TX_PHY_REPEAT_FOREVER]
  split <;> simp

/-- The callback on a descriptor whose repeat count is not exhausted: count one repeat and
rewind. -/
theorem tc_callback_rewind (s : TxPhy) (h : s.tx_index < s.fill_index)
    (h1 : (tx_slot s s.tx_index).repeat_cnt < (tx_slot s s.tx_index).max_repeat_cnt)
    (hlen : s.tx_index < s.phy_descriptor.length) :
    (tc_callback_ir_tx_phy s).phy_descriptor
        = s.phy_descriptor.set s.tx_index
            { tx_slot s s.tx_index with repeat_cnt := (tx_slot s s.tx_index).repeat_cnt + 1 }
      ∧ (tc_callback_ir_tx_phy s).fill_index = s.fill_index
      ∧ (tc_callback_ir_tx_phy s).tx_index = s.tx_index + 1 - (tx_slot s s.tx_index).decrement
      ∧ (tc_callback_ir_tx_phy s).embx_ir_tx_in_progress = s.embx_ir_tx_in_progress := by
  simp only [tx_slot, List.getD_eq_getElem?_getD] at h1
  simp only [tc_callback_ir_tx_phy, embx_ir_tx_phy_descriptor_get, h, if_true, tx_slot,
    tx_slot_store, embx_ir_tx_phy_decrement_tx_index, List.getD_eq_getElem?_getD, h1,
    List.getElem?_set, hlen]
  simp only [Option.getD_some]
  split <;> split <;> simp <;> omega

/-- The callback on an exhausted descriptor marked forever: rewind without counting. -/
theorem tc_callback_forever (s : TxPhy) (h : s.tx_index < s.fill_index)
    (h1 : ¬ (tx_slot s s.tx_index).repeat_cnt < (tx_slot s s.tx_index).max_repeat_cnt)
    (h2 : (tx_slot s s.tx_index).max_repeat_cnt = -1) :
    (tc_callback_ir_tx_phy s).phy_descriptor = s.phy_descriptor
      ∧ (tc_callback_ir_tx_phy s).fill_index = s.fill_index
      ∧ (tc_callback_ir_tx_phy s).tx_index = s.tx_index + 1 - (tx_slot s s.tx_index).decrement
      ∧ (tc_callback_ir_tx_phy s).embx_ir_tx_in_progress = s.embx_ir_tx_in_progress := by
  simp only [tx_slot, List.getD_eq_getElem?_getD] at h1 h2
  rw [h2] at h1
  simp only [tc_callback_ir_tx_phy, embx_ir_tx_phy_descriptor_get, h, if_true, tx_slot, h1,
    if_false, h2, EMBX_IR_TX_PHY_REPEAT_FOREVER, embx_ir_tx_phy_decrement_tx_index,
    List.getD_eq_getElem?_getD]
  split <;> split <;> simp <;> omega

/-- The callback on a drained queue: everything is stopped and the PHY becomes idle. -/
theorem tc_callback_drained (s : TxPhy) (h : ¬ s.tx_index < s.fill_index) :
    tc_callback_ir_tx_phy s =
      { s with debug_pin := false, modulator_on := false, tc_running := false,
               embx_ir_tx_in_progress := false } := by
  simp [tc_callback_ir_tx_phy, embx_ir_tx_phy_descriptor_get, h]

/-- A callback on a queue that is not drained obtains the slot at `tx_index`. -/
theorem tx_emitted_some (s : TxPhy) (h : s.tx_index < s.fill_index) :
    tx_emitted s = some s.tx_index := by
  simp [tx_emitted, embx_ir_tx_phy_descriptor_get, h]

/-- A callback on a drained queue obtains no slot. -/
theorem tx_emitted_none (s : TxPhy) (h : ¬ s.tx_index < s.fill_index) :
    tx_emitted s = none := by
  simp [tx_emitted, embx_ir_tx_phy_descriptor_get, h]

/-! ## Runs of callbacks -/

/-- Slots are read from the descriptor array only. -/
theorem tx_slot_congr (s t : TxPhy) (h : t.phy_descriptor = s.phy_descriptor) (j : Nat) :
    tx_slot t j = tx_slot s j := by
  simp [tx_slot, h]

/-- Running `m + n` callbacks is running `m` and then `n`. -/
theorem tx_callbacks_add (m n : Nat) : ∀ s : TxPhy,
    tx_callbacks (m + n) s =
      ((tx_callbacks m s).1 ++ (tx_callbacks n (tx_callbacks m s).2).1,
        (tx_callbacks n (tx_callbacks m s).2).2) := by
  induction m with
  | zero => intro s; simp [tx_callbacks]
  | succ m ih =>
    intro s
    rw [show m + 1 + n = (m + n) + 1 by omega]
    simp only [tx_callbacks, ih, List.append_assoc]

/-- Callbacks over a stretch of descriptors that ask for no rewind emit them in order. -/
theorem tx_callbacks_linear (m : Nat) : ∀ s : TxPhy,
    s.tx_index + m ≤ s.fill_index →
    (∀ j, s.tx_index ≤ j → j < s.tx_index + m →
      ¬ (tx_slot s j).repeat_cnt < (tx_slot s j).max_repeat_cnt
        ∧ (tx_slot s j).max_repeat_cnt ≠ -1) →
    (tx_callbacks m s).1 = List.range' s.tx_index m
      ∧ (tx_callbacks m s).2.phy_descriptor = s.phy_descriptor
      ∧ (tx_callbacks m s).2.fill_index = s.fill_index
      ∧ (tx_callbacks m s).2.tx_index = s.tx_index + m
      ∧ (tx_callbacks m s).2.embx_ir_tx_in_progress = s.embx_ir_tx_in_progress := by
  induction m with
  | zero => intro s _ _; simp [tx_callbacks]
  | succ m ih =>
    intro s hroom hno
    have ht : s.tx_index < s.fill_index := by omega
    obtain ⟨n1, n2⟩ := hno s.tx_index (Nat.le_refl _) (by omega)
    obtain ⟨a1, a2, a3, a4⟩ := tc_callback_advance s ht n1 n2
    obtain ⟨i1, i2, i3, i4, i5⟩ := ih (tc_callback_ir_tx_phy s) (by omega) (by
      intro j hj1 hj2
      rw [tx_slot_congr s _ a1 j]
      exact hno j (by omega) (by omega))
    simp only [tx_callbacks, tx_emitted_some s ht, Option.toList_some]
    refine ⟨?_, by rw [i2, a1], by rw [i3, a2], by omega, by rw [i5, a4]⟩
    rw [i1, a3]
    rfl

/-- The slot that an array update wrote holds the written descriptor. -/
theorem tx_slot_of_set_same (s t : TxPhy) (i : Nat) (x : embx_ir_tx_phy_descriptor_t)
    (h : t.phy_descriptor = s.phy_descriptor.set i x) (hi : i < s.phy_descriptor.length) :
    tx_slot t i = x := by
  simp [tx_slot, h, List.getD_eq_getElem?_getD, List.getElem?_set, hi]

/-- An array update at slot `i` does not change slot `j ≠ i`. -/
theorem tx_slot_of_set_other (s t : TxPhy) (i j : Nat) (x : embx_ir_tx_phy_descriptor_t)
    (h : t.phy_descriptor = s.phy_descriptor.set i x) (hj : j ≠ i) :
    tx_slot t j = tx_slot s j := by
  simp [tx_slot, h, List.getD_eq_getElem?_getD, List.getElem?_set, Ne.symm hj]

/-- `TxOneRepeat` depends on the array, `fill_index` and `tx_in_progress` only. -/
theorem TxOneRepeat_congr (f p r d c : Nat) (s t : TxPhy)
    (h1 : t.phy_descriptor = s.phy_descriptor) (h2 : t.fill_index = s.fill_index)
    (h3 : t.embx_ir_tx_in_progress = s.embx_ir_tx_in_progress)
    (h : TxOneRepeat f p r d c s) : TxOneRepeat f p r d c t := by
  unfold TxOneRepeat at *
  simp only [tx_slot_congr s t h1, h1, h2, h3]
  exact h

/-- The callbacks from the moment the repeating descriptor is reached until it is passed:
it is emitted, and then the block is emitted once more for each repeat that is left. -/
theorem tx_repeat_loop (f p r d : Nat) (hd1 : 1 ≤ d) (hd2 : d ≤ p + 1) (n : Nat) :
    ∀ (c : Nat) (s : TxPhy), TxOneRepeat f p r d c s → c + n = r → s.tx_index = p →
      (tx_callbacks (n * d + 1) s).1
          = p :: (List.replicate n (List.range' (p + 1 - d) d)).flatten
        ∧ TxOneRepeat f p r d r (tx_callbacks (n * d + 1) s).2
        ∧ (tx_callbacks (n * d + 1) s).2.tx_index = p + 1 := by
  induction n with
  | zero =>
    intro c s hs hc ht
    have hcr : c = r := by omega
    subst hcr
    obtain ⟨g1, g2, g3, g4, g5, g6, g7, g8, g9⟩ := hs
    have hlt : s.tx_index < s.fill_index := by omega
    obtain ⟨a1, a2, a3, a4⟩ := tc_callback_advance s hlt
      (by rw [ht, g7, g9]; omega) (by rw [ht, g7]; omega)
    simp only [Nat.zero_mul, Nat.zero_add, tx_callbacks, tx_emitted_some s hlt,
      Option.toList_some, List.replicate_zero, List.flatten_nil, List.append_nil, ht]
    refine ⟨trivial, ?_, by omega⟩
    exact TxOneRepeat_congr f p c d c s _ a1 a2 a4 ⟨g1, g2, g3, g4, g5, g6, g7, g8, g9⟩
  | succ n ih =>
    intro c s hs hc ht
    obtain ⟨g1, g2, g3, g4, g5, g6, g7, g8, g9⟩ := hs
    have hlt : s.tx_index < s.fill_index := by omega
    -- first callback: emit slot p, count a repeat, rewind
    obtain ⟨a1, a2, a3, a4⟩ := tc_callback_rewind s hlt
      (by rw [ht, g7, g9]; omega) (by omega)
    rw [ht] at a1 a3
    rw [g8] at a3
    have hs1 : TxOneRepeat f p r d (c + 1) (tc_callback_ir_tx_phy s) := by
      refine ⟨by rw [a1]; simpa using g1, by omega, g3, g4, by rw [a4, g5], ?_, ?_, ?_, ?_⟩
      · intro j hj hjp
        rw [tx_slot_of_set_other s _ p j _ a1 hjp]
        exact g6 j hj hjp
      · rw [tx_slot_of_set_same s _ p _ a1 (by omega)]; exact g7
      · rw [tx_slot_of_set_same s _ p _ a1 (by omega)]; exact g8
      · rw [tx_slot_of_set_same s _ p _ a1 (by omega)]
        simp only [g9]
        push_cast
        rfl
    -- the rest of the block, up to slot p again
    obtain ⟨h1, h2, h3, h4, h5, h6, h7, h8, h9⟩ := hs1
    obtain ⟨l1, l2, l3, l4, l5⟩ := tx_callbacks_linear (d - 1) (tc_callback_ir_tx_phy s)
      (by omega) (by
        intro j hj1 hj2
        obtain ⟨z1, z2⟩ := h6 j (by omega) (by omega)
        rw [z1, z2]
        omega)
    have hs2 : TxOneRepeat f p r d (c + 1)
        (tx_callbacks (d - 1) (tc_callback_ir_tx_phy s)).2 :=
      TxOneRepeat_congr f p r d (c + 1) _ _ l2 l3 l5 ⟨h1, h2, h3, h4, h5, h6, h7, h8, h9⟩
    obtain ⟨i1, i2, i3⟩ := ih (c + 1) _ hs2 (by omega) (by omega)
    have hsplit : (n + 1) * d + 1 = 1 + ((d - 1) + (n * d + 1)) := by
      rw [Nat.add_mul]; omega
    rw [hsplit, tx_callbacks_add 1 _ s, tx_callbacks_add (d - 1) _]
    have hone : tx_callbacks 1 s = ([p], tc_callback_ir_tx_phy s) := by
      simp [tx_callbacks, tx_emitted_some s hlt, ht]
    rw [hone]
    simp only []
    refine ⟨?_, i2, i3⟩
    rw [l1, i1, a3, List.replicate_succ, List.flatten_cons]
    have hblock : List.range' (p + 1 - d) d = List.range' (p + 1 - d) (d - 1) ++ [p] := by
      obtain ⟨e, rfl⟩ : ∃ e, d = e + 1 := ⟨d - 1, by omega⟩
      rw [List.range'_concat]
      simp only [Nat.add_sub_cancel, Nat.one_mul]
      congr 2
      omega
    rw [hblock]
    simp

/-- What send does on an idle PHY whose queue is not drained. -/
theorem tx_send_idle_some (s : TxPhy) (hidle : s.embx_ir_tx_in_progress = false)
    (h : s.tx_index < s.fill_index) :
    (embx_ir_tx_phy_send s).1 = STATUS_OK
      ∧ (embx_ir_tx_phy_send s).2.phy_descriptor = s.phy_descriptor
      ∧ (embx_ir_tx_phy_send s).2.fill_index = s.fill_index
      ∧ (embx_ir_tx_phy_send s).2.tx_index = s.tx_index + 1
      ∧ (embx_ir_tx_phy_send s).2.embx_ir_tx_in_progress = true
      ∧ (embx_ir_tx_phy_send s).2.tc_top = (tx_slot s s.tx_index).period
      ∧ (embx_ir_tx_phy_send s).2.tc_running = true
      ∧ ((tx_slot s s.tx_index).phy_interval_type = mark →
          (embx_ir_tx_phy_send s).2.modulator_on = true)
      ∧ ((tx_slot s s.tx_index).phy_interval_type = space →
          (embx_ir_tx_phy_send s).2.modulator_on = false) := by
  simp only [embx_ir_tx_phy_send, hidle, Bool.false_eq_true, if_false,
    embx_ir_tx_phy_descriptor_get, h, if_true, tx_slot, List.getD_eq_getElem?_getD]
  refine ⟨trivial, ?_, ?_, ?_, ?_, ?_, ?_, ?_, ?_⟩
  · split <;> [skip; split] <;> rfl
  · split <;> [skip; split] <;> rfl
  · split <;> [skip; split] <;> rfl
  · split <;> [skip; split] <;> rfl
  · split <;> [skip; split] <;> rfl
  · trivial
  · intro hk; simp [hk]
  · intro hk; simp [hk]

/-- The whole transmission of a queue whose only repeating descriptor sits in slot
`p ≥ 1`: slots `0..p`, then `r` more copies of the block of `d` slots ending at `p`, then
the slots after `p`; the PHY is still busy and the queue is drained. -/
theorem tx_one_repeat_run (s : TxPhy) (f p r d : Nat)
    (hidle : s.embx_ir_tx_in_progress = false) (ht : s.tx_index = 0)
    (hlen : s.phy_descriptor.length = 20) (hf : s.fill_index = f) (hf20 : f ≤ 20)
    (hp1 : 1 ≤ p) (hpf : p < f) (hd1 : 1 ≤ d) (hd2 : d ≤ p + 1)
    (hothers : ∀ j, j < f → j ≠ p →
        (tx_slot s j).repeat_cnt = 0 ∧ (tx_slot s j).max_repeat_cnt = 0)
    (hmax : (tx_slot s p).max_repeat_cnt = (r : Int))
    (hdec : (tx_slot s p).decrement = d)
    (hcnt : (tx_slot s p).repeat_cnt = 0) :
    (tx_transmit (f - 1 + r * d) s).1 = STATUS_OK
      ∧ (tx_transmit (f - 1 + r * d) s).2.1
          = List.range (p + 1) ++ (List.replicate r (List.range' (p + 1 - d) d)).flatten
              ++ List.range' (p + 1) (f - p - 1)
      ∧ (tx_transmit (f - 1 + r * d) s).2.2.embx_ir_tx_in_progress = true
      ∧ (tx_transmit (f - 1 + r * d) s).2.2.tx_index = f
      ∧ (tx_transmit (f - 1 + r * d) s).2.2.fill_index = f := by
  have hlt : s.tx_index < s.fill_index := by omega
  obtain ⟨s1, s2, s3, s4, s5, _, _, _, _⟩ := tx_send_idle_some s hidle hlt
  have hA : TxOneRepeat f p r d 0 (embx_ir_tx_phy_send s).2 := by
    refine ⟨by rw [s2, hlen], by omega, hf20, hpf, s5, ?_, ?_, ?_, ?_⟩
    · intro j hj hjp; rw [tx_slot_congr s _ s2 j]; exact hothers j hj hjp
    · rw [tx_slot_congr s _ s2 p]; exact hmax
    · rw [tx_slot_congr s _ s2 p]; exact hdec
    · rw [tx_slot_congr s _ s2 p]; simpa using hcnt
  -- slots 1 .. p-1
  obtain ⟨g1, g2, g3, g4, g5, g6, g7, g8, g9⟩ := hA
  obtain ⟨l1, l2, l3, l4, l5⟩ := tx_callbacks_linear (p - 1) (embx_ir_tx_phy_send s).2
    (by omega) (by
      intro j hj1 hj2
      obtain ⟨z1, z2⟩ := g6 j (by omega) (by omega)
      rw [z1, z2]; omega)
  have hB : TxOneRepeat f p r d 0 (tx_callbacks (p - 1) (embx_ir_tx_phy_send s).2).2 :=
    TxOneRepeat_congr f p r d 0 _ _ l2 l3 l5 ⟨g1, g2, g3, g4, g5, g6, g7, g8, g9⟩
  -- slot p and its repeats
  obtain ⟨r1, r2, r3⟩ := tx_repeat_loop f p r d hd1 hd2 r 0 _ hB (by omega) (by omega)
  -- slots after p
  obtain ⟨k1, k2, k3, k4, k5, k6, k7, k8, k9⟩ := r2
  obtain ⟨m1, m2, m3, m4, m5⟩ := tx_callbacks_linear (f - p - 1)
    (tx_callbacks (r * d + 1) (tx_callbacks (p - 1) (embx_ir_tx_phy_send s).2).2).2
    (by omega) (by
      intro j hj1 hj2
      obtain ⟨z1, z2⟩ := k6 j (by omega) (by omega)
      rw [z1, z2]; omega)
  have hN : f - 1 + r * d = (p - 1) + ((r * d + 1) + (f - p - 1)) := by omega
  simp only [tx_transmit, hidle, Bool.false_eq_true, if_false, tx_emitted_some s hlt,
    Option.toList_some]
  rw [hN, tx_callbacks_add (p - 1) _ _, tx_callbacks_add (r * d + 1) _ _]
  simp only []
  refine ⟨s1, ?_, by rw [m5, k5], by omega, by omega⟩
  rw [l1, r1, m1, r3, s4, ht]
  have hr : List.range (p + 1) = 0 :: (List.range' 1 (p - 1) ++ [p]) := by
    obtain ⟨e, rfl⟩ : ∃ e, p = e + 1 := ⟨p - 1, by omega⟩
    rw [List.range_eq_range', show e + 1 + 1 = (e + 1) + 1 by rfl, List.range'_concat,
      List.range'_succ]
    simp
  rw [hr]
  simp

/-! ## The queue invariant -/

/-- The invariant survives any step that keeps the array and `fill_index` and does not
raise `tx_index`. -/
theorem TxInvariant_congr (s t : TxPhy) (h1 : t.phy_descriptor = s.phy_descriptor)
    (h2 : t.fill_index = s.fill_index) (h3 : t.tx_index ≤ s.tx_index)
    (h : TxInvariant s) : TxInvariant t := by
  unfold TxInvariant at *
  simp only [tx_slot_congr s t h1, h1, h2]
  exact ⟨h.1, by omega, h.2.2.1, h.2.2.2⟩

/-- Fill preserves the queue invariant. -/
theorem TxInvariant_fill (s : TxPhy) (reset_descriptor_list : Bool) (a : TxFillArgs)
    (h : TxInvariant s) : TxInvariant (tx_fill_call s reset_descriptor_list a).2 := by
  obtain ⟨h1, h2, h3, h4⟩ := h
  cases hb : s.embx_ir_tx_in_progress with
  | true =>
    have : tx_fill_call s reset_descriptor_list a = (STATUS_BUSY, s) := by
      simp [tx_fill_call, embx_ir_tx_phy_descriptor_fill, embx_ir_tx_phy_get_state, hb]
    rw [this]
    exact ⟨h1, h2, h3, h4⟩
  | false =>
    rw [tx_fill_call_idle s reset_descriptor_list a hb]
    cases reset_descriptor_list with
    | true =>
      simp only [if_true, show (0 : Nat) < 20 by decide]
      refine ⟨by simpa using h1, by simp, by simp, ?_⟩
      intro p hp
      simp only [Nat.zero_add, Nat.lt_one_iff] at hp
      subst hp
      simp only [tx_slot, List.getD_eq_getElem?_getD, List.getElem?_set, h1,
        show (0 : Nat) < 20 by decide, if_true, Option.getD_some, tx_filled_descriptor]
      split <;> omega
    | false =>
      simp only [Bool.false_eq_true, if_false]
      by_cases hroom : s.fill_index < 20
      · simp only [hroom, if_true]
        refine ⟨by simpa using h1, by simp; omega, by simp; omega, ?_⟩
        intro p hp
        simp only at hp
        by_cases hpf : p = s.fill_index
        · subst hpf
          simp only [tx_slot, List.getD_eq_getElem?_getD, List.getElem?_set, h1, hroom,
            if_true, Option.getD_some, tx_filled_descriptor]
          split <;> omega
        · have := h4 p (by omega)
          simp only [tx_slot, List.getD_eq_getElem?_getD] at this
          simp only [tx_slot, List.getD_eq_getElem?_getD, List.getElem?_set,
            Ne.symm hpf, if_false]
          exact this
      · simp only [hroom, if_false]
        exact ⟨h1, h2, h3, h4⟩

/-- Get preserves the queue invariant. -/
theorem TxInvariant_get (s : TxPhy) (h : TxInvariant s) :
    TxInvariant (embx_ir_tx_phy_descriptor_get s).2.2 := by
  obtain ⟨h1, h2, h3, h4⟩ := h
  unfold embx_ir_tx_phy_descriptor_get
  split
  · exact ⟨h1, by simp; omega, h3, h4⟩
  · exact ⟨h1, h2, h3, h4⟩

/-- `embx_ir_tx_phy_decrement_tx_index` preserves the queue invariant. -/
theorem TxInvariant_decrement (s : TxPhy) (decrement : Nat) (h : TxInvariant s) :
    TxInvariant (embx_ir_tx_phy_decrement_tx_index s decrement) := by
  apply TxInvariant_congr s _ _ _ _ h
  · unfold embx_ir_tx_phy_decrement_tx_index; split <;> rfl
  · unfold embx_ir_tx_phy_decrement_tx_index; split <;> rfl
  · unfold embx_ir_tx_phy_decrement_tx_index; split <;> simp

/-- Send preserves the queue invariant. -/
theorem TxInvariant_send (s : TxPhy) (h : TxInvariant s) :
    TxInvariant (embx_ir_tx_phy_send s).2 := by
  obtain ⟨h1, h2, h3, h4⟩ := h
  cases hb : s.embx_ir_tx_in_progress with
  | true =>
    have : embx_ir_tx_phy_send s = (STATUS_BUSY, s) := by simp [embx_ir_tx_phy_send, hb]
    rw [this]
    exact ⟨h1, h2, h3, h4⟩
  | false =>
    by_cases hlt : s.tx_index < s.fill_index
    · obtain ⟨_, s2, s3, s4, _⟩ := tx_send_idle_some s hb hlt
      refine ⟨by rw [s2, h1], by omega, by omega, ?_⟩
      intro p hp
      rw [tx_slot_congr s _ s2 p]
      exact h4 p (by omega)
    · have : (embx_ir_tx_phy_send s).2 =
          { s with tc_running := false, debug_pin := false, embx_ir_tx_in_progress := false,
                   modulator_on := false } := by
        simp [embx_ir_tx_phy_send, hb, embx_ir_tx_phy_descriptor_get, hlt]
      rw [this]
      exact ⟨h1, h2, h3, h4⟩

/-- The timer callback preserves the queue invariant. -/
theorem TxInvariant_callback (s : TxPhy) (h : TxInvariant s) :
    TxInvariant (tc_callback_ir_tx_phy s) := by
  obtain ⟨h1, h2, h3, h4⟩ := h
  by_cases hlt : s.tx_index < s.fill_index
  · by_cases hrep : (tx_slot s s.tx_index).repeat_cnt < (tx_slot s s.tx_index).max_repeat_cnt
    · obtain ⟨a1, a2, a3, _⟩ := tc_callback_rewind s hlt hrep (by omega)
      refine ⟨by rw [a1]; simpa using h1, by omega, by omega, ?_⟩
      intro p hp
      by_cases hpt : p = s.tx_index
      · rw [hpt, tx_slot_of_set_same s _ _ _ a1 (by omega)]
        exact h4 _ hlt
      · rw [tx_slot_of_set_other s _ _ p _ a1 hpt]
        exact h4 p (by omega)
    · by_cases hfor : (tx_slot s s.tx_index).max_repeat_cnt = -1
      · obtain ⟨a1, a2, a3, _⟩ := tc_callback_forever s hlt hrep hfor
        refine ⟨by rw [a1, h1], by omega, by omega, ?_⟩
        intro p hp
        rw [tx_slot_congr s _ a1 p]
        exact h4 p (by omega)
      · obtain ⟨a1, a2, a3, _⟩ := tc_callback_advance s hlt hrep hfor
        refine ⟨by rw [a1, h1], by omega, by omega, ?_⟩
        intro p hp
        rw [tx_slot_congr s _ a1 p]
        exact h4 p (by omega)
  · rw [tc_callback_drained s hlt]
    exact ⟨h1, h2, h3, h4⟩

/-- Every reachable state satisfies the queue invariant. -/
theorem TxReachable_invariant (s : TxPhy) (h : TxReachable s) : TxInvariant s := by
  induction h with
  | start s hlen hf ht hp =>
    refine ⟨hlen, by omega, by omega, ?_⟩
    intro p hp
    omega
  | fill s r a _ ih => exact TxInvariant_fill s r a ih
  | get s _ ih => exact TxInvariant_get s ih
  | decrement_tx_index s d _ ih => exact TxInvariant_decrement s d ih
  | send s _ ih => exact TxInvariant_send s ih
  | callback s _ ih => exact TxInvariant_callback s ih

/-- C1: in every state reachable from the empty idle queue by fill, get,
decrement_tx_index, send and timer-callback steps, `0 ≤ tx_index ≤ fill_index ≤ 20`, and every
descriptor at a position `p < fill_index` has a stored decrement `≤ p + 1`. -/
theorem tx_reachable_indices_bounded (s : TxPhy) (h : TxReachable s) :
    0 ≤ s.tx_index ∧ s.tx_index ≤ s.fill_index
      ∧ s.fill_index ≤ EMBX_IR_TX_PHY_DESCRIPTOR_Q_SZ
      ∧ ∀ p, p < s.fill_index → (tx_slot s p).decrement ≤ p + 1 := by
  obtain ⟨_, h2, h3, h4⟩ := TxReachable_invariant s h
  exact ⟨Nat.zero_le _, h2, h3, h4⟩

/-- C1 at a concrete reachable state: two fills, send and two callbacks from power-up. -/
theorem tx_reachable_indices_bounded_witness :
    TxReachable tx_example_reached
      ∧ (0 ≤ tx_example_reached.tx_index
        ∧ tx_example_reached.tx_index ≤ tx_example_reached.fill_index
        ∧ tx_example_reached.fill_index ≤ EMBX_IR_TX_PHY_DESCRIPTOR_Q_SZ
        ∧ ∀ p, p < tx_example_reached.fill_index →
            (tx_slot tx_example_reached p).decrement ≤ p + 1) :=
  have hr : TxReachable tx_example_reached :=
    TxReachable.callback _ (TxReachable.callback _ (TxReachable.send _
      (TxReachable.fill _ false _ (TxReachable.fill _ true _
        (TxReachable.start tx_power_up (by decide) rfl rfl rfl)))))
  ⟨hr, tx_reachable_indices_bounded tx_example_reached hr⟩

/-! ## Repeat blocks -/

/-- A queue filled from reset in which slot `p ≥ 1` is the only one that repeats is ready
for `tx_one_repeat_run`. -/
theorem tx_fill_queue_one_repeat (s : TxPhy) (q : List TxFillArgs) (p r d : Nat)
    (a : TxFillArgs)
    (hidle : s.embx_ir_tx_in_progress = false) (hlen : s.phy_descriptor.length = 20)
    (hq : q.length ≤ 20) (hp : q[p]? = some a)
    (hr : a.max_repeat_cnt = (r : Int)) (hd : a.decrement = d) (hd2 : d ≤ p + 1)
    (hrest : ∀ j b, j ≠ p → q[j]? = some b → b.max_repeat_cnt = 0) :
    (tx_fill_queue s q).1 = List.replicate q.length STATUS_OK
      ∧ (tx_fill_queue s q).2.embx_ir_tx_in_progress = false
      ∧ (tx_fill_queue s q).2.tx_index = 0
      ∧ (tx_fill_queue s q).2.phy_descriptor.length = 20
      ∧ (tx_fill_queue s q).2.fill_index = q.length
      ∧ p < q.length
      ∧ (∀ j, j < q.length → j ≠ p →
          (tx_slot (tx_fill_queue s q).2 j).repeat_cnt = 0
            ∧ (tx_slot (tx_fill_queue s q).2 j).max_repeat_cnt = 0)
      ∧ (tx_slot (tx_fill_queue s q).2 p).max_repeat_cnt = (r : Int)
      ∧ (tx_slot (tx_fill_queue s q).2 p).decrement = d
      ∧ (tx_slot (tx_fill_queue s q).2 p).repeat_cnt = 0 := by
  obtain ⟨f1, f2, f3, f4, f5⟩ := tx_fill_queue_spec s q hidle hlen hq
  have hpq : p < q.length := by
    by_contra hc
    rw [List.getElem?_eq_none (by omega)] at hp
    exact Option.noConfusion hp
  have hne : q ≠ [] := by
    intro hc; rw [hc] at hpq; simp at hpq
  obtain ⟨f2a, f2b⟩ := f2 hne
  refine ⟨f1, f3, f2b, f4, f2a, hpq, ?_, ?_, ?_, ?_⟩
  · intro j hj hjp
    have hqj : q[j]? = some q[j] := List.getElem?_eq_getElem hj
    rw [f5 j _ hqj]
    have := hrest j _ hjp hqj
    simp [tx_filled_descriptor, this]
  · rw [f5 p a hp]
    simp [tx_filled_descriptor, hr]
  · rw [f5 p a hp]
    simp [tx_filled_descriptor, hd, hd2]
  · rw [f5 p a hp]
    rfl

/-- C2: a queue `D0..Dk` (`k ≥ 1`) filled from reset in which only the last descriptor
repeats, `r` times with decrement `d ∈ [1, k+1]`: all fills succeed, send succeeds, and send
with the following `k + r * d` timer callbacks emits exactly `D0, ..., Dk` followed by `r`
copies of the block `D(k-d+1), ..., Dk`; the PHY is still busy then, and the next callback
finds the queue drained and clears `tx_in_progress`. -/
theorem tx_repeat_block_last (s : TxPhy) (q : List TxFillArgs) (k r d : Nat)
    (a : TxFillArgs)
    (hidle : s.embx_ir_tx_in_progress = false) (hlen : s.phy_descriptor.length = 20)
    (hk : 1 ≤ k) (hq : q.length = k + 1) (hk20 : k + 1 ≤ EMBX_IR_TX_PHY_DESCRIPTOR_Q_SZ)
    (hlast : q[k]? = some a) (hr : a.max_repeat_cnt = (r : Int)) (hd : a.decrement = d)
    (hd1 : 1 ≤ d) (hd2 : d ≤ k + 1)
    (hrest : ∀ j b, j < k → q[j]? = some b → b.max_repeat_cnt = 0) :
    (tx_fill_queue s q).1 = List.replicate (k + 1) STATUS_OK
      ∧ (tx_transmit (k + r * d) (tx_fill_queue s q).2).1 = STATUS_OK
      ∧ (tx_transmit (k + r * d) (tx_fill_queue s q).2).2.1
          = List.range (k + 1) ++ (List.replicate r (List.range' (k + 1 - d) d)).flatten
      ∧ (tx_transmit (k + r * d) (tx_fill_queue s q).2).2.2.embx_ir_tx_in_progress = true
      ∧ tx_emitted (tx_transmit (k + r * d) (tx_fill_queue s q).2).2.2 = none
      ∧ (tc_callback_ir_tx_phy
          (tx_transmit (k + r * d) (tx_fill_queue s q).2).2.2).embx_ir_tx_in_progress
            = false := by
  simp only [EMBX_IR_TX_PHY_DESCRIPTOR_Q_SZ] at hk20
  obtain ⟨g1, g2, g3, g4, g5, g6, g7, g8, g9, g10⟩ :=
    tx_fill_queue_one_repeat s q k r d a hidle hlen (by omega) hlast hr hd hd2 (by
      intro j b hj hb
      have hjq : j < q.length := by
        by_contra hc
        rw [List.getElem?_eq_none (by omega)] at hb
        exact Option.noConfusion hb
      exact hrest j b (by omega) hb)
  rw [hq] at g1 g5 g7
  obtain ⟨t1, t2, t3, t4, t5⟩ :=
    tx_one_repeat_run (tx_fill_queue s q).2 (k + 1) k r d g2 g3 g4 g5 hk20 hk (by omega)
      hd1 hd2 g7 g8 g9 g10
  simp only [Nat.add_sub_cancel] at t1 t2 t3 t4 t5
  have hdr : ¬ (tx_transmit (k + r * d) (tx_fill_queue s q).2).2.2.tx_index
      < (tx_transmit (k + r * d) (tx_fill_queue s q).2).2.2.fill_index := by omega
  refine ⟨g1, t1, ?_, t3, tx_emitted_none _ hdr, ?_⟩
  · rw [t2]
    simp
  · rw [tc_callback_drained _ hdr]

/-- C2 on the repeat-block scenario: mark 560 / space 560 / mark 560 with `r = 2`, `d = 2`
emits mark, space, mark, space, mark, space, mark. -/
theorem tx_repeat_block_last_witness :
    ((tx_fill_queue tx_power_up tx_repeat_block_queue).1 = List.replicate (2 + 1) STATUS_OK
      ∧ (tx_transmit (2 + 2 * 2) (tx_fill_queue tx_power_up tx_repeat_block_queue).2).1
          = STATUS_OK
      ∧ (tx_transmit (2 + 2 * 2) (tx_fill_queue tx_power_up tx_repeat_block_queue).2).2.1
          = List.range (2 + 1) ++ (List.replicate 2 (List.range' (2 + 1 - 2) 2)).flatten
      ∧ (tx_transmit (2 + 2 * 2)
          (tx_fill_queue tx_power_up tx_repeat_block_queue).2).2.2.embx_ir_tx_in_progress = true
      ∧ tx_emitted (tx_transmit (2 + 2 * 2)
          (tx_fill_queue tx_power_up tx_repeat_block_queue).2).2.2 = none
      ∧ (tc_callback_ir_tx_phy (tx_transmit (2 + 2 * 2)
          (tx_fill_queue tx_power_up tx_repeat_block_queue).2).2.2).embx_ir_tx_in_progress
            = false)
    ∧ (tx_transmit (2 + 2 * 2) (tx_fill_queue tx_power_up tx_repeat_block_queue).2).2.1.map
        (fun i => (tx_slot (tx_fill_queue tx_power_up tx_repeat_block_queue).2
          i).phy_interval_type)
        = [mark, space, mark, space, mark, space, mark] :=
  ⟨tx_repeat_block_last tx_power_up tx_repeat_block_queue 2 2 2
    ⟨embx_ir_tx_phy_interval_t.mark, 560, 2, 2⟩ rfl (by decide) (by decide) (by decide)
    (by decide) rfl rfl rfl (by decide) (by decide)
    (by
      intro j b hj hb
      have hcases : j = 0 ∨ j = 1 := by omega
      rcases hcases with h0 | h1
      · subst h0
        simp only [tx_repeat_block_queue, List.getElem?_cons_zero, Option.some.injEq] at hb
        rw [← hb]
      · subst h1
        simp only [tx_repeat_block_queue, List.getElem?_cons_succ, List.getElem?_cons_zero,
          Option.some.injEq] at hb
        rw [← hb]),
   by decide⟩

/-- Occurrences of `p` in `n` copies of a block. -/
theorem count_flatten_replicate (p : Nat) (block : List Nat) (n : Nat) :
    (List.replicate n block).flatten.count p = n * block.count p := by
  induction n with
  | zero => simp
  | succ n ih =>
    rw [List.replicate_succ, List.flatten_cons, List.count_append, ih, Nat.succ_mul]
    omega

/-- A number inside a range occurs in it once. -/
theorem count_range'_self (b d p : Nat) (h1 : b ≤ p) (h2 : p < b + d) :
    (List.range' b d).count p = 1 := by
  apply List.count_eq_one_of_mem (List.nodup_range' b d)
  rw [List.mem_range']
  exact ⟨p - b, by omega, by omega⟩

/-- A number outside a range does not occur in it. -/
theorem count_range'_out (b d p : Nat) (h : p < b ∨ b + d ≤ p) :
    (List.range' b d).count p = 0 := by
  apply List.count_eq_zero_of_not_mem
  rw [List.mem_range']
  rintro ⟨i, hi, he⟩
  omega

/-- The trace of a one-repeat transmission contains slot `p` exactly `r + 1` times. -/
theorem count_one_repeat_trace (f p r d : Nat) (hd1 : 1 ≤ d) (hd2 : d ≤ p + 1) :
    (List.range (p + 1 - d) ++ (List.replicate (r + 1) (List.range' (p + 1 - d) d)).flatten
      ++ List.range' (p + 1) (f - p - 1)).count p = r + 1 := by
  rw [List.count_append, List.count_append, count_flatten_replicate,
    count_range'_self _ _ _ (by omega) (by omega), List.range_eq_range',
    count_range'_out 0 _ _ (by omega), count_range'_out (p + 1) _ _ (by omega)]
  omega

/-- The case of a single repeating descriptor in closed form: in a queue filled from reset
whose only repeating descriptor sits at a position `p ≥ 1`, with stored decrement
`d ∈ [1, p+1]` and `max_repeat_cnt = r ≥ 0`, send and the following `q.length - 1 + r * d`
callbacks emit the slots before the block, then the block of the `d` descriptors ending at
`p` exactly `r + 1` times, then the slots after `p`; slot `p` is emitted exactly `r + 1`
times, and the next callback drains the queue. -/
theorem tx_repeat_block_single (s : TxPhy) (q : List TxFillArgs) (p r d : Nat)
    (a : TxFillArgs)
    (hidle : s.embx_ir_tx_in_progress = false) (hlen : s.phy_descriptor.length = 20)
    (hq : q.length ≤ EMBX_IR_TX_PHY_DESCRIPTOR_Q_SZ) (hp1 : 1 ≤ p)
    (hp : q[p]? = some a) (hr : a.max_repeat_cnt = (r : Int)) (hd : a.decrement = d)
    (hd1 : 1 ≤ d) (hd2 : d ≤ p + 1)
    (hrest : ∀ j b, j ≠ p → q[j]? = some b → b.max_repeat_cnt = 0) :
    (tx_transmit (q.length - 1 + r * d) (tx_fill_queue s q).2).1 = STATUS_OK
      ∧ (tx_transmit (q.length - 1 + r * d) (tx_fill_queue s q).2).2.1
          = List.range (p + 1 - d)
              ++ (List.replicate (r + 1) (List.range' (p + 1 - d) d)).flatten
              ++ List.range' (p + 1) (q.length - p - 1)
      ∧ (tx_transmit (q.length - 1 + r * d) (tx_fill_queue s q).2).2.1.count p = r + 1
      ∧ (tx_transmit (q.length - 1 + r * d)
          (tx_fill_queue s q).2).2.2.embx_ir_tx_in_progress = true
      ∧ tx_emitted (tx_transmit (q.length - 1 + r * d) (tx_fill_queue s q).2).2.2 = none
      ∧ (tc_callback_ir_tx_phy (tx_transmit (q.length - 1 + r * d)
          (tx_fill_queue s q).2).2.2).embx_ir_tx_in_progress = false := by
  simp only [EMBX_IR_TX_PHY_DESCRIPTOR_Q_SZ] at hq
  obtain ⟨_, g2, g3, g4, g5, g6, g7, g8, g9, g10⟩ :=
    tx_fill_queue_one_repeat s q p r d a hidle hlen hq hp hr hd hd2 hrest
  obtain ⟨t1, t2, t3, t4, t5⟩ :=
    tx_one_repeat_run (tx_fill_queue s q).2 q.length p r d g2 g3 g4 g5 hq hp1 g6
      hd1 hd2 g7 g8 g9 g10
  have hdr : ¬ (tx_transmit (q.length - 1 + r * d) (tx_fill_queue s q).2).2.2.tx_index
      < (tx_transmit (q.length - 1 + r * d) (tx_fill_queue s q).2).2.2.fill_index := by omega
  have hshape : List.range (p + 1) ++ (List.replicate r (List.range' (p + 1 - d) d)).flatten
      = List.range (p + 1 - d)
          ++ (List.replicate (r + 1) (List.range' (p + 1 - d) d)).flatten := by
    rw [List.replicate_succ, List.flatten_cons, ← List.append_assoc]
    congr 1
    rw [List.range_eq_range', List.range_eq_range']
    have := List.range'_append 0 (p + 1 - d) d 1
    simp only [Nat.one_mul, Nat.zero_add] at this
    rw [this]
    congr 1
    omega
  rw [hshape] at t2
  refine ⟨t1, t2, ?_, t3, tx_emitted_none _ hdr, ?_⟩
  · rw [t2]
    exact count_one_repeat_trace q.length p r d hd1 hd2
  · rw [tc_callback_drained _ hdr]

/-- The single repeating descriptor of a queue whose middle descriptor repeats slots 0 and
1 twice. -/
theorem tx_repeat_block_single_witness :
    (tx_transmit (3 - 1 + 2 * 2) (tx_fill_queue tx_power_up tx_inner_repeat_queue).2).2.1
        = [0, 1, 0, 1, 0, 1, 2]
      ∧ (tx_transmit (3 - 1 + 2 * 2)
          (tx_fill_queue tx_power_up tx_inner_repeat_queue).2).2.1.count 1 = 2 + 1 :=
  have h := tx_repeat_block_single tx_power_up tx_inner_repeat_queue 1 2 2
    ⟨embx_ir_tx_phy_interval_t.space, 560, 2, 2⟩ rfl (by decide) (by decide) (by decide)
    rfl rfl rfl (by decide) (by decide)
    (by
      intro j b hj hb
      have hjq : j < 3 := by
        by_contra hc
        rw [List.getElem?_eq_none (by simp [tx_inner_repeat_queue]; omega)] at hb
        exact Option.noConfusion hb
      have hcases : j = 0 ∨ j = 2 := by omega
      rcases hcases with h0 | h2
      · subst h0
        simp only [tx_inner_repeat_queue, List.getElem?_cons_zero, Option.some.injEq] at hb
        rw [← hb]
      · subst h2
        simp only [tx_inner_repeat_queue, List.getElem?_cons_succ, List.getElem?_cons_zero,
          Option.some.injEq] at hb
        rw [← hb])
  ⟨h.2.1, h.2.2.1⟩

/-! ## Plain queues -/

/-- A run of fills with `reset = false` on a queue with at most 20 descriptors that all
return ok fits in the queue. -/
theorem tx_fill_more_all_ok (rest : List TxFillArgs) :
    ∀ s : TxPhy, s.embx_ir_tx_in_progress = false → s.phy_descriptor.length = 20 →
      s.fill_index ≤ 20 →
      (∀ st ∈ (tx_fill_more s rest).1, st = STATUS_OK) →
      s.fill_index + rest.length ≤ 20 := by
  induction rest with
  | nil => intro s _ _ h _; simpa using h
  | cons a rest ih =>
    intro s hidle hlen hf hok
    simp only [tx_fill_more, List.mem_cons, forall_eq_or_imp] at hok
    obtain ⟨hok1, hok2⟩ := hok
    have hroom : s.fill_index < 20 := by
      by_contra hc
      rw [tx_fill_call_idle s false a hidle] at hok1
      simp [hc] at hok1
    obtain ⟨_, h2, _, h4, h5, _, _⟩ := tx_fill_call_append s a hidle hlen hroom
    have := ih (tx_fill_call s false a).2 h4 h5 (by omega) hok2
    simp only [List.length_cons]
    omega

/-- A queue filled from reset whose fills all return ok was filled on an idle PHY and holds
at most 20 descriptors. -/
theorem tx_fill_queue_all_ok (s : TxPhy) (q : List TxFillArgs) (hne : q ≠ [])
    (hlen : s.phy_descriptor.length = 20)
    (hok : ∀ st ∈ (tx_fill_queue s q).1, st = STATUS_OK) :
    s.embx_ir_tx_in_progress = false ∧ q.length ≤ 20 := by
  cases q with
  | nil => exact absurd rfl hne
  | cons a rest =>
    simp only [tx_fill_queue, List.mem_cons, forall_eq_or_imp] at hok
    obtain ⟨hok1, hok2⟩ := hok
    have hidle : s.embx_ir_tx_in_progress = false := by
      cases hb : s.embx_ir_tx_in_progress with
      | false => rfl
      | true =>
        simp [tx_fill_call, embx_ir_tx_phy_descriptor_fill, embx_ir_tx_phy_get_state, hb]
          at hok1
    refine ⟨hidle, ?_⟩
    have hc := tx_fill_call_idle s true a hidle
    simp only [if_true, show (0 : Nat) < 20 by decide] at hc
    have e2 : (tx_fill_call s true a).2.fill_index = 1 := by rw [hc]
    have e4 : (tx_fill_call s true a).2.embx_ir_tx_in_progress = false := by rw [hc]; exact hidle
    have e5 : (tx_fill_call s true a).2.phy_descriptor.length = 20 := by
      rw [hc]; simpa using hlen
    have := tx_fill_more_all_ok rest _ e4 e5 (by omega) hok2
    simp only [List.length_cons]
    omega

/-- C4: if `fill(reset=true, ...)` followed by `N` calls `fill(reset=false, ...)` all return
ok and every descriptor has `max_repeat_cnt = 0`, then send returns ok having consumed slot
0, exactly the next `N` timer callbacks obtain a descriptor (slots `1..N` in order), and
callback `N + 1` obtains none, stops the modulator and the timer and clears
`tx_in_progress`. -/
theorem tx_plain_queue_consumed (s : TxPhy) (q : List TxFillArgs) (N : Nat)
    (hlen : s.phy_descriptor.length = 20) (hq : q.length = N + 1)
    (hok : ∀ st ∈ (tx_fill_queue s q).1, st = STATUS_OK)
    (hplain : ∀ a ∈ q, a.max_repeat_cnt = 0) :
    (embx_ir_tx_phy_send (tx_fill_queue s q).2).1 = STATUS_OK
      ∧ tx_emitted (tx_fill_queue s q).2 = some 0
      ∧ (tx_callbacks N (embx_ir_tx_phy_send (tx_fill_queue s q).2).2).1 = List.range' 1 N
      ∧ (tx_callbacks N
          (embx_ir_tx_phy_send (tx_fill_queue s q).2).2).2.embx_ir_tx_in_progress = true
      ∧ tx_emitted (tx_callbacks N (embx_ir_tx_phy_send (tx_fill_queue s q).2).2).2 = none
      ∧ (tc_callback_ir_tx_phy (tx_callbacks N
          (embx_ir_tx_phy_send (tx_fill_queue s q).2).2).2).embx_ir_tx_in_progress = false
      ∧ (tc_callback_ir_tx_phy (tx_callbacks N
          (embx_ir_tx_phy_send (tx_fill_queue s q).2).2).2).modulator_on = false
      ∧ (tc_callback_ir_tx_phy (tx_callbacks N
          (embx_ir_tx_phy_send (tx_fill_queue s q).2).2).2).tc_running = false := by
  have hne : q ≠ [] := by
    intro hc; rw [hc] at hq; simp at hq
  obtain ⟨hidle, hq20⟩ := tx_fill_queue_all_ok s q hne hlen hok
  obtain ⟨_, f2, f3, f4, f5⟩ := tx_fill_queue_spec s q hidle hlen hq20
  obtain ⟨f2a, f2b⟩ := f2 hne
  have hlt : (tx_fill_queue s q).2.tx_index < (tx_fill_queue s q).2.fill_index := by omega
  obtain ⟨s1, s2, s3, s4, s5, _, _, _, _⟩ := tx_send_idle_some _ f3 hlt
  obtain ⟨l1, l2, l3, l4, l5⟩ := tx_callbacks_linear N
    (embx_ir_tx_phy_send (tx_fill_queue s q).2).2 (by omega) (by
      intro j hj1 hj2
      have hjq : j < q.length := by omega
      have hqj : q[j]? = some q[j] := List.getElem?_eq_getElem hjq
      rw [tx_slot_congr _ _ s2 j, f5 j _ hqj]
      have := hplain q[j] (List.getElem_mem hjq)
      simp [tx_filled_descriptor, this])
  have hdr : ¬ (tx_callbacks N (embx_ir_tx_phy_send (tx_fill_queue s q).2).2).2.tx_index
      < (tx_callbacks N (embx_ir_tx_phy_send (tx_fill_queue s q).2).2).2.fill_index := by
    omega
  refine ⟨s1, ?_, ?_, by rw [l5, s5], tx_emitted_none _ hdr, ?_, ?_, ?_⟩
  · rw [tx_emitted_some _ hlt, f2b]
  · rw [l1, s4, f2b]
  · rw [tc_callback_drained _ hdr]
  · rw [tc_callback_drained _ hdr]
  · rw [tc_callback_drained _ hdr]

/-- C4 on a plain queue of three descriptors (`N = 2`). -/
theorem tx_plain_queue_consumed_witness :
    (tx_callbacks 2 (embx_ir_tx_phy_send (tx_fill_queue tx_power_up tx_plain_queue).2).2).1
        = List.range' 1 2
      ∧ (tc_callback_ir_tx_phy (tx_callbacks 2 (embx_ir_tx_phy_send
          (tx_fill_queue tx_power_up tx_plain_queue).2).2).2).embx_ir_tx_in_progress = false :=
  have h := tx_plain_queue_consumed tx_power_up tx_plain_queue 2 (by decide) (by decide)
    (by decide) (by decide)
  ⟨h.2.2.1, h.2.2.2.2.2.1⟩

/-! ## Descriptors marked forever -/

/-- One callback cannot get past a rewinding descriptor marked forever. -/
theorem TxForeverAt_callback (f p : Nat) (s : TxPhy) (h : TxForeverAt f p s) :
    TxForeverAt f p (tc_callback_ir_tx_phy s) := by
  obtain ⟨h1, h2, h3, h4, h5, h6, h7, h8, h9⟩ := h
  have hlt : s.tx_index < s.fill_index := by omega
  by_cases hrep : (tx_slot s s.tx_index).repeat_cnt < (tx_slot s s.tx_index).max_repeat_cnt
  · have hne : s.tx_index ≠ p := by
      intro hc
      rw [hc, h7] at hrep
      omega
    obtain ⟨a1, a2, a3, a4⟩ := tc_callback_rewind s hlt hrep (by omega)
    have hp : tx_slot (tc_callback_ir_tx_phy s) p = tx_slot s p :=
      tx_slot_of_set_other s _ _ p _ a1 (Ne.symm hne)
    refine ⟨by rw [a1]; simpa using h1, by omega, h3, h4, by rw [a4, h5], by omega, ?_, ?_, ?_⟩
    · rw [hp]; exact h7
    · rw [hp]; exact h8
    · rw [hp]; exact h9
  · by_cases hfor : (tx_slot s s.tx_index).max_repeat_cnt = -1
    · obtain ⟨a1, a2, a3, a4⟩ := tc_callback_forever s hlt hrep hfor
      have hp : tx_slot (tc_callback_ir_tx_phy s) p = tx_slot s p := tx_slot_congr s _ a1 p
      refine ⟨by rw [a1, h1], by omega, h3, h4, by rw [a4, h5], ?_, ?_, ?_, ?_⟩
      · by_cases hc : s.tx_index = p
        · rw [hc] at a3
          omega
        · omega
      · rw [hp]; exact h7
      · rw [hp]; exact h8
      · rw [hp]; exact h9
    · have hne : s.tx_index ≠ p := by
        intro hc
        rw [hc] at hfor
        exact hfor h7
      obtain ⟨a1, a2, a3, a4⟩ := tc_callback_advance s hlt hrep hfor
      have hp : tx_slot (tc_callback_ir_tx_phy s) p = tx_slot s p := tx_slot_congr s _ a1 p
      refine ⟨by rw [a1, h1], by omega, h3, h4, by rw [a4, h5], by omega, ?_, ?_, ?_⟩
      · rw [hp]; exact h7
      · rw [hp]; exact h8
      · rw [hp]; exact h9

/-- No number of callbacks gets past a rewinding descriptor marked forever. -/
theorem TxForeverAt_callbacks (f p : Nat) (n : Nat) :
    ∀ s : TxPhy, TxForeverAt f p s → TxForeverAt f p (tx_callbacks n s).2 := by
  induction n with
  | zero => intro s h; exact h
  | succ n ih =>
    intro s h
    simp only [tx_callbacks]
    exact ih _ (TxForeverAt_callback f p s h)

/-- C6: while `tx_in_progress` is true, fill (with any arguments, `reset = true` included)
and send both return busy and leave the whole state, in particular `fill_index`, `tx_index`,
every descriptor slot and `tx_in_progress`, unchanged. -/
theorem tx_busy_rejects (s : TxPhy) (reset_descriptor_list : Bool)
    (phy_interval_type : embx_ir_tx_phy_interval_t) (usec : Nat) (max_repeat_cnt : Int)
    (decrement : Nat) (hbusy : s.embx_ir_tx_in_progress = true) :
    embx_ir_tx_phy_descriptor_fill s reset_descriptor_list phy_interval_type usec
        max_repeat_cnt decrement = (STATUS_BUSY, s)
      ∧ embx_ir_tx_phy_send s = (STATUS_BUSY, s) := by
  simp [embx_ir_tx_phy_descriptor_fill, embx_ir_tx_phy_send, embx_ir_tx_phy_get_state, hbusy]

/-- C6 on a PHY that is transmitting the plain queue. -/
theorem tx_busy_rejects_witness :
    embx_ir_tx_phy_descriptor_fill tx_busy_example true embx_ir_tx_phy_interval_t.mark 560 0 0
        = (STATUS_BUSY, tx_busy_example)
      ∧ embx_ir_tx_phy_send tx_busy_example = (STATUS_BUSY, tx_busy_example) :=
  tx_busy_rejects tx_busy_example true embx_ir_tx_phy_interval_t.mark 560 0 0 (by decide)

/-- C7: on an idle PHY whose `fill_index` respects the queue bound, fill returns overflow if
and only if `reset = false` and `fill_index = 20`, and then the state (indices and all
slots) is unchanged; and after `fill(reset=true)` and 19 further `fill(reset=false)`, which
all return ok, a 21st `fill(reset=false)` returns overflow and `fill_index` is still 20. -/
theorem tx_fill_overflow_iff (s : TxPhy) (reset_descriptor_list : Bool)
    (phy_interval_type : embx_ir_tx_phy_interval_t) (usec : Nat) (max_repeat_cnt : Int)
    (decrement : Nat) (hidle : s.embx_ir_tx_in_progress = false)
    (hlen : s.phy_descriptor.length = 20)
    (hf : s.fill_index ≤ EMBX_IR_TX_PHY_DESCRIPTOR_Q_SZ) :
    ((embx_ir_tx_phy_descriptor_fill s reset_descriptor_list phy_interval_type usec
        max_repeat_cnt decrement).1 = STATUS_ERR_OVERFLOW
        ↔ reset_descriptor_list = false ∧ s.fill_index = 20)
      ∧ ((embx_ir_tx_phy_descriptor_fill s reset_descriptor_list phy_interval_type usec
          max_repeat_cnt decrement).1 = STATUS_ERR_OVERFLOW →
          (embx_ir_tx_phy_descriptor_fill s reset_descriptor_list phy_interval_type usec
            max_repeat_cnt decrement).2 = s)
      ∧ ∀ (first : TxFillArgs) (more : List TxFillArgs), more.length = 19 →
          (tx_fill_queue s (first :: more)).1 = List.replicate 20 STATUS_OK
            ∧ (embx_ir_tx_phy_descriptor_fill (tx_fill_queue s (first :: more)).2 false
                phy_interval_type usec max_repeat_cnt decrement).1 = STATUS_ERR_OVERFLOW
            ∧ (embx_ir_tx_phy_descriptor_fill (tx_fill_queue s (first :: more)).2 false
                phy_interval_type usec max_repeat_cnt decrement).2.fill_index = 20 := by
  simp only [EMBX_IR_TX_PHY_DESCRIPTOR_Q_SZ] at hf
  have hc := tx_fill_call_idle s reset_descriptor_list
    ⟨phy_interval_type, usec, max_repeat_cnt, decrement⟩ hidle
  simp only [tx_fill_call] at hc
  refine ⟨?_, ?_, ?_⟩
  · rw [hc]
    cases reset_descriptor_list with
    | true => simp
    | false =>
      by_cases hroom : s.fill_index < 20
      · simp [hroom]; omega
      · simp [hroom]; omega
  · rw [hc]
    cases reset_descriptor_list with
    | true => simp
    | false =>
      by_cases hroom : s.fill_index < 20
      · simp [hroom]
      · simp [hroom]
  · intro first more hmore
    obtain ⟨f1, f2, f3, f4, _⟩ := tx_fill_queue_spec s (first :: more) hidle hlen
      (by simp only [List.length_cons]; omega)
    obtain ⟨f2a, _⟩ := f2 (List.cons_ne_nil _ _)
    simp only [List.length_cons, hmore] at f1 f2a
    have hc2 := tx_fill_call_idle (tx_fill_queue s (first :: more)).2 false
      ⟨phy_interval_type, usec, max_repeat_cnt, decrement⟩ f3
    simp only [tx_fill_call] at hc2
    rw [hc2]
    simp [f1, f2a]

/-- C7 on a full queue: the 21st fill overflows and changes nothing. -/
theorem tx_fill_overflow_iff_witness :
    ((embx_ir_tx_phy_descriptor_fill tx_full_example false embx_ir_tx_phy_interval_t.space
        560 0 0).1 = STATUS_ERR_OVERFLOW ↔ false = false ∧ tx_full_example.fill_index = 20)
      ∧ ((embx_ir_tx_phy_descriptor_fill tx_full_example false embx_ir_tx_phy_interval_t.space
          560 0 0).1 = STATUS_ERR_OVERFLOW →
          (embx_ir_tx_phy_descriptor_fill tx_full_example false
            embx_ir_tx_phy_interval_t.space 560 0 0).2 = tx_full_example)
      ∧ tx_full_example.fill_index = 20 :=
  have h := tx_fill_overflow_iff tx_full_example false embx_ir_tx_phy_interval_t.space
    560 0 0 (by decide) (by decide) (by decide)
  ⟨h.1, h.2.1, by decide⟩

/-! ## Effect of a successful fill -/

/-- C8: whenever fill returns ok, with `i` the fill index in force after the optional reset
(0 if reset, else the old `fill_index`): slot `i` holds the given kind and usec,
`repeat_cnt = 0`, `max_repeat_cnt` equal to the input when it is `≥ 0` and FOREVER (-1) when
it is negative, and `decrement` equal to the input when it is `≤ i + 1` and 0 otherwise;
`fill_index` becomes `i + 1`; `tx_index` is 0 if reset and unchanged otherwise; every other
slot is unchanged. -/
theorem tx_fill_ok_effect (s : TxPhy) (reset_descriptor_list : Bool)
    (phy_interval_type : embx_ir_tx_phy_interval_t) (usec : Nat) (max_repeat_cnt : Int)
    (decrement : Nat) (hlen : s.phy_descriptor.length = 20)
    (hok : (embx_ir_tx_phy_descriptor_fill s reset_descriptor_list phy_interval_type usec
      max_repeat_cnt decrement).1 = STATUS_OK) :
    (tx_slot (embx_ir_tx_phy_descriptor_fill s reset_descriptor_list phy_interval_type usec
        max_repeat_cnt decrement).2
        (if reset_descriptor_list = true then 0 else s.fill_index)).phy_interval_type
        = phy_interval_type
      ∧ (tx_slot (embx_ir_tx_phy_descriptor_fill s reset_descriptor_list phy_interval_type usec
          max_repeat_cnt decrement).2
          (if reset_descriptor_list = true then 0 else s.fill_index)).usec = usec
      ∧ (tx_slot (embx_ir_tx_phy_descriptor_fill s reset_descriptor_list phy_interval_type usec
          max_repeat_cnt decrement).2
          (if reset_descriptor_list = true then 0 else s.fill_index)).repeat_cnt = 0
      ∧ (tx_slot (embx_ir_tx_phy_descriptor_fill s reset_descriptor_list phy_interval_type usec
          max_repeat_cnt decrement).2
          (if reset_descriptor_list = true then 0 else s.fill_index)).max_repeat_cnt
          = (if max_repeat_cnt ≥ 0 then max_repeat_cnt else EMBX_IR_TX_PHY_REPEAT_FOREVER)
      ∧ (tx_slot (embx_ir_tx_phy_descriptor_fill s reset_descriptor_list phy_interval_type usec
          max_repeat_cnt decrement).2
          (if reset_descriptor_list = true then 0 else s.fill_index)).decrement
          = (if decrement ≤ (if reset_descriptor_list = true then 0 else s.fill_index) + 1
              then decrement else 0)
      ∧ (embx_ir_tx_phy_descriptor_fill s reset_descriptor_list phy_interval_type usec
          max_repeat_cnt decrement).2.fill_index
          = (if reset_descriptor_list = true then 0 else s.fill_index) + 1
      ∧ (embx_ir_tx_phy_descriptor_fill s reset_descriptor_list phy_interval_type usec
          max_repeat_cnt decrement).2.tx_index
          = (if reset_descriptor_list = true then 0 else s.tx_index)
      ∧ ∀ j, j ≠ (if reset_descriptor_list = true then 0 else s.fill_index) →
          tx_slot (embx_ir_tx_phy_descriptor_fill s reset_descriptor_list phy_interval_type
            usec max_repeat_cnt decrement).2 j = tx_slot s j := by
  have hidle : s.embx_ir_tx_in_progress = false := by
    cases hb : s.embx_ir_tx_in_progress with
    | false => rfl
    | true =>
      simp [embx_ir_tx_phy_descriptor_fill, embx_ir_tx_phy_get_state, hb] at hok
  have hc := tx_fill_call_idle s reset_descriptor_list
    ⟨phy_interval_type, usec, max_repeat_cnt, decrement⟩ hidle
  simp only [tx_fill_call] at hc
  rw [hc] at hok ⊢
  generalize (if reset_descriptor_list = true then 0 else s.fill_index) = i at hok ⊢
  have hi : i < 20 := by
    by_contra hcon
    simp [hcon] at hok
  simp only [hi, if_true, tx_slot, List.getD_eq_getElem?_getD, List.getElem?_set, hlen,
    Option.getD_some, tx_filled_descriptor, EMBX_IR_TX_PHY_REPEAT_FOREVER]
  refine ⟨trivial, trivial, trivial, trivial, trivial, trivial, trivial, ?_⟩
  intro j hj
  simp [Ne.symm hj]

/-- C8 on a fourth fill with a negative repeat count and an out-of-range decrement. -/
theorem tx_fill_ok_effect_witness :
    (tx_slot (embx_ir_tx_phy_descriptor_fill tx_filled_example false
        embx_ir_tx_phy_interval_t.mark 1000 (-7) 9).2
        (if false = true then 0 else tx_filled_example.fill_index)).max_repeat_cnt
        = (if (-7 : Int) ≥ 0 then -7 else EMBX_IR_TX_PHY_REPEAT_FOREVER)
      ∧ (tx_slot (embx_ir_tx_phy_descriptor_fill tx_filled_example false
          embx_ir_tx_phy_interval_t.mark 1000 (-7) 9).2
          (if false = true then 0 else tx_filled_example.fill_index)).decrement
          = (if 9 ≤ (if false = true then 0 else tx_filled_example.fill_index) + 1
              then 9 else 0) :=
  have h := tx_fill_ok_effect tx_filled_example false embx_ir_tx_phy_interval_t.mark 1000
    (-7) 9 (by decide) (by decide)
  ⟨h.2.2.2.1, h.2.2.2.2.1⟩

/-! ## Tick conversion and the header scenario -/

/-- The guarded subtraction of `embx_ir_tx_phy_decrement_tx_index` is truncated
subtraction. -/
theorem embx_ir_tx_phy_decrement_tx_index_eq (s : TxPhy) (decrement : Nat) :
    embx_ir_tx_phy_decrement_tx_index s decrement
      = { s with tx_index := s.tx_index - decrement } := by
  unfold embx_ir_tx_phy_decrement_tx_index
  split
  · rfl
  · rw [Nat.sub_eq_zero_of_le (by omega)]

/-- What a callback that obtains a descriptor programs into the hardware: the timer top is
the descriptor's period, the modulator follows its kind, and the timer runs again. -/
theorem tc_callback_gates (s : TxPhy) (h : s.tx_index < s.fill_index)
    (hlen : s.tx_index < s.phy_descriptor.length) :
    (tc_callback_ir_tx_phy s).tc_top = (tx_slot s s.tx_index).period
      ∧ (tc_callback_ir_tx_phy s).tc_running = true
      ∧ ((tx_slot s s.tx_index).phy_interval_type = mark →
          (tc_callback_ir_tx_phy s).modulator_on = true)
      ∧ ((tx_slot s s.tx_index).phy_interval_type = space →
          (tc_callback_ir_tx_phy s).modulator_on = false) := by
  simp only [tc_callback_ir_tx_phy, embx_ir_tx_phy_descriptor_get, h, if_true, tx_slot,
    tx_slot_store, embx_ir_tx_phy_decrement_tx_index_eq, List.getD_eq_getElem?_getD,
    EMBX_IR_TX_PHY_REPEAT_FOREVER]
  by_cases hrep : (s.phy_descriptor[s.tx_index]?.getD tx_zero_descriptor).repeat_cnt
      < (s.phy_descriptor[s.tx_index]?.getD tx_zero_descriptor).max_repeat_cnt
  · simp only [hrep, if_true, List.getElem?_set, hlen, Option.getD_some]
    refine ⟨?_, ?_, ?_, ?_⟩
    · split <;> rfl
    · trivial
    · intro hk; simp [hk]
    · intro hk; simp [hk]
  · simp only [hrep, if_false]
    by_cases hfor : (s.phy_descriptor[s.tx_index]?.getD tx_zero_descriptor).max_repeat_cnt = -1
    · simp only [hfor, if_true]
      refine ⟨?_, ?_, ?_, ?_⟩
      · split <;> rfl
      · trivial
      · intro hk; simp [hk]
      · intro hk; simp [hk]
    · simp only [hfor, if_false]
      refine ⟨?_, ?_, ?_, ?_⟩
      · split <;> rfl
      · trivial
      · intro hk; simp [hk]
      · intro hk; simp [hk]

/-- C9 fails on the code at `usec = 9000`: `fill(true, mark, 9000, 0, 0)` stores the period
`9000 mod 256 = 40` (and 35 overflows), whereas the low 8 bits of `9000 / 8 = 1125` are 101;
the transmitted interval `40 * 8 = 320` is not `9000 mod 2048 = 808` rounded down to a whole
tick. -/
theorem tx_fill_period_at_9000 :
    (tx_slot (embx_ir_tx_phy_descriptor_fill tx_power_up true
        embx_ir_tx_phy_interval_t.mark 9000 0 0).2 0).period = 40
      ∧ (tx_slot (embx_ir_tx_phy_descriptor_fill tx_power_up true
          embx_ir_tx_phy_interval_t.mark 9000 0 0).2 0).overflows = 35
      ∧ (9000 / EMBX_IR_TX_PHY_USEC_PER_TICK) % 256 = 101
      ∧ (tx_slot (embx_ir_tx_phy_descriptor_fill tx_power_up true
          embx_ir_tx_phy_interval_t.mark 9000 0 0).2 0).period * EMBX_IR_TX_PHY_USEC_PER_TICK
          ≠ 9000 % 2048 / EMBX_IR_TX_PHY_USEC_PER_TICK * EMBX_IR_TX_PHY_USEC_PER_TICK := by
  decide

/-- C10, as stated, fails for the durations of the scenario: after
`fill(true, mark, 9000, 0, 0); fill(false, space, 4500, 0, 0); send()` the timer top is 40,
not `9000 / 8 = 1125`, and the first callback programs 148, not `4500 / 8 = 562`. -/
theorem tx_header_tops_counterexample :
    (embx_ir_tx_phy_send (tx_fill_queue tx_power_up (tx_header_queue 9000 4500)).2).2.tc_top
        = 40
      ∧ (tc_callback_ir_tx_phy (embx_ir_tx_phy_send
          (tx_fill_queue tx_power_up (tx_header_queue 9000 4500)).2).2).tc_top = 148
      ∧ 9000 / EMBX_IR_TX_PHY_USEC_PER_TICK = 1125
      ∧ 4500 / EMBX_IR_TX_PHY_USEC_PER_TICK = 562 := by
  decide

/-- C10 (amended): for every pair of durations `u1, u2 < 2048`, after
`fill(true, mark, u1, 0, 0); fill(false, space, u2, 0, 0); send()`: the fills and send return
ok, send programs the timer top with `u1 / 8` and turns the modulator on, the first callback
programs the top with `u2 / 8` and turns the modulator off, and the second callback clears
`tx_in_progress`. -/
theorem tx_header_tops (s : TxPhy) (u1 u2 : Nat)
    (hidle : s.embx_ir_tx_in_progress = false) (hlen : s.phy_descriptor.length = 20)
    (h1 : u1 < 2048) (h2 : u2 < 2048) :
    (tx_fill_queue s (tx_header_queue u1 u2)).1 = [STATUS_OK, STATUS_OK]
      ∧ (embx_ir_tx_phy_send (tx_fill_queue s (tx_header_queue u1 u2)).2).1 = STATUS_OK
      ∧ (embx_ir_tx_phy_send (tx_fill_queue s (tx_header_queue u1 u2)).2).2.tc_top
          = u1 / EMBX_IR_TX_PHY_USEC_PER_TICK
      ∧ (embx_ir_tx_phy_send (tx_fill_queue s (tx_header_queue u1 u2)).2).2.modulator_on = true
      ∧ (embx_ir_tx_phy_send
          (tx_fill_queue s (tx_header_queue u1 u2)).2).2.embx_ir_tx_in_progress = true
      ∧ (tc_callback_ir_tx_phy (embx_ir_tx_phy_send
          (tx_fill_queue s (tx_header_queue u1 u2)).2).2).tc_top
          = u2 / EMBX_IR_TX_PHY_USEC_PER_TICK
      ∧ (tc_callback_ir_tx_phy (embx_ir_tx_phy_send
          (tx_fill_queue s (tx_header_queue u1 u2)).2).2).modulator_on = false
      ∧ (tc_callback_ir_tx_phy (embx_ir_tx_phy_send
          (tx_fill_queue s (tx_header_queue u1 u2)).2).2).embx_ir_tx_in_progress = true
      ∧ (tc_callback_ir_tx_phy (tc_callback_ir_tx_phy (embx_ir_tx_phy_send
          (tx_fill_queue s (tx_header_queue u1 u2)).2).2)).embx_ir_tx_in_progress = false := by
  have hql : (tx_header_queue u1 u2).length = 2 := rfl
  obtain ⟨f1, f2, f3, f4, f5⟩ := tx_fill_queue_spec s (tx_header_queue u1 u2) hidle hlen
    (by rw [hql]; decide)
  obtain ⟨f2a, f2b⟩ := f2 (List.cons_ne_nil _ _)
  rw [hql] at f1 f2a
  have d0 := f5 0 ⟨embx_ir_tx_phy_interval_t.mark, u1, 0, 0⟩ rfl
  have d1 := f5 1 ⟨embx_ir_tx_phy_interval_t.space, u2, 0, 0⟩ rfl
  have hlt : (tx_fill_queue s (tx_header_queue u1 u2)).2.tx_index
      < (tx_fill_queue s (tx_header_queue u1 u2)).2.fill_index := by omega
  obtain ⟨s1, s2, s3, s4, s5, s6, _, s8, _⟩ := tx_send_idle_some _ f3 hlt
  rw [f2b, d0] at s6 s8
  have hlt1 : (embx_ir_tx_phy_send (tx_fill_queue s (tx_header_queue u1 u2)).2).2.tx_index
      < (embx_ir_tx_phy_send (tx_fill_queue s (tx_header_queue u1 u2)).2).2.fill_index := by
    omega
  have hidx : (embx_ir_tx_phy_send (tx_fill_queue s (tx_header_queue u1 u2)).2).2.tx_index
      = 1 := by omega
  have e1 : tx_slot (embx_ir_tx_phy_send (tx_fill_queue s (tx_header_queue u1 u2)).2).2 1
      = tx_filled_descriptor 1 ⟨embx_ir_tx_phy_interval_t.space, u2, 0, 0⟩ := by
    rw [tx_slot_congr _ _ s2 1]; exact d1
  obtain ⟨c1, _, _, c4⟩ := tc_callback_gates _ hlt1 (by rw [s2, f4]; omega)
  rw [hidx, e1] at c1 c4
  obtain ⟨a1, a2, a3, a4⟩ := tc_callback_advance _ hlt1
    (by rw [hidx, e1]; simp [tx_filled_descriptor])
    (by rw [hidx, e1]; simp [tx_filled_descriptor])
  have hdr : ¬ (tc_callback_ir_tx_phy (embx_ir_tx_phy_send
      (tx_fill_queue s (tx_header_queue u1 u2)).2).2).tx_index
      < (tc_callback_ir_tx_phy (embx_ir_tx_phy_send
        (tx_fill_queue s (tx_header_queue u1 u2)).2).2).fill_index := by
    omega
  have p1 : (tx_filled_descriptor 0 ⟨embx_ir_tx_phy_interval_t.mark, u1, 0, 0⟩).period
      = u1 / 8 := by
    have : ¬ (u1 / 8 % 65536 > 255) := by omega
    simp only [tx_filled_descriptor, this, if_false]
    omega
  have p2 : (tx_filled_descriptor 1 ⟨embx_ir_tx_phy_interval_t.space, u2, 0, 0⟩).period
      = u2 / 8 := by
    have : ¬ (u2 / 8 % 65536 > 255) := by omega
    simp only [tx_filled_descriptor, this, if_false]
    omega
  refine ⟨f1, s1, by rw [s6, p1], s8 rfl, s5, by rw [c1, p2], c4 rfl, by rw [a4, s5], ?_⟩
  rw [tc_callback_drained _ hdr]

/-- C10 (amended) on a mark of 900 us and a space of 450 us: the tops are 112 and 56. -/
theorem tx_header_tops_witness :
    ((embx_ir_tx_phy_send (tx_fill_queue tx_power_up (tx_header_queue 900 450)).2).2.tc_top
        = 900 / EMBX_IR_TX_PHY_USEC_PER_TICK
      ∧ (tc_callback_ir_tx_phy (embx_ir_tx_phy_send
          (tx_fill_queue tx_power_up (tx_header_queue 900 450)).2).2).tc_top
          = 450 / EMBX_IR_TX_PHY_USEC_PER_TICK
      ∧ (tc_callback_ir_tx_phy (tc_callback_ir_tx_phy (embx_ir_tx_phy_send
          (tx_fill_queue tx_power_up (tx_header_queue 900 450)).2).2)).embx_ir_tx_in_progress
          = false)
    ∧ 900 / EMBX_IR_TX_PHY_USEC_PER_TICK = 112 ∧ 450 / EMBX_IR_TX_PHY_USEC_PER_TICK = 56 :=
  have h := tx_header_tops tx_power_up 900 450 rfl (by decide) (by decide) (by decide)
  ⟨⟨h.2.2.1, h.2.2.2.2.2.1, h.2.2.2.2.2.2.2.2⟩, by decide, by decide⟩

/-! ## Get, send and decrement -/

/-- C11: for every queue state, get returns ok if and only if `tx_index < fill_index`; when
ok it yields the slot at the old `tx_index` and increments `tx_index` by exactly one,
changing nothing else; otherwise it returns bad_data, yields nothing and leaves the whole
state (`tx_index`, `fill_index` and all slots) unchanged. -/
theorem tx_get_effect (s : TxPhy) :
    ((embx_ir_tx_phy_descriptor_get s).1 = STATUS_OK ↔ s.tx_index < s.fill_index)
      ∧ (s.tx_index < s.fill_index →
          (embx_ir_tx_phy_descriptor_get s).2.1 = some s.tx_index
            ∧ (embx_ir_tx_phy_descriptor_get s).2.2 = { s with tx_index := s.tx_index + 1 })
      ∧ (¬ s.tx_index < s.fill_index →
          (embx_ir_tx_phy_descriptor_get s).1 = STATUS_ERR_BAD_DATA
            ∧ (embx_ir_tx_phy_descriptor_get s).2.1 = none
            ∧ (embx_ir_tx_phy_descriptor_get s).2.2 = s) := by
  unfold embx_ir_tx_phy_descriptor_get
  by_cases h : s.tx_index < s.fill_index
  · simp [h]
  · simp [h]

/-- C12: on an idle PHY whose indices respect `tx_index ≤ fill_index`, send returns ok and:
if the queue is drained (`tx_index = fill_index`) the modulator and the timer are stopped,
`tx_in_progress` stays false and the indices and slots are unchanged; otherwise
`tx_in_progress` becomes true, the timer top is the period of the descriptor in slot
`tx_index`, the modulator is started if that descriptor is a mark and stopped if it is a
space, the timer is started, and `tx_index` is incremented by one. -/
theorem tx_send_idle_effect (s : TxPhy) (hidle : s.embx_ir_tx_in_progress = false)
    (hinv : s.tx_index ≤ s.fill_index) :
    (embx_ir_tx_phy_send s).1 = STATUS_OK
      ∧ (s.tx_index = s.fill_index →
          (embx_ir_tx_phy_send s).2.modulator_on = false
            ∧ (embx_ir_tx_phy_send s).2.tc_running = false
            ∧ (embx_ir_tx_phy_send s).2.embx_ir_tx_in_progress = false
            ∧ (embx_ir_tx_phy_send s).2.tx_index = s.tx_index
            ∧ (embx_ir_tx_phy_send s).2.fill_index = s.fill_index
            ∧ (embx_ir_tx_phy_send s).2.phy_descriptor = s.phy_descriptor)
      ∧ (s.tx_index ≠ s.fill_index →
          (embx_ir_tx_phy_send s).2.embx_ir_tx_in_progress = true
            ∧ (embx_ir_tx_phy_send s).2.tc_top = (tx_slot s s.tx_index).period
            ∧ ((tx_slot s s.tx_index).phy_interval_type = mark →
                (embx_ir_tx_phy_send s).2.modulator_on = true)
            ∧ ((tx_slot s s.tx_index).phy_interval_type = space →
                (embx_ir_tx_phy_send s).2.modulator_on = false)
            ∧ (embx_ir_tx_phy_send s).2.tc_running = true
            ∧ (embx_ir_tx_phy_send s).2.tx_index = s.tx_index + 1
            ∧ (embx_ir_tx_phy_send s).2.fill_index = s.fill_index) := by
  by_cases h : s.tx_index < s.fill_index
  · obtain ⟨s1, s2, s3, s4, s5, s6, s7, s8, s9⟩ := tx_send_idle_some s hidle h
    refine ⟨s1, fun he => absurd he (by omega), fun _ => ⟨s5, s6, s8, s9, s7, s4, s3⟩⟩
  · have hs : embx_ir_tx_phy_send s = (STATUS_OK,
        { s with tc_running := false, debug_pin := false, embx_ir_tx_in_progress := false,
                 modulator_on := false }) := by
      simp [embx_ir_tx_phy_send, hidle, embx_ir_tx_phy_descriptor_get, h]
    rw [hs]
    refine ⟨rfl, fun _ => ⟨rfl, rfl, rfl, rfl, rfl, rfl⟩, fun hne => absurd hne ?_⟩
    intro hc
    omega

/-- C12 on a drained idle queue and on a freshly filled one. -/
theorem tx_send_idle_effect_witness :
    ((embx_ir_tx_phy_send tx_drained_example).1 = STATUS_OK
      ∧ (embx_ir_tx_phy_send tx_drained_example).2.embx_ir_tx_in_progress = false)
    ∧ ((embx_ir_tx_phy_send tx_filled_example).2.embx_ir_tx_in_progress = true
      ∧ (embx_ir_tx_phy_send tx_filled_example).2.tc_top
          = (tx_slot tx_filled_example tx_filled_example.tx_index).period) :=
  have h1 := tx_send_idle_effect tx_drained_example (by decide) (by decide)
  have h2 := tx_send_idle_effect tx_filled_example (by decide) (by decide)
  ⟨⟨h1.1, (h1.2.1 (by decide)).2.2.1⟩, ⟨(h2.2.2 (by decide)).1, (h2.2.2 (by decide)).2.1⟩⟩

/-- C15: for every `tx_index` and every `n`, `embx_ir_tx_phy_decrement_tx_index(n)` sets
`tx_index` to `max(tx_index - n, 0)` computed in the integers (`tx_index - n` when
`tx_index ≥ n`, otherwise 0) and changes nothing else. -/
theorem tx_decrement_saturates (s : TxPhy) (n : Nat) :
    embx_ir_tx_phy_decrement_tx_index s n
        = { s with tx_index := if s.tx_index ≥ n then s.tx_index - n else 0 }
      ∧ ((embx_ir_tx_phy_decrement_tx_index s n).tx_index : Int)
          = max ((s.tx_index : Int) - (n : Int)) 0 := by
  unfold embx_ir_tx_phy_decrement_tx_index
  by_cases h : s.tx_index ≥ n
  · simp only [h, if_true]
    refine ⟨trivial, ?_⟩
    omega
  · simp only [h, if_false]
    refine ⟨trivial, ?_⟩
    omega

/-! ## Effect of one callback -/

/-- A callback on a descriptor of kind `unknown` leaves the modulator as it was. -/
theorem tc_callback_unknown_kind (s : TxPhy) (h : s.tx_index < s.fill_index)
    (hlen : s.tx_index < s.phy_descriptor.length)
    (hk : (tx_slot s s.tx_index).phy_interval_type = unknown) :
    (tc_callback_ir_tx_phy s).modulator_on = s.modulator_on := by
  simp only [tx_slot, List.getD_eq_getElem?_getD] at hk
  simp only [tc_callback_ir_tx_phy, embx_ir_tx_phy_descriptor_get, h, if_true, tx_slot,
    tx_slot_store, embx_ir_tx_phy_decrement_tx_index_eq, List.getD_eq_getElem?_getD,
    EMBX_IR_TX_PHY_REPEAT_FOREVER]
  by_cases hrep : (s.phy_descriptor[s.tx_index]?.getD tx_zero_descriptor).repeat_cnt
      < (s.phy_descriptor[s.tx_index]?.getD tx_zero_descriptor).max_repeat_cnt
  · simp only [hrep, if_true, List.getElem?_set, hlen, Option.getD_some]
    simp [hk]
  · simp only [hrep, if_false]
    by_cases hfor : (s.phy_descriptor[s.tx_index]?.getD tx_zero_descriptor).max_repeat_cnt = -1
    · simp only [hfor, if_true]
      simp [hk]
    · simp only [hfor, if_false]
      simp [hk]

/-- C13, as stated, fails on a descriptor of kind `unknown`: after
`fill(true, mark, 560, 0, 0); fill(false, unknown, 560, 0, 0); send()` the callback takes the
descriptor of slot 1, which is not a mark, and the modulator, started by send, is still on
afterwards. -/
theorem tx_callback_modulator_counterexample :
    (embx_ir_tx_phy_send (tx_fill_queue tx_power_up tx_unknown_kind_queue).2).2.tx_index
        < (embx_ir_tx_phy_send (tx_fill_queue tx_power_up tx_unknown_kind_queue).2).2.fill_index
      ∧ (tx_slot (embx_ir_tx_phy_send (tx_fill_queue tx_power_up tx_unknown_kind_queue).2).2
          (embx_ir_tx_phy_send
            (tx_fill_queue tx_power_up tx_unknown_kind_queue).2).2.tx_index).phy_interval_type
          ≠ mark
      ∧ (tc_callback_ir_tx_phy (embx_ir_tx_phy_send
          (tx_fill_queue tx_power_up tx_unknown_kind_queue).2).2).modulator_on = true := by
  decide

/-- C13 (amended): for every Tx state with `tx_index < fill_index` (the slot lying in the
array), one timer callback takes the descriptor `D` in slot `tx_index`, programs the timer top
with `D.period`, and then: if `D.repeat_cnt < D.max_repeat_cnt` it increments `D.repeat_cnt`
by one (touching no other field or slot) and sets `tx_index` to
`max(tx_index + 1 - D.decrement, 0)`; else if `D.max_repeat_cnt = FOREVER` it sets `tx_index`
to `max(tx_index + 1 - D.decrement, 0)` without touching any descriptor; else `tx_index` is
`tx_index + 1`; afterwards the modulator is on if `D` is a mark, off if `D` is a space and as
before if `D` has kind unknown, the timer is running and `tx_in_progress` is unchanged. -/
theorem tx_callback_effect (s : TxPhy) (h : s.tx_index < s.fill_index)
    (hlen : s.tx_index < s.phy_descriptor.length) :
    (tc_callback_ir_tx_phy s).tc_top = (tx_slot s s.tx_index).period
      ∧ ((tx_slot s s.tx_index).repeat_cnt < (tx_slot s s.tx_index).max_repeat_cnt →
          (tc_callback_ir_tx_phy s).phy_descriptor
              = s.phy_descriptor.set s.tx_index
                  { tx_slot s s.tx_index with
                    repeat_cnt := (tx_slot s s.tx_index).repeat_cnt + 1 }
            ∧ ((tc_callback_ir_tx_phy s).tx_index : Int)
                = max ((s.tx_index : Int) + 1 - ((tx_slot s s.tx_index).decrement : Int)) 0)
      ∧ (¬ (tx_slot s s.tx_index).repeat_cnt < (tx_slot s s.tx_index).max_repeat_cnt →
          (tx_slot s s.tx_index).max_repeat_cnt = EMBX_IR_TX_PHY_REPEAT_FOREVER →
          (tc_callback_ir_tx_phy s).phy_descriptor = s.phy_descriptor
            ∧ ((tc_callback_ir_tx_phy s).tx_index : Int)
                = max ((s.tx_index : Int) + 1 - ((tx_slot s s.tx_index).decrement : Int)) 0)
      ∧ (¬ (tx_slot s s.tx_index).repeat_cnt < (tx_slot s s.tx_index).max_repeat_cnt →
          (tx_slot s s.tx_index).max_repeat_cnt ≠ EMBX_IR_TX_PHY_REPEAT_FOREVER →
          (tc_callback_ir_tx_phy s).phy_descriptor = s.phy_descriptor
            ∧ (tc_callback_ir_tx_phy s).tx_index = s.tx_index + 1)
      ∧ ((tx_slot s s.tx_index).phy_interval_type = mark →
          (tc_callback_ir_tx_phy s).modulator_on = true)
      ∧ ((tx_slot s s.tx_index).phy_interval_type = space →
          (tc_callback_ir_tx_phy s).modulator_on = false)
      ∧ ((tx_slot s s.tx_index).phy_interval_type = unknown →
          (tc_callback_ir_tx_phy s).modulator_on = s.modulator_on)
      ∧ (tc_callback_ir_tx_phy s).tc_running = true
      ∧ (tc_callback_ir_tx_phy s).fill_index = s.fill_index
      ∧ (tc_callback_ir_tx_phy s).embx_ir_tx_in_progress = s.embx_ir_tx_in_progress := by
  obtain ⟨g1, g2, g3, g4⟩ := tc_callback_gates s h hlen
  refine ⟨g1, ?_, ?_, ?_, g3, g4, tc_callback_unknown_kind s h hlen, g2, ?_, ?_⟩
  · intro hrep
    obtain ⟨a1, _, a3, _⟩ := tc_callback_rewind s h hrep hlen
    exact ⟨a1, by rw [a3]; omega⟩
  · intro hrep hfor
    obtain ⟨a1, _, a3, _⟩ := tc_callback_forever s h hrep hfor
    exact ⟨a1, by rw [a3]; omega⟩
  · intro hrep hfor
    obtain ⟨a1, _, a3, _⟩ := tc_callback_advance s h hrep hfor
    exact ⟨a1, a3⟩
  · by_cases hrep : (tx_slot s s.tx_index).repeat_cnt < (tx_slot s s.tx_index).max_repeat_cnt
    · exact (tc_callback_rewind s h hrep hlen).2.1
    · by_cases hfor : (tx_slot s s.tx_index).max_repeat_cnt = -1
      · exact (tc_callback_forever s h hrep hfor).2.1
      · exact (tc_callback_advance s h hrep hfor).2.1
  · by_cases hrep : (tx_slot s s.tx_index).repeat_cnt < (tx_slot s s.tx_index).max_repeat_cnt
    · exact (tc_callback_rewind s h hrep hlen).2.2.2
    · by_cases hfor : (tx_slot s s.tx_index).max_repeat_cnt = -1
      · exact (tc_callback_forever s h hrep hfor).2.2.2
      · exact (tc_callback_advance s h hrep hfor).2.2.2

/-- C13 (amended) on the rewind queue: the callback programs the period of slot 1, counts
one repeat and rewinds to slot 0. -/
theorem tx_callback_effect_witness :
    (tc_callback_ir_tx_phy tx_rewind_example).tc_top
        = (tx_slot tx_rewind_example tx_rewind_example.tx_index).period
      ∧ ((tc_callback_ir_tx_phy tx_rewind_example).tx_index : Int)
          = max ((tx_rewind_example.tx_index : Int) + 1
              - ((tx_slot tx_rewind_example tx_rewind_example.tx_index).decrement : Int)) 0
      ∧ (tc_callback_ir_tx_phy tx_rewind_example).tx_index = 0 :=
  have h := tx_callback_effect tx_rewind_example (by decide) (by decide)
  ⟨h.1, (h.2.1 (by decide)).2, by decide⟩

/-! ## The transition of tx_in_progress -/

/-- Lowering one summand by one lowers the sum over a range by one. -/
theorem sum_range_map_decrease (g g2 : Nat → Nat) (t : Nat) :
    ∀ f, t < f → (∀ j, j ≠ t → g2 j = g j) → g2 t + 1 = g t →
      ((List.range f).map g2).sum + 1 = ((List.range f).map g).sum := by
  intro f
  induction f with
  | zero => intro ht; omega
  | succ f ih =>
    intro ht hsame hdec
    rw [List.range_succ, List.map_append, List.map_append, List.sum_append, List.sum_append]
    simp only [List.map_cons, List.map_nil, List.sum_cons, List.sum_nil, Nat.add_zero]
    by_cases htf : t = f
    · subst htf
      have : (List.range t).map g2 = (List.range t).map g := by
        apply List.map_congr_left
        intro j hj
        rw [List.mem_range] at hj
        exact hsame j (by omega)
      rw [this]
      omega
    · have := ih (by omega) hsame hdec
      have hf := hsame f (Ne.symm htf)
      omega

/-- The callback never sets `tx_in_progress`: it keeps it when it obtains a descriptor and
clears it otherwise. -/
theorem tc_callback_in_progress (s : TxPhy) :
    (tc_callback_ir_tx_phy s).embx_ir_tx_in_progress
      = (decide (s.tx_index < s.fill_index) && s.embx_ir_tx_in_progress) := by
  by_cases h : s.tx_index < s.fill_index
  · simp only [tc_callback_ir_tx_phy, embx_ir_tx_phy_descriptor_get, h, if_true,
      embx_ir_tx_phy_decrement_tx_index_eq, tx_slot_store, decide_True, Bool.true_and]
    split <;> split <;> (try split) <;> rfl
  · rw [tc_callback_drained s h]
    simp [h]

/-- Once `tx_in_progress` is false no number of callbacks sets it again. -/
theorem tx_callbacks_stay_idle (n : Nat) : ∀ s : TxPhy,
    s.embx_ir_tx_in_progress = false →
    (tx_callbacks n s).2.embx_ir_tx_in_progress = false := by
  induction n with
  | zero => intro s h; exact h
  | succ n ih =>
    intro s h
    simp only [tx_callbacks]
    apply ih
    rw [tc_callback_in_progress, h]
    simp

/-- A callback that obtains a descriptor strictly lowers the drain measure when no queued
descriptor is marked forever, and keeps the shape of the queue. -/
theorem tc_callback_measure (s : TxPhy) (hlen : s.phy_descriptor.length = 20)
    (hf : s.fill_index ≤ 20) (h : s.tx_index < s.fill_index) (hno : TxNoForever s) :
    tx_drain_measure (tc_callback_ir_tx_phy s) < tx_drain_measure s
      ∧ (tc_callback_ir_tx_phy s).phy_descriptor.length = 20
      ∧ (tc_callback_ir_tx_phy s).fill_index = s.fill_index
      ∧ TxNoForever (tc_callback_ir_tx_phy s) := by
  by_cases hrep : (tx_slot s s.tx_index).repeat_cnt < (tx_slot s s.tx_index).max_repeat_cnt
  · obtain ⟨a1, a2, a3, _⟩ := tc_callback_rewind s h hrep (by omega)
    have hother : ∀ j, j ≠ s.tx_index → tx_slot (tc_callback_ir_tx_phy s) j = tx_slot s j :=
      fun j hj => tx_slot_of_set_other s _ _ j _ a1 hj
    have hsame := tx_slot_of_set_same s _ _ _ a1 (by omega)
    have hR : tx_repeats_left (tc_callback_ir_tx_phy s) + 1 = tx_repeats_left s := by
      unfold tx_repeats_left
      rw [a2]
      apply sum_range_map_decrease _ _ s.tx_index _ h
      · intro j hj
        simp only [hother j hj]
      · simp only [hsame]
        omega
    refine ⟨?_, by rw [a1]; simpa using hlen, a2, ?_⟩
    · unfold tx_drain_measure
      rw [← hR, a2, Nat.add_mul]
      generalize tx_repeats_left (tc_callback_ir_tx_phy s) * (s.fill_index + 1) = x
      omega
    · intro j hj
      rw [a2] at hj
      by_cases hjt : j = s.tx_index
      · rw [hjt, hsame]
        exact hno _ h
      · rw [hother j hjt]
        exact hno j hj
  · have hfor := hno _ h
    obtain ⟨a1, a2, a3, _⟩ := tc_callback_advance s h hrep hfor
    have hR : tx_repeats_left (tc_callback_ir_tx_phy s) = tx_repeats_left s := by
      unfold tx_repeats_left
      simp only [tx_slot_congr s _ a1, a2]
    refine ⟨?_, by rw [a1, hlen], a2, ?_⟩
    · unfold tx_drain_measure
      rw [hR, a2, a3]
      omega
    · intro j hj
      rw [a2] at hj
      rw [tx_slot_congr s _ a1 j]
      exact hno j hj

/-- A busy PHY whose queue holds no descriptor marked forever drains: there is a first
callback after which `tx_in_progress` is false. -/
theorem tx_callbacks_drain (m : Nat) : ∀ s : TxPhy,
    tx_drain_measure s ≤ m → s.phy_descriptor.length = 20 → s.fill_index ≤ 20 →
    TxNoForever s → s.embx_ir_tx_in_progress = true →
    ∃ n, (∀ k, k < n → (tx_callbacks k s).2.embx_ir_tx_in_progress = true)
      ∧ (tx_callbacks n s).2.embx_ir_tx_in_progress = false := by
  induction m with
  | zero =>
    intro s hm hlen hf hno hbusy
    have hdr : ¬ s.tx_index < s.fill_index := by
      unfold tx_drain_measure at hm
      omega
    refine ⟨1, ?_, ?_⟩
    · intro k hk
      have : k = 0 := by omega
      subst this
      exact hbusy
    · simp only [tx_callbacks]
      rw [tc_callback_drained s hdr]
  | succ m ih =>
    intro s hm hlen hf hno hbusy
    by_cases hlt : s.tx_index < s.fill_index
    · obtain ⟨c1, c2, c3, c4⟩ := tc_callback_measure s hlen hf hlt hno
      have hb1 : (tc_callback_ir_tx_phy s).embx_ir_tx_in_progress = true := by
        rw [tc_callback_in_progress, hbusy]
        simp [hlt]
      obtain ⟨n, hn1, hn2⟩ := ih (tc_callback_ir_tx_phy s) (by omega) c2 (by omega) c4 hb1
      refine ⟨n + 1, ?_, ?_⟩
      · intro k hk
        cases k with
        | zero => exact hbusy
        | succ k =>
          simp only [tx_callbacks]
          exact hn1 k (by omega)
      · simp only [tx_callbacks]
        exact hn2
    · refine ⟨1, ?_, ?_⟩
      · intro k hk
        have : k = 0 := by omega
        subst this
        exact hbusy
      · simp only [tx_callbacks]
        rw [tc_callback_drained s hlt]

open embx_ir_rx_buf_state_t embx_ir_rx_gpio_state_t embx_ir_rx_phy_state_t embx_ir_rx_event_t

/-! ## The capture buffers -/

/-- Reading the buffer that was just written returns the written buffer. -/
theorem rx_buf_store_same (b : RxBank) (i : Nat) (x : embx_ir_rx_buf_t)
    (h : i < b.embx_ir_rx_buf.length) : rx_buf (rx_buf_store b i x) i = x := by
  simp [rx_buf, rx_buf_store, List.getD_eq_getElem?_getD, List.getElem?_set, h]

/-- Writing one buffer leaves every other buffer as it was. -/
theorem rx_buf_store_other (b : RxBank) (i j : Nat) (x : embx_ir_rx_buf_t) (h : j ≠ i) :
    rx_buf (rx_buf_store b i x) j = rx_buf b j := by
  simp [rx_buf, rx_buf_store, List.getD_eq_getElem?_getD, List.getElem?_set, Ne.symm h]

/-- Buffers are read from the buffer array only. -/
theorem rx_buf_congr (b c : RxBank) (h : c.embx_ir_rx_buf = b.embx_ir_rx_buf) (j : Nat) :
    rx_buf c j = rx_buf b j := by
  simp [rx_buf, h]

/-- A buffer inside the array is a member of it. -/
theorem rx_buf_mem (b : RxBank) (i : Nat) (h : i < b.embx_ir_rx_buf.length) :
    rx_buf b i ∈ b.embx_ir_rx_buf := by
  simp only [rx_buf, List.getD_eq_getElem?_getD, List.getElem?_eq_getElem h, Option.getD_some]
  exact List.getElem_mem h

/-- Shape of the bank in terms of indexed reads. -/
theorem RxBankShape_iff (b : RxBank) :
    RxBankShape b ↔ b.embx_ir_rx_buf.length = 4
      ∧ ∀ i, i < 4 → (rx_buf b i).elem.length = 256 := by
  unfold RxBankShape
  constructor
  · rintro ⟨h1, h2⟩
    refine ⟨h1, fun i hi => h2 _ (rx_buf_mem b i (by rw [h1]; exact hi))⟩
  · rintro ⟨h1, h2⟩
    refine ⟨h1, ?_⟩
    intro x hx
    obtain ⟨i, hi, rfl⟩ := List.getElem_of_mem hx
    have := h2 i (by rw [← h1]; exact hi)
    simpa [rx_buf, List.getD_eq_getElem?_getD, List.getElem?_eq_getElem hi] using this

/-- The reset loop keeps the length of the element array. -/
theorem rx_reset_elems_length (elem : List embx_ir_rx_buf_elem_t) :
    (rx_reset_elems elem).length = elem.length := by
  unfold rx_reset_elems
  generalize List.range EMBX_IR_RX_BUF_SZ = l
  induction l generalizing elem with
  | nil => rfl
  | cons i l ih =>
    simp only [List.foldl_cons]
    rw [ih]
    simp

/-- What a write of buffer `i` does to the bank, read buffer by buffer. -/
theorem rx_buf_store_read (b : RxBank) (i j : Nat) (x : embx_ir_rx_buf_t)
    (h : i < b.embx_ir_rx_buf.length) :
    rx_buf (rx_buf_store b i x) j = if j = i then x else rx_buf b j := by
  by_cases hj : j = i
  · subst hj; simp [rx_buf_store_same b j x h]
  · simp [hj, rx_buf_store_other b i j x hj]

/-- Closed form of `embx_ir_rx_phy_buf_reset` on a valid index. -/
theorem embx_ir_rx_phy_buf_reset_valid (b : RxBank) (idx : Nat) (h : idx < 4)
    (hlen : b.embx_ir_rx_buf.length = 4) :
    embx_ir_rx_phy_buf_reset b idx = (STATUS_OK,
      rx_buf_store b idx
        { status := STATUS_OK, size := 0, state := EMBX_IR_RX_BUF_EMPTY,
          elem := rx_reset_elems (rx_buf b idx).elem }) := by
  have hi : idx < b.embx_ir_rx_buf.length := by omega
  simp [embx_ir_rx_phy_buf_reset, h, rx_buf, rx_buf_store, List.getD_eq_getElem?_getD,
    List.getElem?_set, hi]

/-- `embx_ir_rx_phy_buf_reset` on an index outside the bank. -/
theorem embx_ir_rx_phy_buf_reset_invalid (b : RxBank) (idx : Nat) (h : ¬ idx < 4) :
    embx_ir_rx_phy_buf_reset b idx = (STATUS_ERR_NO_MEMORY, b) := by
  simp [embx_ir_rx_phy_buf_reset, h]

/-- Closed form of `embx_ir_rx_buf_complete`. -/
theorem embx_ir_rx_buf_complete_eq (b : RxBank) (buffer_status : status_code)
    (h : b.idx_ir_rx_buf_isr < 4) (hlen : b.embx_ir_rx_buf.length = 4) :
    embx_ir_rx_buf_complete b buffer_status = (STATUS_OK,
      { rx_buf_store b b.idx_ir_rx_buf_isr
          { rx_buf b b.idx_ir_rx_buf_isr with
            state := EMBX_IR_RX_BUF_FULL, status := buffer_status } with
        idx_ir_rx_buf_isr := (b.idx_ir_rx_buf_isr + 1) % 4 }) := by
  have hi : b.idx_ir_rx_buf_isr < b.embx_ir_rx_buf.length := by omega
  have h256 : (b.idx_ir_rx_buf_isr + 1) % 256 = b.idx_ir_rx_buf_isr + 1 := by omega
  simp only [embx_ir_rx_buf_complete, rx_buf, rx_buf_store, List.getD_eq_getElem?_getD,
    List.getElem?_set, hi, h256, if_true, Option.getD_some, List.set_set,
    EMBX_IR_RX_NUMBER_OF_BUFFERS]
  by_cases h3 : b.idx_ir_rx_buf_isr + 1 = 4
  · simp [h3]
  · have : (b.idx_ir_rx_buf_isr + 1) % 4 = b.idx_ir_rx_buf_isr + 1 := by omega
    simp [h3, this]

/-- `embx_ir_rx_buf_isr_get_elem` when the current buffer is empty and has room. -/
theorem embx_ir_rx_buf_isr_get_elem_ok (b : RxBank)
    (hlen : b.idx_ir_rx_buf_isr < b.embx_ir_rx_buf.length)
    (hst : (rx_buf b b.idx_ir_rx_buf_isr).state = EMBX_IR_RX_BUF_EMPTY)
    (hsz : (rx_buf b b.idx_ir_rx_buf_isr).size < 256) :
    embx_ir_rx_buf_isr_get_elem b = (STATUS_OK,
      some (b.idx_ir_rx_buf_isr, (rx_buf b b.idx_ir_rx_buf_isr).size),
      rx_buf_store b b.idx_ir_rx_buf_isr
        { rx_buf b b.idx_ir_rx_buf_isr with
          size := (rx_buf b b.idx_ir_rx_buf_isr).size + 1, status := STATUS_OK }) := by
  have h16 : ((rx_buf b b.idx_ir_rx_buf_isr).size + 1) % 65536
      = (rx_buf b b.idx_ir_rx_buf_isr).size + 1 := by omega
  simp only [embx_ir_rx_buf_isr_get_elem, hst, hsz, if_true, EMBX_IR_RX_BUF_SZ, h16]
  simp [rx_buf, rx_buf_store, List.getD_eq_getElem?_getD, List.getElem?_set, hlen]

/-- `embx_ir_rx_buf_isr_get_elem` when the current buffer is empty and has no room. -/
theorem embx_ir_rx_buf_isr_get_elem_overflow (b : RxBank)
    (hst : (rx_buf b b.idx_ir_rx_buf_isr).state = EMBX_IR_RX_BUF_EMPTY)
    (hsz : ¬ (rx_buf b b.idx_ir_rx_buf_isr).size < 256) :
    embx_ir_rx_buf_isr_get_elem b = (STATUS_ERR_OVERFLOW, none,
      { embx_ir_rx_buf := b.embx_ir_rx_buf.set b.idx_ir_rx_buf_isr
          { rx_buf b b.idx_ir_rx_buf_isr with status := STATUS_ERR_OVERFLOW },
        embx_ir_rx_buf_err :=
          { b.embx_ir_rx_buf_err with
            overflows := (b.embx_ir_rx_buf_err.overflows + 1) % 4294967296 },
        idx_ir_rx_buf_isr := b.idx_ir_rx_buf_isr }) := by
  have hsz2 : ¬ (rx_buf b b.idx_ir_rx_buf_isr).size < EMBX_IR_RX_BUF_SZ := hsz
  unfold embx_ir_rx_buf_isr_get_elem
  rw [if_pos hst, if_neg hsz2]
  rfl

/-- `embx_ir_rx_buf_isr_get_elem` when the current buffer is not empty. -/
theorem embx_ir_rx_buf_isr_get_elem_no_memory (b : RxBank)
    (hst : (rx_buf b b.idx_ir_rx_buf_isr).state ≠ EMBX_IR_RX_BUF_EMPTY) :
    embx_ir_rx_buf_isr_get_elem b = (STATUS_ERR_NO_MEMORY, none,
      { embx_ir_rx_buf := b.embx_ir_rx_buf.set b.idx_ir_rx_buf_isr
          { rx_buf b b.idx_ir_rx_buf_isr with status := STATUS_ERR_NO_MEMORY },
        embx_ir_rx_buf_err :=
          { b.embx_ir_rx_buf_err with
            no_memory := (b.embx_ir_rx_buf_err.no_memory + 1) % 4294967296 },
        idx_ir_rx_buf_isr := b.idx_ir_rx_buf_isr }) := by
  unfold embx_ir_rx_buf_isr_get_elem
  rw [if_neg hst]
  rfl

/-! ## Acquire and complete -/

/-- C18: for every bank state with `idx_isr < 4` (four buffers, the current one holding at
most 256 elements), acquire_elem behaves as follows: if the current buffer is not empty it
returns no_memory and increments the no_memory counter by one; else if the current buffer's
size is 256 it returns overflow and increments the overflows counter by one; otherwise it
returns ok, yields the slot `elem[size]` of the current buffer and increments size by one.
The counters are `uint32_t`, so the increments are modulo `2^32`.  In all three cases the
returned status is stored in the current buffer's status field and every element, every
other field of the current buffer and every other buffer are unchanged; in the two failing
cases no element is yielded and every size is unchanged. -/
theorem rx_get_elem_effect (b : RxBank) (hidx : b.idx_ir_rx_buf_isr < 4)
    (hlen : b.embx_ir_rx_buf.length = 4)
    (hsize : (rx_buf b b.idx_ir_rx_buf_isr).size ≤ EMBX_IR_RX_BUF_SZ) :
    ((rx_buf b b.idx_ir_rx_buf_isr).state ≠ EMBX_IR_RX_BUF_EMPTY →
        (embx_ir_rx_buf_isr_get_elem b).1 = STATUS_ERR_NO_MEMORY
          ∧ (embx_ir_rx_buf_isr_get_elem b).2.1 = none
          ∧ (embx_ir_rx_buf_isr_get_elem b).2.2.embx_ir_rx_buf_err.no_memory
              = (b.embx_ir_rx_buf_err.no_memory + 1) % 4294967296
          ∧ (embx_ir_rx_buf_isr_get_elem b).2.2.embx_ir_rx_buf_err.overflows
              = b.embx_ir_rx_buf_err.overflows
          ∧ (rx_buf (embx_ir_rx_buf_isr_get_elem b).2.2 b.idx_ir_rx_buf_isr).size
              = (rx_buf b b.idx_ir_rx_buf_isr).size)
      ∧ ((rx_buf b b.idx_ir_rx_buf_isr).state = EMBX_IR_RX_BUF_EMPTY →
          (rx_buf b b.idx_ir_rx_buf_isr).size = 256 →
          (embx_ir_rx_buf_isr_get_elem b).1 = STATUS_ERR_OVERFLOW
            ∧ (embx_ir_rx_buf_isr_get_elem b).2.1 = none
            ∧ (embx_ir_rx_buf_isr_get_elem b).2.2.embx_ir_rx_buf_err.overflows
                = (b.embx_ir_rx_buf_err.overflows + 1) % 4294967296
            ∧ (embx_ir_rx_buf_isr_get_elem b).2.2.embx_ir_rx_buf_err.no_memory
                = b.embx_ir_rx_buf_err.no_memory
            ∧ (rx_buf (embx_ir_rx_buf_isr_get_elem b).2.2 b.idx_ir_rx_buf_isr).size
                = (rx_buf b b.idx_ir_rx_buf_isr).size)
      ∧ ((rx_buf b b.idx_ir_rx_buf_isr).state = EMBX_IR_RX_BUF_EMPTY →
          (rx_buf b b.idx_ir_rx_buf_isr).size ≠ 256 →
          (embx_ir_rx_buf_isr_get_elem b).1 = STATUS_OK
            ∧ (embx_ir_rx_buf_isr_get_elem b).2.1
                = some (b.idx_ir_rx_buf_isr, (rx_buf b b.idx_ir_rx_buf_isr).size)
            ∧ (rx_buf (embx_ir_rx_buf_isr_get_elem b).2.2 b.idx_ir_rx_buf_isr).size
                = (rx_buf b b.idx_ir_rx_buf_isr).size + 1
            ∧ (embx_ir_rx_buf_isr_get_elem b).2.2.embx_ir_rx_buf_err = b.embx_ir_rx_buf_err)
      ∧ (rx_buf (embx_ir_rx_buf_isr_get_elem b).2.2 b.idx_ir_rx_buf_isr).status
          = (embx_ir_rx_buf_isr_get_elem b).1
      ∧ (rx_buf (embx_ir_rx_buf_isr_get_elem b).2.2 b.idx_ir_rx_buf_isr).state
          = (rx_buf b b.idx_ir_rx_buf_isr).state
      ∧ (rx_buf (embx_ir_rx_buf_isr_get_elem b).2.2 b.idx_ir_rx_buf_isr).elem
          = (rx_buf b b.idx_ir_rx_buf_isr).elem
      ∧ (∀ j, j ≠ b.idx_ir_rx_buf_isr →
          rx_buf (embx_ir_rx_buf_isr_get_elem b).2.2 j = rx_buf b j)
      ∧ (embx_ir_rx_buf_isr_get_elem b).2.2.idx_ir_rx_buf_isr = b.idx_ir_rx_buf_isr := by
  simp only [EMBX_IR_RX_BUF_SZ] at hsize
  have hi : b.idx_ir_rx_buf_isr < b.embx_ir_rx_buf.length := by omega
  by_cases hst : (rx_buf b b.idx_ir_rx_buf_isr).state = EMBX_IR_RX_BUF_EMPTY
  · by_cases hsz : (rx_buf b b.idx_ir_rx_buf_isr).size < 256
    · rw [embx_ir_rx_buf_isr_get_elem_ok b hi hst hsz]
      refine ⟨fun h => absurd hst h, fun _ h => absurd h (by omega), fun _ _ => ?_, ?_, ?_, ?_,
        ?_, rfl⟩
      · exact ⟨rfl, rfl, by rw [rx_buf_store_same b _ _ hi], rfl⟩
      · rw [rx_buf_store_same b _ _ hi]
      · rw [rx_buf_store_same b _ _ hi]
      · rw [rx_buf_store_same b _ _ hi]
      · intro j hj
        exact rx_buf_store_other b _ j _ hj
    · rw [embx_ir_rx_buf_isr_get_elem_overflow b hst hsz]
      have hrd : ∀ j x, rx_buf
          { embx_ir_rx_buf := b.embx_ir_rx_buf.set b.idx_ir_rx_buf_isr x,
            embx_ir_rx_buf_err :=
              { b.embx_ir_rx_buf_err with
                overflows := (b.embx_ir_rx_buf_err.overflows + 1) % 4294967296 },
            idx_ir_rx_buf_isr := b.idx_ir_rx_buf_isr } j
          = rx_buf (rx_buf_store b b.idx_ir_rx_buf_isr x) j := fun _ _ => rfl
      refine ⟨fun h => absurd hst h, fun _ _ => ?_, fun _ h => absurd h (by omega), ?_, ?_, ?_,
        ?_, rfl⟩
      · exact ⟨rfl, rfl, rfl, rfl, by rw [hrd, rx_buf_store_same b _ _ hi]⟩
      · rw [hrd, rx_buf_store_same b _ _ hi]
      · rw [hrd, rx_buf_store_same b _ _ hi]
      · rw [hrd, rx_buf_store_same b _ _ hi]
      · intro j hj
        rw [hrd]
        exact rx_buf_store_other b _ j _ hj
  · rw [embx_ir_rx_buf_isr_get_elem_no_memory b hst]
    have hrd : ∀ j x, rx_buf
        { embx_ir_rx_buf := b.embx_ir_rx_buf.set b.idx_ir_rx_buf_isr x,
          embx_ir_rx_buf_err :=
            { b.embx_ir_rx_buf_err with
              no_memory := (b.embx_ir_rx_buf_err.no_memory + 1) % 4294967296 },
          idx_ir_rx_buf_isr := b.idx_ir_rx_buf_isr } j
        = rx_buf (rx_buf_store b b.idx_ir_rx_buf_isr x) j := fun _ _ => rfl
    refine ⟨fun _ => ?_, fun h => absurd h hst, fun h => absurd h hst, ?_, ?_, ?_, ?_, rfl⟩
    · exact ⟨rfl, rfl, rfl, rfl, by rw [hrd, rx_buf_store_same b _ _ hi]⟩
    · rw [hrd, rx_buf_store_same b _ _ hi]
    · rw [hrd, rx_buf_store_same b _ _ hi]
    · rw [hrd, rx_buf_store_same b _ _ hi]
    · intro j hj
      rw [hrd]
      exact rx_buf_store_other b _ j _ hj

/-- C18 on the fresh bank: the first acquire yields element 0 of buffer 0. -/
theorem rx_get_elem_effect_witness :
    (embx_ir_rx_buf_isr_get_elem rx_bank_fresh).1 = STATUS_OK
      ∧ (embx_ir_rx_buf_isr_get_elem rx_bank_fresh).2.1
          = some (rx_bank_fresh.idx_ir_rx_buf_isr,
              (rx_buf rx_bank_fresh rx_bank_fresh.idx_ir_rx_buf_isr).size)
      ∧ (rx_buf (embx_ir_rx_buf_isr_get_elem rx_bank_fresh).2.2
          rx_bank_fresh.idx_ir_rx_buf_isr).size
          = (rx_buf rx_bank_fresh rx_bank_fresh.idx_ir_rx_buf_isr).size + 1
      ∧ (embx_ir_rx_buf_isr_get_elem rx_bank_fresh).2.2.embx_ir_rx_buf_err
          = rx_bank_fresh.embx_ir_rx_buf_err :=
  (rx_get_elem_effect rx_bank_fresh (by decide!) (by decide!) (by decide!)).2.2.1
    (by decide!) (by decide!)

/-- C19: for every bank state with `idx_isr < 4` (and four buffers) and every status `s`,
`complete(s)` returns ok, sets the current buffer's state to full and its status to `s`,
leaves its size and elements, all other buffers and the error counters unchanged, and sets
`idx_isr` to `(idx_isr + 1) mod 4`. -/
theorem rx_complete_effect (b : RxBank) (buffer_status : status_code)
    (hidx : b.idx_ir_rx_buf_isr < EMBX_IR_RX_NUMBER_OF_BUFFERS)
    (hlen : b.embx_ir_rx_buf.length = EMBX_IR_RX_NUMBER_OF_BUFFERS) :
    (embx_ir_rx_buf_complete b buffer_status).1 = STATUS_OK
      ∧ (rx_buf (embx_ir_rx_buf_complete b buffer_status).2 b.idx_ir_rx_buf_isr).state
          = EMBX_IR_RX_BUF_FULL
      ∧ (rx_buf (embx_ir_rx_buf_complete b buffer_status).2 b.idx_ir_rx_buf_isr).status
          = buffer_status
      ∧ (rx_buf (embx_ir_rx_buf_complete b buffer_status).2 b.idx_ir_rx_buf_isr).size
          = (rx_buf b b.idx_ir_rx_buf_isr).size
      ∧ (rx_buf (embx_ir_rx_buf_complete b buffer_status).2 b.idx_ir_rx_buf_isr).elem
          = (rx_buf b b.idx_ir_rx_buf_isr).elem
      ∧ (∀ j, j ≠ b.idx_ir_rx_buf_isr →
          rx_buf (embx_ir_rx_buf_complete b buffer_status).2 j = rx_buf b j)
      ∧ (embx_ir_rx_buf_complete b buffer_status).2.idx_ir_rx_buf_isr
          = (b.idx_ir_rx_buf_isr + 1) % 4
      ∧ (embx_ir_rx_buf_complete b buffer_status).2.embx_ir_rx_buf_err
          = b.embx_ir_rx_buf_err := by
  simp only [EMBX_IR_RX_NUMBER_OF_BUFFERS] at hidx hlen
  have hi : b.idx_ir_rx_buf_isr < b.embx_ir_rx_buf.length := by omega
  rw [embx_ir_rx_buf_complete_eq b buffer_status hidx hlen]
  have hrd : ∀ j x, rx_buf
      { rx_buf_store b b.idx_ir_rx_buf_isr x with
        idx_ir_rx_buf_isr := (b.idx_ir_rx_buf_isr + 1) % 4 } j
      = rx_buf (rx_buf_store b b.idx_ir_rx_buf_isr x) j := fun _ _ => rfl
  refine ⟨rfl, ?_, ?_, ?_, ?_, ?_, rfl, rfl⟩
  · rw [hrd, rx_buf_store_same b _ _ hi]
  · rw [hrd, rx_buf_store_same b _ _ hi]
  · rw [hrd, rx_buf_store_same b _ _ hi]
  · rw [hrd, rx_buf_store_same b _ _ hi]
  · intro j hj
    rw [hrd]
    exact rx_buf_store_other b _ j _ hj

/-- C19 on the fresh bank: completing buffer 0 with status timeout. -/
theorem rx_complete_effect_witness :
    (embx_ir_rx_buf_complete rx_bank_fresh STATUS_ERR_TIMEOUT).1 = STATUS_OK
      ∧ (rx_buf (embx_ir_rx_buf_complete rx_bank_fresh STATUS_ERR_TIMEOUT).2
          rx_bank_fresh.idx_ir_rx_buf_isr).state = EMBX_IR_RX_BUF_FULL
      ∧ (rx_buf (embx_ir_rx_buf_complete rx_bank_fresh STATUS_ERR_TIMEOUT).2
          rx_bank_fresh.idx_ir_rx_buf_isr).status = STATUS_ERR_TIMEOUT :=
  have h := rx_complete_effect rx_bank_fresh STATUS_ERR_TIMEOUT (by decide!) (by decide!)
  ⟨h.1, h.2.1, h.2.2.1⟩

/-! ## Init and the ring of buffers -/

/-- What a reset of a valid index does, read buffer by buffer. -/
theorem embx_ir_rx_phy_buf_reset_read (b : RxBank) (idx : Nat) (h : idx < 4)
    (hlen : b.embx_ir_rx_buf.length = 4) :
    (embx_ir_rx_phy_buf_reset b idx).1 = STATUS_OK
      ∧ (embx_ir_rx_phy_buf_reset b idx).2.embx_ir_rx_buf.length = 4
      ∧ (embx_ir_rx_phy_buf_reset b idx).2.idx_ir_rx_buf_isr = b.idx_ir_rx_buf_isr
      ∧ (embx_ir_rx_phy_buf_reset b idx).2.embx_ir_rx_buf_err = b.embx_ir_rx_buf_err
      ∧ rx_buf (embx_ir_rx_phy_buf_reset b idx).2 idx
          = { status := STATUS_OK, size := 0, state := EMBX_IR_RX_BUF_EMPTY,
              elem := rx_reset_elems (rx_buf b idx).elem }
      ∧ ∀ j, j ≠ idx → rx_buf (embx_ir_rx_phy_buf_reset b idx).2 j = rx_buf b j := by
  rw [embx_ir_rx_phy_buf_reset_valid b idx h hlen]
  refine ⟨rfl, by simp [rx_buf_store, hlen], rfl, rfl, ?_, ?_⟩
  · exact rx_buf_store_same b idx _ (by omega)
  · intro j hj
    exact rx_buf_store_other b idx j _ hj

/-- The loop of `embx_ir_rx_phy_buf_init` resets buffers 0, 1, 2 and 3 and leaves when the
reset of index 4 fails, whatever fuel of at least 5 iterations it is given. -/
theorem embx_ir_rx_phy_buf_init_loop_eq (fuel : Nat) (b : RxBank)
    (hlen : b.embx_ir_rx_buf.length = 4) :
    embx_ir_rx_phy_buf_init_loop (fuel + 5) 0 b
      = (embx_ir_rx_phy_buf_reset (embx_ir_rx_phy_buf_reset (embx_ir_rx_phy_buf_reset
          (embx_ir_rx_phy_buf_reset b 0).2 1).2 2).2 3).2 := by
  obtain ⟨a1, a2, _⟩ := embx_ir_rx_phy_buf_reset_read b 0 (by omega) hlen
  obtain ⟨b1, b2, _⟩ := embx_ir_rx_phy_buf_reset_read _ 1 (by omega) a2
  obtain ⟨c1, c2, _⟩ := embx_ir_rx_phy_buf_reset_read _ 2 (by omega) b2
  obtain ⟨d1, d2, _⟩ := embx_ir_rx_phy_buf_reset_read _ 3 (by omega) c2
  have e1 := embx_ir_rx_phy_buf_reset_invalid
    (embx_ir_rx_phy_buf_reset (embx_ir_rx_phy_buf_reset (embx_ir_rx_phy_buf_reset
      (embx_ir_rx_phy_buf_reset b 0).2 1).2 2).2 3).2 4 (by omega)
  rw [show fuel + 5 = (((((fuel + 1) + 1) + 1) + 1) + 1) by rfl]
  simp only [embx_ir_rx_phy_buf_init_loop, a1, b1, c1, d1, e1, ne_eq, not_true_eq_false,
    if_false, Nat.zero_add, Nat.reduceAdd, Nat.reduceMod]
  simp

/-- The bank that `embx_ir_rx_phy_buf_init` leaves: four buffers, index 0, counters 0, and
every buffer empty with status ok, size 0 and its elements run through the reset loop. -/
theorem embx_ir_rx_phy_buf_init_read (b : RxBank) (hlen : b.embx_ir_rx_buf.length = 4) :
    (embx_ir_rx_phy_buf_init b).embx_ir_rx_buf.length = 4
      ∧ (embx_ir_rx_phy_buf_init b).idx_ir_rx_buf_isr = 0
      ∧ (embx_ir_rx_phy_buf_init b).embx_ir_rx_buf_err = { overflows := 0, no_memory := 0 }
      ∧ ∀ j, j < 4 → rx_buf (embx_ir_rx_phy_buf_init b) j
          = { status := STATUS_OK, size := 0, state := EMBX_IR_RX_BUF_EMPTY,
              elem := rx_reset_elems (rx_buf b j).elem } := by
  obtain ⟨_, a2, _, _, a5, a6⟩ := embx_ir_rx_phy_buf_reset_read b 0 (by omega) hlen
  obtain ⟨_, b2, _, _, b5, b6⟩ := embx_ir_rx_phy_buf_reset_read _ 1 (by omega) a2
  obtain ⟨_, c2, _, _, c5, c6⟩ := embx_ir_rx_phy_buf_reset_read _ 2 (by omega) b2
  obtain ⟨_, d2, _, _, d5, d6⟩ := embx_ir_rx_phy_buf_reset_read _ 3 (by omega) c2
  have hloop := embx_ir_rx_phy_buf_init_loop_eq 251 b hlen
  have hrd : ∀ j, rx_buf (embx_ir_rx_phy_buf_init b) j
      = rx_buf (embx_ir_rx_phy_buf_reset (embx_ir_rx_phy_buf_reset (embx_ir_rx_phy_buf_reset
          (embx_ir_rx_phy_buf_reset b 0).2 1).2 2).2 3).2 j := by
    intro j
    simp only [embx_ir_rx_phy_buf_init, embx_ir_rx_phy_buf_reset_stats, rx_buf]
    rw [show (256 : Nat) = 251 + 5 by rfl, hloop]
  refine ⟨?_, rfl, rfl, ?_⟩
  · simp only [embx_ir_rx_phy_buf_init, embx_ir_rx_phy_buf_reset_stats]
    rw [show (256 : Nat) = 251 + 5 by rfl, hloop]
    exact d2
  · intro j hj
    rw [hrd]
    have hcases : j = 0 ∨ j = 1 ∨ j = 2 ∨ j = 3 := by omega
    rcases hcases with h | h | h | h <;> subst h
    · rw [d6 0 (by omega), c6 0 (by omega), b6 0 (by omega), a5]
    · rw [d6 1 (by omega), c6 1 (by omega), b5, a6 1 (by omega)]
    · rw [d6 2 (by omega), c5, b6 2 (by omega), a6 2 (by omega)]
    · rw [d5, c6 3 (by omega), b6 3 (by omega), a6 3 (by omega)]

/-- What acquire_elem does to the bank, read buffer by buffer: it keeps the shape and the
index, and changes at most the status and the size of the current buffer. -/
theorem embx_ir_rx_buf_isr_get_elem_read (b : RxBank)
    (hlen : b.idx_ir_rx_buf_isr < b.embx_ir_rx_buf.length) :
    (embx_ir_rx_buf_isr_get_elem b).2.2.embx_ir_rx_buf.length = b.embx_ir_rx_buf.length
      ∧ (embx_ir_rx_buf_isr_get_elem b).2.2.idx_ir_rx_buf_isr = b.idx_ir_rx_buf_isr
      ∧ (∀ j, (rx_buf (embx_ir_rx_buf_isr_get_elem b).2.2 j).state = (rx_buf b j).state)
      ∧ (∀ j, (rx_buf (embx_ir_rx_buf_isr_get_elem b).2.2 j).elem = (rx_buf b j).elem)
      ∧ (∀ j, j ≠ b.idx_ir_rx_buf_isr →
          rx_buf (embx_ir_rx_buf_isr_get_elem b).2.2 j = rx_buf b j)
      ∧ (rx_buf (embx_ir_rx_buf_isr_get_elem b).2.2 b.idx_ir_rx_buf_isr).size
          = (if (embx_ir_rx_buf_isr_get_elem b).1 = STATUS_OK
              then (rx_buf b b.idx_ir_rx_buf_isr).size + 1
              else (rx_buf b b.idx_ir_rx_buf_isr).size) := by
  have hrd : ∀ (x : embx_ir_rx_buf_t) (e : embx_ir_rx_buf_err_t) (j : Nat), rx_buf
      { embx_ir_rx_buf := b.embx_ir_rx_buf.set b.idx_ir_rx_buf_isr x,
        embx_ir_rx_buf_err := e, idx_ir_rx_buf_isr := b.idx_ir_rx_buf_isr } j
      = if j = b.idx_ir_rx_buf_isr then x else rx_buf b j := by
    intro x e j
    exact rx_buf_store_read b b.idx_ir_rx_buf_isr j x hlen
  by_cases hst : (rx_buf b b.idx_ir_rx_buf_isr).state = EMBX_IR_RX_BUF_EMPTY
  · by_cases hsz : (rx_buf b b.idx_ir_rx_buf_isr).size < 256
    · rw [embx_ir_rx_buf_isr_get_elem_ok b hlen hst hsz]
      refine ⟨by simp [rx_buf_store], rfl, ?_, ?_, ?_, ?_⟩
      · intro j
        rw [rx_buf_store_read b _ j _ hlen]
        split
        · next h => rw [h]
        · rfl
      · intro j
        rw [rx_buf_store_read b _ j _ hlen]
        split
        · next h => rw [h]
        · rfl
      · intro j hj
        rw [rx_buf_store_read b _ j _ hlen, if_neg hj]
      · rw [rx_buf_store_same b _ _ hlen]
        simp
    · rw [embx_ir_rx_buf_isr_get_elem_overflow b hst hsz]
      refine ⟨by simp, rfl, ?_, ?_, ?_, ?_⟩
      · intro j
        rw [hrd]
        split
        · next h => rw [h]
        · rfl
      · intro j
        rw [hrd]
        split
        · next h => rw [h]
        · rfl
      · intro j hj
        rw [hrd, if_neg hj]
      · rw [hrd]
        simp
  · rw [embx_ir_rx_buf_isr_get_elem_no_memory b hst]
    refine ⟨by simp, rfl, ?_, ?_, ?_, ?_⟩
    · intro j
      rw [hrd]
      split
      · next h => rw [h]
      · rfl
    · intro j
      rw [hrd]
      split
      · next h => rw [h]
      · rfl
    · intro j hj
      rw [hrd, if_neg hj]
    · rw [hrd]
      simp

/-- What complete does to the bank, read buffer by buffer. -/
theorem embx_ir_rx_buf_complete_read (b : RxBank) (buffer_status : status_code)
    (hidx : b.idx_ir_rx_buf_isr < 4) (hlen : b.embx_ir_rx_buf.length = 4) :
    (embx_ir_rx_buf_complete b buffer_status).1 = STATUS_OK
      ∧ (embx_ir_rx_buf_complete b buffer_status).2.embx_ir_rx_buf.length = 4
      ∧ (embx_ir_rx_buf_complete b buffer_status).2.idx_ir_rx_buf_isr
          = (b.idx_ir_rx_buf_isr + 1) % 4
      ∧ (embx_ir_rx_buf_complete b buffer_status).2.embx_ir_rx_buf_err = b.embx_ir_rx_buf_err
      ∧ rx_buf (embx_ir_rx_buf_complete b buffer_status).2 b.idx_ir_rx_buf_isr
          = { rx_buf b b.idx_ir_rx_buf_isr with
              state := EMBX_IR_RX_BUF_FULL, status := buffer_status }
      ∧ ∀ j, j ≠ b.idx_ir_rx_buf_isr →
          rx_buf (embx_ir_rx_buf_complete b buffer_status).2 j = rx_buf b j := by
  rw [embx_ir_rx_buf_complete_eq b buffer_status hidx hlen]
  have hrd : ∀ j x, rx_buf
      { rx_buf_store b b.idx_ir_rx_buf_isr x with
        idx_ir_rx_buf_isr := (b.idx_ir_rx_buf_isr + 1) % 4 } j
      = rx_buf (rx_buf_store b b.idx_ir_rx_buf_isr x) j := fun _ _ => rfl
  refine ⟨rfl, by simp [rx_buf_store, hlen], rfl, rfl, ?_, ?_⟩
  · rw [hrd, rx_buf_store_same b _ _ (by omega)]
  · intro j hj
    rw [hrd]
    exact rx_buf_store_other b _ j _ hj

/-- Acquire_elem returns no_memory exactly when the current buffer is full. -/
theorem embx_ir_rx_buf_isr_get_elem_no_memory_iff (b : RxBank) :
    (embx_ir_rx_buf_isr_get_elem b).1 = STATUS_ERR_NO_MEMORY
      ↔ (rx_buf b b.idx_ir_rx_buf_isr).state = EMBX_IR_RX_BUF_FULL := by
  unfold embx_ir_rx_buf_isr_get_elem
  cases hst : (rx_buf b b.idx_ir_rx_buf_isr).state with
  | EMBX_IR_RX_BUF_EMPTY =>
    simp only [if_true]
    split <;> simp
  | EMBX_IR_RX_BUF_FULL => simp

/-- Without foreground resets the ring fills in order. -/
theorem RxBankIsrReachable_filling (b : RxBank) (h : RxBankIsrReachable b) :
    RxRingFilling b := by
  induction h with
  | init b hshape =>
    obtain ⟨i1, i2, _, i4⟩ := embx_ir_rx_phy_buf_init_read b hshape.1
    refine ⟨i1, by omega, Or.inl ?_⟩
    intro j hj
    rw [i2, i4 j hj]
    exact ⟨fun hc => absurd hc (by omega), fun _ => rfl⟩
  | get_elem b _ ih =>
    obtain ⟨h1, h2, h3⟩ := ih
    obtain ⟨g1, g2, g3, _⟩ := embx_ir_rx_buf_isr_get_elem_read b (by omega)
    refine ⟨by rw [g1, h1], by rw [g2]; exact h2, ?_⟩
    simp only [g2, g3]
    exact h3
  | complete b st _ ih =>
    obtain ⟨h1, h2, h3⟩ := ih
    obtain ⟨_, c2, c3, _, c5, c6⟩ := embx_ir_rx_buf_complete_read b st h2 h1
    have hst : ∀ j, (rx_buf (embx_ir_rx_buf_complete b st).2 j).state
        = if j = b.idx_ir_rx_buf_isr then EMBX_IR_RX_BUF_FULL else (rx_buf b j).state := by
      intro j
      by_cases hj : j = b.idx_ir_rx_buf_isr
      · rw [hj, c5]; simp
      · rw [c6 j hj]; simp [hj]
    refine ⟨c2, by rw [c3]; omega, ?_⟩
    rcases h3 with h3 | h3
    · by_cases h4 : b.idx_ir_rx_buf_isr = 3
      · right
        intro j hj
        rw [hst]
        split
        · rfl
        · exact (h3 j hj).1 (by omega)
      · left
        intro j hj
        rw [hst, c3, show (b.idx_ir_rx_buf_isr + 1) % 4 = b.idx_ir_rx_buf_isr + 1 by omega]
        refine ⟨fun hlt => ?_, fun hle => ?_⟩
        · split
          · rfl
          · exact (h3 j hj).1 (by omega)
        · rw [if_neg (by omega)]
          exact (h3 j hj).2 (by omega)
    · right
      intro j hj
      rw [hst]
      split
      · rfl
      · exact h3 j hj

/-- C20, as stated, fails once the foreground resets a buffer other than the current one:
after init, four completes and `reset(1)`, acquire_elem returns no_memory although buffer 1
is empty. -/
theorem rx_no_memory_counterexample :
    RxBankReachable rx_bank_one_drained
      ∧ (embx_ir_rx_buf_isr_get_elem rx_bank_one_drained).1 = STATUS_ERR_NO_MEMORY
      ∧ (rx_buf rx_bank_one_drained 1).state = EMBX_IR_RX_BUF_EMPTY :=
  ⟨RxBankReachable.reset _ 1 (RxBankReachable.complete _ _ (RxBankReachable.complete _ _
      (RxBankReachable.complete _ _ (RxBankReachable.complete _ _
        (RxBankReachable.init rx_bank_power_up (by unfold RxBankShape; decide!)))))),
    by decide!, by decide!⟩

/-- C20 (amended): acquire_elem returns no_memory exactly when the current buffer, the one
at `idx_isr`, is full; and in every bank state reachable from init by acquire_elem and
complete calls alone (no foreground reset in between) this happens only when all four
buffers are full. -/
theorem rx_no_memory_iff_current_full (b : RxBank) (h : RxBankIsrReachable b) :
    ((embx_ir_rx_buf_isr_get_elem b).1 = STATUS_ERR_NO_MEMORY
        ↔ (rx_buf b b.idx_ir_rx_buf_isr).state = EMBX_IR_RX_BUF_FULL)
      ∧ ((embx_ir_rx_buf_isr_get_elem b).1 = STATUS_ERR_NO_MEMORY →
          ∀ j, j < EMBX_IR_RX_NUMBER_OF_BUFFERS → (rx_buf b j).state = EMBX_IR_RX_BUF_FULL) := by
  refine ⟨embx_ir_rx_buf_isr_get_elem_no_memory_iff b, ?_⟩
  intro hnm j hj
  rw [embx_ir_rx_buf_isr_get_elem_no_memory_iff] at hnm
  obtain ⟨_, h2, h3⟩ := RxBankIsrReachable_filling b h
  rcases h3 with h3 | h3
  · have := (h3 b.idx_ir_rx_buf_isr h2).2 (Nat.le_refl _)
    rw [this] at hnm
    exact absurd hnm (by decide)
  · exact h3 j hj

/-- C20 (amended) on the bank whose four buffers were completed without being drained:
acquire_elem returns no_memory there. -/
theorem rx_no_memory_iff_current_full_witness :
    (((embx_ir_rx_buf_isr_get_elem rx_bank_all_full).1 = STATUS_ERR_NO_MEMORY
        ↔ (rx_buf rx_bank_all_full rx_bank_all_full.idx_ir_rx_buf_isr).state
            = EMBX_IR_RX_BUF_FULL)
      ∧ ((embx_ir_rx_buf_isr_get_elem rx_bank_all_full).1 = STATUS_ERR_NO_MEMORY →
          ∀ j, j < EMBX_IR_RX_NUMBER_OF_BUFFERS →
            (rx_buf rx_bank_all_full j).state = EMBX_IR_RX_BUF_FULL))
    ∧ (embx_ir_rx_buf_isr_get_elem rx_bank_all_full).1 = STATUS_ERR_NO_MEMORY :=
  ⟨rx_no_memory_iff_current_full rx_bank_all_full
    (RxBankIsrReachable.complete _ _ (RxBankIsrReachable.complete _ _
      (RxBankIsrReachable.complete _ _ (RxBankIsrReachable.complete _ _
        (RxBankIsrReachable.init rx_bank_power_up (by unfold RxBankShape; decide!)))))),
   by decide!⟩

/-! ## The receive state machine -/

/-- `embx_ir_rx_buf_complete` returns ok, always. -/
theorem embx_ir_rx_buf_complete_fst (b : RxBank) (buffer_status : status_code) :
    (embx_ir_rx_buf_complete b buffer_status).1 = STATUS_OK := rfl

/-- `handle_rx_complete` completes the current buffer and goes to IDLE. -/
theorem handle_rx_complete_eq (cfg : RxPhyConfig) (s : RxPhy) (buffer_status : status_code) :
    handle_rx_complete cfg s buffer_status
      = { s with bank := (embx_ir_rx_buf_complete s.bank buffer_status).2,
                 embx_ir_rx_phy_state := EMBX_IR_RX_PHY_STATE_IDLE } := by
  simp [handle_rx_complete, embx_ir_rx_buf_complete_fst]

/-- `handle_overflow` completes the current buffer with status overflow and goes to IDLE. -/
theorem handle_overflow_eq (cfg : RxPhyConfig) (s : RxPhy) :
    handle_overflow cfg s
      = { s with bank := (embx_ir_rx_buf_complete s.bank STATUS_ERR_OVERFLOW).2,
                 embx_ir_rx_phy_state := EMBX_IR_RX_PHY_STATE_IDLE } := by
  simp [handle_overflow, embx_ir_rx_buf_complete_fst]

/-- Closed form of `handle_resync`. -/
theorem handle_resync_eq (cfg : RxPhyConfig) (s : RxPhy) :
    handle_resync cfg s
      = { s with embx_ir_rx_phy_state := EMBX_IR_RX_PHY_STATE_SYNCRONIZE,
                 tc_compare := cfg.EMBX_IR_RX_PHY_SYNC_DELAY, tc_running := true,
                 embx_ir_rx_phy_stats :=
                   { s.embx_ir_rx_phy_stats with
                     resyncs := (s.embx_ir_rx_phy_stats.resyncs + 1) % 4294967296 } } := by
  simp [handle_resync, embx_ir_rx_phy_restart_timer]

/-- `handle_received_mark` when an element is acquired. -/
theorem handle_received_mark_ok (cfg : RxPhyConfig) (s : RxPhy) (count : Nat)
    (hlen : s.bank.idx_ir_rx_buf_isr < s.bank.embx_ir_rx_buf.length)
    (hst : (rx_buf s.bank s.bank.idx_ir_rx_buf_isr).state = EMBX_IR_RX_BUF_EMPTY)
    (hsz : (rx_buf s.bank s.bank.idx_ir_rx_buf_isr).size < 256) :
    handle_received_mark cfg s count = (STATUS_OK,
      { s with
        bank := rx_elem_record (embx_ir_rx_buf_isr_get_elem s.bank).2.2
          (s.bank.idx_ir_rx_buf_isr, (rx_buf s.bank s.bank.idx_ir_rx_buf_isr).size)
          EMBX_IR_RX_GPIO_STATE_MARK
          (count + cfg.EMBX_IR_RX_PHY_MARK_DELAY * s.embx_ir_rx_phy_timer_overflow.mark),
        tc_compare := cfg.EMBX_IR_RX_PHY_SPACE_DELAY, tc_running := true,
        embx_ir_rx_phy_state := EMBX_IR_RX_PHY_STATE_SPACING }) := by
  unfold handle_received_mark
  rw [embx_ir_rx_buf_isr_get_elem_ok s.bank hlen hst hsz]
  rfl

/-- `handle_received_mark` when the current buffer has no element left. -/
theorem handle_received_mark_overflow (cfg : RxPhyConfig) (s : RxPhy) (count : Nat)
    (hst : (rx_buf s.bank s.bank.idx_ir_rx_buf_isr).state = EMBX_IR_RX_BUF_EMPTY)
    (hsz : ¬ (rx_buf s.bank s.bank.idx_ir_rx_buf_isr).size < 256) :
    handle_received_mark cfg s count = (STATUS_ERR_OVERFLOW,
      { s with
        bank := (embx_ir_rx_buf_complete (embx_ir_rx_buf_isr_get_elem s.bank).2.2
          STATUS_ERR_OVERFLOW).2,
        embx_ir_rx_phy_state := EMBX_IR_RX_PHY_STATE_IDLE }) := by
  unfold handle_received_mark
  rw [embx_ir_rx_buf_isr_get_elem_overflow s.bank hst hsz]
  simp only [handle_overflow_eq]

/-- `handle_received_mark` when the current buffer is full. -/
theorem handle_received_mark_no_memory (cfg : RxPhyConfig) (s : RxPhy) (count : Nat)
    (hst : (rx_buf s.bank s.bank.idx_ir_rx_buf_isr).state ≠ EMBX_IR_RX_BUF_EMPTY) :
    handle_received_mark cfg s count = (STATUS_ERR_NO_MEMORY,
      handle_resync cfg { s with bank := (embx_ir_rx_buf_isr_get_elem s.bank).2.2 }) := by
  unfold handle_received_mark
  rw [embx_ir_rx_buf_isr_get_elem_no_memory s.bank hst]

/-- `handle_received_space` when an element is acquired. -/
theorem handle_received_space_ok (cfg : RxPhyConfig) (s : RxPhy) (count : Nat)
    (hlen : s.bank.idx_ir_rx_buf_isr < s.bank.embx_ir_rx_buf.length)
    (hst : (rx_buf s.bank s.bank.idx_ir_rx_buf_isr).state = EMBX_IR_RX_BUF_EMPTY)
    (hsz : (rx_buf s.bank s.bank.idx_ir_rx_buf_isr).size < 256) :
    handle_received_space cfg s count = (STATUS_OK,
      { s with
        bank := rx_elem_record (embx_ir_rx_buf_isr_get_elem s.bank).2.2
          (s.bank.idx_ir_rx_buf_isr, (rx_buf s.bank s.bank.idx_ir_rx_buf_isr).size)
          EMBX_IR_RX_GPIO_STATE_SPACE count,
        tc_compare := cfg.EMBX_IR_RX_PHY_MARK_DELAY, tc_running := true,
        embx_ir_rx_phy_state := EMBX_IR_RX_PHY_STATE_MARKING }) := by
  unfold handle_received_space
  rw [embx_ir_rx_buf_isr_get_elem_ok s.bank hlen hst hsz]
  rfl

/-- `handle_received_space` when the current buffer has no element left. -/
theorem handle_received_space_overflow (cfg : RxPhyConfig) (s : RxPhy) (count : Nat)
    (hst : (rx_buf s.bank s.bank.idx_ir_rx_buf_isr).state = EMBX_IR_RX_BUF_EMPTY)
    (hsz : ¬ (rx_buf s.bank s.bank.idx_ir_rx_buf_isr).size < 256) :
    handle_received_space cfg s count = (STATUS_ERR_OVERFLOW,
      { s with
        bank := (embx_ir_rx_buf_complete (embx_ir_rx_buf_isr_get_elem s.bank).2.2
          STATUS_ERR_OVERFLOW).2,
        embx_ir_rx_phy_state := EMBX_IR_RX_PHY_STATE_IDLE }) := by
  unfold handle_received_space
  rw [embx_ir_rx_buf_isr_get_elem_overflow s.bank hst hsz]
  simp only [handle_overflow_eq]

/-- `handle_received_space` when the current buffer is full. -/
theorem handle_received_space_no_memory (cfg : RxPhyConfig) (s : RxPhy) (count : Nat)
    (hst : (rx_buf s.bank s.bank.idx_ir_rx_buf_isr).state ≠ EMBX_IR_RX_BUF_EMPTY) :
    handle_received_space cfg s count = (STATUS_ERR_NO_MEMORY,
      handle_resync cfg { s with bank := (embx_ir_rx_buf_isr_get_elem s.bank).2.2 }) := by
  unfold handle_received_space
  rw [embx_ir_rx_buf_isr_get_elem_no_memory s.bank hst]

/-- Whatever the state and the event, the switch changes the bank in one of the ways of
`RxBankStep`. -/
theorem embx_rx_ir_phy_state_switch_bank (cfg : RxPhyConfig) (s : RxPhy)
    (event : embx_ir_rx_event_t) (count : Nat)
    (hlen : s.bank.idx_ir_rx_buf_isr < s.bank.embx_ir_rx_buf.length) :
    RxBankStep s.bank (embx_rx_ir_phy_state_switch cfg s event count).bank := by
  unfold embx_rx_ir_phy_state_switch
  cases hs : s.embx_ir_rx_phy_state with
  | EMBX_IR_RX_PHY_STATE_SYNCRONIZE =>
    simp only [handle_state_synchronize, embx_ir_rx_phy_restart_timer]
    left
    split <;> [split; skip] <;> rfl
  | EMBX_IR_RX_PHY_STATE_IDLE =>
    simp only [handle_state_idle, embx_ir_rx_phy_restart_timer]
    left
    split <;> [skip; split] <;> rfl
  | EMBX_IR_RX_PHY_STATE_MARKING =>
    cases event with
    | EMBX_IR_RX_GPIO_EVENT_RISING_EDGE =>
      simp only [if_true]
      by_cases hst : (rx_buf s.bank s.bank.idx_ir_rx_buf_isr).state = EMBX_IR_RX_BUF_EMPTY
      · by_cases hsz : (rx_buf s.bank s.bank.idx_ir_rx_buf_isr).size < 256
        · rw [handle_received_mark_ok cfg s count hlen hst hsz]
          right; right; left
          exact ⟨hst, hsz, _, _, by decide, rfl⟩
        · rw [handle_received_mark_overflow cfg s count hst hsz]
          right; right; right; left
          exact ⟨hst, hsz, rfl⟩
      · rw [handle_received_mark_no_memory cfg s count hst, handle_resync_eq]
        right; right; right; right
        exact ⟨hst, rfl⟩
    | EMBX_IR_RX_GPIO_EVENT_FALLING_EDGE =>
      left
      simp
    | EMBX_IR_RX_TIMER_EVENT_TIMEOUT =>
      simp only [reduceCtorEq, if_false, if_true]
      split
      · rw [handle_rx_complete_eq]
        right; left
        exact ⟨_, rfl⟩
      · left
        rfl
  | EMBX_IR_RX_PHY_STATE_SPACING =>
    cases event with
    | EMBX_IR_RX_GPIO_EVENT_RISING_EDGE =>
      left
      simp
    | EMBX_IR_RX_GPIO_EVENT_FALLING_EDGE =>
      simp only [if_true]
      by_cases hst : (rx_buf s.bank s.bank.idx_ir_rx_buf_isr).state = EMBX_IR_RX_BUF_EMPTY
      · by_cases hsz : (rx_buf s.bank s.bank.idx_ir_rx_buf_isr).size < 256
        · rw [handle_received_space_ok cfg s count hlen hst hsz]
          right; right; left
          exact ⟨hst, hsz, _, _, by decide, rfl⟩
        · rw [handle_received_space_overflow cfg s count hst hsz]
          right; right; right; left
          exact ⟨hst, hsz, rfl⟩
      · rw [handle_received_space_no_memory cfg s count hst, handle_resync_eq]
        right; right; right; right
        exact ⟨hst, rfl⟩
    | EMBX_IR_RX_TIMER_EVENT_TIMEOUT =>
      simp only [reduceCtorEq, if_false, if_true]
      split
      · rw [handle_rx_complete_eq]
        right; left
        exact ⟨_, rfl⟩
      · left
        rfl

/-- Whatever the state and the event, the state machine changes the bank in one of the
ways of `RxBankStep`. -/
theorem embx_rx_ir_phy_state_machine_bank (cfg : RxPhyConfig) (s : RxPhy)
    (event : embx_ir_rx_event_t) (count : Nat)
    (hlen : s.bank.idx_ir_rx_buf_isr < s.bank.embx_ir_rx_buf.length) :
    RxBankStep s.bank (embx_rx_ir_phy_state_machine cfg s event count).bank :=
  embx_rx_ir_phy_state_switch_bank cfg { s with tc_running := false } event count hlen

/-! ## The invariant of the buffer bank -/

/-- What recording through the acquired pointer does to the bank, read buffer by buffer. -/
theorem rx_elem_record_read (b : RxBank) (i k : Nat) (g : embx_ir_rx_gpio_state_t) (t : Nat)
    (hi : i < b.embx_ir_rx_buf.length) :
    (rx_elem_record b (i, k) g t).embx_ir_rx_buf.length = b.embx_ir_rx_buf.length
      ∧ (rx_elem_record b (i, k) g t).idx_ir_rx_buf_isr = b.idx_ir_rx_buf_isr
      ∧ (rx_elem_record b (i, k) g t).embx_ir_rx_buf_err = b.embx_ir_rx_buf_err
      ∧ rx_buf (rx_elem_record b (i, k) g t) i
          = { rx_buf b i with
              elem := (rx_buf b i).elem.set k
                { gpio_state := g, ticks := t % 4294967296,
                  time_us := (t % 4294967296 * EMBX_IR_RX_PHY_USEC_PER_TICK) % 4294967296 } }
      ∧ ∀ j, j ≠ i → rx_buf (rx_elem_record b (i, k) g t) j = rx_buf b j := by
  unfold rx_elem_record
  refine ⟨by simp [rx_buf_store], rfl, rfl, ?_, ?_⟩
  · rw [rx_buf_store_same b i _ hi]
  · intro j hj
    exact rx_buf_store_other b i j _ hj

/-- Reading an element of an array after a store into it. -/
theorem rx_elem_set_read (x : embx_ir_rx_buf_t) (k m : Nat) (e : embx_ir_rx_buf_elem_t)
    (hk : k < x.elem.length) :
    rx_elem { x with elem := x.elem.set k e } m = if m = k then e else rx_elem x m := by
  by_cases hm : m = k
  · subst hm
    simp [rx_elem, List.getD_eq_getElem?_getD, List.getElem?_set, hk]
  · simp [rx_elem, List.getD_eq_getElem?_getD, List.getElem?_set, hm, Ne.symm hm]

/-- Every change that an event makes to the bank preserves the bank invariant. -/
theorem RxBankInv_step (b c : RxBank) (h : RxBankInv b) (hstep : RxBankStep b c) :
    RxBankInv c := by
  obtain ⟨h1, h2, h3⟩ := h
  have hi : b.idx_ir_rx_buf_isr < b.embx_ir_rx_buf.length := by omega
  obtain ⟨g1, g2, g3, g4, g5, g6⟩ := embx_ir_rx_buf_isr_get_elem_read b hi
  rcases hstep with rfl | ⟨st, rfl⟩ | ⟨hst, hsz, g, t, hg, rfl⟩ | ⟨hst, hsz, rfl⟩ | ⟨hst, rfl⟩
  · exact ⟨h1, h2, h3⟩
  · obtain ⟨_, c2, c3, _, c5, c6⟩ := embx_ir_rx_buf_complete_read b st h2 h1
    refine ⟨c2, by rw [c3]; omega, ?_⟩
    intro i hi4
    by_cases hic : i = b.idx_ir_rx_buf_isr
    · rw [hic, c5]
      exact h3 _ h2
    · rw [c6 i hic]
      exact h3 i hi4
  · have hok : (embx_ir_rx_buf_isr_get_elem b).1 = STATUS_OK := by
      rw [embx_ir_rx_buf_isr_get_elem_ok b hi hst hsz]
    rw [hok] at g6
    simp only [if_true] at g6
    obtain ⟨r1, r2, _, r4, r5⟩ := rx_elem_record_read (embx_ir_rx_buf_isr_get_elem b).2.2
      b.idx_ir_rx_buf_isr (rx_buf b b.idx_ir_rx_buf_isr).size g t (by rw [g1]; exact hi)
    obtain ⟨e1, e2, e3⟩ := h3 _ h2
    refine ⟨by rw [r1, g1, h1], by rw [r2, g2]; exact h2, ?_⟩
    intro i hi4
    by_cases hic : i = b.idx_ir_rx_buf_isr
    · rw [hic, r4]
      refine ⟨by simp [g4, e1], by simp only [g6]; omega, ?_⟩
      intro k hk
      simp only [g6] at hk
      rw [rx_elem_set_read _ _ _ _ (by rw [g4, e1]; exact hsz)]
      by_cases hks : k = (rx_buf b b.idx_ir_rx_buf_isr).size
      · simp only [hks, if_true]
        cases g with
        | EMBX_IR_RX_GPIO_STATE_MARK => left; rfl
        | EMBX_IR_RX_GPIO_STATE_SPACE => right; rfl
        | EMBX_IR_RX_GPIO_STATE_UNINITIALIZED => exact absurd rfl hg
      · simp only [hks, if_false]
        have := e3 k (by omega)
        simpa [rx_elem, g4] using this
    · rw [r5 i hic, g5 i hic]
      exact h3 i hi4
  · have hnok : (embx_ir_rx_buf_isr_get_elem b).1 ≠ STATUS_OK := by
      rw [embx_ir_rx_buf_isr_get_elem_overflow b hst hsz]
      simp
    rw [if_neg hnok] at g6
    obtain ⟨_, c2, c3, _, c5, c6⟩ := embx_ir_rx_buf_complete_read
      (embx_ir_rx_buf_isr_get_elem b).2.2 STATUS_ERR_OVERFLOW (by rw [g2]; exact h2)
      (by rw [g1, h1])
    rw [g2] at c3 c5 c6
    refine ⟨c2, by rw [c3]; omega, ?_⟩
    intro i hi4
    by_cases hic : i = b.idx_ir_rx_buf_isr
    · rw [hic, c5]
      simp only [g4, g6]
      have := h3 _ h2
      simpa [rx_elem, g4] using this
    · rw [c6 i hic, g5 i hic]
      exact h3 i hi4
  · have hnok : (embx_ir_rx_buf_isr_get_elem b).1 ≠ STATUS_OK := by
      rw [embx_ir_rx_buf_isr_get_elem_no_memory b hst]
      simp
    rw [if_neg hnok] at g6
    refine ⟨by rw [g1, h1], by rw [g2]; exact h2, ?_⟩
    intro i hi4
    by_cases hic : i = b.idx_ir_rx_buf_isr
    · rw [hic]
      simp only [g4, g6]
      have := h3 _ h2
      simpa [rx_elem, g4] using this
    · rw [g5 i hic]
      exact h3 i hi4

/-- `embx_ir_rx_phy_buf_init` establishes the bank invariant on a bank of the right shape. -/
theorem RxBankInv_init (b : RxBank) (hshape : RxBankShape b) :
    RxBankInv (embx_ir_rx_phy_buf_init b) := by
  obtain ⟨s1, s2⟩ := (RxBankShape_iff b).mp hshape
  obtain ⟨i1, i2, _, i4⟩ := embx_ir_rx_phy_buf_init_read b s1
  refine ⟨i1, by omega, ?_⟩
  intro i hi
  rw [i4 i hi]
  refine ⟨by simp [rx_reset_elems_length, s2 i hi], by simp, ?_⟩
  intro k hk
  simp at hk

/-- A foreground reset preserves the bank invariant. -/
theorem RxBankInv_reset (b : RxBank) (idx : Nat) (h : RxBankInv b) :
    RxBankInv (embx_ir_rx_phy_buf_reset b idx).2 := by
  obtain ⟨h1, h2, h3⟩ := h
  by_cases hv : idx < 4
  · obtain ⟨_, r2, r3, _, r5, r6⟩ := embx_ir_rx_phy_buf_reset_read b idx hv h1
    refine ⟨r2, by rw [r3]; exact h2, ?_⟩
    intro i hi
    by_cases hic : i = idx
    · rw [hic, r5]
      refine ⟨by simp [rx_reset_elems_length, (h3 idx hv).1], by simp, ?_⟩
      intro k hk
      simp at hk
    · rw [r6 i hic]
      exact h3 i hi
  · rw [embx_ir_rx_phy_buf_reset_invalid b idx hv]
    exact ⟨h1, h2, h3⟩

/-- Every reachable state of the Rx PHY satisfies the bank invariant. -/
theorem RxReachable_bank_inv (cfg : RxPhyConfig) (s : RxPhy) (h : RxReachable cfg s) :
    RxBankInv s.bank := by
  induction h with
  | enable s hshape => exact RxBankInv_init s.bank hshape
  | event s event count _ ih =>
    exact RxBankInv_step _ _ ih
      (embx_rx_ir_phy_state_machine_bank cfg s event count (by rw [ih.1]; exact ih.2.1))
  | reset s idx _ ih => exact RxBankInv_reset s.bank idx ih

/-- The example state is reachable. -/
theorem rx_example_reached_reachable : RxReachable rx_example_config rx_example_reached :=
  RxReachable.event _ _ _ (RxReachable.event _ _ _ (RxReachable.event _ _ _
    (RxReachable.enable rx_power_up (by unfold RxBankShape; decide!))))

/-- The buffers when no interrupt is served inside a reset: in every state reachable from
`embx_ir_rx_phy_enable` by rising-edge, falling-edge and timeout events and by foreground
buffer resets that each run to completion between two events, `idx_isr < 4`, every buffer
has `size ≤ 256`, and every element at an index below its buffer's size has `gpio_state`
mark or space, never uninitialized. -/
theorem rx_reachable_buffers_valid (cfg : RxPhyConfig) (s : RxPhy)
    (h : RxReachable cfg s) :
    s.bank.idx_ir_rx_buf_isr < EMBX_IR_RX_NUMBER_OF_BUFFERS
      ∧ ∀ i, i < EMBX_IR_RX_NUMBER_OF_BUFFERS →
          (rx_buf s.bank i).size ≤ EMBX_IR_RX_BUF_SZ
            ∧ ∀ k, k < (rx_buf s.bank i).size →
                (rx_elem (rx_buf s.bank i) k).gpio_state = EMBX_IR_RX_GPIO_STATE_MARK
                  ∨ (rx_elem (rx_buf s.bank i) k).gpio_state = EMBX_IR_RX_GPIO_STATE_SPACE := by
  obtain ⟨_, h2, h3⟩ := RxReachable_bank_inv cfg s h
  exact ⟨h2, fun i hi => ⟨(h3 i hi).2.1, (h3 i hi).2.2⟩⟩

/-- The buffers of the example state, in which buffer 0 holds one captured mark. -/
theorem rx_reachable_buffers_valid_witness :
    (rx_example_reached.bank.idx_ir_rx_buf_isr < EMBX_IR_RX_NUMBER_OF_BUFFERS
      ∧ ∀ i, i < EMBX_IR_RX_NUMBER_OF_BUFFERS →
          (rx_buf rx_example_reached.bank i).size ≤ EMBX_IR_RX_BUF_SZ
            ∧ ∀ k, k < (rx_buf rx_example_reached.bank i).size →
                (rx_elem (rx_buf rx_example_reached.bank i) k).gpio_state
                    = EMBX_IR_RX_GPIO_STATE_MARK
                  ∨ (rx_elem (rx_buf rx_example_reached.bank i) k).gpio_state
                    = EMBX_IR_RX_GPIO_STATE_SPACE)
    ∧ (rx_buf rx_example_reached.bank 0).size = 1 :=
  ⟨rx_reachable_buffers_valid rx_example_config rx_example_reached
    rx_example_reached_reachable, by decide!⟩

/-! ## Full buffers under events -/

/-- One event leaves every full buffer as it was, except that the status of the current
buffer may be rewritten. -/
theorem RxBankStep_full_frame (b c : RxBank) (h1 : b.embx_ir_rx_buf.length = 4)
    (h2 : b.idx_ir_rx_buf_isr < 4) (hstep : RxBankStep b c) (j : Nat)
    (hfull : (rx_buf b j).state = EMBX_IR_RX_BUF_FULL) :
    (rx_buf c j).state = EMBX_IR_RX_BUF_FULL
      ∧ (rx_buf c j).size = (rx_buf b j).size
      ∧ (rx_buf c j).elem = (rx_buf b j).elem
      ∧ (j ≠ b.idx_ir_rx_buf_isr → (rx_buf c j).status = (rx_buf b j).status) := by
  have hi : b.idx_ir_rx_buf_isr < b.embx_ir_rx_buf.length := by omega
  obtain ⟨g1, g2, g3, g4, g5, g6⟩ := embx_ir_rx_buf_isr_get_elem_read b hi
  have hne : (rx_buf b b.idx_ir_rx_buf_isr).state = EMBX_IR_RX_BUF_EMPTY →
      j ≠ b.idx_ir_rx_buf_isr := by
    intro hst hj
    rw [hj, hst] at hfull
    cases hfull
  rcases hstep with rfl | ⟨st, rfl⟩ | ⟨hst, hsz, g, t, _, rfl⟩ | ⟨hst, _, rfl⟩ | ⟨hst, rfl⟩
  · exact ⟨hfull, rfl, rfl, fun _ => rfl⟩
  · obtain ⟨_, _, _, _, c5, c6⟩ := embx_ir_rx_buf_complete_read b st h2 h1
    by_cases hj : j = b.idx_ir_rx_buf_isr
    · rw [hj, c5]
      exact ⟨rfl, rfl, rfl, fun hn => absurd rfl hn⟩
    · rw [c6 j hj]
      exact ⟨hfull, rfl, rfl, fun _ => rfl⟩
  · have hj := hne hst
    obtain ⟨_, _, _, _, r5⟩ := rx_elem_record_read (embx_ir_rx_buf_isr_get_elem b).2.2
      b.idx_ir_rx_buf_isr (rx_buf b b.idx_ir_rx_buf_isr).size g t (by rw [g1]; exact hi)
    rw [r5 j hj, g5 j hj]
    exact ⟨hfull, rfl, rfl, fun _ => rfl⟩
  · have hj := hne hst
    obtain ⟨_, _, _, _, _, c6⟩ := embx_ir_rx_buf_complete_read
      (embx_ir_rx_buf_isr_get_elem b).2.2 STATUS_ERR_OVERFLOW (by rw [g2]; exact h2)
      (by rw [g1]; exact h1)
    rw [c6 j (by rw [g2]; exact hj), g5 j hj]
    exact ⟨hfull, rfl, rfl, fun _ => rfl⟩
  · refine ⟨by rw [g3 j]; exact hfull, ?_, g4 j, fun hj => by rw [g5 j hj]⟩
    by_cases hj : j = b.idx_ir_rx_buf_isr
    · have hnok : (embx_ir_rx_buf_isr_get_elem b).1 ≠ STATUS_OK := by
        rw [embx_ir_rx_buf_isr_get_elem_no_memory b hst]
        simp
      rw [hj, g6, if_neg hnok]
    · rw [g5 j hj]

/-- A timeout in SYNCRONIZE after more than the synchronisation delay goes to IDLE. -/
theorem embx_rx_ir_phy_state_machine_sync_timeout (cfg : RxPhyConfig) (s : RxPhy)
    (count : Nat) (hs : s.embx_ir_rx_phy_state = EMBX_IR_RX_PHY_STATE_SYNCRONIZE)
    (hc : count > cfg.EMBX_IR_RX_PHY_SYNC_DELAY) :
    embx_rx_ir_phy_state_machine cfg s EMBX_IR_RX_TIMER_EVENT_TIMEOUT count
      = { s with tc_running := false, embx_ir_rx_phy_state := EMBX_IR_RX_PHY_STATE_IDLE } := by
  simp [embx_rx_ir_phy_state_machine, embx_rx_ir_phy_state_switch, hs,
    handle_state_synchronize, hc]

/-- A falling edge in IDLE starts the mark timer and goes to MARKING. -/
theorem embx_rx_ir_phy_state_machine_idle_falling (cfg : RxPhyConfig) (s : RxPhy)
    (count : Nat) (hs : s.embx_ir_rx_phy_state = EMBX_IR_RX_PHY_STATE_IDLE) :
    embx_rx_ir_phy_state_machine cfg s EMBX_IR_RX_GPIO_EVENT_FALLING_EDGE count
      = { s with tc_running := true, tc_compare := cfg.EMBX_IR_RX_PHY_MARK_DELAY,
                 embx_ir_rx_phy_state := EMBX_IR_RX_PHY_STATE_MARKING } := by
  simp [embx_rx_ir_phy_state_machine, embx_rx_ir_phy_state_switch, hs,
    handle_state_idle, embx_ir_rx_phy_restart_timer]

/-- A timeout in MARKING before the tolerated number of wraps counts one more wrap. -/
theorem embx_rx_ir_phy_state_machine_marking_timeout_more (cfg : RxPhyConfig) (s : RxPhy)
    (count : Nat) (hs : s.embx_ir_rx_phy_state = EMBX_IR_RX_PHY_STATE_MARKING)
    (hm : s.embx_ir_rx_phy_timer_overflow.mark ≠ cfg.EMBX_IR_RX_PHY_TIMER_OVERFLOWS_MARK) :
    embx_rx_ir_phy_state_machine cfg s EMBX_IR_RX_TIMER_EVENT_TIMEOUT count
      = { s with tc_running := true, tc_compare := cfg.EMBX_IR_RX_PHY_MARK_DELAY,
                 embx_ir_rx_phy_timer_overflow :=
                   { s.embx_ir_rx_phy_timer_overflow with
                     mark := (s.embx_ir_rx_phy_timer_overflow.mark + 1) % 4294967296 } } := by
  simp [embx_rx_ir_phy_state_machine, embx_rx_ir_phy_state_switch, hs, hm,
    embx_ir_rx_phy_restart_timer]

/-- A timeout in MARKING at the tolerated number of wraps completes the current buffer
with status timeout and goes to IDLE. -/
theorem embx_rx_ir_phy_state_machine_marking_timeout_last (cfg : RxPhyConfig) (s : RxPhy)
    (count : Nat) (hs : s.embx_ir_rx_phy_state = EMBX_IR_RX_PHY_STATE_MARKING)
    (hm : s.embx_ir_rx_phy_timer_overflow.mark = cfg.EMBX_IR_RX_PHY_TIMER_OVERFLOWS_MARK) :
    embx_rx_ir_phy_state_machine cfg s EMBX_IR_RX_TIMER_EVENT_TIMEOUT count
      = { s with tc_running := false,
                 embx_ir_rx_phy_timer_overflow :=
                   { s.embx_ir_rx_phy_timer_overflow with mark := 0 },
                 bank := (embx_ir_rx_buf_complete s.bank STATUS_ERR_TIMEOUT).2,
                 embx_ir_rx_phy_state := EMBX_IR_RX_PHY_STATE_IDLE } := by
  simp [embx_rx_ir_phy_state_machine, embx_rx_ir_phy_state_switch, hs, hm,
    handle_rx_complete_eq]

/-- The switch on a rising edge in MARKING while the current buffer is full. -/
theorem embx_rx_ir_phy_state_switch_marking_rising_full (cfg : RxPhyConfig) (s : RxPhy)
    (count : Nat) (hs : s.embx_ir_rx_phy_state = EMBX_IR_RX_PHY_STATE_MARKING)
    (hst : (rx_buf s.bank s.bank.idx_ir_rx_buf_isr).state ≠ EMBX_IR_RX_BUF_EMPTY) :
    (embx_rx_ir_phy_state_switch cfg s EMBX_IR_RX_GPIO_EVENT_RISING_EDGE count).bank
        = (embx_ir_rx_buf_isr_get_elem s.bank).2.2
      ∧ (embx_rx_ir_phy_state_switch cfg s
          EMBX_IR_RX_GPIO_EVENT_RISING_EDGE count).embx_ir_rx_phy_state
        = EMBX_IR_RX_PHY_STATE_SYNCRONIZE := by
  unfold embx_rx_ir_phy_state_switch
  rw [hs]
  simp only [if_true]
  rw [handle_received_mark_no_memory cfg s count hst, handle_resync_eq]
  exact ⟨rfl, rfl⟩

/-- A rising edge in MARKING while the current buffer is full: the acquire is rejected,
its status is stored in the current buffer, and the PHY resynchronises. -/
theorem embx_rx_ir_phy_state_machine_marking_rising_full (cfg : RxPhyConfig) (s : RxPhy)
    (count : Nat) (hs : s.embx_ir_rx_phy_state = EMBX_IR_RX_PHY_STATE_MARKING)
    (hst : (rx_buf s.bank s.bank.idx_ir_rx_buf_isr).state ≠ EMBX_IR_RX_BUF_EMPTY) :
    (embx_rx_ir_phy_state_machine cfg s EMBX_IR_RX_GPIO_EVENT_RISING_EDGE count).bank
        = (embx_ir_rx_buf_isr_get_elem s.bank).2.2
      ∧ (embx_rx_ir_phy_state_machine cfg s
          EMBX_IR_RX_GPIO_EVENT_RISING_EDGE count).embx_ir_rx_phy_state
        = EMBX_IR_RX_PHY_STATE_SYNCRONIZE :=
  embx_rx_ir_phy_state_switch_marking_rising_full cfg { s with tc_running := false } count
    hs hst

/-- Events lead from reachable states to reachable states. -/
theorem rx_events_reachable (cfg : RxPhyConfig) (l : List (embx_ir_rx_event_t × Nat)) :
    ∀ s, RxReachable cfg s → RxReachable cfg (rx_events cfg s l) := by
  induction l with
  | nil => exact fun s h => h
  | cons e l ih =>
    intro s h
    exact ih _ (RxReachable.event s e.1 e.2 h)

/-- Timer wraps in MARKING with no edge: once the tolerated number of wraps has been
counted, the next wrap completes the current buffer with status timeout. -/
theorem rx_events_marking_timeouts (cfg : RxPhyConfig)
    (hT : cfg.EMBX_IR_RX_PHY_TIMER_OVERFLOWS_MARK < 4294967296) (n : Nat) :
    ∀ s : RxPhy, s.embx_ir_rx_phy_state = EMBX_IR_RX_PHY_STATE_MARKING →
      s.embx_ir_rx_phy_timer_overflow.mark + n = cfg.EMBX_IR_RX_PHY_TIMER_OVERFLOWS_MARK →
      (rx_events cfg s
          (List.replicate (n + 1) (EMBX_IR_RX_TIMER_EVENT_TIMEOUT, 0))).embx_ir_rx_phy_state
          = EMBX_IR_RX_PHY_STATE_IDLE
        ∧ (rx_events cfg s (List.replicate (n + 1)
            (EMBX_IR_RX_TIMER_EVENT_TIMEOUT, 0))).embx_ir_rx_phy_timer_overflow.mark = 0
        ∧ (rx_events cfg s (List.replicate (n + 1) (EMBX_IR_RX_TIMER_EVENT_TIMEOUT, 0))).bank
          = (embx_ir_rx_buf_complete s.bank STATUS_ERR_TIMEOUT).2 := by
  induction n with
  | zero =>
    intro s hs hm
    have h := embx_rx_ir_phy_state_machine_marking_timeout_last cfg s 0 hs (by omega)
    simp only [rx_events, List.replicate, List.foldl, h]
    exact ⟨trivial, trivial, trivial⟩
  | succ n ih =>
    intro s hs hm
    have h := embx_rx_ir_phy_state_machine_marking_timeout_more cfg s 0 hs (by omega)
    have hstep : rx_events cfg s
        (List.replicate (n + 1 + 1) (EMBX_IR_RX_TIMER_EVENT_TIMEOUT, 0))
        = rx_events cfg (embx_rx_ir_phy_state_machine cfg s EMBX_IR_RX_TIMER_EVENT_TIMEOUT 0)
            (List.replicate (n + 1) (EMBX_IR_RX_TIMER_EVENT_TIMEOUT, 0)) := rfl
    rw [hstep]
    have hmod : (s.embx_ir_rx_phy_timer_overflow.mark + 1) % 4294967296
        = s.embx_ir_rx_phy_timer_overflow.mark + 1 := Nat.mod_eq_of_lt (by omega)
    have ih2 := ih (embx_rx_ir_phy_state_machine cfg s EMBX_IR_RX_TIMER_EVENT_TIMEOUT 0)
      (by rw [h]; exact hs) (by rw [h]; simp only [hmod]; omega)
    rw [h] at ih2 ⊢
    exact ih2

/-- A frame that times out in its mark, from IDLE: the current buffer is completed with
status timeout and the PHY is back in IDLE. -/
theorem rx_events_timeout_frame (cfg : RxPhyConfig)
    (hT : cfg.EMBX_IR_RX_PHY_TIMER_OVERFLOWS_MARK < 4294967296) (s : RxPhy)
    (hs : s.embx_ir_rx_phy_state = EMBX_IR_RX_PHY_STATE_IDLE)
    (hm : s.embx_ir_rx_phy_timer_overflow.mark = 0) :
    (rx_events cfg s (rx_timeout_frame cfg)).embx_ir_rx_phy_state
        = EMBX_IR_RX_PHY_STATE_IDLE
      ∧ (rx_events cfg s (rx_timeout_frame cfg)).embx_ir_rx_phy_timer_overflow.mark = 0
      ∧ (rx_events cfg s (rx_timeout_frame cfg)).bank
        = (embx_ir_rx_buf_complete s.bank STATUS_ERR_TIMEOUT).2 := by
  have h := embx_rx_ir_phy_state_machine_idle_falling cfg s 0 hs
  have hstep : rx_events cfg s (rx_timeout_frame cfg)
      = rx_events cfg (embx_rx_ir_phy_state_machine cfg s EMBX_IR_RX_GPIO_EVENT_FALLING_EDGE 0)
          (List.replicate (cfg.EMBX_IR_RX_PHY_TIMER_OVERFLOWS_MARK + 1)
            (EMBX_IR_RX_TIMER_EVENT_TIMEOUT, 0)) := rfl
  rw [hstep]
  have h2 := rx_events_marking_timeouts cfg hT cfg.EMBX_IR_RX_PHY_TIMER_OVERFLOWS_MARK
    (embx_rx_ir_phy_state_machine cfg s EMBX_IR_RX_GPIO_EVENT_FALLING_EDGE 0)
    (by rw [h]) (by rw [h]; simp only [hm]; omega)
  rw [h] at h2 ⊢
  exact h2

/-- Whatever the timing constants, four frames that time out in their mark fill the ring:
the PHY is in IDLE and the bank is the fresh bank with four buffers completed with status
timeout. -/
theorem rx_ring_timed_out_read (cfg : RxPhyConfig)
    (hT : cfg.EMBX_IR_RX_PHY_TIMER_OVERFLOWS_MARK < 4294967296) :
    (rx_ring_timed_out cfg).embx_ir_rx_phy_state = EMBX_IR_RX_PHY_STATE_IDLE
      ∧ (rx_ring_timed_out cfg).bank = rx_bank_all_timed_out := by
  have h0 := embx_rx_ir_phy_state_machine_sync_timeout cfg
    (embx_ir_rx_phy_enable cfg rx_power_up) (cfg.EMBX_IR_RX_PHY_SYNC_DELAY + 1) rfl
    (by omega)
  obtain ⟨a1, a2, a3⟩ := rx_events_timeout_frame cfg hT
    (embx_rx_ir_phy_state_machine cfg (embx_ir_rx_phy_enable cfg rx_power_up)
      EMBX_IR_RX_TIMER_EVENT_TIMEOUT (cfg.EMBX_IR_RX_PHY_SYNC_DELAY + 1))
    (by rw [h0]) (by rw [h0]; rfl)
  obtain ⟨b1, b2, b3⟩ := rx_events_timeout_frame cfg hT _ a1 a2
  obtain ⟨c1, c2, c3⟩ := rx_events_timeout_frame cfg hT _ b1 b2
  obtain ⟨d1, _, d3⟩ := rx_events_timeout_frame cfg hT _ c1 c2
  refine ⟨d1, ?_⟩
  unfold rx_ring_timed_out
  rw [d3, c3, b3, a3, h0]
  rfl

/-- Whatever the timing constants, the state `rx_ring_full_marking` is reachable, its
buffer 0 is full with status timeout, and a rising edge overwrites that status with
no_memory. -/
theorem rx_ring_full_marking_overwritten (cfg : RxPhyConfig)
    (hT : cfg.EMBX_IR_RX_PHY_TIMER_OVERFLOWS_MARK < 4294967296) :
    RxReachable cfg (rx_ring_full_marking cfg)
      ∧ (rx_buf (rx_ring_full_marking cfg).bank 0).state = EMBX_IR_RX_BUF_FULL
      ∧ (rx_buf (rx_ring_full_marking cfg).bank 0).status = STATUS_ERR_TIMEOUT
      ∧ (rx_buf (embx_rx_ir_phy_state_machine cfg (rx_ring_full_marking cfg)
          EMBX_IR_RX_GPIO_EVENT_RISING_EDGE 0).bank 0).status = STATUS_ERR_NO_MEMORY := by
  obtain ⟨t1, t2⟩ := rx_ring_timed_out_read cfg hT
  have hf := embx_rx_ir_phy_state_machine_idle_falling cfg (rx_ring_timed_out cfg) 0 t1
  have hbank : (rx_ring_full_marking cfg).bank = rx_bank_all_timed_out := by
    unfold rx_ring_full_marking
    rw [hf]
    exact t2
  have hstate : (rx_ring_full_marking cfg).embx_ir_rx_phy_state
      = EMBX_IR_RX_PHY_STATE_MARKING := by
    unfold rx_ring_full_marking
    rw [hf]
  have hr := (embx_rx_ir_phy_state_machine_marking_rising_full cfg
    (rx_ring_full_marking cfg) 0 hstate (by rw [hbank]; decide!)).1
  refine ⟨?_, by rw [hbank]; decide!, by rw [hbank]; decide!, by rw [hr, hbank]; decide!⟩
  exact RxReachable.event _ _ _ (rx_events_reachable cfg _ _ (rx_events_reachable cfg _ _
    (rx_events_reachable cfg _ _ (rx_events_reachable cfg _ _ (RxReachable.event _ _ _
      (RxReachable.enable rx_power_up (by unfold RxBankShape; decide!)))))))

/-- C17, as stated, fails for the status of the current buffer: after four frames that
timed out with no buffer drained, buffer 0 is full with status timeout, and the rising
edge that follows the next falling edge stores no_memory in it. -/
theorem rx_full_buffer_status_counterexample :
    RxReachable rx_example_config (rx_ring_full_marking rx_example_config)
      ∧ (rx_buf (rx_ring_full_marking rx_example_config).bank 0).state = EMBX_IR_RX_BUF_FULL
      ∧ (rx_buf (embx_rx_ir_phy_state_machine rx_example_config
            (rx_ring_full_marking rx_example_config)
            EMBX_IR_RX_GPIO_EVENT_RISING_EDGE 0).bank 0).status
          ≠ (rx_buf (rx_ring_full_marking rx_example_config).bank 0).status := by
  obtain ⟨h1, h2, h3, h4⟩ := rx_ring_full_marking_overwritten rx_example_config (by decide)
  refine ⟨h1, h2, ?_⟩
  rw [h3, h4]
  decide

/-- The state `rx_one_timed_out` is reachable. -/
theorem rx_one_timed_out_reachable : RxReachable rx_example_config rx_one_timed_out :=
  rx_events_reachable _ _ _ (RxReachable.enable rx_power_up (by unfold RxBankShape; decide!))

/-- C17 (amended): for every reachable Rx state and every event (rising edge, falling
edge, timeout), a buffer whose state is full before the event has the same state, size and
elements after the event, and the same status unless it is the current buffer, the one at
`idx_isr`. -/
theorem rx_event_full_buffer_frame (cfg : RxPhyConfig) (s : RxPhy) (h : RxReachable cfg s)
    (event : embx_ir_rx_event_t) (count : Nat) (j : Nat)
    (hfull : (rx_buf s.bank j).state = EMBX_IR_RX_BUF_FULL) :
    (rx_buf (embx_rx_ir_phy_state_machine cfg s event count).bank j).state
        = EMBX_IR_RX_BUF_FULL
      ∧ (rx_buf (embx_rx_ir_phy_state_machine cfg s event count).bank j).size
        = (rx_buf s.bank j).size
      ∧ (rx_buf (embx_rx_ir_phy_state_machine cfg s event count).bank j).elem
        = (rx_buf s.bank j).elem
      ∧ (j ≠ s.bank.idx_ir_rx_buf_isr →
          (rx_buf (embx_rx_ir_phy_state_machine cfg s event count).bank j).status
            = (rx_buf s.bank j).status) := by
  obtain ⟨h1, h2, _⟩ := RxReachable_bank_inv cfg s h
  exact RxBankStep_full_frame s.bank _ h1 h2
    (embx_rx_ir_phy_state_machine_bank cfg s event count (by rw [h1]; exact h2)) j hfull

/-- C17 (amended) on the state with buffer 0 full and buffer 1 current, for a falling
edge: buffer 0 keeps its state, size, elements and status. -/
theorem rx_event_full_buffer_frame_witness :
    (rx_buf (embx_rx_ir_phy_state_machine rx_example_config rx_one_timed_out
        EMBX_IR_RX_GPIO_EVENT_FALLING_EDGE 0).bank 0).state = EMBX_IR_RX_BUF_FULL
      ∧ (rx_buf (embx_rx_ir_phy_state_machine rx_example_config rx_one_timed_out
          EMBX_IR_RX_GPIO_EVENT_FALLING_EDGE 0).bank 0).size
        = (rx_buf rx_one_timed_out.bank 0).size
      ∧ (rx_buf (embx_rx_ir_phy_state_machine rx_example_config rx_one_timed_out
          EMBX_IR_RX_GPIO_EVENT_FALLING_EDGE 0).bank 0).elem
        = (rx_buf rx_one_timed_out.bank 0).elem
      ∧ (rx_buf (embx_rx_ir_phy_state_machine rx_example_config rx_one_timed_out
          EMBX_IR_RX_GPIO_EVENT_FALLING_EDGE 0).bank 0).status
        = (rx_buf rx_one_timed_out.bank 0).status :=
  have h := rx_event_full_buffer_frame rx_example_config rx_one_timed_out
    rx_one_timed_out_reachable EMBX_IR_RX_GPIO_EVENT_FALLING_EDGE 0 0 (by decide!)
  ⟨h.1, h.2.1, h.2.2.1, h.2.2.2 (by decide!)⟩

/-! ## Reset and init -/

/-- The first `n` iterations of the reset loop, read element by element: the elements below
`n` have their `gpio_state` set to uninitialized and keep their other fields, the others
are as they were. -/
theorem rx_reset_loop_read (n : Nat) (elem : List embx_ir_rx_buf_elem_t) :
    ((List.range n).foldl
        (fun e i => e.set i
          { e.getD i rx_zero_elem with gpio_state := EMBX_IR_RX_GPIO_STATE_UNINITIALIZED })
        elem).length = elem.length
      ∧ ∀ k, ((List.range n).foldl
          (fun e i => e.set i
            { e.getD i rx_zero_elem with gpio_state := EMBX_IR_RX_GPIO_STATE_UNINITIALIZED })
          elem).getD k rx_zero_elem
        = if k < n ∧ k < elem.length then
            { elem.getD k rx_zero_elem with
              gpio_state := EMBX_IR_RX_GPIO_STATE_UNINITIALIZED }
          else elem.getD k rx_zero_elem := by
  induction n with
  | zero => simp
  | succ n ih =>
    obtain ⟨ih1, ih2⟩ := ih
    rw [List.range_succ, List.foldl_append]
    simp only [List.foldl_cons, List.foldl_nil]
    refine ⟨by rw [List.length_set, ih1], ?_⟩
    intro k
    rw [List.getD_eq_getElem?_getD, List.getElem?_set, ih1]
    by_cases hk : n = k
    · subst hk
      by_cases hl : n < elem.length
      · rw [if_pos rfl, if_pos hl, if_pos ⟨by omega, hl⟩, ih2 n, if_neg (by omega)]
        rfl
      · rw [if_pos rfl, if_neg hl, if_neg (by omega)]
        simp only [Option.getD_none]
        rw [List.getD_eq_default _ _ (by omega)]
    · rw [if_neg hk, ← List.getD_eq_getElem?_getD, ih2 k]
      by_cases hkn : k < n
      · by_cases hl : k < elem.length
        · rw [if_pos ⟨hkn, hl⟩, if_pos ⟨by omega, hl⟩]
        · rw [if_neg (by omega), if_neg (by omega)]
      · rw [if_neg (by omega), if_neg (by omega)]

/-- The reset loop on an array of 256 elements: every element gets `gpio_state`
uninitialized and keeps its `ticks` and `time_us`. -/
theorem rx_reset_elems_read (x : embx_ir_rx_buf_t) (h : x.elem.length = 256) (k : Nat)
    (hk : k < 256) :
    rx_elem { x with elem := rx_reset_elems x.elem } k
      = { rx_elem x k with gpio_state := EMBX_IR_RX_GPIO_STATE_UNINITIALIZED } := by
  have h2 := (rx_reset_loop_read EMBX_IR_RX_BUF_SZ x.elem).2 k
  unfold rx_elem rx_reset_elems
  rw [h2, if_pos ⟨hk, by omega⟩]

/-- C29: for every bank state (four buffers of 256 elements) and every `idx`, `reset(idx)`
returns ok if and only if `idx < 4`; when ok, buffer `idx` has state empty, status ok, size 0
and all 256 elements with `gpio_state` uninitialized (their `ticks` and `time_us` are not
touched), while the other buffers, the error counters and `idx_isr` are unchanged; when
`idx ≥ 4` it returns no_memory and the whole bank is unchanged. -/
theorem rx_reset_effect (b : RxBank) (idx : Nat) (hshape : RxBankShape b) :
    ((embx_ir_rx_phy_buf_reset b idx).1 = STATUS_OK ↔ idx < EMBX_IR_RX_NUMBER_OF_BUFFERS)
      ∧ (idx < EMBX_IR_RX_NUMBER_OF_BUFFERS →
          (rx_buf (embx_ir_rx_phy_buf_reset b idx).2 idx).state = EMBX_IR_RX_BUF_EMPTY
            ∧ (rx_buf (embx_ir_rx_phy_buf_reset b idx).2 idx).status = STATUS_OK
            ∧ (rx_buf (embx_ir_rx_phy_buf_reset b idx).2 idx).size = 0
            ∧ (∀ k, k < EMBX_IR_RX_BUF_SZ →
                rx_elem (rx_buf (embx_ir_rx_phy_buf_reset b idx).2 idx) k
                  = { rx_elem (rx_buf b idx) k with
                      gpio_state := EMBX_IR_RX_GPIO_STATE_UNINITIALIZED })
            ∧ (∀ j, j ≠ idx → rx_buf (embx_ir_rx_phy_buf_reset b idx).2 j = rx_buf b j)
            ∧ (embx_ir_rx_phy_buf_reset b idx).2.embx_ir_rx_buf_err = b.embx_ir_rx_buf_err
            ∧ (embx_ir_rx_phy_buf_reset b idx).2.idx_ir_rx_buf_isr = b.idx_ir_rx_buf_isr
            ∧ (embx_ir_rx_phy_buf_reset b idx).2.embx_ir_rx_buf.length
                = EMBX_IR_RX_NUMBER_OF_BUFFERS)
      ∧ (¬ idx < EMBX_IR_RX_NUMBER_OF_BUFFERS →
          embx_ir_rx_phy_buf_reset b idx = (STATUS_ERR_NO_MEMORY, b)) := by
  obtain ⟨s1, s2⟩ := (RxBankShape_iff b).mp hshape
  refine ⟨?_, ?_, fun h => embx_ir_rx_phy_buf_reset_invalid b idx h⟩
  · by_cases h : idx < 4
    · exact ⟨fun _ => h, fun _ => (embx_ir_rx_phy_buf_reset_read b idx h s1).1⟩
    · rw [embx_ir_rx_phy_buf_reset_invalid b idx h]
      exact ⟨fun hc => (nomatch hc), fun hc => absurd hc h⟩
  · intro h
    obtain ⟨_, r2, r3, r4, r5, r6⟩ := embx_ir_rx_phy_buf_reset_read b idx h s1
    refine ⟨by rw [r5], by rw [r5], by rw [r5], ?_, r6, r4, r3, r2⟩
    intro k hk
    rw [r5]
    exact rx_reset_elems_read
      { status := STATUS_OK, size := 0, state := EMBX_IR_RX_BUF_EMPTY,
        elem := (rx_buf b idx).elem } (s2 idx h) k hk

/-- The bank `rx_bank_one_full` has four buffers of 256 elements. -/
theorem rx_bank_one_full_shape : RxBankShape rx_bank_one_full := by
  have h0 : RxBankInv rx_bank_fresh :=
    RxBankInv_init rx_bank_power_up (by unfold RxBankShape; decide!)
  obtain ⟨h1, _, h3⟩ := RxBankInv_step rx_bank_fresh rx_bank_one_full h0
    (Or.inr (Or.inl ⟨STATUS_OK, rfl⟩))
  exact (RxBankShape_iff rx_bank_one_full).mpr ⟨h1, fun i hi => (h3 i hi).1⟩

/-- C29 on the bank whose buffer 0 is full: `reset(0)` empties it, `reset(4)` is
rejected. -/
theorem rx_reset_effect_witness :
    ((embx_ir_rx_phy_buf_reset rx_bank_one_full 0).1 = STATUS_OK
      ∧ (rx_buf (embx_ir_rx_phy_buf_reset rx_bank_one_full 0).2 0).state
          = EMBX_IR_RX_BUF_EMPTY
      ∧ (rx_buf rx_bank_one_full 0).state = EMBX_IR_RX_BUF_FULL)
    ∧ embx_ir_rx_phy_buf_reset rx_bank_one_full 4 = (STATUS_ERR_NO_MEMORY, rx_bank_one_full) :=
  have h0 := rx_reset_effect rx_bank_one_full 0 rx_bank_one_full_shape
  have h4 := rx_reset_effect rx_bank_one_full 4 rx_bank_one_full_shape
  ⟨⟨h0.1.mpr (by decide), (h0.2.1 (by decide)).1, by decide!⟩, h4.2.2 (by decide)⟩

/-- C30: from every bank state (four buffers of 256 elements), the loop of init terminates
after resetting exactly the buffers 0, 1, 2 and 3: whatever number of iterations of at least
five it is allowed, it stops at the failing reset of index 4.  Init yields the state in which
every buffer is empty with status ok, size 0 and all 256 elements uninitialized, both error
counters are 0 and `idx_isr = 0`. -/
theorem rx_init_effect (b : RxBank) (hshape : RxBankShape b) :
    (∀ fuel, embx_ir_rx_phy_buf_init_loop (fuel + 5) 0 b
        = (embx_ir_rx_phy_buf_reset (embx_ir_rx_phy_buf_reset (embx_ir_rx_phy_buf_reset
            (embx_ir_rx_phy_buf_reset b 0).2 1).2 2).2 3).2)
      ∧ (embx_ir_rx_phy_buf_reset (embx_ir_rx_phy_buf_reset (embx_ir_rx_phy_buf_reset
          (embx_ir_rx_phy_buf_reset (embx_ir_rx_phy_buf_reset b 0).2 1).2 2).2 3).2 4).1
          = STATUS_ERR_NO_MEMORY
      ∧ (∀ j, j < EMBX_IR_RX_NUMBER_OF_BUFFERS →
          (rx_buf (embx_ir_rx_phy_buf_init b) j).state = EMBX_IR_RX_BUF_EMPTY
            ∧ (rx_buf (embx_ir_rx_phy_buf_init b) j).status = STATUS_OK
            ∧ (rx_buf (embx_ir_rx_phy_buf_init b) j).size = 0
            ∧ ∀ k, k < EMBX_IR_RX_BUF_SZ →
                (rx_elem (rx_buf (embx_ir_rx_phy_buf_init b) j) k).gpio_state
                  = EMBX_IR_RX_GPIO_STATE_UNINITIALIZED)
      ∧ (embx_ir_rx_phy_buf_init b).embx_ir_rx_buf_err.overflows = 0
      ∧ (embx_ir_rx_phy_buf_init b).embx_ir_rx_buf_err.no_memory = 0
      ∧ (embx_ir_rx_phy_buf_init b).idx_ir_rx_buf_isr = 0
      ∧ (embx_ir_rx_phy_buf_init b).embx_ir_rx_buf.length = EMBX_IR_RX_NUMBER_OF_BUFFERS := by
  obtain ⟨s1, s2⟩ := (RxBankShape_iff b).mp hshape
  obtain ⟨i1, i2, i3, i4⟩ := embx_ir_rx_phy_buf_init_read b s1
  refine ⟨fun fuel => embx_ir_rx_phy_buf_init_loop_eq fuel b s1, ?_, ?_, by rw [i3],
    by rw [i3], i2, i1⟩
  · rw [embx_ir_rx_phy_buf_reset_invalid _ 4 (by omega)]
  · intro j hj
    rw [i4 j hj]
    refine ⟨rfl, rfl, rfl, ?_⟩
    intro k hk
    rw [rx_reset_elems_read
      { status := STATUS_OK, size := 0, state := EMBX_IR_RX_BUF_EMPTY,
        elem := (rx_buf b j).elem } (s2 j hj) k hk]

/-- C30 on the bank whose buffer 0 is full: init leaves buffer 0 empty with size 0 and
the index at 0. -/
theorem rx_init_effect_witness :
    (rx_buf (embx_ir_rx_phy_buf_init rx_bank_one_full) 0).state = EMBX_IR_RX_BUF_EMPTY
      ∧ (rx_buf (embx_ir_rx_phy_buf_init rx_bank_one_full) 0).size = 0
      ∧ (embx_ir_rx_phy_buf_init rx_bank_one_full).idx_ir_rx_buf_isr = 0
      ∧ rx_bank_one_full.idx_ir_rx_buf_isr = 1 :=
  have h := rx_init_effect rx_bank_one_full rx_bank_one_full_shape
  ⟨(h.2.2.1 0 (by decide)).1, (h.2.2.1 0 (by decide)).2.2.1, h.2.2.2.2.2.1, by decide!⟩

/-! ## The steps of the receive state machine in closed form -/

/-- An acquire that succeeds followed by the stores through the acquired pointer, read
buffer by buffer: the current buffer gets status ok, one more element, and the recorded
element at its old size; nothing else changes. -/
theorem rx_record_bank_read (b : RxBank) (g : embx_ir_rx_gpio_state_t) (t : Nat)
    (hlen : b.idx_ir_rx_buf_isr < b.embx_ir_rx_buf.length)
    (hst : (rx_buf b b.idx_ir_rx_buf_isr).state = EMBX_IR_RX_BUF_EMPTY)
    (hsz : (rx_buf b b.idx_ir_rx_buf_isr).size < 256) :
    rx_buf (rx_elem_record (embx_ir_rx_buf_isr_get_elem b).2.2
        (b.idx_ir_rx_buf_isr, (rx_buf b b.idx_ir_rx_buf_isr).size) g t) b.idx_ir_rx_buf_isr
        = { rx_buf b b.idx_ir_rx_buf_isr with
            status := STATUS_OK,
            size := (rx_buf b b.idx_ir_rx_buf_isr).size + 1,
            elem := (rx_buf b b.idx_ir_rx_buf_isr).elem.set (rx_buf b b.idx_ir_rx_buf_isr).size
              { gpio_state := g, ticks := t % 4294967296,
                time_us := (t % 4294967296 * EMBX_IR_RX_PHY_USEC_PER_TICK) % 4294967296 } }
      ∧ (∀ j, j ≠ b.idx_ir_rx_buf_isr →
          rx_buf (rx_elem_record (embx_ir_rx_buf_isr_get_elem b).2.2
            (b.idx_ir_rx_buf_isr, (rx_buf b b.idx_ir_rx_buf_isr).size) g t) j = rx_buf b j)
      ∧ (rx_elem_record (embx_ir_rx_buf_isr_get_elem b).2.2
          (b.idx_ir_rx_buf_isr, (rx_buf b b.idx_ir_rx_buf_isr).size) g t).idx_ir_rx_buf_isr
          = b.idx_ir_rx_buf_isr
      ∧ (rx_elem_record (embx_ir_rx_buf_isr_get_elem b).2.2
          (b.idx_ir_rx_buf_isr, (rx_buf b b.idx_ir_rx_buf_isr).size) g t).embx_ir_rx_buf_err
          = b.embx_ir_rx_buf_err
      ∧ (rx_elem_record (embx_ir_rx_buf_isr_get_elem b).2.2
          (b.idx_ir_rx_buf_isr, (rx_buf b b.idx_ir_rx_buf_isr).size) g t).embx_ir_rx_buf.length
          = b.embx_ir_rx_buf.length := by
  obtain ⟨g1, g2, _, _, g5, _⟩ := embx_ir_rx_buf_isr_get_elem_read b hlen
  obtain ⟨r1, r2, r3, r4, r5⟩ := rx_elem_record_read (embx_ir_rx_buf_isr_get_elem b).2.2
    b.idx_ir_rx_buf_isr (rx_buf b b.idx_ir_rx_buf_isr).size g t (by rw [g1]; exact hlen)
  have hcur : rx_buf (embx_ir_rx_buf_isr_get_elem b).2.2 b.idx_ir_rx_buf_isr
      = { rx_buf b b.idx_ir_rx_buf_isr with
          size := (rx_buf b b.idx_ir_rx_buf_isr).size + 1, status := STATUS_OK } := by
    rw [embx_ir_rx_buf_isr_get_elem_ok b hlen hst hsz]
    exact rx_buf_store_same b _ _ hlen
  have herr : (embx_ir_rx_buf_isr_get_elem b).2.2.embx_ir_rx_buf_err
      = b.embx_ir_rx_buf_err := by
    rw [embx_ir_rx_buf_isr_get_elem_ok b hlen hst hsz]
    rfl
  refine ⟨?_, ?_, by rw [r2, g2], by rw [r3, herr], by rw [r1, g1]⟩
  · rw [r4, hcur]
  · intro j hj
    rw [r5 j hj, g5 j hj]

/-- The switch on a rising edge in MARKING when an element is acquired. -/
theorem embx_rx_ir_phy_state_switch_marking_rising_ok (cfg : RxPhyConfig) (s : RxPhy)
    (count : Nat) (hs : s.embx_ir_rx_phy_state = EMBX_IR_RX_PHY_STATE_MARKING)
    (hlen : s.bank.idx_ir_rx_buf_isr < s.bank.embx_ir_rx_buf.length)
    (hst : (rx_buf s.bank s.bank.idx_ir_rx_buf_isr).state = EMBX_IR_RX_BUF_EMPTY)
    (hsz : (rx_buf s.bank s.bank.idx_ir_rx_buf_isr).size < 256) :
    embx_rx_ir_phy_state_switch cfg s EMBX_IR_RX_GPIO_EVENT_RISING_EDGE count
      = { s with
          bank := rx_elem_record (embx_ir_rx_buf_isr_get_elem s.bank).2.2
            (s.bank.idx_ir_rx_buf_isr, (rx_buf s.bank s.bank.idx_ir_rx_buf_isr).size)
            EMBX_IR_RX_GPIO_STATE_MARK
            (count + cfg.EMBX_IR_RX_PHY_MARK_DELAY * s.embx_ir_rx_phy_timer_overflow.mark),
          tc_compare := cfg.EMBX_IR_RX_PHY_SPACE_DELAY, tc_running := true,
          embx_ir_rx_phy_state := EMBX_IR_RX_PHY_STATE_SPACING,
          embx_ir_rx_phy_timer_overflow :=
            { s.embx_ir_rx_phy_timer_overflow with mark := 0 } } := by
  unfold embx_rx_ir_phy_state_switch
  rw [hs]
  simp only [if_true]
  rw [handle_received_mark_ok cfg s count hlen hst hsz]

/-- A rising edge in MARKING when an element is acquired: the mark is recorded, the wrap
counter of the mark is cleared and the PHY goes to SPACING. -/
theorem embx_rx_ir_phy_state_machine_marking_rising_ok (cfg : RxPhyConfig) (s : RxPhy)
    (count : Nat) (hs : s.embx_ir_rx_phy_state = EMBX_IR_RX_PHY_STATE_MARKING)
    (hlen : s.bank.idx_ir_rx_buf_isr < s.bank.embx_ir_rx_buf.length)
    (hst : (rx_buf s.bank s.bank.idx_ir_rx_buf_isr).state = EMBX_IR_RX_BUF_EMPTY)
    (hsz : (rx_buf s.bank s.bank.idx_ir_rx_buf_isr).size < 256) :
    embx_rx_ir_phy_state_machine cfg s EMBX_IR_RX_GPIO_EVENT_RISING_EDGE count
      = { s with
          bank := rx_elem_record (embx_ir_rx_buf_isr_get_elem s.bank).2.2
            (s.bank.idx_ir_rx_buf_isr, (rx_buf s.bank s.bank.idx_ir_rx_buf_isr).size)
            EMBX_IR_RX_GPIO_STATE_MARK
            (count + cfg.EMBX_IR_RX_PHY_MARK_DELAY * s.embx_ir_rx_phy_timer_overflow.mark),
          tc_compare := cfg.EMBX_IR_RX_PHY_SPACE_DELAY, tc_running := true,
          embx_ir_rx_phy_state := EMBX_IR_RX_PHY_STATE_SPACING,
          embx_ir_rx_phy_timer_overflow :=
            { s.embx_ir_rx_phy_timer_overflow with mark := 0 } } :=
  embx_rx_ir_phy_state_switch_marking_rising_ok cfg { s with tc_running := false } count
    hs hlen hst hsz

/-- The switch on a rising edge in MARKING when the current buffer has no element left. -/
theorem embx_rx_ir_phy_state_switch_marking_rising_overflow (cfg : RxPhyConfig) (s : RxPhy)
    (count : Nat) (hs : s.embx_ir_rx_phy_state = EMBX_IR_RX_PHY_STATE_MARKING)
    (hst : (rx_buf s.bank s.bank.idx_ir_rx_buf_isr).state = EMBX_IR_RX_BUF_EMPTY)
    (hsz : ¬ (rx_buf s.bank s.bank.idx_ir_rx_buf_isr).size < 256) :
    embx_rx_ir_phy_state_switch cfg s EMBX_IR_RX_GPIO_EVENT_RISING_EDGE count
      = { s with
          bank := (embx_ir_rx_buf_complete (embx_ir_rx_buf_isr_get_elem s.bank).2.2
            STATUS_ERR_OVERFLOW).2,
          embx_ir_rx_phy_state := EMBX_IR_RX_PHY_STATE_IDLE,
          embx_ir_rx_phy_timer_overflow :=
            { s.embx_ir_rx_phy_timer_overflow with mark := 0 } } := by
  unfold embx_rx_ir_phy_state_switch
  rw [hs]
  simp only [if_true]
  rw [handle_received_mark_overflow cfg s count hst hsz]

/-- A rising edge in MARKING when the current buffer has no element left: the buffer is
completed with status overflow and the PHY goes to IDLE. -/
theorem embx_rx_ir_phy_state_machine_marking_rising_overflow (cfg : RxPhyConfig)
    (s : RxPhy) (count : Nat)
    (hs : s.embx_ir_rx_phy_state = EMBX_IR_RX_PHY_STATE_MARKING)
    (hst : (rx_buf s.bank s.bank.idx_ir_rx_buf_isr).state = EMBX_IR_RX_BUF_EMPTY)
    (hsz : ¬ (rx_buf s.bank s.bank.idx_ir_rx_buf_isr).size < 256) :
    embx_rx_ir_phy_state_machine cfg s EMBX_IR_RX_GPIO_EVENT_RISING_EDGE count
      = { s with
          tc_running := false,
          bank := (embx_ir_rx_buf_complete (embx_ir_rx_buf_isr_get_elem s.bank).2.2
            STATUS_ERR_OVERFLOW).2,
          embx_ir_rx_phy_state := EMBX_IR_RX_PHY_STATE_IDLE,
          embx_ir_rx_phy_timer_overflow :=
            { s.embx_ir_rx_phy_timer_overflow with mark := 0 } } :=
  embx_rx_ir_phy_state_switch_marking_rising_overflow cfg { s with tc_running := false }
    count hs hst hsz

/-- The switch on a rising edge in MARKING when the current buffer is not empty, in closed
form. -/
theorem embx_rx_ir_phy_state_switch_marking_rising_no_memory (cfg : RxPhyConfig) (s : RxPhy)
    (count : Nat) (hs : s.embx_ir_rx_phy_state = EMBX_IR_RX_PHY_STATE_MARKING)
    (hst : (rx_buf s.bank s.bank.idx_ir_rx_buf_isr).state ≠ EMBX_IR_RX_BUF_EMPTY) :
    embx_rx_ir_phy_state_switch cfg s EMBX_IR_RX_GPIO_EVENT_RISING_EDGE count
      = { s with
          bank := (embx_ir_rx_buf_isr_get_elem s.bank).2.2,
          embx_ir_rx_phy_state := EMBX_IR_RX_PHY_STATE_SYNCRONIZE,
          tc_compare := cfg.EMBX_IR_RX_PHY_SYNC_DELAY, tc_running := true,
          embx_ir_rx_phy_stats :=
            { s.embx_ir_rx_phy_stats with
              resyncs := (s.embx_ir_rx_phy_stats.resyncs + 1) % 4294967296 },
          embx_ir_rx_phy_timer_overflow :=
            { s.embx_ir_rx_phy_timer_overflow with mark := 0 } } := by
  unfold embx_rx_ir_phy_state_switch
  rw [hs]
  simp only [if_true]
  rw [handle_received_mark_no_memory cfg s count hst, handle_resync_eq]

/-- A rising edge in MARKING when the current buffer is not empty, in closed form. -/
theorem embx_rx_ir_phy_state_machine_marking_rising_no_memory (cfg : RxPhyConfig)
    (s : RxPhy) (count : Nat)
    (hs : s.embx_ir_rx_phy_state = EMBX_IR_RX_PHY_STATE_MARKING)
    (hst : (rx_buf s.bank s.bank.idx_ir_rx_buf_isr).state ≠ EMBX_IR_RX_BUF_EMPTY) :
    embx_rx_ir_phy_state_machine cfg s EMBX_IR_RX_GPIO_EVENT_RISING_EDGE count
      = { s with
          bank := (embx_ir_rx_buf_isr_get_elem s.bank).2.2,
          embx_ir_rx_phy_state := EMBX_IR_RX_PHY_STATE_SYNCRONIZE,
          tc_compare := cfg.EMBX_IR_RX_PHY_SYNC_DELAY, tc_running := true,
          embx_ir_rx_phy_stats :=
            { s.embx_ir_rx_phy_stats with
              resyncs := (s.embx_ir_rx_phy_stats.resyncs + 1) % 4294967296 },
          embx_ir_rx_phy_timer_overflow :=
            { s.embx_ir_rx_phy_timer_overflow with mark := 0 } } :=
  embx_rx_ir_phy_state_switch_marking_rising_no_memory cfg { s with tc_running := false }
    count hs hst

/-- The switch on a falling edge in SPACING when an element is acquired. -/
theorem embx_rx_ir_phy_state_switch_spacing_falling_ok (cfg : RxPhyConfig) (s : RxPhy)
    (count : Nat) (hs : s.embx_ir_rx_phy_state = EMBX_IR_RX_PHY_STATE_SPACING)
    (hlen : s.bank.idx_ir_rx_buf_isr < s.bank.embx_ir_rx_buf.length)
    (hst : (rx_buf s.bank s.bank.idx_ir_rx_buf_isr).state = EMBX_IR_RX_BUF_EMPTY)
    (hsz : (rx_buf s.bank s.bank.idx_ir_rx_buf_isr).size < 256) :
    embx_rx_ir_phy_state_switch cfg s EMBX_IR_RX_GPIO_EVENT_FALLING_EDGE count
      = { s with
          bank := rx_elem_record (embx_ir_rx_buf_isr_get_elem s.bank).2.2
            (s.bank.idx_ir_rx_buf_isr, (rx_buf s.bank s.bank.idx_ir_rx_buf_isr).size)
            EMBX_IR_RX_GPIO_STATE_SPACE count,
          tc_compare := cfg.EMBX_IR_RX_PHY_MARK_DELAY, tc_running := true,
          embx_ir_rx_phy_state := EMBX_IR_RX_PHY_STATE_MARKING } := by
  unfold embx_rx_ir_phy_state_switch
  rw [hs]
  simp only [if_true]
  rw [handle_received_space_ok cfg s count hlen hst hsz]

/-- A falling edge in SPACING when an element is acquired: the space is recorded and the
PHY goes to MARKING. -/
theorem embx_rx_ir_phy_state_machine_spacing_falling_ok (cfg : RxPhyConfig) (s : RxPhy)
    (count : Nat) (hs : s.embx_ir_rx_phy_state = EMBX_IR_RX_PHY_STATE_SPACING)
    (hlen : s.bank.idx_ir_rx_buf_isr < s.bank.embx_ir_rx_buf.length)
    (hst : (rx_buf s.bank s.bank.idx_ir_rx_buf_isr).state = EMBX_IR_RX_BUF_EMPTY)
    (hsz : (rx_buf s.bank s.bank.idx_ir_rx_buf_isr).size < 256) :
    embx_rx_ir_phy_state_machine cfg s EMBX_IR_RX_GPIO_EVENT_FALLING_EDGE count
      = { s with
          bank := rx_elem_record (embx_ir_rx_buf_isr_get_elem s.bank).2.2
            (s.bank.idx_ir_rx_buf_isr, (rx_buf s.bank s.bank.idx_ir_rx_buf_isr).size)
            EMBX_IR_RX_GPIO_STATE_SPACE count,
          tc_compare := cfg.EMBX_IR_RX_PHY_MARK_DELAY, tc_running := true,
          embx_ir_rx_phy_state := EMBX_IR_RX_PHY_STATE_MARKING } :=
  embx_rx_ir_phy_state_switch_spacing_falling_ok cfg { s with tc_running := false } count
    hs hlen hst hsz

/-- A timeout in SPACING before the tolerated number of wraps counts one more wrap. -/
theorem embx_rx_ir_phy_state_machine_spacing_timeout_more (cfg : RxPhyConfig) (s : RxPhy)
    (count : Nat) (hs : s.embx_ir_rx_phy_state = EMBX_IR_RX_PHY_STATE_SPACING)
    (hm : s.embx_ir_rx_phy_timer_overflow.space
      ≠ cfg.EMBX_IR_RX_PHY_TIMER_OVERFLOWS_SPACE) :
    embx_rx_ir_phy_state_machine cfg s EMBX_IR_RX_TIMER_EVENT_TIMEOUT count
      = { s with tc_running := true, tc_compare := cfg.EMBX_IR_RX_PHY_SPACE_DELAY,
                 embx_ir_rx_phy_timer_overflow :=
                   { s.embx_ir_rx_phy_timer_overflow with
                     space := (s.embx_ir_rx_phy_timer_overflow.space + 1) % 4294967296 } } := by
  simp [embx_rx_ir_phy_state_machine, embx_rx_ir_phy_state_switch, hs, hm,
    embx_ir_rx_phy_restart_timer]

/-- A timeout in SPACING at the tolerated number of wraps completes the current buffer
with status ok and goes to IDLE. -/
theorem embx_rx_ir_phy_state_machine_spacing_timeout_last (cfg : RxPhyConfig) (s : RxPhy)
    (count : Nat) (hs : s.embx_ir_rx_phy_state = EMBX_IR_RX_PHY_STATE_SPACING)
    (hm : s.embx_ir_rx_phy_timer_overflow.space = cfg.EMBX_IR_RX_PHY_TIMER_OVERFLOWS_SPACE) :
    embx_rx_ir_phy_state_machine cfg s EMBX_IR_RX_TIMER_EVENT_TIMEOUT count
      = { s with tc_running := false,
                 embx_ir_rx_phy_timer_overflow :=
                   { s.embx_ir_rx_phy_timer_overflow with space := 0 },
                 bank := (embx_ir_rx_buf_complete s.bank STATUS_OK).2,
                 embx_ir_rx_phy_state := EMBX_IR_RX_PHY_STATE_IDLE } := by
  simp [embx_rx_ir_phy_state_machine, embx_rx_ir_phy_state_switch, hs, hm,
    handle_rx_complete_eq]

/-- Any event in SYNCRONIZE other than a timeout after more than the synchronisation
delay restarts the timer with the synchronisation delay. -/
theorem embx_rx_ir_phy_state_machine_sync_restart (cfg : RxPhyConfig) (s : RxPhy)
    (event : embx_ir_rx_event_t) (count : Nat)
    (hs : s.embx_ir_rx_phy_state = EMBX_IR_RX_PHY_STATE_SYNCRONIZE)
    (hc : ¬ (event = EMBX_IR_RX_TIMER_EVENT_TIMEOUT
      ∧ count > cfg.EMBX_IR_RX_PHY_SYNC_DELAY)) :
    embx_rx_ir_phy_state_machine cfg s event count
      = { s with tc_running := true, tc_compare := cfg.EMBX_IR_RX_PHY_SYNC_DELAY } := by
  by_cases he : event = EMBX_IR_RX_TIMER_EVENT_TIMEOUT
  · have hc2 : ¬ count > cfg.EMBX_IR_RX_PHY_SYNC_DELAY := fun h => hc ⟨he, h⟩
    simp [embx_rx_ir_phy_state_machine, embx_rx_ir_phy_state_switch, hs,
      handle_state_synchronize, he, hc2, embx_ir_rx_phy_restart_timer]
  · simp [embx_rx_ir_phy_state_machine, embx_rx_ir_phy_state_switch, hs,
      handle_state_synchronize, he, embx_ir_rx_phy_restart_timer]

/-! ## Single events of the receive state machine -/

/-- `embx_ir_rx_buf_isr_get_elem` returns ok exactly when the current buffer is empty and
holds fewer than 256 elements. -/
theorem embx_ir_rx_buf_isr_get_elem_ok_iff (b : RxBank)
    (hlen : b.idx_ir_rx_buf_isr < b.embx_ir_rx_buf.length) :
    (embx_ir_rx_buf_isr_get_elem b).1 = STATUS_OK
      ↔ (rx_buf b b.idx_ir_rx_buf_isr).state = EMBX_IR_RX_BUF_EMPTY
          ∧ (rx_buf b b.idx_ir_rx_buf_isr).size < 256 := by
  by_cases hst : (rx_buf b b.idx_ir_rx_buf_isr).state = EMBX_IR_RX_BUF_EMPTY
  · by_cases hsz : (rx_buf b b.idx_ir_rx_buf_isr).size < 256
    · rw [embx_ir_rx_buf_isr_get_elem_ok b hlen hst hsz]
      exact ⟨fun _ => ⟨hst, hsz⟩, fun _ => rfl⟩
    · rw [embx_ir_rx_buf_isr_get_elem_overflow b hst hsz]
      exact ⟨fun h => (nomatch h), fun h => absurd h.2 hsz⟩
  · rw [embx_ir_rx_buf_isr_get_elem_no_memory b hst]
    exact ⟨fun h => (nomatch h), fun h => absurd h.1 hst⟩

/-- The bank of a reachable state has four buffers of 256 elements. -/
theorem RxReachable_shape (cfg : RxPhyConfig) (s : RxPhy) (h : RxReachable cfg s) :
    RxBankShape s.bank := by
  obtain ⟨h1, _, h3⟩ := RxReachable_bank_inv cfg s h
  exact (RxBankShape_iff s.bank).mpr ⟨h1, fun i hi => (h3 i hi).1⟩

/-- The state after enable at power-up is reachable. -/
theorem rx_enable_power_up_reachable (cfg : RxPhyConfig) :
    RxReachable cfg (embx_ir_rx_phy_enable cfg rx_power_up) :=
  RxReachable.enable rx_power_up (by unfold RxBankShape; decide!)

/-- The state `rx_marking_example` is reachable. -/
theorem rx_marking_example_reachable : RxReachable rx_example_config rx_marking_example :=
  RxReachable.event _ _ _ (RxReachable.event _ _ _ (rx_enable_power_up_reachable _))

/-- The state `rx_marking_wrapped_example` is reachable. -/
theorem rx_marking_wrapped_example_reachable :
    RxReachable rx_example_config rx_marking_wrapped_example :=
  RxReachable.event _ _ _ rx_marking_example_reachable

/-- The state `rx_frame_full` is reachable. -/
theorem rx_frame_full_reachable : RxReachable rx_example_config rx_frame_full :=
  rx_events_reachable _ _ _ (rx_enable_power_up_reachable _)

/-- C23: in state marking, for every count and every `overflows.mark`, a rising edge on
which acquire_elem succeeds writes the acquired element, the one at the old size of the
current buffer, as `gpio_state = mark`, `ticks = count + MARK_DELAY * overflows.mark` (with
the counter value before it is cleared) and `time_us = 8 * ticks`, both in 32-bit
arithmetic, then clears `overflows.mark`, restarts the timer with `SPACE_DELAY` and moves to
spacing. -/
theorem rx_marking_rising_records_mark (cfg : RxPhyConfig) (s : RxPhy) (count : Nat)
    (hs : s.embx_ir_rx_phy_state = EMBX_IR_RX_PHY_STATE_MARKING)
    (hshape : RxBankShape s.bank)
    (hidx : s.bank.idx_ir_rx_buf_isr < EMBX_IR_RX_NUMBER_OF_BUFFERS)
    (hok : (embx_ir_rx_buf_isr_get_elem s.bank).1 = STATUS_OK) :
    (embx_ir_rx_buf_isr_get_elem s.bank).2.1
        = some (s.bank.idx_ir_rx_buf_isr, (rx_buf s.bank s.bank.idx_ir_rx_buf_isr).size)
      ∧ rx_elem (rx_buf (embx_rx_ir_phy_state_machine cfg s
            EMBX_IR_RX_GPIO_EVENT_RISING_EDGE count).bank s.bank.idx_ir_rx_buf_isr)
          (rx_buf s.bank s.bank.idx_ir_rx_buf_isr).size
        = { gpio_state := EMBX_IR_RX_GPIO_STATE_MARK,
            ticks := (count + cfg.EMBX_IR_RX_PHY_MARK_DELAY
              * s.embx_ir_rx_phy_timer_overflow.mark) % 4294967296,
            time_us := ((count + cfg.EMBX_IR_RX_PHY_MARK_DELAY
              * s.embx_ir_rx_phy_timer_overflow.mark) % 4294967296
                * EMBX_IR_RX_PHY_USEC_PER_TICK) % 4294967296 }
      ∧ EMBX_IR_RX_PHY_USEC_PER_TICK = 8
      ∧ (embx_rx_ir_phy_state_machine cfg s
          EMBX_IR_RX_GPIO_EVENT_RISING_EDGE count).embx_ir_rx_phy_timer_overflow.mark = 0
      ∧ (embx_rx_ir_phy_state_machine cfg s
          EMBX_IR_RX_GPIO_EVENT_RISING_EDGE count).tc_compare
          = cfg.EMBX_IR_RX_PHY_SPACE_DELAY
      ∧ (embx_rx_ir_phy_state_machine cfg s
          EMBX_IR_RX_GPIO_EVENT_RISING_EDGE count).tc_running = true
      ∧ (embx_rx_ir_phy_state_machine cfg s
          EMBX_IR_RX_GPIO_EVENT_RISING_EDGE count).embx_ir_rx_phy_state
          = EMBX_IR_RX_PHY_STATE_SPACING := by
  obtain ⟨s1, s2⟩ := (RxBankShape_iff s.bank).mp hshape
  have hlen : s.bank.idx_ir_rx_buf_isr < s.bank.embx_ir_rx_buf.length := by
    rw [s1]; exact hidx
  obtain ⟨hst, hsz⟩ := (embx_ir_rx_buf_isr_get_elem_ok_iff s.bank hlen).mp hok
  rw [embx_rx_ir_phy_state_machine_marking_rising_ok cfg s count hs hlen hst hsz]
  refine ⟨by rw [embx_ir_rx_buf_isr_get_elem_ok s.bank hlen hst hsz], ?_, rfl, rfl, rfl, rfl,
    rfl⟩
  rw [(rx_record_bank_read s.bank _ _ hlen hst hsz).1]
  unfold rx_elem
  rw [List.getD_eq_getElem?_getD, List.getElem?_set, if_pos rfl,
    if_pos (by rw [s2 _ hidx]; exact hsz)]
  rfl

/-- C23 on the state `rx_marking_wrapped_example`, where one wrap of `MARK_DELAY = 1250`
has been counted: a rising edge at count 112 records a mark of 1362 ticks, 10896 us. -/
theorem rx_marking_rising_records_mark_witness :
    rx_elem (rx_buf (embx_rx_ir_phy_state_machine rx_example_config
          rx_marking_wrapped_example EMBX_IR_RX_GPIO_EVENT_RISING_EDGE 112).bank
        rx_marking_wrapped_example.bank.idx_ir_rx_buf_isr)
        (rx_buf rx_marking_wrapped_example.bank
          rx_marking_wrapped_example.bank.idx_ir_rx_buf_isr).size
        = { gpio_state := EMBX_IR_RX_GPIO_STATE_MARK,
            ticks := (112 + rx_example_config.EMBX_IR_RX_PHY_MARK_DELAY
              * rx_marking_wrapped_example.embx_ir_rx_phy_timer_overflow.mark) % 4294967296,
            time_us := ((112 + rx_example_config.EMBX_IR_RX_PHY_MARK_DELAY
              * rx_marking_wrapped_example.embx_ir_rx_phy_timer_overflow.mark) % 4294967296
                * EMBX_IR_RX_PHY_USEC_PER_TICK) % 4294967296 }
      ∧ (112 + rx_example_config.EMBX_IR_RX_PHY_MARK_DELAY
          * rx_marking_wrapped_example.embx_ir_rx_phy_timer_overflow.mark) % 4294967296 = 1362
      ∧ (embx_rx_ir_phy_state_machine rx_example_config rx_marking_wrapped_example
          EMBX_IR_RX_GPIO_EVENT_RISING_EDGE 112).embx_ir_rx_phy_timer_overflow.mark = 0 :=
  have h := rx_marking_rising_records_mark rx_example_config rx_marking_wrapped_example 112
    (by decide!) (RxReachable_shape _ _ rx_marking_wrapped_example_reachable) (by decide!)
    (by decide!)
  ⟨h.2.1, by decide!, h.2.2.2.1⟩

/-- C24: in state spacing, for every count (a 32-bit timer value), a falling edge on which
acquire_elem succeeds writes the acquired element, the one at the old size of the current
buffer, as `gpio_state = space`, `ticks = count` and `time_us = 8 * count` (in 32-bit
arithmetic, so exactly `8 * count` when that is below `2^32`), restarts the timer with
`MARK_DELAY` and moves to marking. -/
theorem rx_spacing_falling_records_space (cfg : RxPhyConfig) (s : RxPhy) (count : Nat)
    (hs : s.embx_ir_rx_phy_state = EMBX_IR_RX_PHY_STATE_SPACING)
    (hshape : RxBankShape s.bank)
    (hidx : s.bank.idx_ir_rx_buf_isr < EMBX_IR_RX_NUMBER_OF_BUFFERS)
    (hcount : count < 4294967296)
    (hok : (embx_ir_rx_buf_isr_get_elem s.bank).1 = STATUS_OK) :
    (embx_ir_rx_buf_isr_get_elem s.bank).2.1
        = some (s.bank.idx_ir_rx_buf_isr, (rx_buf s.bank s.bank.idx_ir_rx_buf_isr).size)
      ∧ rx_elem (rx_buf (embx_rx_ir_phy_state_machine cfg s
            EMBX_IR_RX_GPIO_EVENT_FALLING_EDGE count).bank s.bank.idx_ir_rx_buf_isr)
          (rx_buf s.bank s.bank.idx_ir_rx_buf_isr).size
        = { gpio_state := EMBX_IR_RX_GPIO_STATE_SPACE, ticks := count,
            time_us := (8 * count) % 4294967296 }
      ∧ (8 * count < 4294967296 →
          rx_elem (rx_buf (embx_rx_ir_phy_state_machine cfg s
              EMBX_IR_RX_GPIO_EVENT_FALLING_EDGE count).bank s.bank.idx_ir_rx_buf_isr)
            (rx_buf s.bank s.bank.idx_ir_rx_buf_isr).size
          = { gpio_state := EMBX_IR_RX_GPIO_STATE_SPACE, ticks := count,
              time_us := 8 * count })
      ∧ (embx_rx_ir_phy_state_machine cfg s
          EMBX_IR_RX_GPIO_EVENT_FALLING_EDGE count).tc_compare
          = cfg.EMBX_IR_RX_PHY_MARK_DELAY
      ∧ (embx_rx_ir_phy_state_machine cfg s
          EMBX_IR_RX_GPIO_EVENT_FALLING_EDGE count).tc_running = true
      ∧ (embx_rx_ir_phy_state_machine cfg s
          EMBX_IR_RX_GPIO_EVENT_FALLING_EDGE count).embx_ir_rx_phy_state
          = EMBX_IR_RX_PHY_STATE_MARKING := by
  obtain ⟨s1, s2⟩ := (RxBankShape_iff s.bank).mp hshape
  have hlen : s.bank.idx_ir_rx_buf_isr < s.bank.embx_ir_rx_buf.length := by
    rw [s1]; exact hidx
  obtain ⟨hst, hsz⟩ := (embx_ir_rx_buf_isr_get_elem_ok_iff s.bank hlen).mp hok
  have helem : rx_elem (rx_buf (embx_rx_ir_phy_state_machine cfg s
        EMBX_IR_RX_GPIO_EVENT_FALLING_EDGE count).bank s.bank.idx_ir_rx_buf_isr)
      (rx_buf s.bank s.bank.idx_ir_rx_buf_isr).size
      = { gpio_state := EMBX_IR_RX_GPIO_STATE_SPACE, ticks := count,
          time_us := (8 * count) % 4294967296 } := by
    rw [embx_rx_ir_phy_state_machine_spacing_falling_ok cfg s count hs hlen hst hsz]
    show rx_elem (rx_buf (rx_elem_record _ _ _ _) _) _ = _
    rw [(rx_record_bank_read s.bank _ _ hlen hst hsz).1]
    unfold rx_elem
    rw [List.getD_eq_getElem?_getD, List.getElem?_set, if_pos rfl,
      if_pos (by rw [s2 _ hidx]; exact hsz)]
    simp only [Option.getD_some, EMBX_IR_RX_PHY_USEC_PER_TICK, Nat.mod_eq_of_lt hcount,
      Nat.mul_comm count 8]
  refine ⟨by rw [embx_ir_rx_buf_isr_get_elem_ok s.bank hlen hst hsz], helem, ?_, ?_, ?_, ?_⟩
  · intro h8
    rw [helem, Nat.mod_eq_of_lt h8]
  · rw [embx_rx_ir_phy_state_machine_spacing_falling_ok cfg s count hs hlen hst hsz]
  · rw [embx_rx_ir_phy_state_machine_spacing_falling_ok cfg s count hs hlen hst hsz]
  · rw [embx_rx_ir_phy_state_machine_spacing_falling_ok cfg s count hs hlen hst hsz]

/-- C24 on the example state, in SPACING after one captured mark: a falling edge at count
56 records `{space, 56, 448}` as element 1 of buffer 0. -/
theorem rx_spacing_falling_records_space_witness :
    rx_elem (rx_buf (embx_rx_ir_phy_state_machine rx_example_config rx_example_reached
          EMBX_IR_RX_GPIO_EVENT_FALLING_EDGE 56).bank
        rx_example_reached.bank.idx_ir_rx_buf_isr)
        (rx_buf rx_example_reached.bank rx_example_reached.bank.idx_ir_rx_buf_isr).size
        = { gpio_state := EMBX_IR_RX_GPIO_STATE_SPACE, ticks := 56, time_us := 8 * 56 }
      ∧ (embx_rx_ir_phy_state_machine rx_example_config rx_example_reached
          EMBX_IR_RX_GPIO_EVENT_FALLING_EDGE 56).embx_ir_rx_phy_state
          = EMBX_IR_RX_PHY_STATE_MARKING
      ∧ (rx_buf rx_example_reached.bank rx_example_reached.bank.idx_ir_rx_buf_isr).size = 1 :=
  have h := rx_spacing_falling_records_space rx_example_config rx_example_reached 56
    (by decide!) (RxReachable_shape _ _ rx_example_reached_reachable) (by decide!)
    (by decide) (by decide!)
  ⟨h.2.2.1 (by decide), h.2.2.2.2.2, by decide!⟩

/-- C25: on a timeout event in marking (resp. spacing): if `overflows.mark =
TIMER_OVERFLOWS_MARK` (resp. `overflows.space = TIMER_OVERFLOWS_SPACE`) the counter is
cleared, the current buffer is completed with status timeout (resp. ok) and the PHY state
becomes idle, the timer staying stopped; otherwise the counter is incremented by one (a
`uint32_t`, so modulo `2^32`), the timer is restarted with `MARK_DELAY` (resp.
`SPACE_DELAY`), and the PHY state and all buffers are unchanged.  In each case nothing else
changes. -/
theorem rx_timeout_in_frame (cfg : RxPhyConfig) (s : RxPhy) (count : Nat) :
    (s.embx_ir_rx_phy_state = EMBX_IR_RX_PHY_STATE_MARKING →
        (s.embx_ir_rx_phy_timer_overflow.mark = cfg.EMBX_IR_RX_PHY_TIMER_OVERFLOWS_MARK →
          embx_rx_ir_phy_state_machine cfg s EMBX_IR_RX_TIMER_EVENT_TIMEOUT count
            = { s with tc_running := false,
                       embx_ir_rx_phy_timer_overflow :=
                         { s.embx_ir_rx_phy_timer_overflow with mark := 0 },
                       bank := (embx_ir_rx_buf_complete s.bank STATUS_ERR_TIMEOUT).2,
                       embx_ir_rx_phy_state := EMBX_IR_RX_PHY_STATE_IDLE })
        ∧ (s.embx_ir_rx_phy_timer_overflow.mark ≠ cfg.EMBX_IR_RX_PHY_TIMER_OVERFLOWS_MARK →
          embx_rx_ir_phy_state_machine cfg s EMBX_IR_RX_TIMER_EVENT_TIMEOUT count
            = { s with tc_running := true, tc_compare := cfg.EMBX_IR_RX_PHY_MARK_DELAY,
                       embx_ir_rx_phy_timer_overflow :=
                         { s.embx_ir_rx_phy_timer_overflow with
                           mark := (s.embx_ir_rx_phy_timer_overflow.mark + 1)
                             % 4294967296 } }))
      ∧ (s.embx_ir_rx_phy_state = EMBX_IR_RX_PHY_STATE_SPACING →
        (s.embx_ir_rx_phy_timer_overflow.space = cfg.EMBX_IR_RX_PHY_TIMER_OVERFLOWS_SPACE →
          embx_rx_ir_phy_state_machine cfg s EMBX_IR_RX_TIMER_EVENT_TIMEOUT count
            = { s with tc_running := false,
                       embx_ir_rx_phy_timer_overflow :=
                         { s.embx_ir_rx_phy_timer_overflow with space := 0 },
                       bank := (embx_ir_rx_buf_complete s.bank STATUS_OK).2,
                       embx_ir_rx_phy_state := EMBX_IR_RX_PHY_STATE_IDLE })
        ∧ (s.embx_ir_rx_phy_timer_overflow.space ≠ cfg.EMBX_IR_RX_PHY_TIMER_OVERFLOWS_SPACE →
          embx_rx_ir_phy_state_machine cfg s EMBX_IR_RX_TIMER_EVENT_TIMEOUT count
            = { s with tc_running := true, tc_compare := cfg.EMBX_IR_RX_PHY_SPACE_DELAY,
                       embx_ir_rx_phy_timer_overflow :=
                         { s.embx_ir_rx_phy_timer_overflow with
                           space := (s.embx_ir_rx_phy_timer_overflow.space + 1)
                             % 4294967296 } })) :=
  ⟨fun hs => ⟨embx_rx_ir_phy_state_machine_marking_timeout_last cfg s count hs,
      embx_rx_ir_phy_state_machine_marking_timeout_more cfg s count hs⟩,
    fun hs => ⟨embx_rx_ir_phy_state_machine_spacing_timeout_last cfg s count hs,
      embx_rx_ir_phy_state_machine_spacing_timeout_more cfg s count hs⟩⟩

/-- C25 on four states: in MARKING with the tolerated wrap counted and with none counted,
and in SPACING likewise (the tolerated numbers of the example are 1 and 1). -/
theorem rx_timeout_in_frame_witness :
    ((embx_rx_ir_phy_state_machine rx_example_config rx_marking_wrapped_example
        EMBX_IR_RX_TIMER_EVENT_TIMEOUT 0).embx_ir_rx_phy_state = EMBX_IR_RX_PHY_STATE_IDLE
      ∧ (embx_rx_ir_phy_state_machine rx_example_config rx_marking_example
        EMBX_IR_RX_TIMER_EVENT_TIMEOUT 0).embx_ir_rx_phy_timer_overflow.mark = 1)
    ∧ ((embx_rx_ir_phy_state_machine rx_example_config
          (embx_rx_ir_phy_state_machine rx_example_config rx_example_reached
            EMBX_IR_RX_TIMER_EVENT_TIMEOUT 0)
          EMBX_IR_RX_TIMER_EVENT_TIMEOUT 0).embx_ir_rx_phy_state = EMBX_IR_RX_PHY_STATE_IDLE
      ∧ (embx_rx_ir_phy_state_machine rx_example_config rx_example_reached
        EMBX_IR_RX_TIMER_EVENT_TIMEOUT 0).embx_ir_rx_phy_timer_overflow.space = 1) := by
  have h1 := ((rx_timeout_in_frame rx_example_config rx_marking_wrapped_example 0).1
    (by decide!)).1 (by decide!)
  have h2 := ((rx_timeout_in_frame rx_example_config rx_marking_example 0).1
    (by decide!)).2 (by decide!)
  have h3 := ((rx_timeout_in_frame rx_example_config
    (embx_rx_ir_phy_state_machine rx_example_config rx_example_reached
      EMBX_IR_RX_TIMER_EVENT_TIMEOUT 0) 0).2 (by decide!)).1 (by decide!)
  have h4 := ((rx_timeout_in_frame rx_example_config rx_example_reached 0).2
    (by decide!)).2 (by decide!)
  rw [h1, h2, h3, h4]
  exact ⟨⟨rfl, by decide!⟩, rfl, by decide!⟩

/-- C26: in state synchronize, for every event and every count: the state becomes idle if
and only if the event is a timeout and `count > SYNC_DELAY` (strictly); in every other case
(any edge, or a timeout with `count ≤ SYNC_DELAY`) the state stays synchronize and the timer
is restarted with `SYNC_DELAY`; buffers, overflow counters and statistics are unchanged in
both cases. -/
theorem rx_synchronize_step (cfg : RxPhyConfig) (s : RxPhy) (event : embx_ir_rx_event_t)
    (count : Nat) (hs : s.embx_ir_rx_phy_state = EMBX_IR_RX_PHY_STATE_SYNCRONIZE) :
    ((embx_rx_ir_phy_state_machine cfg s event count).embx_ir_rx_phy_state
          = EMBX_IR_RX_PHY_STATE_IDLE
        ↔ event = EMBX_IR_RX_TIMER_EVENT_TIMEOUT ∧ count > cfg.EMBX_IR_RX_PHY_SYNC_DELAY)
      ∧ (¬ (event = EMBX_IR_RX_TIMER_EVENT_TIMEOUT ∧ count > cfg.EMBX_IR_RX_PHY_SYNC_DELAY) →
          (embx_rx_ir_phy_state_machine cfg s event count).embx_ir_rx_phy_state
              = EMBX_IR_RX_PHY_STATE_SYNCRONIZE
            ∧ (embx_rx_ir_phy_state_machine cfg s event count).tc_compare
              = cfg.EMBX_IR_RX_PHY_SYNC_DELAY
            ∧ (embx_rx_ir_phy_state_machine cfg s event count).tc_running = true)
      ∧ (embx_rx_ir_phy_state_machine cfg s event count).bank = s.bank
      ∧ (embx_rx_ir_phy_state_machine cfg s event count).embx_ir_rx_phy_timer_overflow
          = s.embx_ir_rx_phy_timer_overflow
      ∧ (embx_rx_ir_phy_state_machine cfg s event count).embx_ir_rx_phy_stats
          = s.embx_ir_rx_phy_stats := by
  by_cases hc : event = EMBX_IR_RX_TIMER_EVENT_TIMEOUT ∧ count > cfg.EMBX_IR_RX_PHY_SYNC_DELAY
  · obtain ⟨he, hgt⟩ := hc
    subst he
    rw [embx_rx_ir_phy_state_machine_sync_timeout cfg s count hs hgt]
    exact ⟨⟨fun _ => ⟨rfl, hgt⟩, fun _ => rfl⟩, fun hn => absurd ⟨rfl, hgt⟩ hn, rfl, rfl, rfl⟩
  · rw [embx_rx_ir_phy_state_machine_sync_restart cfg s event count hs hc]
    refine ⟨⟨fun h => ?_, fun h => absurd h hc⟩, fun _ => ⟨hs, rfl, rfl⟩, rfl, rfl, rfl⟩
    have h2 : s.embx_ir_rx_phy_state = EMBX_IR_RX_PHY_STATE_IDLE := h
    rw [hs] at h2
    exact (nomatch h2)

/-- C26 right after enable at power-up: a timeout at count 2501 leads to idle, a timeout at
count 2500 (the synchronisation delay itself) does not. -/
theorem rx_synchronize_step_witness :
    (embx_rx_ir_phy_state_machine rx_example_config
        (embx_ir_rx_phy_enable rx_example_config rx_power_up)
        EMBX_IR_RX_TIMER_EVENT_TIMEOUT 2501).embx_ir_rx_phy_state = EMBX_IR_RX_PHY_STATE_IDLE
      ∧ (embx_rx_ir_phy_state_machine rx_example_config
        (embx_ir_rx_phy_enable rx_example_config rx_power_up)
        EMBX_IR_RX_TIMER_EVENT_TIMEOUT 2500).embx_ir_rx_phy_state
          = EMBX_IR_RX_PHY_STATE_SYNCRONIZE :=
  ⟨(rx_synchronize_step rx_example_config (embx_ir_rx_phy_enable rx_example_config rx_power_up)
      EMBX_IR_RX_TIMER_EVENT_TIMEOUT 2501 rfl).1.mpr ⟨rfl, by decide⟩,
    ((rx_synchronize_step rx_example_config
      (embx_ir_rx_phy_enable rx_example_config rx_power_up)
      EMBX_IR_RX_TIMER_EVENT_TIMEOUT 2500 rfl).2.1 (by decide)).1⟩

/-- C27: for every state in which the PHY is marking and the current buffer is full, a
rising edge makes acquire_elem return no_memory, increments the no_memory counter by
exactly one (modulo `2^32`), records no element (no element, size or state of any buffer
changes), increments `stats.resyncs` by one (modulo `2^32`) and leaves the PHY in
synchronize with the timer restarted with `SYNC_DELAY`. -/
theorem rx_marking_rising_exhausted (cfg : RxPhyConfig) (s : RxPhy) (count : Nat)
    (hs : s.embx_ir_rx_phy_state = EMBX_IR_RX_PHY_STATE_MARKING)
    (hidx : s.bank.idx_ir_rx_buf_isr < s.bank.embx_ir_rx_buf.length)
    (hfull : (rx_buf s.bank s.bank.idx_ir_rx_buf_isr).state = EMBX_IR_RX_BUF_FULL) :
    (embx_ir_rx_buf_isr_get_elem s.bank).1 = STATUS_ERR_NO_MEMORY
      ∧ (embx_ir_rx_buf_isr_get_elem s.bank).2.1 = none
      ∧ (embx_rx_ir_phy_state_machine cfg s
          EMBX_IR_RX_GPIO_EVENT_RISING_EDGE count).bank.embx_ir_rx_buf_err.no_memory
          = (s.bank.embx_ir_rx_buf_err.no_memory + 1) % 4294967296
      ∧ (embx_rx_ir_phy_state_machine cfg s
          EMBX_IR_RX_GPIO_EVENT_RISING_EDGE count).bank.embx_ir_rx_buf_err.overflows
          = s.bank.embx_ir_rx_buf_err.overflows
      ∧ (∀ j, (rx_buf (embx_rx_ir_phy_state_machine cfg s
            EMBX_IR_RX_GPIO_EVENT_RISING_EDGE count).bank j).elem = (rx_buf s.bank j).elem
          ∧ (rx_buf (embx_rx_ir_phy_state_machine cfg s
            EMBX_IR_RX_GPIO_EVENT_RISING_EDGE count).bank j).size = (rx_buf s.bank j).size
          ∧ (rx_buf (embx_rx_ir_phy_state_machine cfg s
            EMBX_IR_RX_GPIO_EVENT_RISING_EDGE count).bank j).state = (rx_buf s.bank j).state)
      ∧ (embx_rx_ir_phy_state_machine cfg s
          EMBX_IR_RX_GPIO_EVENT_RISING_EDGE count).embx_ir_rx_phy_stats.resyncs
          = (s.embx_ir_rx_phy_stats.resyncs + 1) % 4294967296
      ∧ (embx_rx_ir_phy_state_machine cfg s
          EMBX_IR_RX_GPIO_EVENT_RISING_EDGE count).embx_ir_rx_phy_state
          = EMBX_IR_RX_PHY_STATE_SYNCRONIZE
      ∧ (embx_rx_ir_phy_state_machine cfg s
          EMBX_IR_RX_GPIO_EVENT_RISING_EDGE count).tc_compare
          = cfg.EMBX_IR_RX_PHY_SYNC_DELAY
      ∧ (embx_rx_ir_phy_state_machine cfg s
          EMBX_IR_RX_GPIO_EVENT_RISING_EDGE count).tc_running = true := by
  have hst : (rx_buf s.bank s.bank.idx_ir_rx_buf_isr).state ≠ EMBX_IR_RX_BUF_EMPTY := by
    rw [hfull]
    exact fun h => (nomatch h)
  obtain ⟨_, _, g3, g4, g5, g6⟩ := embx_ir_rx_buf_isr_get_elem_read s.bank hidx
  have hnm := embx_ir_rx_buf_isr_get_elem_no_memory s.bank hst
  rw [embx_rx_ir_phy_state_machine_marking_rising_no_memory cfg s count hs hst]
  refine ⟨by rw [hnm], by rw [hnm], ?_, ?_, ?_, rfl, rfl, rfl, rfl⟩
  · show (embx_ir_rx_buf_isr_get_elem s.bank).2.2.embx_ir_rx_buf_err.no_memory = _
    rw [hnm]
  · show (embx_ir_rx_buf_isr_get_elem s.bank).2.2.embx_ir_rx_buf_err.overflows = _
    rw [hnm]
  · intro j
    refine ⟨g4 j, ?_, g3 j⟩
    show (rx_buf (embx_ir_rx_buf_isr_get_elem s.bank).2.2 j).size = _
    by_cases hj : j = s.bank.idx_ir_rx_buf_isr
    · have hnok : (embx_ir_rx_buf_isr_get_elem s.bank).1 ≠ STATUS_OK := by
        rw [hnm]
        exact fun h => (nomatch h)
      rw [hj, g6, if_neg hnok]
    · rw [g5 j hj]

/-- C27 after four frames completed without draining and the falling edge of a fifth: the
rising edge is rejected and the PHY resynchronises. -/
theorem rx_marking_rising_exhausted_witness :
    (embx_ir_rx_buf_isr_get_elem (rx_ring_full_marking rx_example_config).bank).1
        = STATUS_ERR_NO_MEMORY
      ∧ (embx_rx_ir_phy_state_machine rx_example_config
          (rx_ring_full_marking rx_example_config)
          EMBX_IR_RX_GPIO_EVENT_RISING_EDGE 112).embx_ir_rx_phy_state
          = EMBX_IR_RX_PHY_STATE_SYNCRONIZE :=
  have h := rx_marking_rising_exhausted rx_example_config
    (rx_ring_full_marking rx_example_config) 112 (by decide!) (by decide!) (by decide!)
  ⟨h.1, h.2.2.2.2.2.2.1⟩

/-- C28: for every state in which the PHY is marking and the current buffer is empty with
`size = 256`, a rising edge makes acquire_elem return overflow, increments the overflows
counter by exactly one (modulo `2^32`), leaves the 256 stored elements and the size
unchanged, flips the buffer to full with status overflow, advances `idx_isr` by one modulo
4 and leaves the PHY in idle; the other buffers are unchanged. -/
theorem rx_marking_rising_overflow (cfg : RxPhyConfig) (s : RxPhy) (count : Nat)
    (hs : s.embx_ir_rx_phy_state = EMBX_IR_RX_PHY_STATE_MARKING)
    (hlen : s.bank.embx_ir_rx_buf.length = EMBX_IR_RX_NUMBER_OF_BUFFERS)
    (hidx : s.bank.idx_ir_rx_buf_isr < EMBX_IR_RX_NUMBER_OF_BUFFERS)
    (hst : (rx_buf s.bank s.bank.idx_ir_rx_buf_isr).state = EMBX_IR_RX_BUF_EMPTY)
    (hsz : (rx_buf s.bank s.bank.idx_ir_rx_buf_isr).size = EMBX_IR_RX_BUF_SZ) :
    (embx_ir_rx_buf_isr_get_elem s.bank).1 = STATUS_ERR_OVERFLOW
      ∧ (embx_rx_ir_phy_state_machine cfg s
          EMBX_IR_RX_GPIO_EVENT_RISING_EDGE count).bank.embx_ir_rx_buf_err.overflows
          = (s.bank.embx_ir_rx_buf_err.overflows + 1) % 4294967296
      ∧ (rx_buf (embx_rx_ir_phy_state_machine cfg s
          EMBX_IR_RX_GPIO_EVENT_RISING_EDGE count).bank s.bank.idx_ir_rx_buf_isr).elem
          = (rx_buf s.bank s.bank.idx_ir_rx_buf_isr).elem
      ∧ (rx_buf (embx_rx_ir_phy_state_machine cfg s
          EMBX_IR_RX_GPIO_EVENT_RISING_EDGE count).bank s.bank.idx_ir_rx_buf_isr).size
          = EMBX_IR_RX_BUF_SZ
      ∧ (rx_buf (embx_rx_ir_phy_state_machine cfg s
          EMBX_IR_RX_GPIO_EVENT_RISING_EDGE count).bank s.bank.idx_ir_rx_buf_isr).state
          = EMBX_IR_RX_BUF_FULL
      ∧ (rx_buf (embx_rx_ir_phy_state_machine cfg s
          EMBX_IR_RX_GPIO_EVENT_RISING_EDGE count).bank s.bank.idx_ir_rx_buf_isr).status
          = STATUS_ERR_OVERFLOW
      ∧ (∀ j, j ≠ s.bank.idx_ir_rx_buf_isr →
          rx_buf (embx_rx_ir_phy_state_machine cfg s
            EMBX_IR_RX_GPIO_EVENT_RISING_EDGE count).bank j = rx_buf s.bank j)
      ∧ (embx_rx_ir_phy_state_machine cfg s
          EMBX_IR_RX_GPIO_EVENT_RISING_EDGE count).bank.idx_ir_rx_buf_isr
          = (s.bank.idx_ir_rx_buf_isr + 1) % 4
      ∧ (embx_rx_ir_phy_state_machine cfg s
          EMBX_IR_RX_GPIO_EVENT_RISING_EDGE count).embx_ir_rx_phy_state
          = EMBX_IR_RX_PHY_STATE_IDLE := by
  have hi : s.bank.idx_ir_rx_buf_isr < s.bank.embx_ir_rx_buf.length := by
    rw [hlen]; exact hidx
  have hsz2 : ¬ (rx_buf s.bank s.bank.idx_ir_rx_buf_isr).size < 256 := by
    rw [hsz]; decide
  obtain ⟨g1, g2, _, g4, g5, g6⟩ := embx_ir_rx_buf_isr_get_elem_read s.bank hi
  have hov := embx_ir_rx_buf_isr_get_elem_overflow s.bank hst hsz2
  have hnok : (embx_ir_rx_buf_isr_get_elem s.bank).1 ≠ STATUS_OK := by
    rw [hov]
    exact fun h => (nomatch h)
  obtain ⟨_, _, c3, c4, c5, c6⟩ := embx_ir_rx_buf_complete_read
    (embx_ir_rx_buf_isr_get_elem s.bank).2.2 STATUS_ERR_OVERFLOW (by rw [g2]; exact hidx)
    (by rw [g1]; exact hlen)
  rw [g2] at c3 c5 c6
  rw [embx_rx_ir_phy_state_machine_marking_rising_overflow cfg s count hs hst hsz2]
  refine ⟨by rw [hov], ?_, ?_, ?_, ?_, ?_, ?_, c3, rfl⟩
  · show (embx_ir_rx_buf_complete (embx_ir_rx_buf_isr_get_elem s.bank).2.2
      STATUS_ERR_OVERFLOW).2.embx_ir_rx_buf_err.overflows = _
    rw [c4, hov]
  · show (rx_buf (embx_ir_rx_buf_complete (embx_ir_rx_buf_isr_get_elem s.bank).2.2
      STATUS_ERR_OVERFLOW).2 _).elem = _
    rw [c5]
    exact g4 _
  · show (rx_buf (embx_ir_rx_buf_complete (embx_ir_rx_buf_isr_get_elem s.bank).2.2
      STATUS_ERR_OVERFLOW).2 _).size = _
    rw [c5]
    show (rx_buf (embx_ir_rx_buf_isr_get_elem s.bank).2.2 _).size = _
    rw [g6, if_neg hnok, hsz]
  · show (rx_buf (embx_ir_rx_buf_complete (embx_ir_rx_buf_isr_get_elem s.bank).2.2
      STATUS_ERR_OVERFLOW).2 _).state = _
    rw [c5]
  · show (rx_buf (embx_ir_rx_buf_complete (embx_ir_rx_buf_isr_get_elem s.bank).2.2
      STATUS_ERR_OVERFLOW).2 _).status = _
    rw [c5]
  · intro j hj
    show rx_buf (embx_ir_rx_buf_complete (embx_ir_rx_buf_isr_get_elem s.bank).2.2
      STATUS_ERR_OVERFLOW).2 j = _
    rw [c6 j hj, g5 j hj]

/-- C28 on the state reached by 256 alternating mark and space captures in one frame: the
257th capture overflows buffer 0, which is handed over full with status overflow, and the
PHY is idle with buffer 1 current. -/
theorem rx_marking_rising_overflow_witness :
    (embx_ir_rx_buf_isr_get_elem rx_frame_full.bank).1 = STATUS_ERR_OVERFLOW
      ∧ (rx_buf (embx_rx_ir_phy_state_machine rx_example_config rx_frame_full
          EMBX_IR_RX_GPIO_EVENT_RISING_EDGE 112).bank
          rx_frame_full.bank.idx_ir_rx_buf_isr).status = STATUS_ERR_OVERFLOW
      ∧ (embx_rx_ir_phy_state_machine rx_example_config rx_frame_full
          EMBX_IR_RX_GPIO_EVENT_RISING_EDGE 112).embx_ir_rx_phy_state
          = EMBX_IR_RX_PHY_STATE_IDLE
      ∧ RxReachable rx_example_config rx_frame_full :=
  have h := rx_marking_rising_overflow rx_example_config rx_frame_full 112
    (by decide!) (by decide!) (by decide!) (by decide!) (by decide!)
  ⟨h.1, h.2.2.2.2.2.1, h.2.2.2.2.2.2.2.2, rx_frame_full_reachable⟩

/-! ## A frame of one mark and one space -/

/-- Events one list after another. -/
theorem rx_events_append (cfg : RxPhyConfig) (s : RxPhy)
    (l1 l2 : List (embx_ir_rx_event_t × Nat)) :
    rx_events cfg s (l1 ++ l2) = rx_events cfg (rx_events cfg s l1) l2 := by
  unfold rx_events
  rw [List.foldl_append]

/-- A timeout in IDLE only counts in `overflows.idle`. -/
theorem embx_rx_ir_phy_state_machine_idle_timeout (cfg : RxPhyConfig) (s : RxPhy)
    (count : Nat) (hs : s.embx_ir_rx_phy_state = EMBX_IR_RX_PHY_STATE_IDLE) :
    embx_rx_ir_phy_state_machine cfg s EMBX_IR_RX_TIMER_EVENT_TIMEOUT count
      = { s with tc_running := false,
                 embx_ir_rx_phy_timer_overflow :=
                   { s.embx_ir_rx_phy_timer_overflow with
                     idle := (s.embx_ir_rx_phy_timer_overflow.idle + 1) % 4294967296 } } := by
  simp [embx_rx_ir_phy_state_machine, embx_rx_ir_phy_state_switch, hs, handle_state_idle]

/-- Timer wraps in IDLE leave the PHY in IDLE and the bank as it is. -/
theorem rx_events_idle_timeouts (cfg : RxPhyConfig) (n : Nat) :
    ∀ s : RxPhy, s.embx_ir_rx_phy_state = EMBX_IR_RX_PHY_STATE_IDLE →
      (rx_events cfg s
          (List.replicate n (EMBX_IR_RX_TIMER_EVENT_TIMEOUT, 0))).embx_ir_rx_phy_state
          = EMBX_IR_RX_PHY_STATE_IDLE
        ∧ (rx_events cfg s (List.replicate n (EMBX_IR_RX_TIMER_EVENT_TIMEOUT, 0))).bank
          = s.bank := by
  induction n with
  | zero => exact fun s hs => ⟨hs, rfl⟩
  | succ n ih =>
    intro s hs
    have h := embx_rx_ir_phy_state_machine_idle_timeout cfg s 0 hs
    have hstep : rx_events cfg s (List.replicate (n + 1) (EMBX_IR_RX_TIMER_EVENT_TIMEOUT, 0))
        = rx_events cfg (embx_rx_ir_phy_state_machine cfg s EMBX_IR_RX_TIMER_EVENT_TIMEOUT 0)
            (List.replicate n (EMBX_IR_RX_TIMER_EVENT_TIMEOUT, 0)) := rfl
    rw [hstep]
    have ih2 := ih (embx_rx_ir_phy_state_machine cfg s EMBX_IR_RX_TIMER_EVENT_TIMEOUT 0)
      (by rw [h]; exact hs)
    rw [h] at ih2 ⊢
    exact ih2

/-- Timer wraps in MARKING up to the tolerated number leave the PHY in MARKING and the
bank as it is. -/
theorem rx_events_marking_timeouts_few (cfg : RxPhyConfig)
    (hT : cfg.EMBX_IR_RX_PHY_TIMER_OVERFLOWS_MARK < 4294967296) (n : Nat) :
    ∀ s : RxPhy, s.embx_ir_rx_phy_state = EMBX_IR_RX_PHY_STATE_MARKING →
      s.embx_ir_rx_phy_timer_overflow.mark + n ≤ cfg.EMBX_IR_RX_PHY_TIMER_OVERFLOWS_MARK →
      (rx_events cfg s
          (List.replicate n (EMBX_IR_RX_TIMER_EVENT_TIMEOUT, 0))).embx_ir_rx_phy_state
          = EMBX_IR_RX_PHY_STATE_MARKING
        ∧ (rx_events cfg s (List.replicate n (EMBX_IR_RX_TIMER_EVENT_TIMEOUT, 0))).bank
          = s.bank := by
  induction n with
  | zero => exact fun s hs _ => ⟨hs, rfl⟩
  | succ n ih =>
    intro s hs hm
    have h := embx_rx_ir_phy_state_machine_marking_timeout_more cfg s 0 hs (by omega)
    have hstep : rx_events cfg s (List.replicate (n + 1) (EMBX_IR_RX_TIMER_EVENT_TIMEOUT, 0))
        = rx_events cfg (embx_rx_ir_phy_state_machine cfg s EMBX_IR_RX_TIMER_EVENT_TIMEOUT 0)
            (List.replicate n (EMBX_IR_RX_TIMER_EVENT_TIMEOUT, 0)) := rfl
    rw [hstep]
    have hmod : (s.embx_ir_rx_phy_timer_overflow.mark + 1) % 4294967296
        = s.embx_ir_rx_phy_timer_overflow.mark + 1 := Nat.mod_eq_of_lt (by omega)
    have ih2 := ih (embx_rx_ir_phy_state_machine cfg s EMBX_IR_RX_TIMER_EVENT_TIMEOUT 0)
      (by rw [h]; exact hs) (by rw [h]; simp only [hmod]; omega)
    rw [h] at ih2 ⊢
    exact ih2

/-- What a successful capture does to the bank, read buffer by buffer. -/
theorem rx_capture_read (b : RxBank) (g : embx_ir_rx_gpio_state_t) (t : Nat)
    (hlen : b.idx_ir_rx_buf_isr < b.embx_ir_rx_buf.length)
    (hst : (rx_buf b b.idx_ir_rx_buf_isr).state = EMBX_IR_RX_BUF_EMPTY)
    (hsz : (rx_buf b b.idx_ir_rx_buf_isr).size < 256) :
    rx_buf (rx_capture b g t) b.idx_ir_rx_buf_isr
        = { rx_buf b b.idx_ir_rx_buf_isr with
            status := STATUS_OK,
            size := (rx_buf b b.idx_ir_rx_buf_isr).size + 1,
            elem := (rx_buf b b.idx_ir_rx_buf_isr).elem.set (rx_buf b b.idx_ir_rx_buf_isr).size
              { gpio_state := g, ticks := t % 4294967296,
                time_us := (t % 4294967296 * EMBX_IR_RX_PHY_USEC_PER_TICK) % 4294967296 } }
      ∧ (∀ j, j ≠ b.idx_ir_rx_buf_isr → rx_buf (rx_capture b g t) j = rx_buf b j)
      ∧ (rx_capture b g t).idx_ir_rx_buf_isr = b.idx_ir_rx_buf_isr
      ∧ (rx_capture b g t).embx_ir_rx_buf_err = b.embx_ir_rx_buf_err
      ∧ (rx_capture b g t).embx_ir_rx_buf.length = b.embx_ir_rx_buf.length :=
  rx_record_bank_read b g t hlen hst hsz

/-- A mark and a space captured into the bank that init leaves: buffer 0 is still empty
(not handed over), holds two elements, and its elements 0 and 1 are the mark and the
space. -/
theorem rx_two_captures_read (b0 : RxBank) (hshape : RxBankShape b0) (m sp : Nat) :
    (rx_capture (rx_capture (embx_ir_rx_phy_buf_init b0) EMBX_IR_RX_GPIO_STATE_MARK m)
        EMBX_IR_RX_GPIO_STATE_SPACE sp).embx_ir_rx_buf.length = 4
      ∧ (rx_capture (rx_capture (embx_ir_rx_phy_buf_init b0) EMBX_IR_RX_GPIO_STATE_MARK m)
        EMBX_IR_RX_GPIO_STATE_SPACE sp).idx_ir_rx_buf_isr = 0
      ∧ (rx_buf (rx_capture (rx_capture (embx_ir_rx_phy_buf_init b0)
          EMBX_IR_RX_GPIO_STATE_MARK m) EMBX_IR_RX_GPIO_STATE_SPACE sp) 0).state
          = EMBX_IR_RX_BUF_EMPTY
      ∧ (rx_buf (rx_capture (rx_capture (embx_ir_rx_phy_buf_init b0)
          EMBX_IR_RX_GPIO_STATE_MARK m) EMBX_IR_RX_GPIO_STATE_SPACE sp) 0).size = 2
      ∧ rx_elem (rx_buf (rx_capture (rx_capture (embx_ir_rx_phy_buf_init b0)
          EMBX_IR_RX_GPIO_STATE_MARK m) EMBX_IR_RX_GPIO_STATE_SPACE sp) 0) 0
          = { gpio_state := EMBX_IR_RX_GPIO_STATE_MARK, ticks := m % 4294967296,
              time_us := (m % 4294967296 * EMBX_IR_RX_PHY_USEC_PER_TICK) % 4294967296 }
      ∧ rx_elem (rx_buf (rx_capture (rx_capture (embx_ir_rx_phy_buf_init b0)
          EMBX_IR_RX_GPIO_STATE_MARK m) EMBX_IR_RX_GPIO_STATE_SPACE sp) 0) 1
          = { gpio_state := EMBX_IR_RX_GPIO_STATE_SPACE, ticks := sp % 4294967296,
              time_us := (sp % 4294967296 * EMBX_IR_RX_PHY_USEC_PER_TICK) % 4294967296 } := by
  obtain ⟨s1, s2⟩ := (RxBankShape_iff b0).mp hshape
  obtain ⟨i1, i2, _, i4⟩ := embx_ir_rx_phy_buf_init_read b0 s1
  have i0 := i4 0 (by omega)
  have hl0 : (rx_reset_elems (rx_buf b0 0).elem).length = 256 := by
    rw [rx_reset_elems_length, s2 0 (by omega)]
  obtain ⟨a1, _, a3, _, a5⟩ := rx_capture_read (embx_ir_rx_phy_buf_init b0)
    EMBX_IR_RX_GPIO_STATE_MARK m (by rw [i1, i2]; omega) (by rw [i2, i0])
    (by rw [i2, i0]; exact Nat.zero_lt_succ 255)
  rw [i2] at a1 a3
  rw [i0] at a1
  obtain ⟨c1, _, c3, _, c5⟩ := rx_capture_read
    (rx_capture (embx_ir_rx_phy_buf_init b0) EMBX_IR_RX_GPIO_STATE_MARK m)
    EMBX_IR_RX_GPIO_STATE_SPACE sp (by rw [a5, i1, a3]; omega) (by rw [a3, a1])
    (by rw [a3, a1]; exact Nat.one_lt_succ_succ 254)
  rw [a3] at c1 c3
  rw [a1] at c1
  refine ⟨by rw [c5, a5, i1], c3, by rw [c1], by rw [c1], ?_, ?_⟩
  · rw [c1]
    unfold rx_elem
    simp only [List.getD_eq_getElem?_getD, List.getElem?_set, List.length_set, hl0]
    simp
  · rw [c1]
    unfold rx_elem
    simp only [List.getD_eq_getElem?_getD, List.getElem?_set, List.length_set, hl0]
    simp

/-- The first four events of `rx_single_frame`, from a fresh enable with no mark wrap
counted: the PHY is in MARKING, no mark wrap is counted, and the bank is the one init
leaves with the mark and the space captured. -/
theorem rx_single_frame_captured (cfg : RxPhyConfig) (s0 : RxPhy) (c m sp : Nat)
    (hshape : RxBankShape s0.bank)
    (hzero : s0.embx_ir_rx_phy_timer_overflow.mark = 0)
    (hc : c > cfg.EMBX_IR_RX_PHY_SYNC_DELAY) :
    (rx_events cfg (embx_ir_rx_phy_enable cfg s0)
        (rx_single_frame c m sp 0)).embx_ir_rx_phy_state = EMBX_IR_RX_PHY_STATE_MARKING
      ∧ (rx_events cfg (embx_ir_rx_phy_enable cfg s0)
        (rx_single_frame c m sp 0)).embx_ir_rx_phy_timer_overflow.mark = 0
      ∧ (rx_events cfg (embx_ir_rx_phy_enable cfg s0) (rx_single_frame c m sp 0)).bank
        = rx_capture (rx_capture (embx_ir_rx_phy_buf_init s0.bank)
            EMBX_IR_RX_GPIO_STATE_MARK m) EMBX_IR_RX_GPIO_STATE_SPACE sp := by
  obtain ⟨s1, s2⟩ := (RxBankShape_iff s0.bank).mp hshape
  obtain ⟨i1, i2, _, i4⟩ := embx_ir_rx_phy_buf_init_read s0.bank s1
  have i0 := i4 0 (by omega)
  obtain ⟨a1, _, a3, _, a5⟩ := rx_capture_read (embx_ir_rx_phy_buf_init s0.bank)
    EMBX_IR_RX_GPIO_STATE_MARK m (by rw [i1, i2]; omega) (by rw [i2, i0])
    (by rw [i2, i0]; exact Nat.zero_lt_succ 255)
  rw [i2] at a1 a3
  rw [i0] at a1
  have hrun : rx_events cfg (embx_ir_rx_phy_enable cfg s0) (rx_single_frame c m sp 0)
      = embx_rx_ir_phy_state_machine cfg (embx_rx_ir_phy_state_machine cfg
          (embx_rx_ir_phy_state_machine cfg (embx_rx_ir_phy_state_machine cfg
            (embx_ir_rx_phy_enable cfg s0) EMBX_IR_RX_TIMER_EVENT_TIMEOUT c)
            EMBX_IR_RX_GPIO_EVENT_FALLING_EDGE 0) EMBX_IR_RX_GPIO_EVENT_RISING_EDGE m)
          EMBX_IR_RX_GPIO_EVENT_FALLING_EDGE sp := by
    simp only [rx_events, rx_single_frame, List.replicate, List.append_nil, List.foldl_cons,
      List.foldl_nil]
  rw [hrun]
  obtain ⟨e0, he0⟩ : ∃ e0, e0 = embx_ir_rx_phy_enable cfg s0 := ⟨_, rfl⟩
  have p0 : e0.embx_ir_rx_phy_state = EMBX_IR_RX_PHY_STATE_SYNCRONIZE := by rw [he0]; rfl
  have b0 : e0.bank = embx_ir_rx_phy_buf_init s0.bank := by rw [he0]; rfl
  have m0 : e0.embx_ir_rx_phy_timer_overflow.mark = 0 := by rw [he0]; exact hzero
  rw [← he0]
  have h1 := embx_rx_ir_phy_state_machine_sync_timeout cfg e0 c p0 hc
  obtain ⟨e1, he1⟩ : ∃ e1, e1
      = embx_rx_ir_phy_state_machine cfg e0 EMBX_IR_RX_TIMER_EVENT_TIMEOUT c := ⟨_, rfl⟩
  rw [← he1] at h1 ⊢
  have p1 : e1.embx_ir_rx_phy_state = EMBX_IR_RX_PHY_STATE_IDLE := by rw [h1]
  have b1 : e1.bank = embx_ir_rx_phy_buf_init s0.bank := by rw [h1]; exact b0
  have m1 : e1.embx_ir_rx_phy_timer_overflow.mark = 0 := by rw [h1]; exact m0
  have h2 := embx_rx_ir_phy_state_machine_idle_falling cfg e1 0 p1
  obtain ⟨e2, he2⟩ : ∃ e2, e2
      = embx_rx_ir_phy_state_machine cfg e1 EMBX_IR_RX_GPIO_EVENT_FALLING_EDGE 0 := ⟨_, rfl⟩
  rw [← he2] at h2 ⊢
  have p2 : e2.embx_ir_rx_phy_state = EMBX_IR_RX_PHY_STATE_MARKING := by rw [h2]
  have b2 : e2.bank = embx_ir_rx_phy_buf_init s0.bank := by rw [h2]; exact b1
  have m2 : e2.embx_ir_rx_phy_timer_overflow.mark = 0 := by rw [h2]; exact m1
  have h3 := embx_rx_ir_phy_state_machine_marking_rising_ok cfg e2 m p2
    (by rw [b2, i1, i2]; omega) (by rw [b2, i2, i0])
    (by rw [b2, i2, i0]; exact Nat.zero_lt_succ 255)
  obtain ⟨e3, he3⟩ : ∃ e3, e3
      = embx_rx_ir_phy_state_machine cfg e2 EMBX_IR_RX_GPIO_EVENT_RISING_EDGE m := ⟨_, rfl⟩
  rw [← he3] at h3 ⊢
  have p3 : e3.embx_ir_rx_phy_state = EMBX_IR_RX_PHY_STATE_SPACING := by rw [h3]
  have b3 : e3.bank
      = rx_capture (embx_ir_rx_phy_buf_init s0.bank) EMBX_IR_RX_GPIO_STATE_MARK m := by
    rw [h3]
    show rx_capture e2.bank EMBX_IR_RX_GPIO_STATE_MARK
      (m + cfg.EMBX_IR_RX_PHY_MARK_DELAY * e2.embx_ir_rx_phy_timer_overflow.mark) = _
    rw [m2, b2, Nat.mul_zero, Nat.add_zero]
  have m3 : e3.embx_ir_rx_phy_timer_overflow.mark = 0 := by rw [h3]
  have h4 := embx_rx_ir_phy_state_machine_spacing_falling_ok cfg e3 sp p3
    (by rw [b3, a5, i1, a3]; omega) (by rw [b3, a3, a1])
    (by rw [b3, a3, a1]; exact Nat.one_lt_succ_succ 254)
  rw [h4]
  refine ⟨rfl, m3, ?_⟩
  show rx_capture e3.bank EMBX_IR_RX_GPIO_STATE_SPACE sp = _
  rw [b3]

/-- The events of `rx_single_frame` split into the four events of the frame and the
timer wraps that follow. -/
theorem rx_events_single_frame (cfg : RxPhyConfig) (s : RxPhy) (c m sp n : Nat) :
    rx_events cfg s (rx_single_frame c m sp n)
      = rx_events cfg (rx_events cfg s (rx_single_frame c m sp 0))
          (List.replicate n (EMBX_IR_RX_TIMER_EVENT_TIMEOUT, 0)) := by
  rw [← rx_events_append]
  simp [rx_single_frame]

/-- The whole of `rx_single_frame` with at least `TIMER_OVERFLOWS_MARK + 1` timer wraps at
its end: the wraps are counted in MARKING, so the buffer with the mark and the space is
completed with status timeout, and the PHY is in IDLE. -/
theorem rx_single_frame_run (cfg : RxPhyConfig) (s0 : RxPhy) (c m sp n : Nat)
    (hshape : RxBankShape s0.bank)
    (hzero : s0.embx_ir_rx_phy_timer_overflow.mark = 0)
    (hT : cfg.EMBX_IR_RX_PHY_TIMER_OVERFLOWS_MARK < 4294967296)
    (hc : c > cfg.EMBX_IR_RX_PHY_SYNC_DELAY)
    (hn : cfg.EMBX_IR_RX_PHY_TIMER_OVERFLOWS_MARK + 1 ≤ n) :
    (rx_events cfg (embx_ir_rx_phy_enable cfg s0)
        (rx_single_frame c m sp n)).embx_ir_rx_phy_state = EMBX_IR_RX_PHY_STATE_IDLE
      ∧ (rx_events cfg (embx_ir_rx_phy_enable cfg s0) (rx_single_frame c m sp n)).bank
        = (embx_ir_rx_buf_complete (rx_capture (rx_capture (embx_ir_rx_phy_buf_init s0.bank)
            EMBX_IR_RX_GPIO_STATE_MARK m) EMBX_IR_RX_GPIO_STATE_SPACE sp)
            STATUS_ERR_TIMEOUT).2 := by
  obtain ⟨f1, f2, f3⟩ := rx_single_frame_captured cfg s0 c m sp hshape hzero hc
  rw [rx_events_single_frame]
  obtain ⟨e4, he4⟩ : ∃ e4, e4
      = rx_events cfg (embx_ir_rx_phy_enable cfg s0) (rx_single_frame c m sp 0) := ⟨_, rfl⟩
  rw [← he4] at f1 f2 f3 ⊢
  have hsplit : List.replicate n (EMBX_IR_RX_TIMER_EVENT_TIMEOUT, 0)
      = List.replicate (cfg.EMBX_IR_RX_PHY_TIMER_OVERFLOWS_MARK + 1)
          (EMBX_IR_RX_TIMER_EVENT_TIMEOUT, 0)
        ++ List.replicate (n - (cfg.EMBX_IR_RX_PHY_TIMER_OVERFLOWS_MARK + 1))
          (EMBX_IR_RX_TIMER_EVENT_TIMEOUT, 0) := by
    rw [← List.replicate_add]
    congr 1
    omega
  rw [hsplit, rx_events_append]
  obtain ⟨t1, _, t3⟩ := rx_events_marking_timeouts cfg hT
    cfg.EMBX_IR_RX_PHY_TIMER_OVERFLOWS_MARK e4 f1 (by rw [f2]; omega)
  obtain ⟨u1, u2⟩ := rx_events_idle_timeouts cfg
    (n - (cfg.EMBX_IR_RX_PHY_TIMER_OVERFLOWS_MARK + 1)) _ t1
  exact ⟨u1, by rw [u2, t3, f3]⟩

/-- Whatever the timing constants, the frame of the single-frame scenario with
`TIMER_OVERFLOWS_SPACE + 1` timer wraps at its end does not leave buffer 0 full with
status ok: the wraps are counted against `TIMER_OVERFLOWS_MARK`, so either the buffer is
completed with status timeout or it is not completed at all. -/
theorem rx_single_frame_not_ok (cfg : RxPhyConfig) (s0 : RxPhy) (c m sp : Nat)
    (hshape : RxBankShape s0.bank)
    (hzero : s0.embx_ir_rx_phy_timer_overflow.mark = 0)
    (hT : cfg.EMBX_IR_RX_PHY_TIMER_OVERFLOWS_MARK < 4294967296)
    (hc : c > cfg.EMBX_IR_RX_PHY_SYNC_DELAY) :
    ¬ ((rx_buf (rx_events cfg (embx_ir_rx_phy_enable cfg s0) (rx_single_frame c m sp
          (cfg.EMBX_IR_RX_PHY_TIMER_OVERFLOWS_SPACE + 1))).bank 0).state
          = EMBX_IR_RX_BUF_FULL
        ∧ (rx_buf (rx_events cfg (embx_ir_rx_phy_enable cfg s0) (rx_single_frame c m sp
          (cfg.EMBX_IR_RX_PHY_TIMER_OVERFLOWS_SPACE + 1))).bank 0).status = STATUS_OK) := by
  obtain ⟨x1, x2, x3, _⟩ := rx_two_captures_read s0.bank hshape m sp
  by_cases hcmp : cfg.EMBX_IR_RX_PHY_TIMER_OVERFLOWS_MARK
      ≤ cfg.EMBX_IR_RX_PHY_TIMER_OVERFLOWS_SPACE
  · obtain ⟨_, r2⟩ := rx_single_frame_run cfg s0 c m sp
      (cfg.EMBX_IR_RX_PHY_TIMER_OVERFLOWS_SPACE + 1) hshape hzero hT hc (by omega)
    obtain ⟨_, _, _, _, c5, _⟩ := embx_ir_rx_buf_complete_read _ STATUS_ERR_TIMEOUT
      (by rw [x2]; omega) x1
    rw [x2] at c5
    rw [r2, c5]
    exact fun h => (nomatch h.2)
  · obtain ⟨f1, f2, f3⟩ := rx_single_frame_captured cfg s0 c m sp hshape hzero hc
    obtain ⟨_, u2⟩ := rx_events_marking_timeouts_few cfg hT
      (cfg.EMBX_IR_RX_PHY_TIMER_OVERFLOWS_SPACE + 1) _ f1 (by rw [f2]; omega)
    rw [rx_events_single_frame, u2, f3, x3]
    exact fun h => (nomatch h.1)

/-- C21, as stated, fails: with the example constants (2500, 1250, 1250, 1, 1), after
enable at power-up, the timeout at count 2501, a falling edge, a rising edge at count 112,
a falling edge at count 56 and `TIMER_OVERFLOWS_SPACE + 1 = 2` timeouts, buffer 0 is full
with two elements and the PHY is idle, but the status of the buffer is timeout, not ok:
after the falling edge the PHY is in MARKING, and a frame that ends there has timed out. -/
theorem rx_single_frame_status_counterexample :
    (rx_buf (rx_events rx_example_config (embx_ir_rx_phy_enable rx_example_config rx_power_up)
        (rx_single_frame 2501 112 56
          (rx_example_config.EMBX_IR_RX_PHY_TIMER_OVERFLOWS_SPACE + 1))).bank 0).state
        = EMBX_IR_RX_BUF_FULL
      ∧ (rx_buf (rx_events rx_example_config
          (embx_ir_rx_phy_enable rx_example_config rx_power_up)
          (rx_single_frame 2501 112 56
            (rx_example_config.EMBX_IR_RX_PHY_TIMER_OVERFLOWS_SPACE + 1))).bank 0).status
        = STATUS_ERR_TIMEOUT
      ∧ (rx_buf (rx_events rx_example_config
          (embx_ir_rx_phy_enable rx_example_config rx_power_up)
          (rx_single_frame 2501 112 56
            (rx_example_config.EMBX_IR_RX_PHY_TIMER_OVERFLOWS_SPACE + 1))).bank 0).status
        ≠ STATUS_OK := by
  decide!

/-- C21 (amended): for every mark count `m` and space count `sp` (timer counts, with
`8 * m` and `8 * sp` below `2^32`) and every value of the timing constants
(`TIMER_OVERFLOWS_MARK` a 32-bit value): starting from a fresh `rx_phy_enable` with no
mark wrap counted, the event sequence timeout (`count > SYNC_DELAY`), falling edge, rising
edge (`count = m`), falling edge (`count = sp`), followed by at least
`TIMER_OVERFLOWS_MARK + 1` timeouts with no further edge, leaves buffer 0 with
`elem[0] = {mark, m, 8m}`, `elem[1] = {space, sp, 8sp}`, `size = 2`, `state = full`,
`status = timeout`, and the PHY state idle. -/
theorem rx_single_frame_timed_out (cfg : RxPhyConfig) (s0 : RxPhy) (c m sp n : Nat)
    (hshape : RxBankShape s0.bank)
    (hzero : s0.embx_ir_rx_phy_timer_overflow.mark = 0)
    (hT : cfg.EMBX_IR_RX_PHY_TIMER_OVERFLOWS_MARK < 4294967296)
    (hc : c > cfg.EMBX_IR_RX_PHY_SYNC_DELAY)
    (hm : 8 * m < 4294967296) (hsp : 8 * sp < 4294967296)
    (hn : cfg.EMBX_IR_RX_PHY_TIMER_OVERFLOWS_MARK + 1 ≤ n) :
    rx_elem (rx_buf (rx_events cfg (embx_ir_rx_phy_enable cfg s0)
        (rx_single_frame c m sp n)).bank 0) 0
        = { gpio_state := EMBX_IR_RX_GPIO_STATE_MARK, ticks := m, time_us := 8 * m }
      ∧ rx_elem (rx_buf (rx_events cfg (embx_ir_rx_phy_enable cfg s0)
          (rx_single_frame c m sp n)).bank 0) 1
        = { gpio_state := EMBX_IR_RX_GPIO_STATE_SPACE, ticks := sp, time_us := 8 * sp }
      ∧ (rx_buf (rx_events cfg (embx_ir_rx_phy_enable cfg s0)
          (rx_single_frame c m sp n)).bank 0).size = 2
      ∧ (rx_buf (rx_events cfg (embx_ir_rx_phy_enable cfg s0)
          (rx_single_frame c m sp n)).bank 0).state = EMBX_IR_RX_BUF_FULL
      ∧ (rx_buf (rx_events cfg (embx_ir_rx_phy_enable cfg s0)
          (rx_single_frame c m sp n)).bank 0).status = STATUS_ERR_TIMEOUT
      ∧ (rx_events cfg (embx_ir_rx_phy_enable cfg s0)
          (rx_single_frame c m sp n)).embx_ir_rx_phy_state = EMBX_IR_RX_PHY_STATE_IDLE := by
  obtain ⟨r1, r2⟩ := rx_single_frame_run cfg s0 c m sp n hshape hzero hT hc hn
  obtain ⟨x1, x2, _, x4, x5, x6⟩ := rx_two_captures_read s0.bank hshape m sp
  obtain ⟨_, _, _, _, c5, _⟩ := embx_ir_rx_buf_complete_read
    (rx_capture (rx_capture (embx_ir_rx_phy_buf_init s0.bank) EMBX_IR_RX_GPIO_STATE_MARK m)
      EMBX_IR_RX_GPIO_STATE_SPACE sp) STATUS_ERR_TIMEOUT (by rw [x2]; omega) x1
  rw [x2] at c5
  have hm1 : m % 4294967296 = m := Nat.mod_eq_of_lt (by omega)
  have hm2 : (m * 8) % 4294967296 = 8 * m := by omega
  have hs1 : sp % 4294967296 = sp := Nat.mod_eq_of_lt (by omega)
  have hs2 : (sp * 8) % 4294967296 = 8 * sp := by omega
  simp only [hm1, hm2, hs1, hs2, EMBX_IR_RX_PHY_USEC_PER_TICK] at x5 x6
  rw [r2, c5]
  generalize rx_buf (rx_capture (rx_capture (embx_ir_rx_phy_buf_init s0.bank)
    EMBX_IR_RX_GPIO_STATE_MARK m) EMBX_IR_RX_GPIO_STATE_SPACE sp) 0 = y at x4 x5 x6 ⊢
  exact ⟨x5, x6, x4, rfl, rfl, r1⟩

/-- C21 (amended) with the example constants, `m = 112` and `sp = 56`: the elements are
`{mark, 112, 896}` and `{space, 56, 448}`. -/
theorem rx_single_frame_timed_out_witness :
    rx_elem (rx_buf (rx_events rx_example_config
        (embx_ir_rx_phy_enable rx_example_config rx_power_up)
        (rx_single_frame 2501 112 56 2)).bank 0) 0
        = { gpio_state := EMBX_IR_RX_GPIO_STATE_MARK, ticks := 112, time_us := 8 * 112 }
      ∧ rx_elem (rx_buf (rx_events rx_example_config
          (embx_ir_rx_phy_enable rx_example_config rx_power_up)
          (rx_single_frame 2501 112 56 2)).bank 0) 1
        = { gpio_state := EMBX_IR_RX_GPIO_STATE_SPACE, ticks := 56, time_us := 8 * 56 }
      ∧ (rx_buf (rx_events rx_example_config
          (embx_ir_rx_phy_enable rx_example_config rx_power_up)
          (rx_single_frame 2501 112 56 2)).bank 0).status = STATUS_ERR_TIMEOUT :=
  have h := rx_single_frame_timed_out rx_example_config rx_power_up 2501 112 56 2
    (by unfold RxBankShape; decide!) rfl (by decide) (by decide) (by decide) (by decide)
    (by decide)
  ⟨h.1, h.2.1, h.2.2.2.2.1⟩

/-! ## Wraps counted during a space -/

/-- C22 at the failing input.  With `TIMER_OVERFLOWS_SPACE = 1` the frame should be ended
by the second consecutive timeout after the state machine enters SPACING.  In the reachable
state `rx_second_spacing` the machine has just entered SPACING from MARKING, but the wrap
counted during the previous space is still in `overflows.space` (a falling edge does not
clear it, whereas a rising edge clears `overflows.mark`), and the first timeout already ends
the frame: PHY idle, buffer 0 full with status ok. -/
theorem rx_spacing_stale_wrap_count :
    RxReachable rx_example_config rx_second_spacing
      ∧ rx_second_mark.embx_ir_rx_phy_state = EMBX_IR_RX_PHY_STATE_MARKING
      ∧ rx_second_spacing.embx_ir_rx_phy_state = EMBX_IR_RX_PHY_STATE_SPACING
      ∧ rx_example_config.EMBX_IR_RX_PHY_TIMER_OVERFLOWS_SPACE = 1
      ∧ rx_second_spacing.embx_ir_rx_phy_timer_overflow.space = 1
      ∧ (embx_rx_ir_phy_state_machine rx_example_config rx_second_spacing
          EMBX_IR_RX_TIMER_EVENT_TIMEOUT 0).embx_ir_rx_phy_state = EMBX_IR_RX_PHY_STATE_IDLE
      ∧ (rx_buf (embx_rx_ir_phy_state_machine rx_example_config rx_second_spacing
          EMBX_IR_RX_TIMER_EVENT_TIMEOUT 0).bank 0).state = EMBX_IR_RX_BUF_FULL
      ∧ (rx_buf (embx_rx_ir_phy_state_machine rx_example_config rx_second_spacing
          EMBX_IR_RX_TIMER_EVENT_TIMEOUT 0).bank 0).status = STATUS_OK :=
  ⟨RxReachable.event _ _ _ (rx_events_reachable _ _ _ (rx_enable_power_up_reachable _)),
    by decide!, by decide!, rfl, by decide!, by decide!, by decide!, by decide!⟩

/-! ## The carrier table, the tick conversion, send and the draining of the queue -/

/-- C32, as stated, fails for each of the six carriers: the period of the table is one less
than `GCLK_FREQ / (2 * carrier_hz)` clamped to `[25, 255]`; for 38 kHz the formula gives 105
and the table holds 104. -/
theorem tx_mod_period_counterexample :
    EMBX_IR_MODULATOR_GCLK_FREQ
        / (2 * embx_ir_tx_mod_freq_hz embx_ir_tx_mod_freq_t.KHz_38) = 105
      ∧ embx_ir_tx_modulator_compute_and_set_freq
          (embx_ir_tx_mod_freq_hz embx_ir_tx_mod_freq_t.KHz_38) = some 105
      ∧ embx_ir_tx_mod_freq_period embx_ir_tx_mod_freq_t.KHz_38 = 104
      ∧ ∀ f, some (embx_ir_tx_mod_freq_period f)
          ≠ embx_ir_tx_modulator_compute_and_set_freq (embx_ir_tx_mod_freq_hz f) := by
  refine ⟨by decide, by decide, rfl, ?_⟩
  intro f
  cases f <;> decide

/-- C32 (amended): for each of the six enumerated carriers the counter period defined for it
(132, 120, 110, 104, 99, 70) is one less than `GCLK_FREQ / (2 * carrier_hz)` with
`GCLK_FREQ = 8,000,000` and `carrier_hz` the nominal carrier frequency of the entry (the
value that the clamped formula gives), and lies in `[25, 255]`. -/
theorem tx_mod_period_formula (f : embx_ir_tx_mod_freq_t) :
    embx_ir_tx_mod_freq_period f + 1
        = EMBX_IR_MODULATOR_GCLK_FREQ / (2 * embx_ir_tx_mod_freq_hz f)
      ∧ embx_ir_tx_modulator_compute_and_set_freq (embx_ir_tx_mod_freq_hz f)
          = some (embx_ir_tx_mod_freq_period f + 1)
      ∧ EMBX_IR_TX_MODULATOR_MIN_PERIOD ≤ embx_ir_tx_mod_freq_period f
      ∧ embx_ir_tx_mod_freq_period f ≤ EMBX_IR_TX_MODULATOR_MAX_PERIOD := by
  cases f <;> decide

/-- C34: for every `usec` in `[0, 65535]`, the tick conversion done by fill stores
`period = usec / 8` and `overflows = 0` when `usec < 2048`, and `period = usec mod 256` and
`overflows = usec / 256` when `usec ≥ 2048`; in both cases `period ≤ 255`, and no other
field of the descriptor changes. -/
theorem tx_tick_conversion (pd : embx_ir_tx_phy_descriptor_t) (husec : pd.usec ≤ 65535) :
    (pd.usec < 2048 →
        embx_ir_tx_phy_descriptor_tc_init pd
          = { pd with period := pd.usec / 8, overflows := 0 })
      ∧ (pd.usec ≥ 2048 →
        embx_ir_tx_phy_descriptor_tc_init pd
          = { pd with period := pd.usec % 256, overflows := pd.usec / 256 })
      ∧ (embx_ir_tx_phy_descriptor_tc_init pd).period ≤ 255 := by
  rw [tc_init_fields]
  refine ⟨?_, ?_, ?_⟩
  · intro h
    have hc : ¬ (pd.usec / 8) % 65536 > 255 := by omega
    rw [if_neg hc, if_neg hc, Nat.mod_eq_of_lt (by omega)]
  · intro h
    have hc : (pd.usec / 8) % 65536 > 255 := by omega
    rw [if_pos hc, if_pos hc, Nat.mod_eq_of_lt (by omega : pd.usec % 256 < 65536),
      Nat.mod_eq_of_lt (by omega : pd.usec / 256 < 256)]
  · show (if (pd.usec / 8) % 65536 > 255 then (pd.usec % 256) % 65536
      else (pd.usec / 8) % 65536) ≤ 255
    split <;> omega

/-- C34 on descriptors of 9000 us and of 560 us: the stored periods are 40 (with 35
overflows) and 70 (with none). -/
theorem tx_tick_conversion_witness :
    embx_ir_tx_phy_descriptor_tc_init { tx_zero_descriptor with usec := 9000 }
        = { tx_zero_descriptor with
            usec := 9000, period := 9000 % 256, overflows := 9000 / 256 }
      ∧ embx_ir_tx_phy_descriptor_tc_init { tx_zero_descriptor with usec := 560 }
        = { tx_zero_descriptor with usec := 560, period := 560 / 8, overflows := 0 } :=
  ⟨(tx_tick_conversion { tx_zero_descriptor with usec := 9000 } (by decide)).2.1 (by decide),
    (tx_tick_conversion { tx_zero_descriptor with usec := 560 } (by decide)).1 (by decide)⟩

/-- C35: send applies no repeat logic to the descriptor it emits: for every idle Tx state
with `tx_index < fill_index`, after send no descriptor has changed (so every `repeat_cnt` is
as before) and `tx_index` is exactly the old `tx_index + 1`, whatever the `max_repeat_cnt`
and `decrement` of the emitted descriptor; and in no state at all does send lower
`tx_index`, so only the timer callback rewinds it when emitting. -/
theorem tx_send_no_repeat (s : TxPhy) :
    (s.embx_ir_tx_in_progress = false → s.tx_index < s.fill_index →
        (embx_ir_tx_phy_send s).2.phy_descriptor = s.phy_descriptor
          ∧ (∀ j, (tx_slot (embx_ir_tx_phy_send s).2 j).repeat_cnt = (tx_slot s j).repeat_cnt)
          ∧ (embx_ir_tx_phy_send s).2.tx_index = s.tx_index + 1
          ∧ (embx_ir_tx_phy_send s).2.fill_index = s.fill_index)
      ∧ s.tx_index ≤ (embx_ir_tx_phy_send s).2.tx_index := by
  have hfirst : s.embx_ir_tx_in_progress = false → s.tx_index < s.fill_index →
      (embx_ir_tx_phy_send s).2.phy_descriptor = s.phy_descriptor
        ∧ (∀ j, (tx_slot (embx_ir_tx_phy_send s).2 j).repeat_cnt = (tx_slot s j).repeat_cnt)
        ∧ (embx_ir_tx_phy_send s).2.tx_index = s.tx_index + 1
        ∧ (embx_ir_tx_phy_send s).2.fill_index = s.fill_index := by
    intro hidle h
    obtain ⟨_, a2, a3, a4, _⟩ := tx_send_idle_some s hidle h
    exact ⟨a2, fun j => by rw [tx_slot_congr s _ a2 j], a4, a3⟩
  refine ⟨hfirst, ?_⟩
  by_cases hbusy : s.embx_ir_tx_in_progress = true
  · simp [embx_ir_tx_phy_send, hbusy]
  · have hidle : s.embx_ir_tx_in_progress = false := by simpa using hbusy
    by_cases h : s.tx_index < s.fill_index
    · rw [(hfirst hidle h).2.2.1]
      omega
    · simp [embx_ir_tx_phy_send, hidle, embx_ir_tx_phy_descriptor_get, h]

/-- C35 on the queue whose slot 0 asks for two repeats of itself: send emits it without
counting a repeat and moves on to slot 1; a callback, by contrast, rewinds `tx_index` on
the rewind queue. -/
theorem tx_send_no_repeat_witness :
    ((embx_ir_tx_phy_send tx_head_repeat_example).2.phy_descriptor
        = tx_head_repeat_example.phy_descriptor
      ∧ (embx_ir_tx_phy_send tx_head_repeat_example).2.tx_index
        = tx_head_repeat_example.tx_index + 1)
    ∧ (tx_slot tx_head_repeat_example 0).max_repeat_cnt = 2
    ∧ (tc_callback_ir_tx_phy tx_rewind_example).tx_index < tx_rewind_example.tx_index :=
  have h := (tx_send_no_repeat tx_head_repeat_example).1 (by decide) (by decide)
  ⟨⟨h.1, h.2.2.1⟩, by decide, by decide⟩

/-- C33: for every reachable Tx state with `tx_in_progress = true` in which every queued
descriptor has `max_repeat_cnt ≥ 0` (no FOREVER), whatever the decrements, repeat counts and
nesting of repeat blocks, iterating the timer callback reaches `tx_in_progress = false`
after finitely many callbacks: there is a number `n` of callbacks before which the PHY is
busy and from which on it is idle. -/
theorem tx_busy_queue_drains (s : TxPhy) (h : TxReachable s)
    (hbusy : s.embx_ir_tx_in_progress = true)
    (hpos : ∀ j, j < s.fill_index → 0 ≤ (tx_slot s j).max_repeat_cnt) :
    ∃ n, (∀ k, k < n → (tx_callbacks k s).2.embx_ir_tx_in_progress = true)
      ∧ ∀ m, n ≤ m → (tx_callbacks m s).2.embx_ir_tx_in_progress = false := by
  obtain ⟨h1, _, h3, _⟩ := TxReachable_invariant s h
  have hno : TxNoForever s := by
    intro j hj hf
    have := hpos j hj
    rw [hf] at this
    exact absurd this (by decide)
  obtain ⟨n, hn1, hn2⟩ := tx_callbacks_drain (tx_drain_measure s) s (Nat.le_refl _) h1 h3 hno
    hbusy
  refine ⟨n, hn1, ?_⟩
  intro m hm
  obtain ⟨d, rfl⟩ := Nat.exists_eq_add_of_le hm
  rw [tx_callbacks_add n d s]
  exact tx_callbacks_stay_idle d _ hn2

/-- C33 on the state reached by two fills, send and two callbacks, in which the descriptor
of slot 1 still owes repeats of a block of two slots. -/
theorem tx_busy_queue_drains_witness :
    ∃ n, (∀ k, k < n → (tx_callbacks k tx_example_reached).2.embx_ir_tx_in_progress = true)
      ∧ ∀ m, n ≤ m → (tx_callbacks m tx_example_reached).2.embx_ir_tx_in_progress = false :=
  tx_busy_queue_drains tx_example_reached
    (TxReachable.callback _ (TxReachable.callback _ (TxReachable.send _
      (TxReachable.fill _ false _ (TxReachable.fill _ true _
        (TxReachable.start tx_power_up (by decide) rfl rfl rfl))))))
    (by decide) (by decide)

/-! ## Idempotence of reset and init -/

/-- Running the reset loop over an element array a second time changes nothing. -/
theorem rx_reset_elems_idem (elem : List embx_ir_rx_buf_elem_t) :
    rx_reset_elems (rx_reset_elems elem) = rx_reset_elems elem := by
  have h1 := rx_reset_loop_read EMBX_IR_RX_BUF_SZ elem
  have h2 := rx_reset_loop_read EMBX_IR_RX_BUF_SZ (rx_reset_elems elem)
  have hl : (rx_reset_elems (rx_reset_elems elem)).length = (rx_reset_elems elem).length :=
    h2.1
  apply List.ext_getElem hl
  intro n n1 n2
  have e2 := h2.2 n
  have e1 : (rx_reset_elems elem).getD n rx_zero_elem
      = if n < EMBX_IR_RX_BUF_SZ ∧ n < elem.length then
          { elem.getD n rx_zero_elem with
            gpio_state := EMBX_IR_RX_GPIO_STATE_UNINITIALIZED }
        else elem.getD n rx_zero_elem := h1.2 n
  have e3 : (rx_reset_elems (rx_reset_elems elem)).getD n rx_zero_elem
      = if n < EMBX_IR_RX_BUF_SZ ∧ n < (rx_reset_elems elem).length then
          { (rx_reset_elems elem).getD n rx_zero_elem with
            gpio_state := EMBX_IR_RX_GPIO_STATE_UNINITIALIZED }
        else (rx_reset_elems elem).getD n rx_zero_elem := e2
  rw [List.getD_eq_getElem _ _ n1] at e3
  rw [e3]
  have hn2 : n < elem.length := by rw [← rx_reset_elems_length elem]; exact n2
  by_cases hn : n < EMBX_IR_RX_BUF_SZ
  · rw [if_pos ⟨hn, n2⟩, e1, if_pos ⟨hn, hn2⟩]
    rw [List.getD_eq_getElem _ _ n2] at e1
    rw [e1, if_pos ⟨hn, hn2⟩]
  · rw [if_neg (fun h => hn h.1), List.getD_eq_getElem _ _ n2]

/-- C31: for every bank state (an array of four buffers) and every index `i`, `reset(i)`
followed by `reset(i)` yields the same bank state and the same return value as a single
`reset(i)`; and calling `rx_phy_init` twice yields the same PHY state (state variable,
overflow counters, statistics, buffers, and the timer) as calling it once. -/
theorem rx_reset_init_idempotent (b : RxBank) (i : Nat) (s : RxPhy)
    (hlen : b.embx_ir_rx_buf.length = EMBX_IR_RX_NUMBER_OF_BUFFERS) :
    embx_ir_rx_phy_buf_reset (embx_ir_rx_phy_buf_reset b i).2 i = embx_ir_rx_phy_buf_reset b i
      ∧ embx_ir_rx_phy_init (embx_ir_rx_phy_init s) = embx_ir_rx_phy_init s
      ∧ (embx_ir_rx_phy_init s).embx_ir_rx_phy_state = EMBX_IR_RX_PHY_STATE_SYNCRONIZE
      ∧ (embx_ir_rx_phy_init s).embx_ir_rx_phy_timer_overflow
          = s.embx_ir_rx_phy_timer_overflow
      ∧ (embx_ir_rx_phy_init s).embx_ir_rx_phy_stats = s.embx_ir_rx_phy_stats
      ∧ (embx_ir_rx_phy_init s).bank = s.bank := by
  refine ⟨?_, rfl, rfl, rfl, rfl, rfl⟩
  by_cases h : i < 4
  · have hi : i < b.embx_ir_rx_buf.length := by rw [hlen]; exact h
    rw [embx_ir_rx_phy_buf_reset_valid b i h hlen]
    rw [embx_ir_rx_phy_buf_reset_valid _ i h (by simp [rx_buf_store, hlen])]
    rw [rx_buf_store_same b i _ hi]
    simp only [rx_reset_elems_idem]
    simp [rx_buf_store, List.set_set]
  · rw [embx_ir_rx_phy_buf_reset_invalid b i h, embx_ir_rx_phy_buf_reset_invalid b i h]

/-- C31 on the bank whose buffer 0 is full and on the example state in SPACING. -/
theorem rx_reset_init_idempotent_witness :
    embx_ir_rx_phy_buf_reset (embx_ir_rx_phy_buf_reset rx_bank_one_full 0).2 0
        = embx_ir_rx_phy_buf_reset rx_bank_one_full 0
      ∧ embx_ir_rx_phy_init (embx_ir_rx_phy_init rx_example_reached)
        = embx_ir_rx_phy_init rx_example_reached
      ∧ (embx_ir_rx_phy_init rx_example_reached).bank = rx_example_reached.bank :=
  have h := rx_reset_init_idempotent rx_bank_one_full 0 rx_example_reached (by decide!)
  ⟨h.1, h.2.1, h.2.2.2.2.2⟩

/-! ## What every event does to state, timer and statistics -/

/-- A rising edge in IDLE is ignored; the timer stays stopped. -/
theorem embx_rx_ir_phy_state_machine_idle_rising (cfg : RxPhyConfig) (s : RxPhy)
    (count : Nat) (hs : s.embx_ir_rx_phy_state = EMBX_IR_RX_PHY_STATE_IDLE) :
    embx_rx_ir_phy_state_machine cfg s EMBX_IR_RX_GPIO_EVENT_RISING_EDGE count
      = { s with tc_running := false } := by
  simp [embx_rx_ir_phy_state_machine, embx_rx_ir_phy_state_switch, hs, handle_state_idle]

/-- A falling edge in MARKING matches no arm of the switch: the state is kept and the
timer, stopped on entry, is not restarted. -/
theorem embx_rx_ir_phy_state_machine_marking_falling (cfg : RxPhyConfig) (s : RxPhy)
    (count : Nat) (hs : s.embx_ir_rx_phy_state = EMBX_IR_RX_PHY_STATE_MARKING) :
    embx_rx_ir_phy_state_machine cfg s EMBX_IR_RX_GPIO_EVENT_FALLING_EDGE count
      = { s with tc_running := false } := by
  simp [embx_rx_ir_phy_state_machine, embx_rx_ir_phy_state_switch, hs]

/-- A rising edge in SPACING matches no arm of the switch: the state is kept and the
timer, stopped on entry, is not restarted. -/
theorem embx_rx_ir_phy_state_machine_spacing_rising (cfg : RxPhyConfig) (s : RxPhy)
    (count : Nat) (hs : s.embx_ir_rx_phy_state = EMBX_IR_RX_PHY_STATE_SPACING) :
    embx_rx_ir_phy_state_machine cfg s EMBX_IR_RX_GPIO_EVENT_RISING_EDGE count
      = { s with tc_running := false } := by
  simp [embx_rx_ir_phy_state_machine, embx_rx_ir_phy_state_switch, hs]

/-- The switch on a falling edge in SPACING when the current buffer has no element left. -/
theorem embx_rx_ir_phy_state_switch_spacing_falling_overflow (cfg : RxPhyConfig) (s : RxPhy)
    (count : Nat) (hs : s.embx_ir_rx_phy_state = EMBX_IR_RX_PHY_STATE_SPACING)
    (hst : (rx_buf s.bank s.bank.idx_ir_rx_buf_isr).state = EMBX_IR_RX_BUF_EMPTY)
    (hsz : ¬ (rx_buf s.bank s.bank.idx_ir_rx_buf_isr).size < 256) :
    embx_rx_ir_phy_state_switch cfg s EMBX_IR_RX_GPIO_EVENT_FALLING_EDGE count
      = { s with
          bank := (embx_ir_rx_buf_complete (embx_ir_rx_buf_isr_get_elem s.bank).2.2
            STATUS_ERR_OVERFLOW).2,
          embx_ir_rx_phy_state := EMBX_IR_RX_PHY_STATE_IDLE } := by
  unfold embx_rx_ir_phy_state_switch
  rw [hs]
  simp only [if_true]
  rw [handle_received_space_overflow cfg s count hst hsz]

/-- A falling edge in SPACING when the current buffer has no element left. -/
theorem embx_rx_ir_phy_state_machine_spacing_falling_overflow (cfg : RxPhyConfig)
    (s : RxPhy) (count : Nat)
    (hs : s.embx_ir_rx_phy_state = EMBX_IR_RX_PHY_STATE_SPACING)
    (hst : (rx_buf s.bank s.bank.idx_ir_rx_buf_isr).state = EMBX_IR_RX_BUF_EMPTY)
    (hsz : ¬ (rx_buf s.bank s.bank.idx_ir_rx_buf_isr).size < 256) :
    embx_rx_ir_phy_state_machine cfg s EMBX_IR_RX_GPIO_EVENT_FALLING_EDGE count
      = { s with
          tc_running := false,
          bank := (embx_ir_rx_buf_complete (embx_ir_rx_buf_isr_get_elem s.bank).2.2
            STATUS_ERR_OVERFLOW).2,
          embx_ir_rx_phy_state := EMBX_IR_RX_PHY_STATE_IDLE } :=
  embx_rx_ir_phy_state_switch_spacing_falling_overflow cfg { s with tc_running := false }
    count hs hst hsz

/-- The switch on a falling edge in SPACING when the current buffer is not empty. -/
theorem embx_rx_ir_phy_state_switch_spacing_falling_no_memory (cfg : RxPhyConfig)
    (s : RxPhy) (count : Nat)
    (hs : s.embx_ir_rx_phy_state = EMBX_IR_RX_PHY_STATE_SPACING)
    (hst : (rx_buf s.bank s.bank.idx_ir_rx_buf_isr).state ≠ EMBX_IR_RX_BUF_EMPTY) :
    embx_rx_ir_phy_state_switch cfg s EMBX_IR_RX_GPIO_EVENT_FALLING_EDGE count
      = { s with
          bank := (embx_ir_rx_buf_isr_get_elem s.bank).2.2,
          embx_ir_rx_phy_state := EMBX_IR_RX_PHY_STATE_SYNCRONIZE,
          tc_compare := cfg.EMBX_IR_RX_PHY_SYNC_DELAY, tc_running := true,
          embx_ir_rx_phy_stats :=
            { s.embx_ir_rx_phy_stats with
              resyncs := (s.embx_ir_rx_phy_stats.resyncs + 1) % 4294967296 } } := by
  unfold embx_rx_ir_phy_state_switch
  rw [hs]
  simp only [if_true]
  rw [handle_received_space_no_memory cfg s count hst, handle_resync_eq]

/-- A falling edge in SPACING when the current buffer is not empty. -/
theorem embx_rx_ir_phy_state_machine_spacing_falling_no_memory (cfg : RxPhyConfig)
    (s : RxPhy) (count : Nat)
    (hs : s.embx_ir_rx_phy_state = EMBX_IR_RX_PHY_STATE_SPACING)
    (hst : (rx_buf s.bank s.bank.idx_ir_rx_buf_isr).state ≠ EMBX_IR_RX_BUF_EMPTY) :
    embx_rx_ir_phy_state_machine cfg s EMBX_IR_RX_GPIO_EVENT_FALLING_EDGE count
      = { s with
          bank := (embx_ir_rx_buf_isr_get_elem s.bank).2.2,
          embx_ir_rx_phy_state := EMBX_IR_RX_PHY_STATE_SYNCRONIZE,
          tc_compare := cfg.EMBX_IR_RX_PHY_SYNC_DELAY, tc_running := true,
          embx_ir_rx_phy_stats :=
            { s.embx_ir_rx_phy_stats with
              resyncs := (s.embx_ir_rx_phy_stats.resyncs + 1) % 4294967296 } } :=
  embx_rx_ir_phy_state_switch_spacing_falling_no_memory cfg { s with tc_running := false }
    count hs hst

/-- What one event does to the PHY state, the timer and the buffer-overflow statistic, in
every state whose interrupt index lies in the bank.  The statistic is never touched; the
PHY enters SYNCRONIZE only through an acquire that returned no_memory; a falling edge in
MARKING and a rising edge in SPACING only stop the timer; after every other event the timer
runs with the delay of the resulting state, or is stopped in IDLE. -/
theorem rx_step_summary (cfg : RxPhyConfig) (s : RxPhy) (event : embx_ir_rx_event_t)
    (count : Nat) (hlen : s.bank.idx_ir_rx_buf_isr < s.bank.embx_ir_rx_buf.length) :
    (embx_rx_ir_phy_state_machine cfg s event count).embx_ir_rx_phy_stats.buffer_overflows
        = s.embx_ir_rx_phy_stats.buffer_overflows
      ∧ ((embx_rx_ir_phy_state_machine cfg s event count).embx_ir_rx_phy_state
            = EMBX_IR_RX_PHY_STATE_SYNCRONIZE →
          s.embx_ir_rx_phy_state = EMBX_IR_RX_PHY_STATE_SYNCRONIZE
            ∨ ((embx_ir_rx_buf_isr_get_elem s.bank).1 = STATUS_ERR_NO_MEMORY
              ∧ ((s.embx_ir_rx_phy_state = EMBX_IR_RX_PHY_STATE_MARKING
                  ∧ event = EMBX_IR_RX_GPIO_EVENT_RISING_EDGE)
                ∨ (s.embx_ir_rx_phy_state = EMBX_IR_RX_PHY_STATE_SPACING
                  ∧ event = EMBX_IR_RX_GPIO_EVENT_FALLING_EDGE))))
      ∧ (((s.embx_ir_rx_phy_state = EMBX_IR_RX_PHY_STATE_MARKING
            ∧ event = EMBX_IR_RX_GPIO_EVENT_FALLING_EDGE)
          ∨ (s.embx_ir_rx_phy_state = EMBX_IR_RX_PHY_STATE_SPACING
            ∧ event = EMBX_IR_RX_GPIO_EVENT_RISING_EDGE)) →
          embx_rx_ir_phy_state_machine cfg s event count = { s with tc_running := false })
      ∧ (¬ ((s.embx_ir_rx_phy_state = EMBX_IR_RX_PHY_STATE_MARKING
            ∧ event = EMBX_IR_RX_GPIO_EVENT_FALLING_EDGE)
          ∨ (s.embx_ir_rx_phy_state = EMBX_IR_RX_PHY_STATE_SPACING
            ∧ event = EMBX_IR_RX_GPIO_EVENT_RISING_EDGE)) →
          ((embx_rx_ir_phy_state_machine cfg s event count).embx_ir_rx_phy_state
              = EMBX_IR_RX_PHY_STATE_SYNCRONIZE →
            (embx_rx_ir_phy_state_machine cfg s event count).tc_running = true
              ∧ (embx_rx_ir_phy_state_machine cfg s event count).tc_compare
                = cfg.EMBX_IR_RX_PHY_SYNC_DELAY)
          ∧ ((embx_rx_ir_phy_state_machine cfg s event count).embx_ir_rx_phy_state
              = EMBX_IR_RX_PHY_STATE_MARKING →
            (embx_rx_ir_phy_state_machine cfg s event count).tc_running = true
              ∧ (embx_rx_ir_phy_state_machine cfg s event count).tc_compare
                = cfg.EMBX_IR_RX_PHY_MARK_DELAY)
          ∧ ((embx_rx_ir_phy_state_machine cfg s event count).embx_ir_rx_phy_state
              = EMBX_IR_RX_PHY_STATE_SPACING →
            (embx_rx_ir_phy_state_machine cfg s event count).tc_running = true
              ∧ (embx_rx_ir_phy_state_machine cfg s event count).tc_compare
                = cfg.EMBX_IR_RX_PHY_SPACE_DELAY)
          ∧ ((embx_rx_ir_phy_state_machine cfg s event count).embx_ir_rx_phy_state
              = EMBX_IR_RX_PHY_STATE_IDLE →
            (embx_rx_ir_phy_state_machine cfg s event count).tc_running = false)) := by
  cases hs : s.embx_ir_rx_phy_state with
  | EMBX_IR_RX_PHY_STATE_SYNCRONIZE =>
    by_cases hc : event = EMBX_IR_RX_TIMER_EVENT_TIMEOUT
        ∧ count > cfg.EMBX_IR_RX_PHY_SYNC_DELAY
    · obtain ⟨he, hgt⟩ := hc
      subst he
      simp [embx_rx_ir_phy_state_machine_sync_timeout cfg s count hs hgt]
    · simp [embx_rx_ir_phy_state_machine_sync_restart cfg s event count hs hc, hs]
  | EMBX_IR_RX_PHY_STATE_IDLE =>
    cases event with
    | EMBX_IR_RX_GPIO_EVENT_RISING_EDGE =>
      simp [embx_rx_ir_phy_state_machine_idle_rising cfg s count hs, hs]
    | EMBX_IR_RX_GPIO_EVENT_FALLING_EDGE =>
      simp [embx_rx_ir_phy_state_machine_idle_falling cfg s count hs]
    | EMBX_IR_RX_TIMER_EVENT_TIMEOUT =>
      simp [embx_rx_ir_phy_state_machine_idle_timeout cfg s count hs, hs]
  | EMBX_IR_RX_PHY_STATE_MARKING =>
    cases event with
    | EMBX_IR_RX_GPIO_EVENT_RISING_EDGE =>
      by_cases hst : (rx_buf s.bank s.bank.idx_ir_rx_buf_isr).state = EMBX_IR_RX_BUF_EMPTY
      · by_cases hsz : (rx_buf s.bank s.bank.idx_ir_rx_buf_isr).size < 256
        · simp [embx_rx_ir_phy_state_machine_marking_rising_ok cfg s count hs hlen hst hsz]
        · simp [embx_rx_ir_phy_state_machine_marking_rising_overflow cfg s count hs hst hsz]
      · have hnm : (embx_ir_rx_buf_isr_get_elem s.bank).1 = STATUS_ERR_NO_MEMORY := by
          rw [embx_ir_rx_buf_isr_get_elem_no_memory s.bank hst]
        simp [embx_rx_ir_phy_state_machine_marking_rising_no_memory cfg s count hs hst, hnm]
    | EMBX_IR_RX_GPIO_EVENT_FALLING_EDGE =>
      simp [embx_rx_ir_phy_state_machine_marking_falling cfg s count hs, hs]
    | EMBX_IR_RX_TIMER_EVENT_TIMEOUT =>
      by_cases hm : s.embx_ir_rx_phy_timer_overflow.mark
          = cfg.EMBX_IR_RX_PHY_TIMER_OVERFLOWS_MARK
      · simp [embx_rx_ir_phy_state_machine_marking_timeout_last cfg s count hs hm]
      · simp [embx_rx_ir_phy_state_machine_marking_timeout_more cfg s count hs hm, hs]
  | EMBX_IR_RX_PHY_STATE_SPACING =>
    cases event with
    | EMBX_IR_RX_GPIO_EVENT_RISING_EDGE =>
      simp [embx_rx_ir_phy_state_machine_spacing_rising cfg s count hs, hs]
    | EMBX_IR_RX_GPIO_EVENT_FALLING_EDGE =>
      by_cases hst : (rx_buf s.bank s.bank.idx_ir_rx_buf_isr).state = EMBX_IR_RX_BUF_EMPTY
      · by_cases hsz : (rx_buf s.bank s.bank.idx_ir_rx_buf_isr).size < 256
        · simp [embx_rx_ir_phy_state_machine_spacing_falling_ok cfg s count hs hlen hst hsz]
        · simp [embx_rx_ir_phy_state_machine_spacing_falling_overflow cfg s count hs hst hsz]
      · have hnm : (embx_ir_rx_buf_isr_get_elem s.bank).1 = STATUS_ERR_NO_MEMORY := by
          rw [embx_ir_rx_buf_isr_get_elem_no_memory s.bank hst]
        simp [embx_rx_ir_phy_state_machine_spacing_falling_no_memory cfg s count hs hst, hnm]
    | EMBX_IR_RX_TIMER_EVENT_TIMEOUT =>
      by_cases hm : s.embx_ir_rx_phy_timer_overflow.space
          = cfg.EMBX_IR_RX_PHY_TIMER_OVERFLOWS_SPACE
      · simp [embx_rx_ir_phy_state_machine_spacing_timeout_last cfg s count hs hm]
      · simp [embx_rx_ir_phy_state_machine_spacing_timeout_more cfg s count hs hm, hs]

/-- No sequence of events changes `stats.buffer_overflows`. -/
theorem rx_events_buffer_overflows (cfg : RxPhyConfig)
    (l : List (embx_ir_rx_event_t × Nat)) :
    ∀ s, RxReachable cfg s →
      (rx_events cfg s l).embx_ir_rx_phy_stats.buffer_overflows
        = s.embx_ir_rx_phy_stats.buffer_overflows := by
  induction l with
  | nil => exact fun s _ => rfl
  | cons e l ih =>
    intro s h
    obtain ⟨h1, h2, _⟩ := RxReachable_bank_inv cfg s h
    have hstep : rx_events cfg s (e :: l)
        = rx_events cfg (embx_rx_ir_phy_state_machine cfg s e.1 e.2) l := rfl
    rw [hstep, ih _ (RxReachable.event s e.1 e.2 h)]
    exact (rx_step_summary cfg s e.1 e.2 (by rw [h1]; exact h2)).1

/-- C36: complete returns ok for every input, so the failure branches of
`handle_rx_complete` and `handle_overflow` are never taken: in every state reachable from
`rx_phy_enable` by events (the statistic being 0 when the PHY is enabled, as at power-up),
`stats.buffer_overflows` is 0, every call of `handle_rx_complete` or `handle_overflow`
leaves the PHY in idle, and an event takes the state machine into synchronize from another
state only through an acquire_elem that returned no_memory. -/
theorem rx_complete_never_fails (cfg : RxPhyConfig) (s0 : RxPhy)
    (l : List (embx_ir_rx_event_t × Nat)) (hshape : RxBankShape s0.bank)
    (hzero : s0.embx_ir_rx_phy_stats.buffer_overflows = 0) :
    (∀ (b : RxBank) (st : status_code), (embx_ir_rx_buf_complete b st).1 = STATUS_OK)
      ∧ (rx_events cfg (embx_ir_rx_phy_enable cfg s0) l).embx_ir_rx_phy_stats.buffer_overflows
          = 0
      ∧ (∀ st, (handle_rx_complete cfg (rx_events cfg (embx_ir_rx_phy_enable cfg s0) l)
          st).embx_ir_rx_phy_state = EMBX_IR_RX_PHY_STATE_IDLE)
      ∧ (handle_overflow cfg (rx_events cfg (embx_ir_rx_phy_enable cfg s0)
          l)).embx_ir_rx_phy_state = EMBX_IR_RX_PHY_STATE_IDLE
      ∧ (∀ event count,
          (rx_events cfg (embx_ir_rx_phy_enable cfg s0) l).embx_ir_rx_phy_state
              ≠ EMBX_IR_RX_PHY_STATE_SYNCRONIZE →
          (embx_rx_ir_phy_state_machine cfg (rx_events cfg (embx_ir_rx_phy_enable cfg s0) l)
              event count).embx_ir_rx_phy_state = EMBX_IR_RX_PHY_STATE_SYNCRONIZE →
          (embx_ir_rx_buf_isr_get_elem
              (rx_events cfg (embx_ir_rx_phy_enable cfg s0) l).bank).1
            = STATUS_ERR_NO_MEMORY) := by
  have hr : RxReachable cfg (rx_events cfg (embx_ir_rx_phy_enable cfg s0) l) :=
    rx_events_reachable cfg l _ (RxReachable.enable s0 hshape)
  obtain ⟨h1, h2, _⟩ := RxReachable_bank_inv cfg _ hr
  refine ⟨fun b st => embx_ir_rx_buf_complete_fst b st, ?_, ?_, ?_, ?_⟩
  · rw [rx_events_buffer_overflows cfg l _ (RxReachable.enable s0 hshape)]
    exact hzero
  · intro st
    rw [handle_rx_complete_eq]
  · rw [handle_overflow_eq]
  · intro event count hne hsync
    rcases (rx_step_summary cfg _ event count (by rw [h1]; exact h2)).2.1 hsync with h | h
    · exact absurd h hne
    · exact h.1

/-- C36 on the state in SPACING after one captured mark. -/
theorem rx_complete_never_fails_witness :
    (rx_events rx_example_config (embx_ir_rx_phy_enable rx_example_config rx_power_up)
        [(EMBX_IR_RX_TIMER_EVENT_TIMEOUT, 2501), (EMBX_IR_RX_GPIO_EVENT_FALLING_EDGE, 0),
         (EMBX_IR_RX_GPIO_EVENT_RISING_EDGE, 112)]).embx_ir_rx_phy_stats.buffer_overflows = 0
      ∧ (handle_overflow rx_example_config
          (rx_events rx_example_config (embx_ir_rx_phy_enable rx_example_config rx_power_up)
            [(EMBX_IR_RX_TIMER_EVENT_TIMEOUT, 2501), (EMBX_IR_RX_GPIO_EVENT_FALLING_EDGE, 0),
             (EMBX_IR_RX_GPIO_EVENT_RISING_EDGE, 112)])).embx_ir_rx_phy_state
          = EMBX_IR_RX_PHY_STATE_IDLE :=
  have h := rx_complete_never_fails rx_example_config rx_power_up
    [(EMBX_IR_RX_TIMER_EVENT_TIMEOUT, 2501), (EMBX_IR_RX_GPIO_EVENT_FALLING_EDGE, 0),
     (EMBX_IR_RX_GPIO_EVENT_RISING_EDGE, 112)] (by unfold RxBankShape; decide!) rfl
  ⟨h.2.1, h.2.2.2.1⟩

/-- C38, as stated, fails for an edge that the current state does not expect: in the
reachable state `rx_marking_example`, in MARKING, a falling edge leaves the PHY in MARKING
with the timer stopped, since the state machine stops the timer on entry and no arm of the
switch restarts it. -/
theorem rx_timer_stopped_counterexample :
    RxReachable rx_example_config rx_marking_example
      ∧ (embx_rx_ir_phy_state_machine rx_example_config rx_marking_example
          EMBX_IR_RX_GPIO_EVENT_FALLING_EDGE 0).embx_ir_rx_phy_state
          = EMBX_IR_RX_PHY_STATE_MARKING
      ∧ (embx_rx_ir_phy_state_machine rx_example_config rx_marking_example
          EMBX_IR_RX_GPIO_EVENT_FALLING_EDGE 0).tc_running = false :=
  ⟨rx_marking_example_reachable, by decide!, by decide!⟩

/-- C38 (amended): with the Rx timer modelled as explicit state (running with a compare
value, or stopped), in every state reachable from `rx_phy_enable`, after the state machine
has handled any event other than a falling edge in marking or a rising edge in spacing, the
timer is running whenever the resulting PHY state is synchronize, marking or spacing (with
compare value `SYNC_DELAY`, `MARK_DELAY` or `SPACE_DELAY` respectively) and is stopped
exactly when the resulting state is idle; a falling edge in marking and a rising edge in
spacing leave the PHY state as it is and the timer stopped. -/
theorem rx_timer_follows_state (cfg : RxPhyConfig) (s : RxPhy) (h : RxReachable cfg s)
    (event : embx_ir_rx_event_t) (count : Nat) :
    (((s.embx_ir_rx_phy_state = EMBX_IR_RX_PHY_STATE_MARKING
          ∧ event = EMBX_IR_RX_GPIO_EVENT_FALLING_EDGE)
        ∨ (s.embx_ir_rx_phy_state = EMBX_IR_RX_PHY_STATE_SPACING
          ∧ event = EMBX_IR_RX_GPIO_EVENT_RISING_EDGE)) →
        embx_rx_ir_phy_state_machine cfg s event count = { s with tc_running := false })
      ∧ (¬ ((s.embx_ir_rx_phy_state = EMBX_IR_RX_PHY_STATE_MARKING
            ∧ event = EMBX_IR_RX_GPIO_EVENT_FALLING_EDGE)
          ∨ (s.embx_ir_rx_phy_state = EMBX_IR_RX_PHY_STATE_SPACING
            ∧ event = EMBX_IR_RX_GPIO_EVENT_RISING_EDGE)) →
          ((embx_rx_ir_phy_state_machine cfg s event count).embx_ir_rx_phy_state
              = EMBX_IR_RX_PHY_STATE_SYNCRONIZE →
            (embx_rx_ir_phy_state_machine cfg s event count).tc_running = true
              ∧ (embx_rx_ir_phy_state_machine cfg s event count).tc_compare
                = cfg.EMBX_IR_RX_PHY_SYNC_DELAY)
          ∧ ((embx_rx_ir_phy_state_machine cfg s event count).embx_ir_rx_phy_state
              = EMBX_IR_RX_PHY_STATE_MARKING →
            (embx_rx_ir_phy_state_machine cfg s event count).tc_running = true
              ∧ (embx_rx_ir_phy_state_machine cfg s event count).tc_compare
                = cfg.EMBX_IR_RX_PHY_MARK_DELAY)
          ∧ ((embx_rx_ir_phy_state_machine cfg s event count).embx_ir_rx_phy_state
              = EMBX_IR_RX_PHY_STATE_SPACING →
            (embx_rx_ir_phy_state_machine cfg s event count).tc_running = true
              ∧ (embx_rx_ir_phy_state_machine cfg s event count).tc_compare
                = cfg.EMBX_IR_RX_PHY_SPACE_DELAY)
          ∧ ((embx_rx_ir_phy_state_machine cfg s event count).tc_running = false
              ↔ (embx_rx_ir_phy_state_machine cfg s event count).embx_ir_rx_phy_state
                = EMBX_IR_RX_PHY_STATE_IDLE)) := by
  obtain ⟨h1, h2, _⟩ := RxReachable_bank_inv cfg s h
  obtain ⟨_, _, s3, s4⟩ := rx_step_summary cfg s event count (by rw [h1]; exact h2)
  refine ⟨s3, fun hn => ?_⟩
  obtain ⟨a, b, c, d⟩ := s4 hn
  refine ⟨a, b, c, ⟨fun hstop => ?_, d⟩⟩
  cases hst : (embx_rx_ir_phy_state_machine cfg s event count).embx_ir_rx_phy_state with
  | EMBX_IR_RX_PHY_STATE_SYNCRONIZE => rw [(a hst).1] at hstop; exact (nomatch hstop)
  | EMBX_IR_RX_PHY_STATE_IDLE => rfl
  | EMBX_IR_RX_PHY_STATE_MARKING => rw [(b hst).1] at hstop; exact (nomatch hstop)
  | EMBX_IR_RX_PHY_STATE_SPACING => rw [(c hst).1] at hstop; exact (nomatch hstop)

/-- C38 (amended) on the state `rx_marking_example`: the rising edge that ends the mark
leaves the PHY in SPACING with the timer running on `SPACE_DELAY`. -/
theorem rx_timer_follows_state_witness :
    (embx_rx_ir_phy_state_machine rx_example_config rx_marking_example
        EMBX_IR_RX_GPIO_EVENT_RISING_EDGE 112).tc_running = true
      ∧ (embx_rx_ir_phy_state_machine rx_example_config rx_marking_example
        EMBX_IR_RX_GPIO_EVENT_RISING_EDGE 112).tc_compare
        = rx_example_config.EMBX_IR_RX_PHY_SPACE_DELAY :=
  ((rx_timer_follows_state rx_example_config rx_marking_example rx_marking_example_reachable
    EMBX_IR_RX_GPIO_EVENT_RISING_EDGE 112).2 (by decide!)).2.2.1 (by decide!)

/-! ## Marks and spaces alternate -/

/-- A capture of the kind that the parity of the size calls for keeps the bank part of the
invariant. -/
theorem RxBankAltern_capture (b : RxBank) (g : embx_ir_rx_gpio_state_t) (t : Nat)
    (h : RxBankAltern b)
    (hst : (rx_buf b b.idx_ir_rx_buf_isr).state = EMBX_IR_RX_BUF_EMPTY)
    (hsz : (rx_buf b b.idx_ir_rx_buf_isr).size < 256)
    (hg : g = if (rx_buf b b.idx_ir_rx_buf_isr).size % 2 = 0 then EMBX_IR_RX_GPIO_STATE_MARK
      else EMBX_IR_RX_GPIO_STATE_SPACE) :
    RxBankAltern (rx_capture b g t) := by
  obtain ⟨h1, h2, h3⟩ := h
  obtain ⟨c1, c2, c3, _, c5⟩ := rx_capture_read b g t (by omega) hst hsz
  refine ⟨by rw [c5, h1], by rw [c3]; exact h2, ?_⟩
  intro i hi
  rw [c3]
  by_cases hic : i = b.idx_ir_rx_buf_isr
  · subst hic
    obtain ⟨e1, _, e3, _, _⟩ := h3 _ hi
    rw [c1]
    refine ⟨by simp [e1], by simp only; omega, ?_, fun hn => absurd rfl hn, ?_⟩
    · intro k hk
      simp only at hk
      unfold rx_elem
      simp only [List.getD_eq_getElem?_getD, List.getElem?_set, e1]
      by_cases hks : (rx_buf b b.idx_ir_rx_buf_isr).size = k
      · rw [if_pos hks, if_pos (by omega)]
        simp only [Option.getD_some]
        rw [hg, hks]
      · rw [if_neg hks]
        have := e3 k (by omega)
        unfold rx_elem at this
        rw [List.getD_eq_getElem?_getD] at this
        exact this
    · intro hfull
      simp only at hfull
      rw [hst] at hfull
      exact (nomatch hfull)
  · rw [c2 i hic]
    exact h3 i hi

/-- Completing the current buffer keeps the bank part of the invariant, provided a buffer
that is handed over with status ok holds an odd number of elements; the buffer that becomes
current holds no element if it is empty. -/
theorem RxBankAltern_complete (b : RxBank) (st : status_code) (h : RxBankAltern b)
    (hodd : st = STATUS_OK → (rx_buf b b.idx_ir_rx_buf_isr).size % 2 = 1) :
    RxBankAltern (embx_ir_rx_buf_complete b st).2
      ∧ ((rx_buf (embx_ir_rx_buf_complete b st).2
            (embx_ir_rx_buf_complete b st).2.idx_ir_rx_buf_isr).state
          = EMBX_IR_RX_BUF_EMPTY →
        (rx_buf (embx_ir_rx_buf_complete b st).2
            (embx_ir_rx_buf_complete b st).2.idx_ir_rx_buf_isr).size = 0) := by
  obtain ⟨h1, h2, h3⟩ := h
  obtain ⟨_, c2, c3, _, c5, c6⟩ := embx_ir_rx_buf_complete_read b st h2 h1
  have hnext : (b.idx_ir_rx_buf_isr + 1) % 4 ≠ b.idx_ir_rx_buf_isr := by omega
  refine ⟨⟨c2, by rw [c3]; omega, ?_⟩, ?_⟩
  · intro i hi
    rw [c3]
    by_cases hic : i = b.idx_ir_rx_buf_isr
    · subst hic
      obtain ⟨e1, e2, e3, _, _⟩ := h3 _ hi
      rw [c5]
      refine ⟨e1, e2, e3, fun _ hempty => ?_, fun _ hok => hodd hok⟩
      exact (nomatch hempty)
    · rw [c6 i hic]
      obtain ⟨e1, e2, e3, e4, e5⟩ := h3 i hi
      exact ⟨e1, e2, e3, fun _ => e4 hic, e5⟩
  · rw [c3, c6 _ hnext]
    exact (h3 _ (by omega)).2.2.2.1 hnext

/-- An acquire that fails (the current buffer is full, or has no element left) keeps the
bank part of the invariant, the index and the state and size of every buffer, and leaves a
status other than ok in the current buffer. -/
theorem RxBankAltern_get_elem_fail (b : RxBank) (h : RxBankAltern b)
    (hfail : ¬ ((rx_buf b b.idx_ir_rx_buf_isr).state = EMBX_IR_RX_BUF_EMPTY
      ∧ (rx_buf b b.idx_ir_rx_buf_isr).size < 256)) :
    RxBankAltern (embx_ir_rx_buf_isr_get_elem b).2.2
      ∧ (embx_ir_rx_buf_isr_get_elem b).2.2.idx_ir_rx_buf_isr = b.idx_ir_rx_buf_isr
      ∧ (∀ j, (rx_buf (embx_ir_rx_buf_isr_get_elem b).2.2 j).state = (rx_buf b j).state)
      ∧ (∀ j, (rx_buf (embx_ir_rx_buf_isr_get_elem b).2.2 j).size = (rx_buf b j).size) := by
  obtain ⟨h1, h2, h3⟩ := h
  have hlen : b.idx_ir_rx_buf_isr < b.embx_ir_rx_buf.length := by omega
  obtain ⟨g1, g2, g3, g4, g5, g6⟩ := embx_ir_rx_buf_isr_get_elem_read b hlen
  have hnok : (embx_ir_rx_buf_isr_get_elem b).1 ≠ STATUS_OK :=
    fun hok => hfail ((embx_ir_rx_buf_isr_get_elem_ok_iff b hlen).mp hok)
  have hsize : ∀ j, (rx_buf (embx_ir_rx_buf_isr_get_elem b).2.2 j).size = (rx_buf b j).size := by
    intro j
    by_cases hj : j = b.idx_ir_rx_buf_isr
    · rw [hj, g6, if_neg hnok]
    · rw [g5 j hj]
  have hstatus : (rx_buf (embx_ir_rx_buf_isr_get_elem b).2.2 b.idx_ir_rx_buf_isr).status
      ≠ STATUS_OK := by
    by_cases hst : (rx_buf b b.idx_ir_rx_buf_isr).state = EMBX_IR_RX_BUF_EMPTY
    · have hsz : ¬ (rx_buf b b.idx_ir_rx_buf_isr).size < 256 := fun hh => hfail ⟨hst, hh⟩
      rw [embx_ir_rx_buf_isr_get_elem_overflow b hst hsz]
      simp [rx_buf, List.getD_eq_getElem?_getD, List.getElem?_set, hlen]
    · rw [embx_ir_rx_buf_isr_get_elem_no_memory b hst]
      simp [rx_buf, List.getD_eq_getElem?_getD, List.getElem?_set, hlen]
  refine ⟨⟨by rw [g1, h1], by rw [g2]; exact h2, ?_⟩, g2, g3, hsize⟩
  intro i hi
  obtain ⟨e1, e2, e3, e4, e5⟩ := h3 i hi
  refine ⟨by rw [g4 i]; exact e1, by rw [hsize i]; exact e2, ?_, ?_, ?_⟩
  · intro k hk
    rw [hsize i] at hk
    have := e3 k hk
    unfold rx_elem at this ⊢
    rw [g4 i]
    exact this
  · intro hic hempty
    rw [g2] at hic
    rw [g3 i] at hempty
    rw [hsize i]
    exact e4 hic hempty
  · intro hfull hok
    rw [g3 i] at hfull
    rw [hsize i]
    by_cases hic : i = b.idx_ir_rx_buf_isr
    · rw [hic] at hok
      exact absurd hok hstatus
    · rw [g5 i hic] at hok
      exact e5 hfull hok

/-- The invariant depends on the bank and on the PHY state only. -/
theorem RxAlternating_congr (s t : RxPhy) (hb : t.bank = s.bank)
    (hs : t.embx_ir_rx_phy_state = s.embx_ir_rx_phy_state) (h : RxAlternating s) :
    RxAlternating t := by
  unfold RxAlternating at h ⊢
  rw [hb, hs]
  exact h

/-- Every event keeps the alternation invariant. -/
theorem RxAlternating_step (cfg : RxPhyConfig) (s : RxPhy) (event : embx_ir_rx_event_t)
    (count : Nat) (h : RxAlternating s) :
    RxAlternating (embx_rx_ir_phy_state_machine cfg s event count) := by
  obtain ⟨hb, hp, hq⟩ := h
  have hlen : s.bank.idx_ir_rx_buf_isr < s.bank.embx_ir_rx_buf.length := by
    rw [hb.1]; exact hb.2.1
  have hkeep : ∀ t : RxPhy, t.bank = s.bank →
      t.embx_ir_rx_phy_state = s.embx_ir_rx_phy_state → RxAlternating t :=
    fun t e1 e2 => RxAlternating_congr s t e1 e2 ⟨hb, hp, hq⟩
  have hcomplete : ∀ (b : RxBank) (st : status_code) (t : RxPhy), RxBankAltern b →
      (st = STATUS_OK → (rx_buf b b.idx_ir_rx_buf_isr).size % 2 = 1) →
      t.bank = (embx_ir_rx_buf_complete b st).2 →
      t.embx_ir_rx_phy_state = EMBX_IR_RX_PHY_STATE_IDLE → RxAlternating t := by
    intro b st t hba hodd e1 e2
    obtain ⟨k1, k2⟩ := RxBankAltern_complete b st hba hodd
    refine ⟨by rw [e1]; exact k1, ?_, ?_⟩
    · rw [e1, e2]
      intro hempty
      exact ⟨fun hh => (nomatch hh), fun hh => (nomatch hh), fun _ => k2 hempty⟩
    · rw [e2]
      exact fun hh => (nomatch hh)
  cases hs : s.embx_ir_rx_phy_state with
  | EMBX_IR_RX_PHY_STATE_SYNCRONIZE =>
    by_cases hc : event = EMBX_IR_RX_TIMER_EVENT_TIMEOUT
        ∧ count > cfg.EMBX_IR_RX_PHY_SYNC_DELAY
    · obtain ⟨he, hgt⟩ := hc
      subst he
      rw [embx_rx_ir_phy_state_machine_sync_timeout cfg s count hs hgt]
      refine ⟨hb, fun hempty => ?_, fun hh => (nomatch hh)⟩
      exact ⟨fun hh => (nomatch hh), fun hh => (nomatch hh),
        fun _ => (hp hempty).2.2 (Or.inr hs)⟩
    · rw [embx_rx_ir_phy_state_machine_sync_restart cfg s event count hs hc]
      exact hkeep _ rfl rfl
  | EMBX_IR_RX_PHY_STATE_IDLE =>
    cases event with
    | EMBX_IR_RX_GPIO_EVENT_RISING_EDGE =>
      rw [embx_rx_ir_phy_state_machine_idle_rising cfg s count hs]
      exact hkeep _ rfl rfl
    | EMBX_IR_RX_GPIO_EVENT_FALLING_EDGE =>
      rw [embx_rx_ir_phy_state_machine_idle_falling cfg s count hs]
      refine ⟨hb, fun hempty => ?_, fun hh => (nomatch hh)⟩
      refine ⟨fun _ => ?_, fun hh => (nomatch hh), fun hh => ?_⟩
      · show (rx_buf s.bank s.bank.idx_ir_rx_buf_isr).size % 2 = 0
        rw [(hp hempty).2.2 (Or.inl hs)]
      · rcases hh with hh | hh <;> exact (nomatch hh)
    | EMBX_IR_RX_TIMER_EVENT_TIMEOUT =>
      rw [embx_rx_ir_phy_state_machine_idle_timeout cfg s count hs]
      exact hkeep _ rfl rfl
  | EMBX_IR_RX_PHY_STATE_MARKING =>
    cases event with
    | EMBX_IR_RX_GPIO_EVENT_RISING_EDGE =>
      by_cases hst : (rx_buf s.bank s.bank.idx_ir_rx_buf_isr).state = EMBX_IR_RX_BUF_EMPTY
      · by_cases hsz : (rx_buf s.bank s.bank.idx_ir_rx_buf_isr).size < 256
        · rw [embx_rx_ir_phy_state_machine_marking_rising_ok cfg s count hs hlen hst hsz]
          have hev := (hp hst).1 hs
          obtain ⟨c1, _, c3, _, _⟩ := rx_capture_read s.bank EMBX_IR_RX_GPIO_STATE_MARK
            (count + cfg.EMBX_IR_RX_PHY_MARK_DELAY * s.embx_ir_rx_phy_timer_overflow.mark)
            hlen hst hsz
          have hcur : (rx_buf (rx_capture s.bank EMBX_IR_RX_GPIO_STATE_MARK
              (count + cfg.EMBX_IR_RX_PHY_MARK_DELAY * s.embx_ir_rx_phy_timer_overflow.mark))
              (rx_capture s.bank EMBX_IR_RX_GPIO_STATE_MARK (count
                + cfg.EMBX_IR_RX_PHY_MARK_DELAY
                  * s.embx_ir_rx_phy_timer_overflow.mark)).idx_ir_rx_buf_isr).state
                = EMBX_IR_RX_BUF_EMPTY
              ∧ (rx_buf (rx_capture s.bank EMBX_IR_RX_GPIO_STATE_MARK
              (count + cfg.EMBX_IR_RX_PHY_MARK_DELAY * s.embx_ir_rx_phy_timer_overflow.mark))
              (rx_capture s.bank EMBX_IR_RX_GPIO_STATE_MARK (count
                + cfg.EMBX_IR_RX_PHY_MARK_DELAY
                  * s.embx_ir_rx_phy_timer_overflow.mark)).idx_ir_rx_buf_isr).size
                = (rx_buf s.bank s.bank.idx_ir_rx_buf_isr).size + 1 := by
            rw [c3, c1]
            exact ⟨hst, rfl⟩
          refine ⟨RxBankAltern_capture s.bank _ _ hb hst hsz (by rw [if_pos hev]),
            fun _ => ?_, fun _ => hcur.1⟩
          refine ⟨fun hh => (nomatch hh), fun _ => ?_, fun hh => ?_⟩
          · show (rx_buf (rx_capture s.bank _ _) (rx_capture s.bank _ _).idx_ir_rx_buf_isr).size
              % 2 = 1
            rw [hcur.2]
            omega
          · rcases hh with hh | hh <;> exact (nomatch hh)
        · rw [embx_rx_ir_phy_state_machine_marking_rising_overflow cfg s count hs hst hsz]
          obtain ⟨f1, _⟩ := RxBankAltern_get_elem_fail s.bank hb (fun hh => hsz hh.2)
          exact hcomplete _ STATUS_ERR_OVERFLOW _ f1 (fun hh => (nomatch hh)) rfl rfl
      · rw [embx_rx_ir_phy_state_machine_marking_rising_no_memory cfg s count hs hst]
        obtain ⟨f1, f2, f3, _⟩ := RxBankAltern_get_elem_fail s.bank hb (fun hh => hst hh.1)
        refine ⟨f1, fun hempty => ?_, fun hh => (nomatch hh)⟩
        have hempty2 : (rx_buf (embx_ir_rx_buf_isr_get_elem s.bank).2.2
            (embx_ir_rx_buf_isr_get_elem s.bank).2.2.idx_ir_rx_buf_isr).state
            = EMBX_IR_RX_BUF_EMPTY := hempty
        rw [f2, f3] at hempty2
        exact absurd hempty2 hst
    | EMBX_IR_RX_GPIO_EVENT_FALLING_EDGE =>
      rw [embx_rx_ir_phy_state_machine_marking_falling cfg s count hs]
      exact hkeep _ rfl rfl
    | EMBX_IR_RX_TIMER_EVENT_TIMEOUT =>
      by_cases hm : s.embx_ir_rx_phy_timer_overflow.mark
          = cfg.EMBX_IR_RX_PHY_TIMER_OVERFLOWS_MARK
      · rw [embx_rx_ir_phy_state_machine_marking_timeout_last cfg s count hs hm]
        exact hcomplete _ STATUS_ERR_TIMEOUT _ hb (fun hh => (nomatch hh)) rfl rfl
      · rw [embx_rx_ir_phy_state_machine_marking_timeout_more cfg s count hs hm]
        exact hkeep _ rfl rfl
  | EMBX_IR_RX_PHY_STATE_SPACING =>
    have hst : (rx_buf s.bank s.bank.idx_ir_rx_buf_isr).state = EMBX_IR_RX_BUF_EMPTY := hq hs
    have hodd := (hp hst).2.1 hs
    cases event with
    | EMBX_IR_RX_GPIO_EVENT_RISING_EDGE =>
      rw [embx_rx_ir_phy_state_machine_spacing_rising cfg s count hs]
      exact hkeep _ rfl rfl
    | EMBX_IR_RX_GPIO_EVENT_FALLING_EDGE =>
      have hsz : (rx_buf s.bank s.bank.idx_ir_rx_buf_isr).size < 256 := by
        have := (hb.2.2 _ hb.2.1).2.1
        omega
      rw [embx_rx_ir_phy_state_machine_spacing_falling_ok cfg s count hs hlen hst hsz]
      obtain ⟨c1, _, c3, _, _⟩ := rx_capture_read s.bank EMBX_IR_RX_GPIO_STATE_SPACE count
        hlen hst hsz
      have hcur : (rx_buf (rx_capture s.bank EMBX_IR_RX_GPIO_STATE_SPACE count)
          (rx_capture s.bank EMBX_IR_RX_GPIO_STATE_SPACE count).idx_ir_rx_buf_isr).size
            = (rx_buf s.bank s.bank.idx_ir_rx_buf_isr).size + 1 := by
        rw [c3, c1]
      refine ⟨RxBankAltern_capture s.bank _ _ hb hst hsz (by rw [if_neg (by omega)]),
        fun _ => ?_, fun hh => (nomatch hh)⟩
      refine ⟨fun _ => ?_, fun hh => (nomatch hh), fun hh => ?_⟩
      · show (rx_buf (rx_capture s.bank _ _) (rx_capture s.bank _ _).idx_ir_rx_buf_isr).size
          % 2 = 0
        rw [hcur]
        omega
      · rcases hh with hh | hh <;> exact (nomatch hh)
    | EMBX_IR_RX_TIMER_EVENT_TIMEOUT =>
      by_cases hm : s.embx_ir_rx_phy_timer_overflow.space
          = cfg.EMBX_IR_RX_PHY_TIMER_OVERFLOWS_SPACE
      · rw [embx_rx_ir_phy_state_machine_spacing_timeout_last cfg s count hs hm]
        exact hcomplete _ STATUS_OK _ hb (fun _ => hodd) rfl rfl
      · rw [embx_rx_ir_phy_state_machine_spacing_timeout_more cfg s count hs hm]
        exact hkeep _ rfl rfl

/-- Right after enable the alternation invariant holds. -/
theorem RxAlternating_enable (cfg : RxPhyConfig) (s : RxPhy) (hshape : RxBankShape s.bank) :
    RxAlternating (embx_ir_rx_phy_enable cfg s) := by
  obtain ⟨s1, s2⟩ := (RxBankShape_iff s.bank).mp hshape
  obtain ⟨i1, i2, _, i4⟩ := embx_ir_rx_phy_buf_init_read s.bank s1
  have hbank : (embx_ir_rx_phy_enable cfg s).bank = embx_ir_rx_phy_buf_init s.bank := rfl
  have hstate : (embx_ir_rx_phy_enable cfg s).embx_ir_rx_phy_state
      = EMBX_IR_RX_PHY_STATE_SYNCRONIZE := rfl
  unfold RxAlternating
  rw [hbank, hstate, i2, i4 0 (by omega)]
  refine ⟨⟨i1, by rw [i2]; omega, ?_⟩, fun _ => ?_, fun hh => (nomatch hh)⟩
  · intro i hi
    rw [i4 i hi]
    refine ⟨by rw [rx_reset_elems_length]; exact s2 i hi, Nat.zero_le _, ?_, fun _ _ => rfl,
      fun hh => (nomatch hh)⟩
    intro k hk
    exact absurd hk (Nat.not_lt_zero k)
  · exact ⟨fun hh => (nomatch hh), fun hh => (nomatch hh), fun _ => rfl⟩

/-- Every state reachable by events alone satisfies the alternation invariant. -/
theorem RxEventReachable_alternating (cfg : RxPhyConfig) (s : RxPhy)
    (h : RxEventReachable cfg s) : RxAlternating s := by
  induction h with
  | enable s hshape => exact RxAlternating_enable cfg s hshape
  | event s event count _ ih => exact RxAlternating_step cfg s event count ih

/-- Events lead from states reachable by events alone to such states. -/
theorem rx_events_event_reachable (cfg : RxPhyConfig)
    (l : List (embx_ir_rx_event_t × Nat)) :
    ∀ s, RxEventReachable cfg s → RxEventReachable cfg (rx_events cfg s l) := by
  induction l with
  | nil => exact fun s h => h
  | cons e l ih =>
    intro s h
    exact ih _ (RxEventReachable.event s e.1 e.2 h)

/-- The state `rx_ring_ok_marking` is reachable by events alone. -/
theorem rx_ring_ok_marking_reachable :
    RxEventReachable rx_example_config rx_ring_ok_marking :=
  rx_events_event_reachable _ _ _
    (RxEventReachable.enable rx_power_up (by unfold RxBankShape; decide!))

/-- C37, as stated, fails for the parity in marking once the ring has wrapped: after four
undrained frames of one mark each and the falling edge of a fifth, the PHY is marking while
the current buffer, full since the first frame, holds one element. -/
theorem rx_marking_parity_counterexample :
    RxEventReachable rx_example_config rx_ring_ok_marking
      ∧ rx_ring_ok_marking.embx_ir_rx_phy_state = EMBX_IR_RX_PHY_STATE_MARKING
      ∧ (rx_buf rx_ring_ok_marking.bank rx_ring_ok_marking.bank.idx_ir_rx_buf_isr).size = 1
      ∧ (rx_buf rx_ring_ok_marking.bank rx_ring_ok_marking.bank.idx_ir_rx_buf_isr).size % 2
          ≠ 0 :=
  ⟨rx_ring_ok_marking_reachable, by decide!, by decide!, by decide!⟩

/-- C37 (amended): in every state reachable from `rx_phy_enable` by rising-edge,
falling-edge and timeout events alone (no foreground drain), in every buffer the element at
index `k < size` has `gpio_state` mark when `k` is even and space when `k` is odd; moreover
the current buffer's size is odd whenever the PHY is spacing, and even whenever the PHY is
marking and the current buffer is empty (still being filled); so a buffer completed with
status ok holds an odd number (at least 1) of elements and ends with a mark. -/
theorem rx_captures_alternate (cfg : RxPhyConfig) (s : RxPhy)
    (h : RxEventReachable cfg s) :
    (∀ i, i < EMBX_IR_RX_NUMBER_OF_BUFFERS → ∀ k, k < (rx_buf s.bank i).size →
        (k % 2 = 0 →
          (rx_elem (rx_buf s.bank i) k).gpio_state = EMBX_IR_RX_GPIO_STATE_MARK)
        ∧ (k % 2 = 1 →
          (rx_elem (rx_buf s.bank i) k).gpio_state = EMBX_IR_RX_GPIO_STATE_SPACE))
      ∧ (s.embx_ir_rx_phy_state = EMBX_IR_RX_PHY_STATE_SPACING →
          (rx_buf s.bank s.bank.idx_ir_rx_buf_isr).size % 2 = 1)
      ∧ (s.embx_ir_rx_phy_state = EMBX_IR_RX_PHY_STATE_MARKING →
          (rx_buf s.bank s.bank.idx_ir_rx_buf_isr).state = EMBX_IR_RX_BUF_EMPTY →
          (rx_buf s.bank s.bank.idx_ir_rx_buf_isr).size % 2 = 0)
      ∧ (∀ i, i < EMBX_IR_RX_NUMBER_OF_BUFFERS →
          (rx_buf s.bank i).state = EMBX_IR_RX_BUF_FULL →
          (rx_buf s.bank i).status = STATUS_OK →
          (rx_buf s.bank i).size % 2 = 1 ∧ 1 ≤ (rx_buf s.bank i).size
            ∧ (rx_elem (rx_buf s.bank i) ((rx_buf s.bank i).size - 1)).gpio_state
              = EMBX_IR_RX_GPIO_STATE_MARK) := by
  obtain ⟨⟨_, _, h3⟩, hp, hq⟩ := RxEventReachable_alternating cfg s h
  refine ⟨?_, fun hs => ((hp (hq hs)).2.1 hs), fun hs hst => (hp hst).1 hs, ?_⟩
  · intro i hi k hk
    have := (h3 i hi).2.2.1 k hk
    refine ⟨fun hev => by rw [this, if_pos hev], fun hodd => by rw [this, if_neg (by omega)]⟩
  · intro i hi hfull hok
    obtain ⟨_, _, e3, _, e5⟩ := h3 i hi
    have hodd := e5 hfull hok
    refine ⟨hodd, by omega, ?_⟩
    rw [e3 _ (by omega), if_pos (by omega)]

/-- C37 (amended) on the state `rx_ring_ok_marking`: buffer 0 was completed with status ok
and holds one element, a mark. -/
theorem rx_captures_alternate_witness :
    (rx_buf rx_ring_ok_marking.bank 0).size % 2 = 1
      ∧ 1 ≤ (rx_buf rx_ring_ok_marking.bank 0).size
      ∧ (rx_elem (rx_buf rx_ring_ok_marking.bank 0)
          ((rx_buf rx_ring_ok_marking.bank 0).size - 1)).gpio_state
        = EMBX_IR_RX_GPIO_STATE_MARK :=
  (rx_captures_alternate rx_example_config rx_ring_ok_marking
    rx_ring_ok_marking_reachable).2.2.2 0 (by decide) (by decide!) (by decide!)

/-! ## Repeat blocks that no other descriptor rewinds into -/

/-- One callback on a busy queue that is not drained keeps the queue, changes no slot but
the one it obtains, and either counts a repeat there and rewinds, or leaves the slot alone
and advances (a slot marked forever rewinds without counting). -/
theorem tc_callback_same_queue (s0 s : TxPhy) (h : TxSameQueue s0 s)
    (ht : s.tx_index < s.fill_index) :
    TxSameQueue s0 (tc_callback_ir_tx_phy s)
      ∧ (∀ i, i ≠ s.tx_index → tx_slot (tc_callback_ir_tx_phy s) i = tx_slot s i)
      ∧ (((tx_slot s s.tx_index).repeat_cnt < (tx_slot s s.tx_index).max_repeat_cnt
            ∧ (tc_callback_ir_tx_phy s).tx_index
                = s.tx_index + 1 - (tx_slot s s.tx_index).decrement
            ∧ (tx_slot (tc_callback_ir_tx_phy s) s.tx_index).repeat_cnt
                = (tx_slot s s.tx_index).repeat_cnt + 1)
          ∨ (¬ (tx_slot s s.tx_index).repeat_cnt < (tx_slot s s.tx_index).max_repeat_cnt
            ∧ (tc_callback_ir_tx_phy s).phy_descriptor = s.phy_descriptor
            ∧ (tc_callback_ir_tx_phy s).tx_index
                = if (tx_slot s s.tx_index).max_repeat_cnt = -1
                  then s.tx_index + 1 - (tx_slot s s.tx_index).decrement
                  else s.tx_index + 1)) := by
  obtain ⟨g1, g2, g3, g4, g5⟩ := h
  by_cases hrep : (tx_slot s s.tx_index).repeat_cnt < (tx_slot s s.tx_index).max_repeat_cnt
  · obtain ⟨a1, a2, a3, a4⟩ := tc_callback_rewind s ht hrep (by omega)
    have hother : ∀ j, j ≠ s.tx_index → tx_slot (tc_callback_ir_tx_phy s) j = tx_slot s j :=
      fun j hj => tx_slot_of_set_other s _ _ j _ a1 hj
    have hsame := tx_slot_of_set_same s _ _ _ a1 (by omega)
    refine ⟨⟨by rw [a1]; simpa using g1, by rw [a2, g2], g3, by rw [a4, g4], ?_⟩, hother,
      Or.inl ⟨hrep, a3, by rw [hsame]⟩⟩
    intro j hj
    by_cases hjt : j = s.tx_index
    · rw [hjt, hsame]
      obtain ⟨z1, z2, z3⟩ := g5 s.tx_index (by omega)
      exact ⟨z1, z2, by show 0 ≤ (tx_slot s s.tx_index).repeat_cnt + 1; omega⟩
    · rw [hother j hjt]
      exact g5 j hj
  · have hslots : ∀ a1 : (tc_callback_ir_tx_phy s).phy_descriptor = s.phy_descriptor,
        ∀ j, tx_slot (tc_callback_ir_tx_phy s) j = tx_slot s j :=
      fun a1 j => tx_slot_congr s _ a1 j
    by_cases hfor : (tx_slot s s.tx_index).max_repeat_cnt = -1
    · obtain ⟨a1, a2, a3, a4⟩ := tc_callback_forever s ht hrep hfor
      refine ⟨⟨by rw [a1, g1], by rw [a2, g2], g3, by rw [a4, g4], ?_⟩,
        fun i _ => hslots a1 i, Or.inr ⟨hrep, a1, by rw [if_pos hfor, a3]⟩⟩
      intro j hj
      rw [hslots a1 j]
      exact g5 j hj
    · obtain ⟨a1, a2, a3, a4⟩ := tc_callback_advance s ht hrep hfor
      refine ⟨⟨by rw [a1, g1], by rw [a2, g2], g3, by rw [a4, g4], ?_⟩,
        fun i _ => hslots a1 i, Or.inr ⟨hrep, a1, by rw [if_neg hfor, a3]⟩⟩
      intro j hj
      rw [hslots a1 j]
      exact g5 j hj

/-- One callback on a slot that does not rewind (its repeat limit is 0 or its decrement is
0): the slot is obtained and the queue advances by one. -/
theorem tc_callback_plain (s0 s : TxPhy) (h : TxSameQueue s0 s)
    (ht : s.tx_index < s.fill_index)
    (hplain : (tx_slot s0 s.tx_index).max_repeat_cnt = 0
      ∨ (tx_slot s0 s.tx_index).decrement = 0) :
    TxSameQueue s0 (tc_callback_ir_tx_phy s)
      ∧ (∀ i, i ≠ s.tx_index → tx_slot (tc_callback_ir_tx_phy s) i = tx_slot s i)
      ∧ (tc_callback_ir_tx_phy s).tx_index = s.tx_index + 1 := by
  obtain ⟨c1, c2, c3⟩ := tc_callback_same_queue s0 s h ht
  obtain ⟨z1, z2, z3⟩ := h.2.2.2.2 s.tx_index (by rw [← h.2.1]; exact ht)
  refine ⟨c1, c2, ?_⟩
  rcases c3 with ⟨r1, r2, _⟩ | ⟨r1, _, r3⟩
  · rcases hplain with hp | hp
    · rw [z1, hp] at r1
      omega
    · rw [r2, z2, hp]
      omega
  · rw [r3]
    split
    · next hf =>
      rcases hplain with hp | hp
      · rw [z1, hp] at hf
        omega
      · rw [z2, hp]
        omega
    · rfl

/-- Callbacks over a stretch of slots that do not rewind emit them in order and touch no
slot outside the stretch. -/
theorem tx_callbacks_walk (s0 : TxPhy) (m : Nat) : ∀ s : TxPhy,
    TxSameQueue s0 s → s.tx_index + m ≤ s0.fill_index →
    (∀ j, s.tx_index ≤ j → j < s.tx_index + m →
      (tx_slot s0 j).max_repeat_cnt = 0 ∨ (tx_slot s0 j).decrement = 0) →
    (tx_callbacks m s).1 = List.range' s.tx_index m
      ∧ TxSameQueue s0 (tx_callbacks m s).2
      ∧ (tx_callbacks m s).2.tx_index = s.tx_index + m
      ∧ ∀ i, (i < s.tx_index ∨ s.tx_index + m ≤ i) →
          tx_slot (tx_callbacks m s).2 i = tx_slot s i := by
  induction m with
  | zero => intro s h _ _; exact ⟨rfl, h, rfl, fun _ _ => rfl⟩
  | succ m ih =>
    intro s h hroom hplain
    have ht : s.tx_index < s.fill_index := by rw [h.2.1]; omega
    obtain ⟨c1, c2, c3⟩ := tc_callback_plain s0 s h ht
      (hplain s.tx_index (Nat.le_refl _) (by omega))
    obtain ⟨i1, i2, i3, i4⟩ := ih (tc_callback_ir_tx_phy s) c1 (by omega) (by
      intro j hj1 hj2
      exact hplain j (by omega) (by omega))
    simp only [tx_callbacks, tx_emitted_some s ht, Option.toList_some]
    refine ⟨?_, i2, by omega, ?_⟩
    · rw [i1, c3]
      rfl
    · intro i hi
      rw [i4 i (by omega), c2 i (by omega)]

/-- The callbacks from the moment the repeating descriptor in slot `p` is reached until it
is passed: it is emitted, and then its block is emitted once more for each repeat that is
left.  The slots of the block before `p` must not rewind; nothing is asked of the slots
outside the block. -/
theorem tx_block_loop (s0 : TxPhy) (p r d : Nat) (hd1 : 1 ≤ d) (hd2 : d ≤ p + 1)
    (hp : p < s0.fill_index)
    (hr : (tx_slot s0 p).max_repeat_cnt = (r : Int)) (hd : (tx_slot s0 p).decrement = d)
    (n : Nat) :
    ∀ (c : Nat) (s : TxPhy), TxSameQueue s0 s → (tx_slot s p).repeat_cnt = (c : Int) →
      c + n = r → s.tx_index = p →
      (0 < n → ∀ j, p + 1 - d ≤ j → j < p →
        (tx_slot s0 j).max_repeat_cnt = 0 ∨ (tx_slot s0 j).decrement = 0) →
      (tx_callbacks (n * d + 1) s).1
          = p :: (List.replicate n (List.range' (p + 1 - d) d)).flatten
        ∧ TxSameQueue s0 (tx_callbacks (n * d + 1) s).2
        ∧ (tx_callbacks (n * d + 1) s).2.tx_index = p + 1 := by
  induction n with
  | zero =>
    intro c s hs hc hcn ht _
    have hlt : s.tx_index < s.fill_index := by rw [hs.2.1]; omega
    obtain ⟨c1, _, c3⟩ := tc_callback_same_queue s0 s hs hlt
    obtain ⟨z1, _, _⟩ := hs.2.2.2.2 p hp
    simp only [Nat.zero_mul, Nat.zero_add, tx_callbacks, tx_emitted_some s hlt,
      Option.toList_some, List.replicate_zero, List.flatten_nil, List.append_nil, ht]
    refine ⟨trivial, c1, ?_⟩
    rw [ht] at c3
    rcases c3 with ⟨r1, _, _⟩ | ⟨_, _, r3⟩
    · rw [z1, hr, hc] at r1
      omega
    · rw [r3, if_neg (by rw [z1, hr]; omega)]
  | succ n ih =>
    intro c s hs hc hcn ht hin
    have hlt : s.tx_index < s.fill_index := by rw [hs.2.1]; omega
    obtain ⟨c1, c2, c3⟩ := tc_callback_same_queue s0 s hs hlt
    obtain ⟨z1, z2, _⟩ := hs.2.2.2.2 p hp
    rw [ht] at c2 c3
    -- first callback: emit slot p, count a repeat, rewind
    obtain ⟨a3, a5⟩ : (tc_callback_ir_tx_phy s).tx_index = p + 1 - d
        ∧ (tx_slot (tc_callback_ir_tx_phy s) p).repeat_cnt = ((c + 1 : Nat) : Int) := by
      rcases c3 with ⟨_, r2, r3⟩ | ⟨r1, _, _⟩
      · refine ⟨by rw [r2, z2, hd], ?_⟩
        rw [r3, hc]
        push_cast
        rfl
      · rw [z1, hr, hc] at r1
        omega
    -- the rest of the block, up to slot p again
    obtain ⟨l1, l2, l3, l4⟩ := tx_callbacks_walk s0 (d - 1) (tc_callback_ir_tx_phy s) c1
      (by omega) (by
        intro j hj1 hj2
        exact hin (Nat.succ_pos n) j (by omega) (by omega))
    obtain ⟨i1, i2, i3⟩ := ih (c + 1) _ l2 (by rw [l4 p (by omega), a5]) (by omega)
      (by omega) (fun _ => hin (Nat.succ_pos n))
    have hsplit : (n + 1) * d + 1 = 1 + ((d - 1) + (n * d + 1)) := by
      rw [Nat.add_mul]; omega
    rw [hsplit, tx_callbacks_add 1 _ s, tx_callbacks_add (d - 1) _]
    have hone : tx_callbacks 1 s = ([p], tc_callback_ir_tx_phy s) := by
      simp [tx_callbacks, tx_emitted_some s hlt, ht]
    rw [hone]
    simp only []
    refine ⟨?_, i2, i3⟩
    rw [l1, i1, a3, List.replicate_succ, List.flatten_cons]
    have hblock : List.range' (p + 1 - d) d = List.range' (p + 1 - d) (d - 1) ++ [p] := by
      obtain ⟨e, rfl⟩ : ∃ e, d = e + 1 := ⟨d - 1, by omega⟩
      rw [List.range'_concat]
      simp only [Nat.add_sub_cancel, Nat.one_mul]
      congr 2
      omega
    rw [hblock]
    simp

/-- A callback that obtains a slot whose descriptor has a repeat limit or does not rewind
strictly lowers the drain measure. -/
theorem tc_callback_measure_slot (s0 s : TxPhy) (h : TxSameQueue s0 s)
    (ht : s.tx_index < s.fill_index)
    (hlim : 0 ≤ (tx_slot s0 s.tx_index).max_repeat_cnt
      ∨ (tx_slot s0 s.tx_index).decrement = 0) :
    tx_drain_measure (tc_callback_ir_tx_phy s) < tx_drain_measure s := by
  obtain ⟨c1, c2, c3⟩ := tc_callback_same_queue s0 s h ht
  obtain ⟨z1, z2, z3⟩ := h.2.2.2.2 s.tx_index (by rw [← h.2.1]; exact ht)
  have hf : (tc_callback_ir_tx_phy s).fill_index = s.fill_index := by rw [c1.2.1, h.2.1]
  rcases c3 with ⟨r1, r2, r3⟩ | ⟨r1, r2, r3⟩
  · have hR : tx_repeats_left (tc_callback_ir_tx_phy s) + 1 = tx_repeats_left s := by
      unfold tx_repeats_left
      rw [hf]
      apply sum_range_map_decrease _ _ s.tx_index _ ht
      · intro j hj
        simp only [c2 j hj]
      · have hm := (c1.2.2.2.2 s.tx_index (by rw [← h.2.1]; exact ht)).1
        simp only [hm, r3, ← z1]
        omega
    unfold tx_drain_measure
    rw [← hR, hf, Nat.add_mul]
    generalize tx_repeats_left (tc_callback_ir_tx_phy s) * (s.fill_index + 1) = x
    omega
  · have hR : tx_repeats_left (tc_callback_ir_tx_phy s) = tx_repeats_left s := by
      unfold tx_repeats_left
      simp only [tx_slot_congr s _ r2, hf]
    have hadv : (tc_callback_ir_tx_phy s).tx_index = s.tx_index + 1 := by
      rw [r3]
      split
      · next hfor =>
        rcases hlim with hl | hl
        · rw [z1] at hfor
          omega
        · rw [z2, hl]
          omega
      · rfl
    unfold tx_drain_measure
    rw [hR, hf, hadv]
    omega

/-- Callbacks inside a region `[lo, hi)` of the queue that no descriptor of the region
rewinds out of: if every descriptor of the region has repeat limit 0, or decrement 0, or a
repeat limit and a rewind target at or above `lo`, the callbacks reach `hi` after finitely
many steps, having emitted slots of the region only and touched no slot outside it. -/
theorem tx_callbacks_region (s0 : TxPhy) (lo hi : Nat) (m : Nat) : ∀ s : TxPhy,
    tx_drain_measure s ≤ m → TxSameQueue s0 s → lo ≤ s.tx_index → s.tx_index ≤ hi →
    hi ≤ s0.fill_index →
    (∀ j, lo ≤ j → j < hi →
      (tx_slot s0 j).max_repeat_cnt = 0 ∨ (tx_slot s0 j).decrement = 0
        ∨ (0 ≤ (tx_slot s0 j).max_repeat_cnt ∧ lo ≤ j + 1 - (tx_slot s0 j).decrement)) →
    ∃ n, (tx_callbacks n s).1.length = n
      ∧ (∀ x ∈ (tx_callbacks n s).1, lo ≤ x ∧ x < hi)
      ∧ TxSameQueue s0 (tx_callbacks n s).2
      ∧ (tx_callbacks n s).2.tx_index = hi
      ∧ ∀ i, (i < lo ∨ hi ≤ i) → tx_slot (tx_callbacks n s).2 i = tx_slot s i := by
  induction m with
  | zero =>
    intro s hm h hlo hhi hf _
    have : s.tx_index = hi := by
      unfold tx_drain_measure at hm
      rw [h.2.1] at hm
      omega
    exact ⟨0, rfl, fun x hx => absurd hx (List.not_mem_nil x), h, this, fun _ _ => rfl⟩
  | succ m ih =>
    intro s hm h hlo hhi hf hreg
    by_cases hdone : s.tx_index = hi
    · exact ⟨0, rfl, fun x hx => absurd hx (List.not_mem_nil x), h, hdone, fun _ _ => rfl⟩
    · have ht : s.tx_index < s.fill_index := by rw [h.2.1]; omega
      have hj := hreg s.tx_index hlo (by omega)
      obtain ⟨z1, z2, z3⟩ := h.2.2.2.2 s.tx_index (by rw [← h.2.1]; exact ht)
      have hmeas := tc_callback_measure_slot s0 s h ht (by
        rcases hj with hj | hj | hj
        · left; rw [hj]
        · right; exact hj
        · left; exact hj.1)
      obtain ⟨c1, c2, c3⟩ := tc_callback_same_queue s0 s h ht
      have hnext : lo ≤ (tc_callback_ir_tx_phy s).tx_index
          ∧ (tc_callback_ir_tx_phy s).tx_index ≤ hi := by
        rcases c3 with ⟨r1, r2, _⟩ | ⟨_, _, r3⟩
        · rw [r2, z2]
          rcases hj with hj | hj | hj
          · rw [z1, hj] at r1
            omega
          · rw [hj]
            omega
          · omega
        · rw [r3]
          split
          · next hfor =>
            rcases hj with hj | hj | hj
            · rw [z1, hj] at hfor
              omega
            · rw [z2, hj]
              omega
            · rw [z1] at hfor
              omega
          · omega
      obtain ⟨n, n1, n2, n3, n4, n5⟩ := ih (tc_callback_ir_tx_phy s) (by omega) c1
        hnext.1 hnext.2 hf hreg
      refine ⟨n + 1, ?_, ?_, ?_, ?_, ?_⟩
      · simp only [tx_callbacks, tx_emitted_some s ht, Option.toList_some,
          List.singleton_append, List.length_cons, n1]
      · intro x hx
        simp only [tx_callbacks, tx_emitted_some s ht, Option.toList_some,
          List.singleton_append, List.mem_cons] at hx
        rcases hx with hx | hx
        · rw [hx]
          omega
        · exact n2 x hx
      · simp only [tx_callbacks]
        exact n3
      · simp only [tx_callbacks]
        exact n4
      · intro i hi2
        simp only [tx_callbacks]
        rw [n5 i hi2, c2 i (by omega)]

/-- The end of a transmission: from the slot after `p`, when no descriptor after `p` rewinds
to `p` or before it and none of them rewinds forever, the callbacks reach the end of the
queue after finitely many steps, having emitted slots after `p` only. -/
theorem tx_suffix_drain (s0 s : TxPhy) (p : Nat) (h : TxSameQueue s0 s)
    (ht : s.tx_index = p + 1) (hpf : p < s0.fill_index)
    (hM : ∀ j, j < s0.fill_index → -1 ≤ (tx_slot s0 j).max_repeat_cnt)
    (hfor : ∀ j, j < s0.fill_index → p < j →
      (tx_slot s0 j).max_repeat_cnt = -1 → (tx_slot s0 j).decrement = 0)
    (hout : ∀ j, j < s0.fill_index → p < j →
      (tx_slot s0 j).max_repeat_cnt = 0 ∨ p + (tx_slot s0 j).decrement ≤ j) :
    ∃ n, (tx_callbacks n s).1.length = n
      ∧ (∀ x ∈ (tx_callbacks n s).1, p < x)
      ∧ TxSameQueue s0 (tx_callbacks n s).2
      ∧ (tx_callbacks n s).2.tx_index = s0.fill_index := by
  obtain ⟨n, n1, n2, n3, n4, _⟩ := tx_callbacks_region s0 (p + 1) s0.fill_index _ s
    (Nat.le_refl _) h (by omega) (by omega) (Nat.le_refl _) (by
      intro j hj1 hj2
      have a1 := hM j hj2
      have a2 := hfor j hj2 (by omega)
      rcases hout j hj2 (by omega) with a3 | a3
      · left; exact a3
      · by_cases hm : (tx_slot s0 j).max_repeat_cnt = -1
        · right; left; exact a2 hm
        · right; right
          exact ⟨by omega, by omega⟩)
  exact ⟨n, n1, fun x hx => (n2 x hx).1, n3, n4⟩

/-- The block of slot `p` and the rest of the queue: from a slot `t` of the block, with the
repeat count of slot `p` still 0, the callbacks emit the rest of the block, then `r` more
copies of it, and then slots after `p` only, until the end of the queue is reached. -/
theorem tx_block_tail (s0 s : TxPhy) (p r d t : Nat) (h : TxSameQueue s0 s)
    (hpf : p < s0.fill_index) (hd1 : 1 ≤ d) (hd2 : d ≤ p + 1)
    (hr : (tx_slot s0 p).max_repeat_cnt = (r : Int)) (hd : (tx_slot s0 p).decrement = d)
    (hrc : (tx_slot s p).repeat_cnt = 0)
    (ht : s.tx_index = t) (ht2 : t ≤ p)
    (hM : ∀ j, j < s0.fill_index → -1 ≤ (tx_slot s0 j).max_repeat_cnt)
    (hwalk : ∀ j, t ≤ j → j < p →
      (tx_slot s0 j).max_repeat_cnt = 0 ∨ (tx_slot s0 j).decrement = 0)
    (hin : 0 < r → ∀ j, p + 1 - d ≤ j → j < p →
      (tx_slot s0 j).max_repeat_cnt = 0 ∨ (tx_slot s0 j).decrement = 0)
    (hfor : ∀ j, j < s0.fill_index → p < j →
      (tx_slot s0 j).max_repeat_cnt = -1 → (tx_slot s0 j).decrement = 0)
    (hout : ∀ j, j < s0.fill_index → p < j →
      (tx_slot s0 j).max_repeat_cnt = 0 ∨ p + (tx_slot s0 j).decrement ≤ j) :
    ∃ n post, (tx_callbacks n s).1
          = List.range' t (p - t) ++ p :: (List.replicate r (List.range' (p + 1 - d) d)).flatten
            ++ post
      ∧ (∀ x ∈ post, p < x)
      ∧ (tx_callbacks n s).1.length = n
      ∧ TxSameQueue s0 (tx_callbacks n s).2
      ∧ (tx_callbacks n s).2.tx_index = s0.fill_index := by
  obtain ⟨l1, l2, l3, l4⟩ := tx_callbacks_walk s0 (p - t) s h (by omega) (by
    intro j hj1 hj2
    exact hwalk j (by omega) (by omega))
  obtain ⟨b1, b2, b3⟩ := tx_block_loop s0 p r d hd1 hd2 hpf hr hd r 0 _ l2
    (by rw [l4 p (by omega), hrc]; rfl) (by omega) (by omega) hin
  obtain ⟨n, n1, n2, n3, n4⟩ := tx_suffix_drain s0 _ p b2 b3 hpf hM hfor hout
  refine ⟨(p - t) + ((r * d + 1) + n), (tx_callbacks n
    (tx_callbacks (r * d + 1) (tx_callbacks (p - t) s).2).2).1, ?_, n2, ?_, ?_, ?_⟩
  · rw [tx_callbacks_add, tx_callbacks_add]
    simp only []
    rw [l1, b1, ht, List.append_assoc]
  · rw [tx_callbacks_add, tx_callbacks_add]
    simp only []
    rw [l1, b1, List.length_append, List.length_append, n1]
    simp [List.length_flatten]
  · rw [tx_callbacks_add, tx_callbacks_add]
    exact n3
  · rw [tx_callbacks_add, tx_callbacks_add]
    exact n4

/-- A slot outside a list of slots is not counted in it. -/
theorem count_eq_zero_of_bound (l : List Nat) (j : Nat) (h : ∀ x ∈ l, x ≠ j) :
    l.count j = 0 := by
  apply List.count_eq_zero_of_not_mem
  intro hm
  exact h j hm rfl

/-- The transmission of a queue around the block of slot `p`, in terms of the sent state
`s0`.  `lo` is the lowest slot that a callback can obtain: 0, or 1 when no descriptor rewinds
to slot 0. -/
theorem tx_block_run (s0 : TxPhy) (lo p r d : Nat)
    (hidle : s0.embx_ir_tx_in_progress = false) (ht0 : s0.tx_index = 0)
    (hlen : s0.phy_descriptor.length = 20) (hf : s0.fill_index ≤ 20)
    (hpf : p < s0.fill_index)
    (hrc : ∀ j, j < s0.fill_index → (tx_slot s0 j).repeat_cnt = 0)
    (hM : ∀ j, j < s0.fill_index → -1 ≤ (tx_slot s0 j).max_repeat_cnt)
    (hr : (tx_slot s0 p).max_repeat_cnt = (r : Int)) (hd : (tx_slot s0 p).decrement = d)
    (hd1 : 1 ≤ d) (hd2 : d ≤ p + 1) (hp1 : 1 ≤ p ∨ r = 0) (hlo : lo ≤ 1)
    (hrew : ∀ j, j < s0.fill_index → 1 ≤ j →
      (tx_slot s0 j).max_repeat_cnt = 0 ∨ lo + (tx_slot s0 j).decrement ≤ j + 1)
    (hfor : ∀ j, j < s0.fill_index → lo ≤ j →
      (tx_slot s0 j).max_repeat_cnt = -1 → (tx_slot s0 j).decrement = 0)
    (hin : ∀ j, j < p → lo ≤ j → p + 1 - d ≤ j →
      (tx_slot s0 j).max_repeat_cnt = 0 ∨ (tx_slot s0 j).decrement = 0)
    (hout : ∀ j, j < s0.fill_index → p < j →
      (tx_slot s0 j).max_repeat_cnt = 0 ∨ p + (tx_slot s0 j).decrement ≤ j) :
    ∃ n pre post,
      (tx_transmit n s0).1 = STATUS_OK
        ∧ (tx_transmit n s0).2.1
            = pre ++ (List.replicate (r + 1) (List.range' (p + 1 - d) d)).flatten ++ post
        ∧ (∀ x ∈ pre, x < p + 1 - d) ∧ (∀ x ∈ post, p < x)
        ∧ (tx_transmit n s0).2.1.length = n + 1
        ∧ (tx_transmit n s0).2.2.embx_ir_tx_in_progress = true
        ∧ (tx_transmit n s0).2.2.tx_index = s0.fill_index
        ∧ (tx_transmit n s0).2.2.fill_index = s0.fill_index := by
  have hlt : s0.tx_index < s0.fill_index := by omega
  obtain ⟨s1, s2, s3, s4, s5, _, _, _, _⟩ := tx_send_idle_some s0 hidle hlt
  have hQ : TxSameQueue s0 (embx_ir_tx_phy_send s0).2 := by
    refine ⟨by rw [s2, hlen], s3, hf, s5, ?_⟩
    intro j hj
    rw [tx_slot_congr s0 _ s2 j]
    exact ⟨rfl, rfl, by rw [hrc j hj]⟩
  have hrcp : (tx_slot (embx_ir_tx_phy_send s0).2 p).repeat_cnt = 0 := by
    rw [tx_slot_congr s0 _ s2 p]
    exact hrc p hpf
  have htx : (embx_ir_tx_phy_send s0).2.tx_index = 1 := by rw [s4, ht0]
  have htr : ∀ n, tx_transmit n s0
      = (STATUS_OK, 0 :: (tx_callbacks n (embx_ir_tx_phy_send s0).2).1,
          (tx_callbacks n (embx_ir_tx_phy_send s0).2).2) := by
    intro n
    simp only [tx_transmit, hidle, Bool.false_eq_true, if_false, tx_emitted_some s0 hlt,
      Option.toList_some, s1, ht0, List.singleton_append]
  have hforS : ∀ j, j < s0.fill_index → p < j →
      (tx_slot s0 j).max_repeat_cnt = -1 → (tx_slot s0 j).decrement = 0 :=
    fun j hj hjp => hfor j hj (by omega)
  by_cases hp0 : p = 0
  · -- the descriptor sits in slot 0 and asks for no repeat: send emits the block
    have hr0 : r = 0 := by omega
    have hd0 : d = 1 := by omega
    subst hp0 hr0 hd0
    obtain ⟨n, n1, n2, n3, n4⟩ := tx_suffix_drain s0 _ 0 hQ htx hpf hM hforS hout
    refine ⟨n, [], (tx_callbacks n (embx_ir_tx_phy_send s0).2).1, ?_⟩
    rw [htr n]
    refine ⟨rfl, by simp, fun x hx => absurd hx (List.not_mem_nil x), n2, by simp [n1],
      n3.2.2.2.1, n4, n3.2.1⟩
  · by_cases hb : p + 1 - d = 0
    · -- the block starts in slot 0: send emits its first slot
      have hin2 : 0 < r → ∀ j, p + 1 - d ≤ j → j < p →
          (tx_slot s0 j).max_repeat_cnt = 0 ∨ (tx_slot s0 j).decrement = 0 := by
        intro hr0 j hj1 hj2
        have hlo0 : lo = 0 := by
          rcases hrew p hpf (by omega) with hc | hc
          · rw [hr] at hc
            omega
          · rw [hd] at hc
            omega
        exact hin j hj2 (by omega) hj1
      obtain ⟨n, post, t1, t2, t3, t4, t5⟩ := tx_block_tail s0 _ p r d 1 hQ hpf hd1 hd2
        hr hd hrcp htx (by omega) hM
        (fun j hj1 hj2 => hin j hj2 (by omega) (by omega)) hin2 hforS hout
      refine ⟨n, [], post, ?_⟩
      rw [htr n]
      refine ⟨rfl, ?_, fun x hx => absurd hx (List.not_mem_nil x), t2, by simp [t3],
        t4.2.2.2.1, t5, t4.2.1⟩
      simp only [t1, List.nil_append]
      rw [List.replicate_succ, List.flatten_cons]
      have hblock : List.range' (p + 1 - d) d = 0 :: (List.range' 1 (p - 1) ++ [p]) := by
        obtain ⟨e, rfl⟩ : ∃ e, p = e + 1 := ⟨p - 1, by omega⟩
        have hde : d = (e + 1) + 1 := by omega
        rw [hb, hde, List.range'_concat, List.range'_succ]
        simp
      rw [hblock]
      simp
    · -- slots before the block come first
      obtain ⟨nA, a1, a2, a3, a4, a5⟩ := tx_callbacks_region s0 lo (p + 1 - d) _
        (embx_ir_tx_phy_send s0).2 (Nat.le_refl _) hQ (by omega) (by omega) (by omega) (by
          intro j hj1 hj2
          have b1 := hM j (by omega)
          have b2 := hfor j (by omega) hj1
          by_cases hm : (tx_slot s0 j).max_repeat_cnt = -1
          · right; left; exact b2 hm
          · by_cases hj0 : j = 0
            · right; right
              exact ⟨by omega, by omega⟩
            · rcases hrew j (by omega) (by omega) with b3 | b3
              · left; exact b3
              · right; right
                exact ⟨by omega, by omega⟩)
      obtain ⟨n, post, t1, t2, t3, t4, t5⟩ := tx_block_tail s0 _ p r d (p + 1 - d) a3 hpf
        hd1 hd2 hr hd (by rw [a5 p (by omega), hrcp]) a4 (by omega) hM
        (fun j hj1 hj2 => hin j hj2 (by omega) hj1)
        (fun _ j hj1 hj2 => hin j hj2 (by omega) hj1) hforS hout
      refine ⟨nA + n, 0 :: (tx_callbacks nA (embx_ir_tx_phy_send s0).2).1, post, ?_⟩
      rw [htr (nA + n), tx_callbacks_add]
      refine ⟨rfl, ?_, ?_, t2, ?_, t4.2.2.2.1, t5, t4.2.1⟩
      · simp only [t1]
        rw [List.replicate_succ, List.flatten_cons]
        have hblock : List.range' (p + 1 - d) d
            = List.range' (p + 1 - d) (p - (p + 1 - d)) ++ [p] := by
          obtain ⟨e, rfl⟩ : ∃ e, d = e + 1 := ⟨d - 1, by omega⟩
          rw [List.range'_concat]
          simp only [Nat.one_mul]
          congr 2 <;> omega
        rw [hblock]
        simp
      · intro x hx
        simp only [List.mem_cons] at hx
        rcases hx with hx | hx
        · omega
        · exact (a2 x hx).2
      · simp only [List.length_cons, List.length_append, a1, t3]

/-- C3, as stated, fails.  (1) A descriptor in slot 0 with decrement 1 and max_repeat_cnt 2
is emitted once, by send, and the first callback already drains the queue.  (2) With a
repeating descriptor in slot 1 (decrement 1, max_repeat_cnt 1) inside the block of slot 2
(decrement 2, max_repeat_cnt 1), slot 1 is emitted three times before the sixth callback
drains the queue: not twice, as either descriptor would have it.  (3) With a descriptor
marked forever that rewinds onto itself in slot 2, the block of slot 1 (decrement 1,
max_repeat_cnt 1) is emitted twice, but no callback ever drains the queue. -/
theorem tx_repeat_block_count_counterexample :
    ((tx_slot (tx_fill_queue tx_power_up tx_head_repeat_queue).2 0).decrement = 1
      ∧ (tx_slot (tx_fill_queue tx_power_up tx_head_repeat_queue).2 0).max_repeat_cnt = 2
      ∧ (tx_transmit 0 (tx_fill_queue tx_power_up tx_head_repeat_queue).2).2.1 = [0]
      ∧ tx_emitted (tx_transmit 0 (tx_fill_queue tx_power_up tx_head_repeat_queue).2).2.2 = none
      ∧ (tx_transmit 1
          (tx_fill_queue tx_power_up tx_head_repeat_queue).2).2.2.embx_ir_tx_in_progress = false
      ∧ (tx_transmit 1 (tx_fill_queue tx_power_up tx_head_repeat_queue).2).2.1.count 0
          ≠ 2 + 1)
    ∧ ((tx_slot (tx_fill_queue tx_power_up tx_nested_repeat_queue).2 1).decrement = 1
      ∧ (tx_slot (tx_fill_queue tx_power_up tx_nested_repeat_queue).2 1).max_repeat_cnt = 1
      ∧ (tx_slot (tx_fill_queue tx_power_up tx_nested_repeat_queue).2 2).decrement = 2
      ∧ (tx_slot (tx_fill_queue tx_power_up tx_nested_repeat_queue).2 2).max_repeat_cnt = 1
      ∧ (tx_transmit 5 (tx_fill_queue tx_power_up tx_nested_repeat_queue).2).2.1
          = [0, 1, 1, 2, 1, 2]
      ∧ tx_emitted (tx_transmit 5 (tx_fill_queue tx_power_up tx_nested_repeat_queue).2).2.2
          = none
      ∧ (tx_transmit 6
          (tx_fill_queue tx_power_up tx_nested_repeat_queue).2).2.2.embx_ir_tx_in_progress
            = false
      ∧ (tx_transmit 6 (tx_fill_queue tx_power_up tx_nested_repeat_queue).2).2.1.count 1
          ≠ 1 + 1)
    ∧ ((tx_slot (tx_fill_queue tx_power_up tx_repeat_then_forever_queue).2 1).decrement = 1
      ∧ (tx_slot (tx_fill_queue tx_power_up tx_repeat_then_forever_queue).2 1).max_repeat_cnt
          = 1
      ∧ (tx_transmit 3 (tx_fill_queue tx_power_up tx_repeat_then_forever_queue).2).2.1
          = [0, 1, 1, 2]
      ∧ ∀ n, (tx_callbacks n (embx_ir_tx_phy_send
          (tx_fill_queue tx_power_up tx_repeat_then_forever_queue).2).2).2.embx_ir_tx_in_progress
            = true) := by
  refine ⟨by decide, by decide, by decide, by decide, by decide, ?_⟩
  intro n
  have hstart : TxForeverAt 3 2
      (embx_ir_tx_phy_send (tx_fill_queue tx_power_up tx_repeat_then_forever_queue).2).2 := by
    unfold TxForeverAt
    decide
  exact (TxForeverAt_callbacks 3 2 n _ hstart).2.2.2.2.1

/-- C3 (amended): let `s0` be a queue filled from reset and `p` a position in it whose
descriptor has stored decrement `d ∈ [1, p+1]` and `max_repeat_cnt = r ≥ 0`, with `p ≥ 1` or
`r = 0`.  Suppose that no descriptor at a position `j ≥ 1` is marked forever with a non-zero
stored decrement; that every other descriptor at a position `j ≥ 1` inside the block has
`max_repeat_cnt = 0` or stored decrement 0; that every descriptor after `p` has
`max_repeat_cnt = 0` or rewinds to a position after `p`; and that slot 0, which a callback
obtains only when some descriptor rewinds to it, meets the first two conditions unless no
descriptor at a position `j ≥ 1` rewinds to slot 0.  Then send succeeds and, for some `n`,
send and the `n` callbacks that follow each obtain a descriptor: first slots before the
block, then exactly `r + 1` consecutive copies of the block of the `d` descriptors ending at
`p`, then slots after `p`; every slot of the block is emitted exactly `r + 1` times; the PHY
is still busy, and the next callback finds the queue drained and clears `tx_in_progress`. -/
theorem tx_repeat_block_unnested (s : TxPhy) (q : List TxFillArgs) (s0 : TxPhy)
    (p r d : Nat)
    (hidle : s.embx_ir_tx_in_progress = false) (hlen : s.phy_descriptor.length = 20)
    (hq : q.length ≤ EMBX_IR_TX_PHY_DESCRIPTOR_Q_SZ)
    (hs0 : s0 = (tx_fill_queue s q).2) (hp : p < q.length)
    (hr : (tx_slot s0 p).max_repeat_cnt = (r : Int)) (hd : (tx_slot s0 p).decrement = d)
    (hd1 : 1 ≤ d) (hd2 : d ≤ p + 1) (hp1 : 1 ≤ p ∨ r = 0)
    (hfor : ∀ j, j < q.length → 1 ≤ j →
      (tx_slot s0 j).max_repeat_cnt = EMBX_IR_TX_PHY_REPEAT_FOREVER →
        (tx_slot s0 j).decrement = 0)
    (hin : ∀ j, j < p → 1 ≤ j → p + 1 - d ≤ j →
      (tx_slot s0 j).max_repeat_cnt = 0 ∨ (tx_slot s0 j).decrement = 0)
    (hout : ∀ j, j < q.length → p < j →
      (tx_slot s0 j).max_repeat_cnt = 0 ∨ p + (tx_slot s0 j).decrement ≤ j)
    (hzero : (∀ j, j < q.length → 1 ≤ j →
        (tx_slot s0 j).max_repeat_cnt = 0 ∨ (tx_slot s0 j).decrement ≤ j)
      ∨ (((tx_slot s0 0).max_repeat_cnt = EMBX_IR_TX_PHY_REPEAT_FOREVER →
            (tx_slot s0 0).decrement = 0)
        ∧ (1 ≤ p → d = p + 1 →
            (tx_slot s0 0).max_repeat_cnt = 0 ∨ (tx_slot s0 0).decrement = 0))) :
    ∃ n pre post,
      (tx_transmit n s0).1 = STATUS_OK
        ∧ (tx_transmit n s0).2.1
            = pre ++ (List.replicate (r + 1) (List.range' (p + 1 - d) d)).flatten ++ post
        ∧ (∀ x ∈ pre, x < p + 1 - d) ∧ (∀ x ∈ post, p < x)
        ∧ (tx_transmit n s0).2.1.length = n + 1
        ∧ (∀ j, p + 1 - d ≤ j → j ≤ p → (tx_transmit n s0).2.1.count j = r + 1)
        ∧ (tx_transmit n s0).2.2.embx_ir_tx_in_progress = true
        ∧ tx_emitted (tx_transmit n s0).2.2 = none
        ∧ (tc_callback_ir_tx_phy (tx_transmit n s0).2.2).embx_ir_tx_in_progress = false := by
  simp only [EMBX_IR_TX_PHY_DESCRIPTOR_Q_SZ] at hq
  simp only [EMBX_IR_TX_PHY_REPEAT_FOREVER] at hfor hzero
  obtain ⟨_, f2, f3, f4, f5⟩ := tx_fill_queue_spec s q hidle hlen hq
  have hne : q ≠ [] := by
    intro hc; rw [hc] at hp; simp at hp
  obtain ⟨f2a, f2b⟩ := f2 hne
  rw [← hs0] at f2a f2b f3 f4 f5
  have hslot : ∀ j, j < q.length → ∃ a, tx_slot s0 j = tx_filled_descriptor j a :=
    fun j hj => ⟨q[j], f5 j _ (List.getElem?_eq_getElem hj)⟩
  have hrc : ∀ j, j < s0.fill_index → (tx_slot s0 j).repeat_cnt = 0 := by
    intro j hj
    obtain ⟨a, ha⟩ := hslot j (by omega)
    rw [ha]
    rfl
  have hM : ∀ j, j < s0.fill_index → -1 ≤ (tx_slot s0 j).max_repeat_cnt := by
    intro j hj
    obtain ⟨a, ha⟩ := hslot j (by omega)
    rw [ha]
    simp only [tx_filled_descriptor]
    split <;> omega
  have hD : ∀ j, j < s0.fill_index → (tx_slot s0 j).decrement ≤ j + 1 := by
    intro j hj
    obtain ⟨a, ha⟩ := hslot j (by omega)
    rw [ha]
    simp only [tx_filled_descriptor]
    split <;> omega
  have hrun : ∃ n pre post,
      (tx_transmit n s0).1 = STATUS_OK
        ∧ (tx_transmit n s0).2.1
            = pre ++ (List.replicate (r + 1) (List.range' (p + 1 - d) d)).flatten ++ post
        ∧ (∀ x ∈ pre, x < p + 1 - d) ∧ (∀ x ∈ post, p < x)
        ∧ (tx_transmit n s0).2.1.length = n + 1
        ∧ (tx_transmit n s0).2.2.embx_ir_tx_in_progress = true
        ∧ (tx_transmit n s0).2.2.tx_index = s0.fill_index
        ∧ (tx_transmit n s0).2.2.fill_index = s0.fill_index := by
    rcases hzero with hz | ⟨hz1, hz2⟩
    · exact tx_block_run s0 1 p r d f3 f2b f4 (by omega) (by omega) hrc hM hr hd hd1 hd2 hp1
        (Nat.le_refl _)
        (fun j hj hj1 => by
          rcases hz j (by omega) hj1 with h0 | h0
          · left; exact h0
          · right; omega)
        (fun j hj hj1 => hfor j (by omega) hj1)
        (fun j hj hj1 hj2 => hin j hj hj1 hj2)
        (fun j hj hjp => hout j (by omega) hjp)
    · exact tx_block_run s0 0 p r d f3 f2b f4 (by omega) (by omega) hrc hM hr hd hd1 hd2 hp1
        (Nat.zero_le _)
        (fun j hj hj1 => by
          right
          have := hD j hj
          omega)
        (fun j hj _ => by
          by_cases hj0 : j = 0
          · rw [hj0]; exact hz1
          · exact hfor j (by omega) (by omega))
        (fun j hj _ hj2 => by
          by_cases hj0 : j = 0
          · rw [hj0]
            exact hz2 (by omega) (by omega)
          · exact hin j hj (by omega) hj2)
        (fun j hj hjp => hout j (by omega) hjp)
  obtain ⟨n, pre, post, t1, t2, t3, t4, t5, t6, t7, t8⟩ := hrun
  have hdr : ¬ (tx_transmit n s0).2.2.tx_index < (tx_transmit n s0).2.2.fill_index := by
    omega
  refine ⟨n, pre, post, t1, t2, t3, t4, t5, ?_, t6, tx_emitted_none _ hdr, ?_⟩
  · intro j hj1 hj2
    rw [t2, List.count_append, List.count_append, count_flatten_replicate,
      count_range'_self _ _ _ hj1 (by omega),
      count_eq_zero_of_bound pre j (fun x hx => by have := t3 x hx; omega),
      count_eq_zero_of_bound post j (fun x hx => by have := t4 x hx; omega)]
    omega
  · rw [tc_callback_drained _ hdr]

/-- C3 (amended) on a queue with two repeating descriptors whose blocks do not meet, slot 1
with `r = 1` and slot 3 with `r = 2`, both with decrement 1.  For the descriptor in slot 3
the block is emitted three times and for the one in slot 1 twice; the whole transmission is
0, 1, 1, 2, 3, 3, 3. -/
theorem tx_repeat_block_unnested_witness :
    (∃ n pre post,
      (tx_transmit n (tx_fill_queue tx_power_up tx_two_repeat_queue).2).1 = STATUS_OK
        ∧ (tx_transmit n (tx_fill_queue tx_power_up tx_two_repeat_queue).2).2.1
            = pre ++ (List.replicate (2 + 1) (List.range' (3 + 1 - 1) 1)).flatten ++ post
        ∧ (∀ x ∈ pre, x < 3 + 1 - 1) ∧ (∀ x ∈ post, 3 < x)
        ∧ (tx_transmit n (tx_fill_queue tx_power_up tx_two_repeat_queue).2).2.1.length
            = n + 1
        ∧ (∀ j, 3 + 1 - 1 ≤ j → j ≤ 3 →
            (tx_transmit n (tx_fill_queue tx_power_up tx_two_repeat_queue).2).2.1.count j
              = 2 + 1)
        ∧ (tx_transmit n
            (tx_fill_queue tx_power_up tx_two_repeat_queue).2).2.2.embx_ir_tx_in_progress
              = true
        ∧ tx_emitted (tx_transmit n (tx_fill_queue tx_power_up tx_two_repeat_queue).2).2.2
            = none
        ∧ (tc_callback_ir_tx_phy (tx_transmit n
            (tx_fill_queue tx_power_up tx_two_repeat_queue).2).2.2).embx_ir_tx_in_progress
              = false)
      ∧ (∃ n pre post,
        (tx_transmit n (tx_fill_queue tx_power_up tx_two_repeat_queue).2).2.1
            = pre ++ (List.replicate (1 + 1) (List.range' (1 + 1 - 1) 1)).flatten ++ post
          ∧ (∀ x ∈ pre, x < 1 + 1 - 1) ∧ (∀ x ∈ post, 1 < x)
          ∧ tx_emitted (tx_transmit n (tx_fill_queue tx_power_up tx_two_repeat_queue).2).2.2
              = none)
      ∧ (tx_transmit 6 (tx_fill_queue tx_power_up tx_two_repeat_queue).2).2.1
          = [0, 1, 1, 2, 3, 3, 3] :=
  have h1 := tx_repeat_block_unnested tx_power_up tx_two_repeat_queue
    (tx_fill_queue tx_power_up tx_two_repeat_queue).2 1 1 1 rfl (by decide) (by decide) rfl
    (by decide) (by decide) (by decide) (by decide) (by decide) (by decide) (by decide)
    (by decide) (by decide) (Or.inl (by decide))
  ⟨tx_repeat_block_unnested tx_power_up tx_two_repeat_queue
    (tx_fill_queue tx_power_up tx_two_repeat_queue).2 3 2 1 rfl (by decide) (by decide) rfl
    (by decide) (by decide) (by decide) (by decide) (by decide) (by decide) (by decide)
    (by decide) (by decide) (Or.inl (by decide)),
   h1.elim fun n h => h.elim fun pre h => h.elim fun post h =>
    ⟨n, pre, post, h.2.1, h.2.2.1, h.2.2.2.1, h.2.2.2.2.2.2.2.1⟩,
   by decide⟩

/-! ## Resets interleaved with interrupts -/

/-- Writing a buffer with 256 elements and a size of at most 256 keeps the core invariant. -/
theorem RxBankCore_store (b : RxBank) (idx : Nat) (x : embx_ir_rx_buf_t)
    (h : RxBankCore b) (hx1 : x.elem.length = 256) (hx2 : x.size ≤ 256) :
    RxBankCore (rx_buf_store b idx x) := by
  obtain ⟨h1, h2, h3⟩ := h
  refine ⟨by simp [rx_buf_store, h1], h2, ?_⟩
  intro i hi
  by_cases hidx : idx < b.embx_ir_rx_buf.length
  · rw [rx_buf_store_read b idx i x hidx]
    split
    · exact ⟨hx1, hx2⟩
    · exact h3 i hi
  · have hne : i ≠ idx := by omega
    rw [rx_buf_store_other b idx i x hne]
    exact h3 i hi

/-- Writing a buffer whose elements below its size are marks and spaces keeps the validity
of the bank. -/
theorem RxBankValid_store (b : RxBank) (idx : Nat) (x : embx_ir_rx_buf_t)
    (h : RxBankValid b)
    (hx : ∀ k, k < x.size →
      (rx_elem x k).gpio_state = EMBX_IR_RX_GPIO_STATE_MARK
        ∨ (rx_elem x k).gpio_state = EMBX_IR_RX_GPIO_STATE_SPACE) :
    RxBankValid (rx_buf_store b idx x) := by
  intro i hi
  by_cases hidx : idx < b.embx_ir_rx_buf.length
  · rw [rx_buf_store_read b idx i x hidx]
    split
    · exact hx
    · exact h i hi
  · by_cases hne : i = idx
    · subst hne
      have : rx_buf_store b i x = b := by
        simp only [rx_buf_store]
        rw [List.set_eq_of_length_le (by omega)]
      rw [this]
      exact h i hi
    · rw [rx_buf_store_other b idx i x hne]
      exact h i hi

/-- The bank invariant is the core invariant together with the validity of the elements. -/
theorem RxBankInv_iff (b : RxBank) : RxBankInv b ↔ RxBankCore b ∧ RxBankValid b := by
  constructor
  · rintro ⟨h1, h2, h3⟩
    exact ⟨⟨h1, h2, fun i hi => ⟨(h3 i hi).1, (h3 i hi).2.1⟩⟩, fun i hi => (h3 i hi).2.2⟩
  · rintro ⟨⟨h1, h2, h3⟩, h4⟩
    exact ⟨h1, h2, fun i hi => ⟨(h3 i hi).1, (h3 i hi).2, h4 i hi⟩⟩

/-- Every change that an event makes to the bank keeps the core invariant, whatever the
elements hold, and changes the size of a buffer by one element at most. -/
theorem RxBankCore_step (b c : RxBank) (h : RxBankCore b) (hstep : RxBankStep b c) :
    RxBankCore c
      ∧ ∀ j, (rx_buf c j).size = (rx_buf b j).size
          ∨ (rx_buf c j).size = (rx_buf b j).size + 1 := by
  obtain ⟨h1, h2, h3⟩ := h
  have hi : b.idx_ir_rx_buf_isr < b.embx_ir_rx_buf.length := by omega
  obtain ⟨g1, g2, g3, g4, g5, g6⟩ := embx_ir_rx_buf_isr_get_elem_read b hi
  rcases hstep with rfl | ⟨st, rfl⟩ | ⟨hst, hsz, g, t, hg, rfl⟩ | ⟨hst, hsz, rfl⟩ | ⟨hst, rfl⟩
  · exact ⟨⟨h1, h2, h3⟩, fun j => Or.inl rfl⟩
  · obtain ⟨_, c2, c3, _, c5, c6⟩ := embx_ir_rx_buf_complete_read b st h2 h1
    have hsame : ∀ j, (rx_buf (embx_ir_rx_buf_complete b st).2 j).size = (rx_buf b j).size
        ∧ (rx_buf (embx_ir_rx_buf_complete b st).2 j).elem = (rx_buf b j).elem := by
      intro j
      by_cases hjc : j = b.idx_ir_rx_buf_isr
      · rw [hjc, c5]
        exact ⟨rfl, rfl⟩
      · rw [c6 j hjc]
        exact ⟨rfl, rfl⟩
    refine ⟨⟨c2, by rw [c3]; omega, ?_⟩, fun j => Or.inl (hsame j).1⟩
    intro i hi4
    rw [(hsame i).1, (hsame i).2]
    exact h3 i hi4
  · have hok : (embx_ir_rx_buf_isr_get_elem b).1 = STATUS_OK := by
      rw [embx_ir_rx_buf_isr_get_elem_ok b hi hst hsz]
    rw [hok] at g6
    simp only [if_true] at g6
    obtain ⟨r1, r2, _, r4, r5⟩ := rx_elem_record_read (embx_ir_rx_buf_isr_get_elem b).2.2
      b.idx_ir_rx_buf_isr (rx_buf b b.idx_ir_rx_buf_isr).size g t (by rw [g1]; exact hi)
    obtain ⟨e1, e2⟩ := h3 _ h2
    refine ⟨⟨by rw [r1, g1, h1], by rw [r2, g2]; exact h2, ?_⟩, ?_⟩
    · intro i hi4
      by_cases hic : i = b.idx_ir_rx_buf_isr
      · rw [hic, r4]
        exact ⟨by simp [g4, e1], by simp only [g6]; omega⟩
      · rw [r5 i hic, g5 i hic]
        exact h3 i hi4
    · intro j
      by_cases hjc : j = b.idx_ir_rx_buf_isr
      · rw [hjc, r4]
        right
        simp only [g6]
      · rw [r5 j hjc, g5 j hjc]
        left; rfl
  · have hnok : (embx_ir_rx_buf_isr_get_elem b).1 ≠ STATUS_OK := by
      rw [embx_ir_rx_buf_isr_get_elem_overflow b hst hsz]
      simp
    rw [if_neg hnok] at g6
    obtain ⟨_, c2, c3, _, c5, c6⟩ := embx_ir_rx_buf_complete_read
      (embx_ir_rx_buf_isr_get_elem b).2.2 STATUS_ERR_OVERFLOW (by rw [g2]; exact h2)
      (by rw [g1, h1])
    rw [g2] at c3 c5 c6
    have hsame : ∀ j, (rx_buf (embx_ir_rx_buf_complete (embx_ir_rx_buf_isr_get_elem b).2.2
          STATUS_ERR_OVERFLOW).2 j).size = (rx_buf b j).size
        ∧ (rx_buf (embx_ir_rx_buf_complete (embx_ir_rx_buf_isr_get_elem b).2.2
          STATUS_ERR_OVERFLOW).2 j).elem = (rx_buf b j).elem := by
      intro j
      by_cases hjc : j = b.idx_ir_rx_buf_isr
      · rw [hjc, c5]
        exact ⟨g6, g4 _⟩
      · rw [c6 j hjc, g5 j hjc]
        exact ⟨rfl, rfl⟩
    refine ⟨⟨c2, by rw [c3]; omega, ?_⟩, fun j => Or.inl (hsame j).1⟩
    intro i hi4
    rw [(hsame i).1, (hsame i).2]
    exact h3 i hi4
  · have hnok : (embx_ir_rx_buf_isr_get_elem b).1 ≠ STATUS_OK := by
      rw [embx_ir_rx_buf_isr_get_elem_no_memory b hst]
      simp
    rw [if_neg hnok] at g6
    have hsame : ∀ j, (rx_buf (embx_ir_rx_buf_isr_get_elem b).2.2 j).size = (rx_buf b j).size
        ∧ (rx_buf (embx_ir_rx_buf_isr_get_elem b).2.2 j).elem = (rx_buf b j).elem := by
      intro j
      by_cases hjc : j = b.idx_ir_rx_buf_isr
      · rw [hjc]
        exact ⟨g6, g4 _⟩
      · rw [g5 j hjc]
        exact ⟨rfl, rfl⟩
    refine ⟨⟨by rw [g1, h1], by rw [g2]; exact h2, ?_⟩, fun j => Or.inl (hsame j).1⟩
    intro i hi4
    rw [(hsame i).1, (hsame i).2]
    exact h3 i hi4

/-- One iteration of the element loop of a reset. -/
theorem rx_reset_step_elem (b : RxBank) (idx i : Nat) (h : i < 256) :
    rx_reset_step b (RxResetPc.at_elem idx i)
      = (rx_buf_store b idx
          { rx_buf b idx with
            elem := (rx_buf b idx).elem.set i
              { (rx_buf b idx).elem.getD i rx_zero_elem with
                gpio_state := EMBX_IR_RX_GPIO_STATE_UNINITIALIZED } },
          RxResetPc.at_elem idx (i + 1)) := by
  simp [rx_reset_step, h]

/-- The exit of the element loop of a reset. -/
theorem rx_reset_step_exit (b : RxBank) (idx i : Nat) (h : ¬ i < 256) :
    rx_reset_step b (RxResetPc.at_elem idx i) = (b, RxResetPc.outside) := by
  simp [rx_reset_step, h]

/-- Entering a reset keeps the core invariant and leads to a valid position. -/
theorem rx_reset_enter_core (b : RxBank) (idx : Nat) (h : RxBankCore b) :
    RxBankCore (rx_reset_enter b idx).1 ∧ RxResetPcInv (rx_reset_enter b idx).2 := by
  unfold rx_reset_enter
  split
  · next hidx =>
    exact ⟨RxBankCore_store b idx _ h (h.2.2 idx hidx).1 (h.2.2 idx hidx).2, hidx⟩
  · exact ⟨h, trivial⟩

/-- Every store of a reset keeps the core invariant and leads to a valid position. -/
theorem rx_reset_step_core (b : RxBank) (pc : RxResetPc) (h : RxBankCore b)
    (hpc : RxResetPcInv pc) :
    RxBankCore (rx_reset_step b pc).1 ∧ RxResetPcInv (rx_reset_step b pc).2 := by
  cases pc with
  | outside => exact ⟨h, trivial⟩
  | at_status idx =>
    exact ⟨RxBankCore_store b idx _ h (h.2.2 idx hpc).1 (h.2.2 idx hpc).2, hpc⟩
  | at_size idx =>
    exact ⟨RxBankCore_store b idx _ h (h.2.2 idx hpc).1 (Nat.zero_le _),
      hpc, Nat.zero_le _⟩
  | at_elem idx i =>
    by_cases hi : i < 256
    · rw [rx_reset_step_elem b idx i hi]
      refine ⟨RxBankCore_store b idx _ h ?_ (h.2.2 idx hpc.1).2, hpc.1, ?_⟩
      · rw [List.length_set]
        exact (h.2.2 idx hpc.1).1
      · omega
    · rw [rx_reset_step_exit b idx i hi]
      exact ⟨h, trivial⟩

/-- In every interleaving the bank keeps its core invariant and the foreground a valid
position. -/
theorem RxInterleaved_core (cfg : RxPhyConfig) (s : RxPhy) (pc : RxResetPc)
    (h : RxInterleaved cfg s pc) : RxBankCore s.bank ∧ RxResetPcInv pc := by
  induction h with
  | enable s hshape =>
    exact ⟨((RxBankInv_iff _).mp (RxBankInv_init s.bank hshape)).1, trivial⟩
  | event s pc event count _ ih =>
    exact ⟨(RxBankCore_step _ _ ih.1 (embx_rx_ir_phy_state_machine_bank cfg s event count
      (by rw [ih.1.1]; exact ih.1.2.1))).1, ih.2⟩
  | enter s idx _ ih => exact rx_reset_enter_core s.bank idx ih.1
  | step s pc _ ih => exact rx_reset_step_core s.bank pc ih.1 ih.2

/-- A race-free interleaving is an interleaving. -/
theorem RxRaceFree_interleaved (cfg : RxPhyConfig) (s : RxPhy) (pc : RxResetPc)
    (h : RxRaceFree cfg s pc) : RxInterleaved cfg s pc := by
  induction h with
  | enable s hshape => exact RxInterleaved.enable s hshape
  | event s pc event count _ _ ih => exact RxInterleaved.event s pc event count ih
  | enter s idx _ ih => exact RxInterleaved.enter s idx ih
  | step s pc _ ih => exact RxInterleaved.step s pc ih

/-- Entering a reset keeps the validity of the elements. -/
theorem rx_reset_enter_valid (b : RxBank) (idx : Nat) (h : RxBankValid b) :
    RxBankValid (rx_reset_enter b idx).1 ∧ RxResetCleared (rx_reset_enter b idx).1
      (rx_reset_enter b idx).2 := by
  unfold rx_reset_enter
  split
  · next hidx => exact ⟨RxBankValid_store b idx _ h (h idx hidx), trivial⟩
  · exact ⟨h, trivial⟩

/-- Every store of a reset keeps the validity of the elements, provided the buffer under
reset holds no element at or above the loop counter. -/
theorem rx_reset_step_valid (b : RxBank) (pc : RxResetPc) (hc : RxBankCore b)
    (h : RxBankValid b) (hpc : RxResetPcInv pc) (hcl : RxResetCleared b pc) :
    RxBankValid (rx_reset_step b pc).1
      ∧ RxResetCleared (rx_reset_step b pc).1 (rx_reset_step b pc).2 := by
  have hlen := hc.1
  cases pc with
  | outside => exact ⟨h, trivial⟩
  | at_status idx => exact ⟨RxBankValid_store b idx _ h (h idx hpc), trivial⟩
  | at_size idx =>
    have hidx : idx < 4 := hpc
    refine ⟨RxBankValid_store b idx _ h (fun k hk => absurd hk (Nat.not_lt_zero k)), ?_⟩
    show (rx_buf (rx_buf_store b idx _) idx).size ≤ 0
    rw [rx_buf_store_same b idx _ (by omega)]
  | at_elem idx i =>
    have hsz : (rx_buf b idx).size ≤ i := hcl
    have hidx : idx < 4 := hpc.1
    by_cases hi : i < 256
    · rw [rx_reset_step_elem b idx i hi]
      refine ⟨RxBankValid_store b idx _ h ?_, ?_⟩
      · intro k hk
        have hk2 : k < (rx_buf b idx).size := hk
        rw [rx_elem_set_read _ _ _ _ (by rw [(hc.2.2 idx hpc.1).1]; exact hi),
          if_neg (by omega)]
        exact h idx hpc.1 k hk2
      · show (rx_buf (rx_buf_store b idx _) idx).size ≤ i + 1
        rw [rx_buf_store_same b idx _ (by omega)]
        exact Nat.le_succ_of_le hsz
    · rw [rx_reset_step_exit b idx i hi]
      exact ⟨h, trivial⟩

/-- In every race-free interleaving the bank keeps the full bank invariant, and inside the
element loop of a reset the buffer under reset holds no element at or above the loop
counter. -/
theorem RxRaceFree_inv (cfg : RxPhyConfig) (s : RxPhy) (pc : RxResetPc)
    (h : RxRaceFree cfg s pc) :
    RxBankInv s.bank ∧ RxResetPcInv pc ∧ RxResetCleared s.bank pc := by
  induction h with
  | enable s hshape => exact ⟨RxBankInv_init s.bank hshape, trivial, trivial⟩
  | event s pc event count _ hrace ih =>
    obtain ⟨i1, i2, i3⟩ := ih
    have hstep := embx_rx_ir_phy_state_machine_bank cfg s event count
      (by rw [i1.1]; exact i1.2.1)
    refine ⟨RxBankInv_step _ _ i1 hstep, i2, ?_⟩
    cases pc with
    | outside => trivial
    | at_status idx => trivial
    | at_size idx => trivial
    | at_elem idx i =>
      have hsz : (rx_buf s.bank idx).size ≤ i := i3
      have hnr : ¬ ((rx_buf (embx_rx_ir_phy_state_machine cfg s event count).bank idx).size
          ≠ (rx_buf s.bank idx).size ∧ i ≤ (rx_buf s.bank idx).size) := hrace
      show (rx_buf (embx_rx_ir_phy_state_machine cfg s event count).bank idx).size ≤ i
      rcases (RxBankCore_step _ _ ((RxBankInv_iff _).mp i1).1 hstep).2 idx with h0 | h0
      · omega
      · by_cases hlt : (rx_buf s.bank idx).size < i
        · omega
        · exact absurd ⟨by omega, by omega⟩ hnr
  | enter s idx _ ih =>
    obtain ⟨i1, _, _⟩ := ih
    obtain ⟨c1, c2⟩ := (RxBankInv_iff _).mp i1
    obtain ⟨e1, e2⟩ := rx_reset_enter_core s.bank idx c1
    obtain ⟨v1, v2⟩ := rx_reset_enter_valid s.bank idx c2
    exact ⟨(RxBankInv_iff _).mpr ⟨e1, v1⟩, e2, v2⟩
  | step s pc _ ih =>
    obtain ⟨i1, i2, i3⟩ := ih
    obtain ⟨c1, c2⟩ := (RxBankInv_iff _).mp i1
    obtain ⟨e1, e2⟩ := rx_reset_step_core s.bank pc c1 i2
    obtain ⟨v1, v2⟩ := rx_reset_step_valid s.bank pc c1 c2 i2 i3
    exact ⟨(RxBankInv_iff _).mpr ⟨e1, v1⟩, e2, v2⟩

/-- Running `m + n` stores of a reset is running `m` and then `n`. -/
theorem rx_reset_run_add (m n : Nat) : ∀ x : RxBank × RxResetPc,
    rx_reset_run (m + n) x = rx_reset_run n (rx_reset_run m x) := by
  induction m with
  | zero => intro x; simp [rx_reset_run]
  | succ m ih =>
    intro x
    rw [show m + 1 + n = (m + n) + 1 by omega]
    simp only [rx_reset_run]
    exact ih _

/-- A second write of the same buffer replaces the first. -/
theorem rx_buf_store_store (b : RxBank) (idx : Nat) (x y : embx_ir_rx_buf_t) :
    rx_buf_store (rx_buf_store b idx x) idx y = rx_buf_store b idx y := by
  simp [rx_buf_store]

/-- Writing back what a buffer holds changes nothing. -/
theorem rx_buf_store_self (b : RxBank) (idx : Nat) (h : idx < b.embx_ir_rx_buf.length) :
    rx_buf_store b idx (rx_buf b idx) = b := by
  simp only [rx_buf_store, rx_buf, List.getD_eq_getElem?_getD, List.getElem?_eq_getElem h,
    Option.getD_some]
  have hset : b.embx_ir_rx_buf.set idx b.embx_ir_rx_buf[idx] = b.embx_ir_rx_buf := by
    apply List.ext_getElem?
    intro j
    rw [List.getElem?_set]
    split
    · next hj => rw [← hj, List.getElem?_eq_getElem h]
    · rfl
  rw [hset]

/-- The element loop of a reset, run without interruption for `n` iterations from counter
`i`, is the fold over the indices `i, ..., i + n - 1` that `rx_reset_elems` takes over all
256. -/
theorem rx_reset_run_loop (n : Nat) : ∀ (b : RxBank) (idx i : Nat),
    idx < b.embx_ir_rx_buf.length → i + n ≤ 256 →
    rx_reset_run n (b, RxResetPc.at_elem idx i)
      = (rx_buf_store b idx
          { rx_buf b idx with
            elem := (List.range' i n).foldl
              (fun e i => e.set i
                { e.getD i rx_zero_elem with
                  gpio_state := EMBX_IR_RX_GPIO_STATE_UNINITIALIZED })
              (rx_buf b idx).elem },
          RxResetPc.at_elem idx (i + n)) := by
  induction n with
  | zero =>
    intro b idx i hidx _
    simp only [rx_reset_run, List.range'_zero, List.foldl_nil, Nat.add_zero]
    rw [rx_buf_store_self b idx hidx]
  | succ n ih =>
    intro b idx i hidx hin
    simp only [rx_reset_run]
    rw [rx_reset_step_elem b idx i (by omega), ih _ idx (i + 1) (by simpa [rx_buf_store] using hidx)
      (by omega), rx_buf_store_same b idx _ hidx, rx_buf_store_store]
    simp only [List.range'_succ, List.foldl_cons]
    rw [show i + 1 + n = i + (n + 1) by omega]

/-- The store of `status` in a reset, on a bank whose buffer `idx` was just written. -/
theorem rx_reset_step_status (b : RxBank) (idx : Nat) (x : embx_ir_rx_buf_t)
    (hi : idx < b.embx_ir_rx_buf.length) :
    rx_reset_step (rx_buf_store b idx x) (RxResetPc.at_status idx)
      = (rx_buf_store b idx { x with status := STATUS_OK }, RxResetPc.at_size idx) := by
  simp only [rx_reset_step]
  rw [rx_buf_store_same b idx _ hi, rx_buf_store_store]

/-- The store of `size` in a reset, on a bank whose buffer `idx` was just written. -/
theorem rx_reset_step_size (b : RxBank) (idx : Nat) (x : embx_ir_rx_buf_t)
    (hi : idx < b.embx_ir_rx_buf.length) :
    rx_reset_step (rx_buf_store b idx x) (RxResetPc.at_size idx)
      = (rx_buf_store b idx { x with size := 0 }, RxResetPc.at_elem idx 0) := by
  simp only [rx_reset_step]
  rw [rx_buf_store_same b idx _ hi, rx_buf_store_store]

/-- A call of `embx_ir_rx_phy_buf_reset` that no interrupt separates, store by store, is the
function taken as a whole: the entry and the 259 steps that follow it (two stores, 256
iterations of the loop and its exit) give the bank that `embx_ir_rx_phy_buf_reset` returns,
with the foreground outside the function again. -/
theorem rx_reset_run_eq (b : RxBank) (idx : Nat) (hlen : b.embx_ir_rx_buf.length = 4) :
    rx_reset_run 259 (rx_reset_enter b idx)
      = ((embx_ir_rx_phy_buf_reset b idx).2, RxResetPc.outside) := by
  by_cases hidx : idx < 4
  · have hi : idx < b.embx_ir_rx_buf.length := by omega
    rw [embx_ir_rx_phy_buf_reset_valid b idx hidx hlen]
    have he : rx_reset_enter b idx = (rx_buf_store b idx
        { rx_buf b idx with state := EMBX_IR_RX_BUF_EMPTY }, RxResetPc.at_status idx) := by
      simp [rx_reset_enter, hidx]
    rw [he, show (259 : Nat) = 2 + (256 + 1) by rfl, rx_reset_run_add, rx_reset_run_add]
    have h2 : rx_reset_run 2 (rx_buf_store b idx
        { rx_buf b idx with state := EMBX_IR_RX_BUF_EMPTY }, RxResetPc.at_status idx)
        = (rx_buf_store b idx
            { status := STATUS_OK, size := 0, state := EMBX_IR_RX_BUF_EMPTY,
              elem := (rx_buf b idx).elem }, RxResetPc.at_elem idx 0) := by
      simp only [rx_reset_run]
      rw [rx_reset_step_status b idx _ hi, rx_reset_step_size b idx _ hi]
    rw [h2, rx_reset_run_loop 256 _ idx 0 (by simpa [rx_buf_store] using hi) (by omega),
      rx_buf_store_same b idx _ hi, rx_buf_store_store]
    simp only [rx_reset_run]
    rw [rx_reset_step_exit _ idx _ (by omega)]
    simp only [rx_reset_elems, List.range_eq_range', EMBX_IR_RX_BUF_SZ]
  · rw [embx_ir_rx_phy_buf_reset_invalid b idx hidx]
    have he : rx_reset_enter b idx = (b, RxResetPc.outside) := by
      simp [rx_reset_enter, hidx]
    rw [he]
    have : ∀ n, rx_reset_run n (b, RxResetPc.outside) = (b, RxResetPc.outside) := by
      intro n
      induction n with
      | zero => rfl
      | succ n ih => simpa [rx_reset_run, rx_reset_step] using ih
    exact this 259

/-- Interleavings are closed under further stores of the reset in progress. -/
theorem RxInterleaved_run (cfg : RxPhyConfig) (n : Nat) : ∀ (s : RxPhy) (pc : RxResetPc),
    RxInterleaved cfg s pc →
      RxInterleaved cfg { s with bank := (rx_reset_run n (s.bank, pc)).1 }
        (rx_reset_run n (s.bank, pc)).2 := by
  induction n with
  | zero => exact fun s pc h => h
  | succ n ih =>
    intro s pc h
    exact ih _ _ (RxInterleaved.step s pc h)

/-- Race-free interleavings are closed under further stores of the reset in progress. -/
theorem RxRaceFree_run (cfg : RxPhyConfig) (n : Nat) : ∀ (s : RxPhy) (pc : RxResetPc),
    RxRaceFree cfg s pc →
      RxRaceFree cfg { s with bank := (rx_reset_run n (s.bank, pc)).1 }
        (rx_reset_run n (s.bank, pc)).2 := by
  induction n with
  | zero => exact fun s pc h => h
  | succ n ih =>
    intro s pc h
    exact ih _ _ (RxRaceFree.step s pc h)

/-- The states reached with every reset taken as one uninterrupted step are reached by a
race-free interleaving, with the foreground outside the reset. -/
theorem RxReachable_race_free (cfg : RxPhyConfig) (s : RxPhy) (h : RxReachable cfg s) :
    RxRaceFree cfg s RxResetPc.outside := by
  induction h with
  | enable s hshape => exact RxRaceFree.enable s hshape
  | event s event count _ ih => exact RxRaceFree.event s _ event count ih (fun hc => hc)
  | reset s idx _ ih =>
    have hlen := (RxRaceFree_inv cfg s _ ih).1.1
    have h1 := RxRaceFree_run cfg 259 _ _ (RxRaceFree.enter s idx ih)
    have h2 := rx_reset_run_eq s.bank idx hlen
    have h3 : rx_reset_run 259 ((rx_reset_enter s.bank idx).1, (rx_reset_enter s.bank idx).2)
        = ((embx_ir_rx_phy_buf_reset s.bank idx).2, RxResetPc.outside) := h2
    simp only [h3] at h1
    exact h1

/-- A race breaks the validity of the elements: when an event that races with a reset is
served in a race-free interleaving, the next store of the reset clears the element that the
event has just recorded, below the size of its buffer. -/
theorem rx_race_breaks_validity (cfg : RxPhyConfig) (s : RxPhy) (idx i : Nat)
    (event : embx_ir_rx_event_t) (count : Nat)
    (h : RxRaceFree cfg s (RxResetPc.at_elem idx i))
    (hrace : rx_event_races cfg s (RxResetPc.at_elem idx i) event count) :
    RxInterleaved cfg
        { embx_rx_ir_phy_state_machine cfg s event count with
          bank := (rx_reset_step (embx_rx_ir_phy_state_machine cfg s event count).bank
            (RxResetPc.at_elem idx i)).1 }
        (RxResetPc.at_elem idx (i + 1))
      ∧ i < (rx_buf (rx_reset_step (embx_rx_ir_phy_state_machine cfg s event count).bank
            (RxResetPc.at_elem idx i)).1 idx).size
      ∧ (rx_elem (rx_buf (rx_reset_step (embx_rx_ir_phy_state_machine cfg s event count).bank
            (RxResetPc.at_elem idx i)).1 idx) i).gpio_state
          = EMBX_IR_RX_GPIO_STATE_UNINITIALIZED := by
  obtain ⟨i1, i2, i3⟩ := RxRaceFree_inv cfg s _ h
  have hidx : idx < 4 := i2.1
  have hsz : (rx_buf s.bank idx).size ≤ i := i3
  obtain ⟨hr1, hr2⟩ : (rx_buf (embx_rx_ir_phy_state_machine cfg s event count).bank idx).size
      ≠ (rx_buf s.bank idx).size ∧ i ≤ (rx_buf s.bank idx).size := hrace
  have hstep := embx_rx_ir_phy_state_machine_bank cfg s event count
    (by rw [i1.1]; exact i1.2.1)
  obtain ⟨c1, c2⟩ := RxBankCore_step _ _ ((RxBankInv_iff _).mp i1).1 hstep
  have hnew : (rx_buf (embx_rx_ir_phy_state_machine cfg s event count).bank idx).size
      = i + 1 := by
    rcases c2 idx with h0 | h0
    · exact absurd h0 hr1
    · omega
  have hi : i < 256 := by
    have := (c1.2.2 idx hidx).2
    omega
  have hint := RxInterleaved.step _ _
    (RxInterleaved.event s _ event count (RxRaceFree_interleaved cfg s _ h))
  rw [rx_reset_step_elem _ idx i hi] at hint ⊢
  refine ⟨hint, ?_, ?_⟩
  · show i < (rx_buf (rx_buf_store _ idx _) idx).size
    rw [rx_buf_store_same _ idx _ (by rw [c1.1]; exact hidx)]
    show i < (rx_buf (embx_rx_ir_phy_state_machine cfg s event count).bank idx).size
    omega
  · show (rx_elem (rx_buf (rx_buf_store _ idx _) idx) i).gpio_state = _
    rw [rx_buf_store_same _ idx _ (by rw [c1.1]; exact hidx),
      rx_elem_set_read _ _ _ _ (by rw [(c1.2.2 idx hidx).1]; exact hi), if_pos rfl]

/-- Race-free interleavings are closed under events served outside a reset. -/
theorem RxRaceFree_events (cfg : RxPhyConfig) (l : List (embx_ir_rx_event_t × Nat)) :
    ∀ s, RxRaceFree cfg s RxResetPc.outside →
      RxRaceFree cfg (rx_events cfg s l) RxResetPc.outside := by
  induction l with
  | nil => exact fun s h => h
  | cons e l ih =>
    intro s h
    exact ih _ (RxRaceFree.event s _ e.1 e.2 h (fun hc => hc))

/-- The state `rx_ring_ok_marking` is reached without any reset. -/
theorem rx_ring_ok_marking_race_free :
    RxRaceFree rx_example_config rx_ring_ok_marking RxResetPc.outside :=
  RxRaceFree_events _ _ _ (RxRaceFree.enable rx_power_up (by unfold RxBankShape; decide!))

/-- The state `rx_reset_interrupted` is reached by an interleaving: the foreground stands
at the head of the element loop of `embx_ir_rx_phy_buf_reset(0)`. -/
theorem rx_reset_interrupted_interleaved :
    RxInterleaved rx_example_config rx_reset_interrupted (RxResetPc.at_elem 0 0) := by
  have h1 := RxInterleaved_run rx_example_config 2 _ _
    (RxInterleaved.enter rx_ring_ok_marking 0
      (RxRaceFree_interleaved _ _ _ rx_ring_ok_marking_race_free))
  have hpc : (rx_reset_run 2 (rx_reset_enter rx_ring_ok_marking.bank 0)).2
      = RxResetPc.at_elem 0 0 := by decide!
  have h2 : RxInterleaved rx_example_config rx_reset_interrupted
      (rx_reset_run 2 (rx_reset_enter rx_ring_ok_marking.bank 0)).2 := h1
  rw [hpc] at h2
  exact h2

/-- The state `rx_reset_raced` is reached by an interleaving, with the reset returned. -/
theorem rx_reset_raced_interleaved :
    RxInterleaved rx_example_config rx_reset_raced RxResetPc.outside := by
  have h1 := RxInterleaved_run rx_example_config 257 _ _
    (RxInterleaved.event _ _ EMBX_IR_RX_GPIO_EVENT_RISING_EDGE 112
      rx_reset_interrupted_interleaved)
  have hpc : (rx_reset_run 257
      ((embx_rx_ir_phy_state_machine rx_example_config rx_reset_interrupted
          EMBX_IR_RX_GPIO_EVENT_RISING_EDGE 112).bank, RxResetPc.at_elem 0 0)).2
      = RxResetPc.outside := by decide!
  have h2 : RxInterleaved rx_example_config rx_reset_raced
      (rx_reset_run 257
        ((embx_rx_ir_phy_state_machine rx_example_config rx_reset_interrupted
          EMBX_IR_RX_GPIO_EVENT_RISING_EDGE 112).bank, RxResetPc.at_elem 0 0)).2 := h1
  rw [hpc] at h2
  exact h2

/-- The state `rx_reset_overtaken` is reached by a race-free interleaving: the rising edge
is served before the element loop of the reset starts. -/
theorem rx_reset_overtaken_race_free :
    RxRaceFree rx_example_config rx_reset_overtaken RxResetPc.outside := by
  have h0 : RxRaceFree rx_example_config
      { rx_ring_ok_marking with bank := (rx_reset_enter rx_ring_ok_marking.bank 0).1 }
      (RxResetPc.at_status 0) :=
    RxRaceFree.enter rx_ring_ok_marking 0 rx_ring_ok_marking_race_free
  have h1 := RxRaceFree_run rx_example_config 259 _ _
    (RxRaceFree.event _ _ EMBX_IR_RX_GPIO_EVENT_RISING_EDGE 112 h0 (fun hc => hc))
  have hpc : (rx_reset_run 259
      ((embx_rx_ir_phy_state_machine rx_example_config
          { rx_ring_ok_marking with bank := (rx_reset_enter rx_ring_ok_marking.bank 0).1 }
          EMBX_IR_RX_GPIO_EVENT_RISING_EDGE 112).bank, RxResetPc.at_status 0)).2
      = RxResetPc.outside := by decide!
  have h2 : RxRaceFree rx_example_config rx_reset_overtaken
      (rx_reset_run 259
        ((embx_rx_ir_phy_state_machine rx_example_config
          { rx_ring_ok_marking with bank := (rx_reset_enter rx_ring_ok_marking.bank 0).1 }
          EMBX_IR_RX_GPIO_EVENT_RISING_EDGE 112).bank, RxResetPc.at_status 0)).2 := h1
  rw [hpc] at h2
  exact h2

/-- C16, as stated, fails.  `embx_ir_rx_phy_buf_reset` has no critical section and stores
`state = EMPTY` and `size = 0` before its element loop.  From the reachable state in which
buffer 0 is full and the PHY is marking, the foreground enters `reset(0)` and stores `state`,
`status` and `size`; a rising edge served at that point records a mark in element 0 and
raises `size` to 1; the loop then sets `gpio_state` of element 0 to uninitialized.  When the
reset returns, buffer 0 has size 1 and its element 0 is uninitialized. -/
theorem rx_reset_race_counterexample :
    RxInterleaved rx_example_config rx_reset_raced RxResetPc.outside
      ∧ (rx_buf rx_reset_interrupted.bank 0).state = EMBX_IR_RX_BUF_EMPTY
      ∧ (rx_buf rx_reset_interrupted.bank 0).size = 0
      ∧ rx_reset_interrupted.embx_ir_rx_phy_state = EMBX_IR_RX_PHY_STATE_MARKING
      ∧ (rx_buf rx_reset_raced.bank 0).size = 1
      ∧ (rx_elem (rx_buf rx_reset_raced.bank 0) 0).gpio_state
          = EMBX_IR_RX_GPIO_STATE_UNINITIALIZED
      ∧ ¬ (∀ i, i < EMBX_IR_RX_NUMBER_OF_BUFFERS →
            ∀ k, k < (rx_buf rx_reset_raced.bank i).size →
              (rx_elem (rx_buf rx_reset_raced.bank i) k).gpio_state
                  = EMBX_IR_RX_GPIO_STATE_MARK
                ∨ (rx_elem (rx_buf rx_reset_raced.bank i) k).gpio_state
                  = EMBX_IR_RX_GPIO_STATE_SPACE) := by
  have hsz : (rx_buf rx_reset_raced.bank 0).size = 1 := by decide!
  have hel : (rx_elem (rx_buf rx_reset_raced.bank 0) 0).gpio_state
      = EMBX_IR_RX_GPIO_STATE_UNINITIALIZED := by decide!
  refine ⟨rx_reset_raced_interleaved, by decide!, by decide!, by decide!, hsz, hel, ?_⟩
  intro hc
  have := hc 0 (by decide) 0 (by rw [hsz]; exact Nat.zero_lt_one)
  rw [hel] at this
  rcases this with h | h <;> exact absurd h (by decide)

/-- C16 (amended): in every state reachable from `embx_ir_rx_phy_enable` by rising-edge,
falling-edge and timeout events and by the stores of foreground buffer resets, with events
served at any point between the stores, `idx_isr < 4` and every buffer has `size ≤ 256`; and
when no event has raced with a reset (recorded an element in the buffer under reset at an
index that the element loop had still to clear), every element at an index below its
buffer's size has `gpio_state` mark or space, never uninitialized. -/
theorem rx_interleaved_buffers_valid (cfg : RxPhyConfig) (s : RxPhy) (pc : RxResetPc)
    (h : RxInterleaved cfg s pc) :
    s.bank.idx_ir_rx_buf_isr < EMBX_IR_RX_NUMBER_OF_BUFFERS
      ∧ (∀ i, i < EMBX_IR_RX_NUMBER_OF_BUFFERS →
          (rx_buf s.bank i).size ≤ EMBX_IR_RX_BUF_SZ)
      ∧ (RxRaceFree cfg s pc →
          ∀ i, i < EMBX_IR_RX_NUMBER_OF_BUFFERS → ∀ k, k < (rx_buf s.bank i).size →
            (rx_elem (rx_buf s.bank i) k).gpio_state = EMBX_IR_RX_GPIO_STATE_MARK
              ∨ (rx_elem (rx_buf s.bank i) k).gpio_state = EMBX_IR_RX_GPIO_STATE_SPACE) := by
  obtain ⟨⟨_, h2, h3⟩, _⟩ := RxInterleaved_core cfg s pc h
  refine ⟨h2, fun i hi => (h3 i hi).2, ?_⟩
  intro hrf i hi
  exact ((RxBankInv_iff _).mp (RxRaceFree_inv cfg s pc hrf).1).2 i hi

/-- C16 (amended) on two states.  In `rx_reset_overtaken` a rising edge was served inside
`reset(0)` before the element loop: all three parts hold, and buffer 0 is empty again.  In
`rx_reset_raced` the edge raced with the loop: the index and the sizes are still in
range. -/
theorem rx_interleaved_buffers_valid_witness :
    (rx_reset_overtaken.bank.idx_ir_rx_buf_isr < EMBX_IR_RX_NUMBER_OF_BUFFERS
      ∧ (∀ i, i < EMBX_IR_RX_NUMBER_OF_BUFFERS →
          (rx_buf rx_reset_overtaken.bank i).size ≤ EMBX_IR_RX_BUF_SZ)
      ∧ (∀ i, i < EMBX_IR_RX_NUMBER_OF_BUFFERS →
          ∀ k, k < (rx_buf rx_reset_overtaken.bank i).size →
            (rx_elem (rx_buf rx_reset_overtaken.bank i) k).gpio_state
                = EMBX_IR_RX_GPIO_STATE_MARK
              ∨ (rx_elem (rx_buf rx_reset_overtaken.bank i) k).gpio_state
                = EMBX_IR_RX_GPIO_STATE_SPACE)
      ∧ (rx_buf rx_reset_overtaken.bank 0).size = 0
      ∧ (rx_buf rx_reset_overtaken.bank 1).size = 1)
    ∧ (rx_reset_raced.bank.idx_ir_rx_buf_isr < EMBX_IR_RX_NUMBER_OF_BUFFERS
      ∧ ∀ i, i < EMBX_IR_RX_NUMBER_OF_BUFFERS →
          (rx_buf rx_reset_raced.bank i).size ≤ EMBX_IR_RX_BUF_SZ) :=
  have h1 := rx_interleaved_buffers_valid rx_example_config rx_reset_overtaken
    RxResetPc.outside (RxRaceFree_interleaved _ _ _ rx_reset_overtaken_race_free)
  have h2 := rx_interleaved_buffers_valid rx_example_config rx_reset_raced
    RxResetPc.outside rx_reset_raced_interleaved
  ⟨⟨h1.1, h1.2.1, h1.2.2 rx_reset_overtaken_race_free, by decide!, by decide!⟩,
    h2.1, h2.2.1⟩

end SplitUnitMonitor
